import Mathlib

/-!
Active proxy connection automaton and ids (Elastos Carrier native): verification development

Shallow embedding of `src/addons/activeproxy/connection.cc` and the parts of
`activeproxy.h` it uses, and of the bit operations of `src/core/id.cc`.

Conventions of the embedding

* A byte buffer is a `List Nat`; every read of a byte reduces it modulo 256, so
  the functions are total on arbitrary lists.
* `size_t` values are buffer lengths and are kept as `Nat`; where the source
  subtracts in `size_t` or converts through `int` the wrap-around is explicit
  (`sizeSub`, `toInt32`, `toSize`).
* A handler of the event loop is a function from the connection record to the
  connection record.  The record carries, next to the fields of the C++ class,
  an instrumentation part (requests handed to `uv_write`, hooks run, packets
  passed to `processRelayPacket`, ...) that the source does not store but that
  the properties speak about.
* A handler that may not return to the event loop with a defined connection
  returns an `Option`.  The result is `none` when the process is ended inside
  the handler (a failed `assert`; an exception that leaves a `noexcept`
  function, as the one thrown by a `new` that cannot be satisfied), when the
  handler reads memory outside the block it has allocated, and, for the loop
  of `onRelayRead`, when the loop does not come to its end.
* Everything the connection obtains from outside itself during a handler
  (libuv return codes, random draws, write-queue sizes) is read from a `World`,
  indexed by the number of such reads the connection has made so far.
* The callbacks that the source passes to libuv as lambdas are functions of
  their own, named after the function that installs them (`establishReadCb`,
  `openUpstreamConnectCb`, `sendConnectResponseWriteCb`,
  `sendDataRequestWriteCb`); the status or byte count that libuv reports is an
  argument.
* An id is its array of 32 bytes.  A function that indexes an array with a
  value that may lie outside it returns an `Option`, `none` standing for the
  access outside the array.
-/

namespace Carrier

/-! ## Bytes and machine integers -/

/-- Byte buffers. -/
abbrev Bytes := List Nat

/-- The value `ntohs(*(uint16_t*)p)`: the big-endian 16-bit integer at the
start of the buffer. -/
def ntohs (p : Bytes) : Nat :=
  256 * (p.getD 0 0 % 256) + p.getD 1 0 % 256

/-- The two bytes stored by `*(uint16_t*)ptr = htons(size)`: the low 16 bits of
`size`, most significant byte first. -/
def htons (size : Nat) : Bytes :=
  [size / 256 % 256, size % 256]

/-- Conversion of an integer value to `int` (32 bits, two's complement). -/
def toInt32 (x : Int) : Int :=
  (x + 2147483648) % 4294967296 - 2147483648

/-- Conversion of an `int` to `size_t` (64 bits). -/
def toSize (x : Int) : Nat :=
  (x % 18446744073709551616).toNat

/-- Subtraction in `size_t`: `a - b` modulo 2^64. -/
def sizeSub (a b : Nat) : Nat :=
  (a + 18446744073709551616 - b % 18446744073709551616) % 18446744073709551616

/-- Subtraction in `uint32_t`: `a - b` modulo 2^32. -/
def u32Sub (a b : Nat) : Nat :=
  (a + 4294967296 - b % 4294967296) % 4294967296

/-- The content of a buffer of exactly `n` bytes after `src` has been written
to its start (bytes not written read as 0). -/
def intoBlob (n : Nat) (src : Bytes) : Bytes :=
  (src ++ List.replicate n 0).take n

/-- The helper `vectorAppend(v, data, size)`. -/
def vectorAppend (v data : Bytes) (size : Nat) : Bytes :=
  v ++ data.take size

/-! ## Constants of connection.cc -/

/-- Constant `PACKET_HEADER_BYTES = sizeof(uint16_t) + sizeof(uint8_t)`. -/
def PACKET_HEADER_BYTES : Nat := 2 + 1

/-- Constant `KEEP_ALIVE_INTERVAL`, milliseconds. -/
def KEEP_ALIVE_INTERVAL : Nat := 60000

/-- Constant `MAX_KEEP_ALIVE_RETRY`. -/
def MAX_KEEP_ALIVE_RETRY : Nat := 3

/-- Constant `KEEP_ALIVE_CHECK_INTERVAL`, milliseconds. -/
def KEEP_ALIVE_CHECK_INTERVAL : Nat := 5000

/-- Constant `MAX_DATA_PACKET_SIZE`. -/
def MAX_DATA_PACKET_SIZE : Nat := 0x7FFF

/-- Constant `MAX_CONTROL_PACKET_SIZE`. -/
def MAX_CONTROL_PACKET_SIZE : Nat := 0x1000

/-- Constant `CryptoBox::MAC_BYTES` (the spec, section 6, gives the 16-byte MAC of the
session crypto box). -/
def MAC_BYTES : Nat := 16

/-- The constant `PTRDIFF_MAX` of the 64-bit targets: the largest size an object
can have. A request for a larger block (`new char[n]`, `alloca(n)`) cannot be
satisfied. -/
def PTRDIFF_MAX : Nat := 9223372036854775807

/-- Constant `CryptoBox::PublicKey::BYTES`. -/
def PUBLICKEY_BYTES : Nat := 32

/-- Constant `CryptoBox::Nonce::BYTES`. -/
def NONCE_BYTES : Nat := 24

/-- Constant `Signature::BYTES`. -/
def SIGNATURE_BYTES : Nat := 64

/-- Constant `MAX_UPSTREAM_READ_BUFFER_SIZE`. -/
def MAX_UPSTREAM_READ_BUFFER_SIZE : Nat :=
  MAX_DATA_PACKET_SIZE - PACKET_HEADER_BYTES - MAC_BYTES

/-- Constant `MAX_RELAY_WRITE_QUEUE_SIZE`. -/
def MAX_RELAY_WRITE_QUEUE_SIZE : Nat := 2 * 1024 * 1024

/-- Constant `AUTH_ACK_SIZE`. -/
def AUTH_ACK_SIZE : Nat :=
  PACKET_HEADER_BYTES + MAC_BYTES + PUBLICKEY_BYTES + 2 + 1

/-- Constant `ATTACH_ACK_SIZE`. -/
def ATTACH_ACK_SIZE : Nat := PACKET_HEADER_BYTES

/-- Constant `CONNECT_REQ_SIZE`. -/
def CONNECT_REQ_SIZE : Nat := PACKET_HEADER_BYTES + MAC_BYTES + 1 + 16 + 2

/-! ## Data model -/

/-- Modelled from the spec: `enum class ConnectionState` of connection.h (not
among the sources), the seven states of section 3 in their order
`Connecting → Initializing → (Authenticating | Attaching) → Idling ⇄ Relaying → Closed`. -/
inductive ConnectionState where
  | Connecting
  | Initializing
  | Authenticating
  | Attaching
  | Idling
  | Relaying
  | Closed
  deriving DecidableEq, Repr

/-- The underlying integer of a state, used by `old <= ConnectionState::Attaching`. -/
def ConnectionState.toNat : ConnectionState → Nat
  | .Connecting => 0
  | .Initializing => 1
  | .Authenticating => 2
  | .Attaching => 3
  | .Idling => 4
  | .Relaying => 5
  | .Closed => 6

/-- Modelled from the spec: the flag byte of packetflag.h (not among the
sources). Section 4.1: the high bit of `flag` is ACK, the low 7 bits are the
packet type, and the types are `AUTH`, `ATTACH`, `PING`, `CONNECT`,
`DISCONNECT`, `DATA`, `ERR`. The numeric codes are not given; they are fields
here, distinct 7-bit values. -/
structure PacketFlag where
  AUTH : Nat
  ATTACH : Nat
  PING : Nat
  CONNECT : Nat
  DISCONNECT : Nat
  DATA : Nat
  ERR : Nat
  sevenBits : ∀ t ∈ [AUTH, ATTACH, PING, CONNECT, DISCONNECT, DATA, ERR], t < 128
  distinct : [AUTH, ATTACH, PING, CONNECT, DISCONNECT, DATA, ERR].Nodup

/-- Embedding of `PacketFlag::isAck(flag)`: the high bit of the flag byte. -/
def PacketFlag.isAck (flag : Nat) : Bool :=
  decide (128 ≤ flag % 256)

/-- Embedding of `PacketFlag::getType(flag)`: the low 7 bits of the flag byte. -/
def PacketFlag.getType (flag : Nat) : Nat :=
  flag % 128

/-- Embedding of `PacketFlag::auth()`. -/
def PacketFlag.auth (pf : PacketFlag) : Nat := pf.AUTH

/-- Embedding of `PacketFlag::attach()`. -/
def PacketFlag.attach (pf : PacketFlag) : Nat := pf.ATTACH

/-- Embedding of `PacketFlag::ping()`. -/
def PacketFlag.ping (pf : PacketFlag) : Nat := pf.PING

/-- Embedding of `PacketFlag::connectAck()`: the type with the ACK bit set. -/
def PacketFlag.connectAck (pf : PacketFlag) : Nat := pf.CONNECT + 128

/-- Embedding of `PacketFlag::disconnect()`. -/
def PacketFlag.disconnect (pf : PacketFlag) : Nat := pf.DISCONNECT

/-- Embedding of `PacketFlag::data()`. -/
def PacketFlag.data (pf : PacketFlag) : Nat := pf.DATA

/-- The cryptographic collaborators (section 6 of the spec): the session box
of `CryptoBox`, the node-to-node sealed box and the node signature. They are
parameters of the development. -/
structure Crypto where
  /-- Stands for `box.encrypt(plain, nonce)` for the box with the given key material. -/
  encrypt : Bytes → Bytes → Bytes → Bytes
  /-- Stands for `box.decrypt(cipher, nonce)`. -/
  decrypt : Bytes → Bytes → Bytes → Bytes
  /-- Stands for `node->encrypt(serverId, plain)`. -/
  encryptWithNode : Bytes → Bytes → Bytes
  /-- Stands for `node->decrypt(serverId, cipher)`. -/
  decryptWithNode : Bytes → Bytes → Bytes
  /-- Stands for `node->sign(data)`. -/
  sign : Bytes → Bytes
  /-- Stands for `CryptoBox{serverPk, sessionKey.privateKey()}`. -/
  makeBox : Bytes → Bytes → Bytes

/-- What the connection reads from outside itself, by the number of the read:
return codes of libuv requests, `Random` draws and the write-queue size of the
relay stream. -/
structure World where
  rc : Nat → Int
  random : Nat → Nat
  buffer : Nat → Nat → Nat
  writeQueueSize : Nat → Nat

/-- The parameters of a run: flag codes, cryptography, outside world. -/
structure Env where
  pf : PacketFlag
  crypto : Crypto
  world : World

/-- Record `CryptoBox::KeyPair`. -/
structure KeyPair where
  publicKey : Bytes
  privateKey : Bytes
  deriving DecidableEq, Repr

/-- The fields of `class ActiveProxy` (activeproxy.h) that the connection reads
or that its hooks update. -/
structure ActiveProxy where
  nodeId : Bytes
  sessionKey : KeyPair
  serverPk : Option Bytes
  box : Bytes
  relayPort : Nat
  serverId : Bytes
  serverFails : Nat
  domainName : Bytes
  upstreamFails : Nat
  reconnectInterval : Nat
  maxConnections : Nat
  inFlights : Nat
  peerKeypair : Bytes
  deriving DecidableEq, Repr

/-- Embedding of `ActiveProxy::isAuthenticated`. -/
def ActiveProxy.isAuthenticated (p : ActiveProxy) : Bool :=
  p.serverPk.isSome

/-- Embedding of `ActiveProxy::allow`. -/
def ActiveProxy.allow (_p : ActiveProxy) (_client : Bytes × Nat) : Bool :=
  true

/-- The arguments of `PeerInfo::create(keypair, nodeId, origin, port, domain)`. -/
structure PeerInfo where
  keypair : Bytes
  nodeId : Bytes
  origin : Bytes
  port : Nat
  domain : Bytes
  deriving DecidableEq, Repr

/-- A libuv handle as far as the connection looks at it: `handle->data` is
non-null, `uv_is_closing(handle)`, reading has been started and not stopped. -/
structure Handle where
  data : Bool
  closing : Bool
  reading : Bool
  deriving DecidableEq, Repr

/-- Record `struct WriteRequest`: the buffer handed to `uv_write`, its length and the tag. -/
structure WriteRequest where
  len : Nat
  buf : Bytes
  tag : Nat
  deriving DecidableEq, Repr

/-- The hooks of the connection (declared in connection.h, installed by the
proxy). -/
inductive Hook where
  | onAuthorized
  | onOpened
  | onOpenFailed
  | onClosed
  | onBusy
  | onIdle
  deriving DecidableEq, Repr

/-- The packet handlers `processRelayPacket` dispatches to. -/
inductive Handler where
  | onAuthenticateResponse
  | onAttachResponse
  | onPingResponse
  | onConnectRequest
  | onDisconnectRequest
  | onDataRequest
  deriving DecidableEq, Repr

/-- One `ProxyConnection`. The first group of fields are those of the C++
class; the second group is instrumentation. -/
structure ProxyConnection where
  id : Nat
  proxy : ActiveProxy
  state : ConnectionState
  keepAliveTimestamp : Nat
  stickyBuffer : Bytes
  nonce : Bytes
  upstreamPaused : Bool
  relay : Handle
  upstream : Handle
  keepAliveTimer : Handle
  /-- Number of reads of the outside world made so far. -/
  calls : Nat
  /-- Requests handed to `uv_write` on the relay stream, oldest first. -/
  relayWrites : List WriteRequest
  /-- Requests handed to `uv_write` on the upstream stream, oldest first. -/
  upstreamWrites : List WriteRequest
  /-- Packets passed to `processRelayPacket`: the `size` bytes at `packet`. -/
  dispatched : List Bytes
  /-- Packet handlers entered, oldest first. -/
  handlers : List Handler
  /-- Hooks run, oldest first. -/
  hooks : List Hook
  /-- Arguments of the calls of `onAuthorized`. -/
  authorized : List (Bytes × Nat)
  /-- Arguments of the calls of `announcePeer`. -/
  announced : List PeerInfo
  /-- Codes of the `ERR` packets logged. -/
  errors : List Nat
  /-- Client addresses built by `onConnectRequest`: length byte, bytes, port. -/
  clients : List (Nat × Bytes × Nat)
  /-- Number of `uv_tcp_connect` requests issued for the upstream. -/
  upstreamDials : Nat
  /-- Number of `uv_shutdown` requests issued for the upstream. -/
  upstreamShutdowns : Nat
  /-- Number of calls of `uv_tcp_init` for the upstream that have failed. -/
  upstreamInitFailures : Nat
  deriving DecidableEq, Repr

/-! ## libuv and Random, as the connection uses them -/

/-- The handle after `uv_close(handle, cb)`: it is closing and no longer read;
`handle->data` is cleared later, by the close callback. -/
def uvClose (h : Handle) : Handle :=
  { h with closing := true, reading := false }

/-- The handle after `uv_read_stop(handle)`. -/
def uvReadStop (h : Handle) : Handle :=
  { h with reading := false }

/-- The handle after a successful `uv_tcp_init(loop, handle)`: a fresh handle,
`handle->data` untouched. -/
def uvTcpInit (h : Handle) : Handle :=
  { h with closing := false, reading := false }

/-- The `n` bytes written by the `k`-th read of the world when it is
`Random::buffer(ptr, n)` or `Nonce::random()`. -/
def randomBytes (w : World) (k n : Nat) : Bytes :=
  (List.range n).map fun i => w.buffer k i % 256

/-- The helper `randomBoolean(v)` on the random byte `i`. -/
def randomBoolean (i : Nat) (v : Bool) : Nat :=
  if v then (i % 256) ||| 0x01 else (i % 256) &&& 0xFE

/-! ## Hooks

The hooks are declared in connection.h and their bodies are installed by
activeproxy.cc; neither file is among the sources. Each hook records that it
ran; its effect on the proxy is taken from the spec. -/

/-- Modelled from the spec: the `onAuthorized(serverPk, port)` hook, whose body
is in activeproxy.cc. Section 4.2: "learn `server_session_pk`; derive pool
`box`; record `relay_port`". -/
def onAuthorized (e : Env) (c : ProxyConnection) (serverPk : Bytes) (port : Nat) :
    ProxyConnection :=
  { c with
    hooks := c.hooks ++ [Hook.onAuthorized]
    authorized := c.authorized ++ [(serverPk, port)]
    proxy := { c.proxy with
      serverPk := some serverPk
      box := e.crypto.makeBox serverPk c.proxy.sessionKey.privateKey
      relayPort := port } }

/-- Modelled from the spec: the `onOpened` hook, whose body is in
activeproxy.cc. Section 4.3: "On any successful `Idling` transition, reset
`reconnect_interval` and `server_fails`". -/
def onOpened (c : ProxyConnection) : ProxyConnection :=
  { c with
    hooks := c.hooks ++ [Hook.onOpened]
    proxy := { c.proxy with serverFails := 0, reconnectInterval := 0 } }

/-- Modelled from the spec: the `onOpenFailed` hook, whose body is in
activeproxy.cc. Section 4.3: "if it never reached `Idling`, increment
`server_fails`; increase `reconnect_interval` (exponential: start at ~1 s,
double to a cap of ~60 s)". -/
def onOpenFailed (c : ProxyConnection) : ProxyConnection :=
  { c with
    hooks := c.hooks ++ [Hook.onOpenFailed]
    proxy := { c.proxy with
      serverFails := c.proxy.serverFails + 1
      reconnectInterval :=
        if c.proxy.reconnectInterval = 0 then 1000
        else min (2 * c.proxy.reconnectInterval) 60000 } }

/-- Modelled from the spec: the `onClosed` hook, whose body is in
activeproxy.cc. Section 3: `in_flight` is the "count of open non-Closed
connections", so a connection that closes leaves the count. -/
def onClosed (c : ProxyConnection) : ProxyConnection :=
  { c with
    hooks := c.hooks ++ [Hook.onClosed]
    proxy := { c.proxy with inFlights := c.proxy.inFlights - 1 } }

/-- Modelled from the spec: the `onBusy` hook, whose body is in activeproxy.cc.
The spec gives it no effect on the pool state; it is recorded only. -/
def onBusy (c : ProxyConnection) : ProxyConnection :=
  { c with hooks := c.hooks ++ [Hook.onBusy] }

/-- Modelled from the spec: the `onIdle` hook, whose body is in activeproxy.cc.
The spec gives it no effect on the pool state; it is recorded only. -/
def onIdle (c : ProxyConnection) : ProxyConnection :=
  { c with hooks := c.hooks ++ [Hook.onIdle] }

/-! ## connection.cc -/

/-- The table `static const std::string StateNames[]`. -/
def StateNames : List String :=
  ["Connecting", "Authenticating", "Idling", "Relaying", "Closed"]

/-- The lookup `StateNames[(int)state]` of `status`: `none` when the index is
outside the table. -/
def stateName (state : ConnectionState) : Option String :=
  StateNames[state.toNat]?

/-- Embedding of `ProxyConnection::status` at loop time `now`, for the
reference count `refCount` (a member that the record does not carry). The
result is `none` when the lookup in `StateNames` is outside the table. -/
def status (c : ProxyConnection) (refCount now : Nat) : Option String :=
  match stateName c.state with
  | none => none
  | some name =>
    some ("Connection[" ++ toString c.id ++ "]: "
      ++ "ref=" ++ toString refCount ++ ", "
      ++ "state=" ++ name ++ ", "
      ++ "lastReceive=" ++ toString (sizeSub now c.keepAliveTimestamp / 1000) ++ "s, ")

/-- The handle after the block of `close` for a stream:
`if (h.data) { uv_read_stop(&h); if (!uv_is_closing(&h)) uv_close(&h, cb); }`. -/
def closeStream (h : Handle) : Handle :=
  if h.data then
    let h := uvReadStop h
    if !h.closing then uvClose h else h
  else h

/-- The handle after the block of `close` for the keep-alive timer:
`if (keepAliveTimer.data) { uv_timer_stop(&t); uv_close(&t, cb); }`. -/
def closeTimer (h : Handle) : Handle :=
  if h.data then uvClose h else h

/-- Embedding of `ProxyConnection::close`. -/
def close (c : ProxyConnection) : ProxyConnection :=
  if c.state = ConnectionState.Closed then c
  else
    let old := c.state
    let c := { c with state := ConnectionState.Closed }
    let c := if old.toNat ≤ ConnectionState.Attaching.toNat then onOpenFailed c else c
    let c := if old = ConnectionState.Relaying then onIdle c else c
    let c := { c with keepAliveTimer := closeTimer c.keepAliveTimer }
    let c := { c with upstream := closeStream c.upstream }
    let c := { c with relay := closeStream c.relay }
    onClosed c

/-- The tail shared by the `send…` functions of control packets:
`rc = uv_write(request, &relay, …); if (rc < 0) { delete request; close(); }`. -/
def relayWrite (e : Env) (c : ProxyConnection) (request : WriteRequest) : ProxyConnection :=
  let rc := e.world.rc c.calls
  let c := { c with relayWrites := c.relayWrites ++ [request], calls := c.calls + 1 }
  if rc < 0 then close c else c

/-- Embedding of `ProxyConnection::sendAuthenticateRequest(data, size)`; `data` is the challenge. -/
def sendAuthenticateRequest (e : Env) (c : ProxyConnection) (data : Bytes) : ProxyConnection :=
  if c.state = ConnectionState.Closed then c
  else
    let c := { c with state := ConnectionState.Authenticating }
    let nodeId := c.proxy.nodeId
    let pk := c.proxy.sessionKey.publicKey
    let c := { c with nonce := randomBytes e.world c.calls NONCE_BYTES, calls := c.calls + 1 }
    let domain := c.proxy.domainName
    let padding := e.world.random c.calls % 256
    let c := { c with calls := c.calls + 1 }
    let plainSize := PUBLICKEY_BYTES + NONCE_BYTES + SIGNATURE_BYTES + 1 + domain.length + padding
    let challenge := e.crypto.sign data
    let pad := randomBytes e.world c.calls padding
    let c := { c with calls := c.calls + 1 }
    let plain := intoBlob plainSize
      (pk ++ c.nonce ++ challenge.take SIGNATURE_BYTES ++ [domain.length % 256] ++ domain ++ pad)
    let size := PACKET_HEADER_BYTES + nodeId.length + MAC_BYTES + plainSize
    let cipher := intoBlob (plainSize + MAC_BYTES) (e.crypto.encryptWithNode c.proxy.serverId plain)
    relayWrite e c
      { len := size, buf := htons size ++ [e.pf.auth] ++ nodeId ++ cipher, tag := 0 }

/-- Embedding of `ProxyConnection::sendAttachRequest(data, size)`; `data` is the challenge. -/
def sendAttachRequest (e : Env) (c : ProxyConnection) (data : Bytes) : ProxyConnection :=
  if c.state = ConnectionState.Closed then c
  else
    let c := { c with state := ConnectionState.Attaching }
    let nodeId := c.proxy.nodeId
    let pk := c.proxy.sessionKey.publicKey
    let c := { c with nonce := randomBytes e.world c.calls NONCE_BYTES, calls := c.calls + 1 }
    let plainSize := PUBLICKEY_BYTES + NONCE_BYTES + SIGNATURE_BYTES
    let challenge := e.crypto.sign data
    let plain := intoBlob plainSize (pk ++ c.nonce ++ challenge.take SIGNATURE_BYTES)
    let padding := e.world.random c.calls % 256
    let c := { c with calls := c.calls + 1 }
    let size := PACKET_HEADER_BYTES + nodeId.length + MAC_BYTES + plainSize + padding
    let cipher := intoBlob (plainSize + MAC_BYTES) (e.crypto.encryptWithNode c.proxy.serverId plain)
    let pad := randomBytes e.world c.calls padding
    let c := { c with calls := c.calls + 1 }
    relayWrite e c
      { len := size, buf := htons size ++ [e.pf.attach] ++ nodeId ++ cipher ++ pad, tag := 0 }

/-- Embedding of `ProxyConnection::sendPingRequest`. -/
def sendPingRequest (e : Env) (c : ProxyConnection) : ProxyConnection :=
  if c.state = ConnectionState.Closed then c
  else
    let padding := e.world.random c.calls % 256
    let c := { c with calls := c.calls + 1 }
    let size := PACKET_HEADER_BYTES + padding
    let pad := randomBytes e.world c.calls padding
    let c := { c with calls := c.calls + 1 }
    relayWrite e c { len := size, buf := htons size ++ [e.pf.ping] ++ pad, tag := 0 }

/-- Embedding of `ProxyConnection::keepAlive` for a tick at loop time `now`.
The difference of the timestamps is taken in `uint64_t`, the bounds in
`uint32_t`. `Random::uint32(bound)` (random.h is not among the sources) is a
draw below `bound`: the spec gives the jitter as a value of
`[0, 2 × check_interval)`. -/
def keepAlive (e : Env) (now : Nat) (c : ProxyConnection) : ProxyConnection :=
  if c.state = ConnectionState.Relaying then c
  else if sizeSub now c.keepAliveTimestamp
      ≥ MAX_KEEP_ALIVE_RETRY * KEEP_ALIVE_INTERVAL % 4294967296 then close c
  else
    let randomShift := e.world.random c.calls % (KEEP_ALIVE_CHECK_INTERVAL * 2 % 4294967296)
    let c := { c with calls := c.calls + 1 }
    if c.state = ConnectionState.Idling
        && sizeSub now c.keepAliveTimestamp ≥ u32Sub KEEP_ALIVE_INTERVAL randomShift then
      sendPingRequest e c
    else c

/-- Embedding of `ProxyConnection::sendConnectResponse(success)`. -/
def sendConnectResponse (e : Env) (c : ProxyConnection) (success : Bool) : ProxyConnection :=
  if c.state = ConnectionState.Closed then c
  else
    let padding := e.world.random c.calls % 256
    let c := { c with calls := c.calls + 1 }
    let size := PACKET_HEADER_BYTES + 1 + padding
    let flagByte := randomBoolean (e.world.random c.calls) success
    let c := { c with calls := c.calls + 1 }
    let pad := randomBytes e.world c.calls padding
    let c := { c with calls := c.calls + 1 }
    relayWrite e c
      { len := size
        buf := htons size ++ [e.pf.connectAck] ++ [flagByte] ++ pad
        tag := if success then 1 else 0 }

/-- Embedding of `ProxyConnection::sendDisconnectRequest`. -/
def sendDisconnectRequest (e : Env) (c : ProxyConnection) : ProxyConnection :=
  if c.state = ConnectionState.Closed then c
  else
    let padding := e.world.random c.calls % 256
    let c := { c with calls := c.calls + 1 }
    let size := PACKET_HEADER_BYTES + padding
    let pad := randomBytes e.world c.calls padding
    let c := { c with calls := c.calls + 1 }
    relayWrite e c { len := size, buf := htons size ++ [e.pf.disconnect] ++ pad, tag := 0 }

/-- Embedding of `ProxyConnection::sendDataRequest(data, _size)`. -/
def sendDataRequest (e : Env) (c : ProxyConnection) (data : Bytes) : ProxyConnection :=
  if c.state = ConnectionState.Closed then c
  else
    let size := PACKET_HEADER_BYTES + MAC_BYTES + data.length
    let cipher := intoBlob (data.length + MAC_BYTES) (e.crypto.encrypt c.proxy.box data c.nonce)
    let request : WriteRequest :=
      { len := size, buf := htons size ++ [e.pf.data] ++ cipher, tag := 0 }
    let rc := e.world.rc c.calls
    let c := { c with relayWrites := c.relayWrites ++ [request], calls := c.calls + 1 }
    if rc < 0 then close c
    else
      let queued := e.world.writeQueueSize c.calls
      let c := { c with calls := c.calls + 1 }
      if queued ≥ MAX_RELAY_WRITE_QUEUE_SIZE then
        { c with upstreamPaused := true, upstream := uvReadStop c.upstream }
      else c

/-- The allocation callback of `startReadUpstream`: the length of the buffer
offered to libuv for an upstream read, given libuv's suggested size. -/
def upstreamReadBufferSize (suggested_size : Nat) : Nat :=
  if suggested_size > MAX_UPSTREAM_READ_BUFFER_SIZE then MAX_UPSTREAM_READ_BUFFER_SIZE
  else suggested_size

/-- Embedding of `ProxyConnection::closeUpstream(force)`. -/
def closeUpstream (e : Env) (c : ProxyConnection) (force : Bool) : ProxyConnection :=
  if c.state = ConnectionState.Closed then c
  else
    let c := { c with upstream := uvReadStop c.upstream }
    if !c.upstream.data then c
    else
      let rc : Int := if !force then e.world.rc c.calls else 0
      let c := if !force then
          { c with upstreamShutdowns := c.upstreamShutdowns + 1, calls := c.calls + 1 }
        else c
      if rc < 0 || force then
        if c.upstream.closing then c
        else
          let c := { c with upstream := uvClose c.upstream }
          let c := { c with state := ConnectionState.Idling }
          onIdle c
      else c

/-- Embedding of `ProxyConnection::openUpstream`. -/
def openUpstream (e : Env) (c : ProxyConnection) : ProxyConnection :=
  let rc := e.world.rc c.calls
  let c := { c with calls := c.calls + 1 }
  let c := if rc < 0 then
      let c := { c with upstreamInitFailures := c.upstreamInitFailures + 1 }
      let c := sendConnectResponse e c false
      let c := { c with state := ConnectionState.Idling }
      onIdle c
    else { c with upstream := uvTcpInit c.upstream }
  let c := { c with upstream := { c.upstream with data := true } }
  let rc := e.world.rc c.calls
  let c := { c with upstreamDials := c.upstreamDials + 1, calls := c.calls + 1 }
  if rc < 0 then
    let c := { c with upstream := uvClose c.upstream }
    sendConnectResponse e c false
  else c

/-- Embedding of `ProxyConnection::startReadUpstream`: the call of
`uv_read_start` on the upstream and the handling of its return code. The call
`closeUpstream()` takes the default `force = false` of the declaration. -/
def startReadUpstream (e : Env) (c : ProxyConnection) : ProxyConnection :=
  let rc := e.world.rc c.calls
  let c := { c with calls := c.calls + 1 }
  if rc < 0 then
    let c := sendDisconnectRequest e c
    closeUpstream e c false
  else { c with upstream := { c.upstream with reading := true } }

/-- The completion callback of the `uv_tcp_connect` of `openUpstream`, for the
status libuv reports. -/
def openUpstreamConnectCb (e : Env) (c : ProxyConnection) (status : Int) : ProxyConnection :=
  let c := if status < 0 then { c with upstream := uvClose c.upstream } else c
  sendConnectResponse e c (decide (status = 0))

/-- The completion callback of the `uv_write` of `sendConnectResponse`, for the
request written and the status libuv reports. -/
def sendConnectResponseWriteCb (e : Env) (c : ProxyConnection) (request : WriteRequest)
    (status : Int) : ProxyConnection :=
  if status < 0 then close c
  else
    let c := if request.tag ≠ 0 && c.upstream.data then startReadUpstream e c else c
    if request.tag = 0 then onIdle { c with state := ConnectionState.Idling } else c

/-- The completion callback of the `uv_write` of `sendDataRequest`, for the
status libuv reports. The write-queue size is read only when the upstream is
paused. -/
def sendDataRequestWriteCb (e : Env) (c : ProxyConnection) (status : Int) : ProxyConnection :=
  let c := if status < 0 then close c else c
  if c.upstreamPaused then
    let queued := e.world.writeQueueSize c.calls
    let c := { c with calls := c.calls + 1 }
    if queued ≤ MAX_RELAY_WRITE_QUEUE_SIZE >>> 2 then
      startReadUpstream e { c with upstreamPaused := false }
    else c
  else c

/-- Embedding of `ProxyConnection::onAuthenticateResponse(packet, size)`. -/
def onAuthenticateResponse (e : Env) (c : ProxyConnection) (packet : Bytes) (size : Nat) :
    ProxyConnection :=
  let c := { c with handlers := c.handlers ++ [Handler.onAuthenticateResponse] }
  if size < AUTH_ACK_SIZE then close c
  else
    let cipher := (packet.drop PACKET_HEADER_BYTES).take (AUTH_ACK_SIZE - PACKET_HEADER_BYTES)
    let plain := intoBlob (AUTH_ACK_SIZE - PACKET_HEADER_BYTES - MAC_BYTES)
      (e.crypto.decryptWithNode c.proxy.serverId cipher)
    let serverPk := plain.take PUBLICKEY_BYTES
    let port := ntohs (plain.drop PUBLICKEY_BYTES)
    let domainEnabled : Bool := decide (plain.getD (PUBLICKEY_BYTES + 2) 0 % 256 ≠ 0)
    let c := onAuthorized e c serverPk port
    let domain : Bytes := if domainEnabled then c.proxy.domainName else []
    let peer : PeerInfo :=
      { keypair := c.proxy.peerKeypair, nodeId := c.proxy.serverId, origin := c.proxy.nodeId
        port := port, domain := domain }
    let c := { c with announced := c.announced ++ [peer] }
    let c := { c with state := ConnectionState.Idling }
    onOpened c

/-- Embedding of `ProxyConnection::onAttachResponse(packet, size)`. -/
def onAttachResponse (c : ProxyConnection) (_packet : Bytes) (_size : Nat) : ProxyConnection :=
  let c := { c with handlers := c.handlers ++ [Handler.onAttachResponse] }
  let c := { c with state := ConnectionState.Idling }
  onOpened c

/-- Embedding of `ProxyConnection::onPingResponse(packet, size)`. -/
def onPingResponse (c : ProxyConnection) (_packet : Bytes) (_size : Nat) : ProxyConnection :=
  { c with handlers := c.handlers ++ [Handler.onPingResponse] }

/-- Embedding of `ProxyConnection::onConnectRequest(packet, size)`. -/
def onConnectRequest (e : Env) (c : ProxyConnection) (packet : Bytes) (size : Nat) :
    ProxyConnection :=
  let c := { c with handlers := c.handlers ++ [Handler.onConnectRequest] }
  if size < CONNECT_REQ_SIZE then close c
  else
    let c := { c with state := ConnectionState.Relaying }
    let c := onBusy c
    let cipher := (packet.drop PACKET_HEADER_BYTES).take (CONNECT_REQ_SIZE - PACKET_HEADER_BYTES)
    let plain := intoBlob (CONNECT_REQ_SIZE - PACKET_HEADER_BYTES - MAC_BYTES)
      (e.crypto.decrypt c.proxy.box cipher c.nonce)
    let addrLen := plain.getD 0 0 % 256
    let addr := (plain.drop 1).take addrLen
    let port := ntohs (plain.drop 17)
    let c := { c with clients := c.clients ++ [(addrLen, addr, port)] }
    if c.proxy.allow (addr, port) then
      let c := { c with state := ConnectionState.Relaying }
      openUpstream e c
    else
      let c := sendConnectResponse e c false
      let c := { c with state := ConnectionState.Idling }
      onIdle c

/-- Embedding of `ProxyConnection::onDisconnectRequest(packet, size)`. -/
def onDisconnectRequest (e : Env) (c : ProxyConnection) (_packet : Bytes) (_size : Nat) :
    ProxyConnection :=
  let c := { c with handlers := c.handlers ++ [Handler.onDisconnectRequest] }
  closeUpstream e c true

/-- Embedding of `ProxyConnection::onDataRequest(packet, size)`. The handler
starts with `new WriteRequest{this, size - PACKET_HEADER_BYTES - MAC_BYTES}`,
whose constructor runs `new char[len]` on the difference taken in `size_t`; the
function is `noexcept`, so a `new` that throws (a request for more than
`PTRDIFF_MAX` bytes) ends the process: the result is `none`. The call
`closeUpstream()` is the graceful one: the spec names the forced close only for
a received `DISCONNECT`, so the default of the declaration is `force = false`. -/
def onDataRequest (e : Env) (c : ProxyConnection) (packet : Bytes) (size : Nat) :
    Option ProxyConnection :=
  let c := { c with handlers := c.handlers ++ [Handler.onDataRequest] }
  let len := sizeSub (sizeSub size PACKET_HEADER_BYTES) MAC_BYTES
  if PTRDIFF_MAX < len then none
  else
    let cipher := (packet.drop PACKET_HEADER_BYTES).take (sizeSub size PACKET_HEADER_BYTES)
    let plain := e.crypto.decrypt c.proxy.box cipher c.nonce
    let rc := e.world.rc c.calls
    let c := { c with
      upstreamWrites := c.upstreamWrites ++ [{ len := len, buf := plain, tag := 0 }]
      calls := c.calls + 1 }
    if rc < 0 then
      let c := sendDisconnectRequest e c
      some (closeUpstream e c false)
    else some c

/-- Embedding of `ProxyConnection::processRelayPacket(packet, size)`. `packet`
is the memory readable at the pointer, `size` the declared size of the packet.
The result is `none` in three places. In the `ERR` branch the plaintext block is
`alloca(len)` for the difference `len = size - PACKET_HEADER_BYTES - MAC_BYTES`
taken in `size_t`: a block of more than `PTRDIFF_MAX` bytes does not exist, and
`ntohs(*(uint16_t*)plain)` on a block of fewer than two bytes reads the stack
behind it. In the states `Initializing`, `Connecting` and `Closed` the case
starts with `assert(!"should not receive any data when connecting or closed.")`,
which fails whenever it is run and ends the process before `close()` is
reached (the build meant is the one that keeps its assertions). The third is
the `none` of `onDataRequest`. -/
def processRelayPacket (e : Env) (c : ProxyConnection) (packet : Bytes) (size : Nat) :
    Option ProxyConnection :=
  let c := { c with dispatched := c.dispatched ++ [packet.take size] }
  let flag := packet.getD 2 0 % 256
  let ack := PacketFlag.isAck flag
  let type := PacketFlag.getType flag
  if type = e.pf.ERR then
    let len := sizeSub (sizeSub size PACKET_HEADER_BYTES) MAC_BYTES
    if PTRDIFF_MAX < len then none
    else
      let cipher := (packet.drop PACKET_HEADER_BYTES).take (sizeSub size PACKET_HEADER_BYTES)
      let plain := intoBlob len (e.crypto.decrypt c.proxy.box cipher c.nonce)
      if len < 2 then none
      else
        let code := ntohs plain
        let c := { c with errors := c.errors ++ [code] }
        some (close c)
  else
    match c.state with
    | ConnectionState.Initializing => none
    | ConnectionState.Connecting => none
    | ConnectionState.Closed => none
    | ConnectionState.Authenticating =>
      if ack && type = e.pf.AUTH then some (onAuthenticateResponse e c packet size)
      else some (close c)
    | ConnectionState.Attaching =>
      if ack && type = e.pf.ATTACH then some (onAttachResponse c packet size)
      else some (close c)
    | ConnectionState.Idling =>
      if ack && type = e.pf.PING then some (onPingResponse c packet size)
      else if !ack && type = e.pf.CONNECT then some (onConnectRequest e c packet size)
      else some (close c)
    | ConnectionState.Relaying =>
      if type = e.pf.DATA then onDataRequest e c packet size
      else if !ack && type = e.pf.DISCONNECT then some (onDisconnectRequest e c packet size)
      else some (close c)

/-- Embedding of `ProxyConnection::onChallenge(data, size)`. -/
def onChallenge (e : Env) (c : ProxyConnection) (data : Bytes) : ProxyConnection :=
  if data.length < 32 || data.length > 256 then c
  else if c.proxy.isAuthenticated then sendAttachRequest e c data
  else sendAuthenticateRequest e c data

/-- The loop `while (remaining > 0) { … }` of `onRelayRead` on the unread bytes
`rem`; one unit of `fuel` per evaluation of the loop condition. The result is
`none` when the fuel does not suffice for the loop to come to its end and when
a call of `processRelayPacket` does not return. -/
def relayLoop (e : Env) : Nat → ProxyConnection → Bytes → Option ProxyConnection
  | 0, _, _ => none
  | fuel + 1, c, rem =>
    if rem.length > 0 then
      if rem.length < PACKET_HEADER_BYTES then
        some { c with stickyBuffer := vectorAppend c.stickyBuffer rem rem.length }
      else
        let packetSize := ntohs rem
        if rem.length < packetSize then
          some { c with stickyBuffer := vectorAppend c.stickyBuffer rem rem.length }
        else
          match processRelayPacket e c rem packetSize with
          | none => none
          | some c => relayLoop e fuel c (rem.drop packetSize)
    else some c

/-- The second half of the sticky branch of `onRelayRead` (from
`int packetSize = ntohs(*(uint16_t *)stickyBuffer.data())` on), followed by the
loop: the sticky buffer holds at least a header. -/
def completeSticky (e : Env) (fuel : Nat) (c : ProxyConnection) (rem : Bytes) :
    Option ProxyConnection :=
  let packetSize : Int := ntohs c.stickyBuffer
  let rs : Int := toInt32 (packetSize - c.stickyBuffer.length)
  if rem.length < toSize rs then
    some { c with stickyBuffer := vectorAppend c.stickyBuffer rem rem.length }
  else
    let c := { c with stickyBuffer := vectorAppend c.stickyBuffer rem (toSize rs) }
    let rem := rem.drop (toSize rs)
    match processRelayPacket e c c.stickyBuffer c.stickyBuffer.length with
    | none => none
    | some c =>
      let c := { c with stickyBuffer := [] }
      relayLoop e fuel c rem

/-- Embedding of `ProxyConnection::onRelayRead(data, size)` at loop time `now`.
The result is `none` when the read does not return: the fuel does not suffice
for the loop to come to its end, or a call of `processRelayPacket` does not
return. -/
def onRelayRead (e : Env) (fuel now : Nat) (c : ProxyConnection) (data : Bytes) :
    Option ProxyConnection :=
  let c := { c with keepAliveTimestamp := now }
  if c.stickyBuffer.length > 0 then
    if c.stickyBuffer.length < PACKET_HEADER_BYTES then
      let rs := PACKET_HEADER_BYTES - c.stickyBuffer.length
      if data.length < rs then
        some { c with stickyBuffer := vectorAppend c.stickyBuffer data data.length }
      else
        let c := { c with stickyBuffer := vectorAppend c.stickyBuffer data rs }
        completeSticky e fuel c (data.drop rs)
    else completeSticky e fuel c data
  else relayLoop e fuel c data

/-- The read callback that `establish` installs on the relay stream, for a read
of `nread` bytes into `buf` at loop time `now`. -/
def establishReadCb (e : Env) (fuel now : Nat) (c : ProxyConnection) (nread : Int)
    (buf : Bytes) : Option ProxyConnection :=
  if nread > 0 then
    if c.state = ConnectionState.Initializing then
      some (onChallenge e c (buf.take nread.toNat))
    else onRelayRead e fuel now c (buf.take nread.toNat)
  else if nread < 0 then some (close c)
  else some c

/-- Embedding of `ProxyConnection::establish`: the keep-alive timer is
initialised and started, the state is set and reading from the relay is
started. -/
def establish (e : Env) (c : ProxyConnection) : ProxyConnection :=
  let c := { c with keepAliveTimer := { data := true, closing := false, reading := false } }
  let c := { c with state := ConnectionState.Initializing }
  let rc := e.world.rc c.calls
  let c := { c with calls := c.calls + 1 }
  if rc < 0 then close c else { c with relay := { c.relay with reading := true } }

/-- The completion callback of the `uv_tcp_connect` of `connectServer`, for the
status libuv reports. -/
def connectServerConnectCb (e : Env) (c : ProxyConnection) (status : Int) : ProxyConnection :=
  if status < 0 then close c else establish e c

/-- The completion callback of the `uv_write` of `sendAuthenticateRequest`,
`sendAttachRequest`, `sendPingRequest` and `sendDisconnectRequest` (four
lambdas with the same body). -/
def controlWriteCb (c : ProxyConnection) (status : Int) : ProxyConnection :=
  if status < 0 then close c else c

/-- The completion callback of the `uv_write` of `onDataRequest` on the
upstream. -/
def onDataRequestWriteCb (e : Env) (c : ProxyConnection) (status : Int) : ProxyConnection :=
  if status < 0 then
    let c := sendDisconnectRequest e c
    closeUpstream e c false
  else c

/-- The read callback that `startReadUpstream` installs on the upstream, for a
read of `nread` bytes into `buf`. -/
def startReadUpstreamReadCb (e : Env) (c : ProxyConnection) (nread : Int) (buf : Bytes) :
    ProxyConnection :=
  if nread > 0 then sendDataRequest e c (buf.take nread.toNat)
  else if nread < 0 then
    let c := sendDisconnectRequest e c
    closeUpstream e c false
  else c

/-- The completion callback of the `uv_shutdown` of `closeUpstream`. -/
def closeUpstreamShutdownCb (c : ProxyConnection) (_status : Int) : ProxyConnection :=
  if c.upstream.closing then c
  else
    let c := { c with upstream := uvClose c.upstream }
    let c := { c with state := ConnectionState.Idling }
    onIdle c

/-- The close callbacks passed to `uv_close`: `handle->data = nullptr`. -/
def handleCloseCb (h : Handle) : Handle :=
  { h with data := false }

/-- The events of the loop that reach an established connection: the callbacks
that the connection has installed, and `close()` called by the proxy. -/
inductive Event where
  | relayRead (now : Nat) (nread : Int) (buf : Bytes)
  | keepAliveTick (now : Nat)
  | controlWritten (status : Int)
  | connectAckWritten (request : WriteRequest) (status : Int)
  | dataWritten (status : Int)
  | upstreamConnected (status : Int)
  | upstreamRead (nread : Int) (buf : Bytes)
  | upstreamWritten (status : Int)
  | upstreamShutdown (status : Int)
  | closeCalled
  | timerClosed
  | upstreamClosed
  | relayClosed

/-- The connection after the handler of an event has run; `none` when the
handler does not return (see `onRelayRead`). -/
def handle (e : Env) (fuel : Nat) (c : ProxyConnection) : Event → Option ProxyConnection
  | .relayRead now nread buf => establishReadCb e fuel now c nread buf
  | .keepAliveTick now => some (keepAlive e now c)
  | .controlWritten status => some (controlWriteCb c status)
  | .connectAckWritten request status => some (sendConnectResponseWriteCb e c request status)
  | .dataWritten status => some (sendDataRequestWriteCb e c status)
  | .upstreamConnected status => some (openUpstreamConnectCb e c status)
  | .upstreamRead nread buf => some (startReadUpstreamReadCb e c nread buf)
  | .upstreamWritten status => some (onDataRequestWriteCb e c status)
  | .upstreamShutdown status => some (closeUpstreamShutdownCb c status)
  | .closeCalled => some (close c)
  | .timerClosed => some { c with keepAliveTimer := handleCloseCb c.keepAliveTimer }
  | .upstreamClosed => some { c with upstream := handleCloseCb c.upstream }
  | .relayClosed => some { c with relay := handleCloseCb c.relay }

/-- The connection after the handlers of a sequence of events have run, one
after the other. -/
def run (e : Env) (fuel : Nat) : ProxyConnection → List Event → Option ProxyConnection
  | c, [] => some c
  | c, ev :: rest =>
    match handle e fuel c ev with
    | none => none
    | some c1 => run e fuel c1 rest

/-- The events whose handlers assign the state or the pause flag without a look
at the state: the completed write of a `CONNECT|ACK` that reports a failure
(its tag is 0), the completed write of a `DATA`, and the completed shutdown of
the upstream. -/
def Event.mayReopen : Event → Bool
  | .connectAckWritten request status => decide (request.tag = 0) && decide (0 ≤ status)
  | .dataWritten _ => true
  | .upstreamShutdown _ => true
  | _ => false

/-- The reads of a chunked delivery, one call of `onRelayRead` per chunk; a
chunk is the loop time of the read and its bytes. -/
def feed (e : Env) (fuel : Nat) : ProxyConnection → List (Nat × Bytes) → Option ProxyConnection
  | c, [] => some c
  | c, (now, data) :: rest =>
    match onRelayRead e fuel now c data with
    | none => none
    | some c1 => feed e fuel c1 rest

/-! ## id.cc -/

/-- The constant `ID_BYTES` of id.h (not among the sources): `Id::MAX_ID` is
written with 64 hexadecimal digits and `fromHexString` accepts exactly
`ID_BYTES * 2` digits. -/
def ID_BYTES : Nat := 32

/-- The constant `INT_MAX` of `<climits>`, for an `int` of 32 bits. -/
def INT_MAX : Nat := 2147483647

/-- Class `Id`, as id.cc uses it (id.h is not among the sources): the member
`bytes`, an array of `ID_BYTES` values of type `uint8_t`. -/
structure Id where
  bytes : Bytes
  size : bytes.length = ID_BYTES
  byte : ∀ b ∈ bytes, b < 256

/-- The array of `ID_BYTES` bytes with the given content: every store is
truncated to `uint8_t`. -/
def Id.ofBytes (content : Bytes) : Id where
  bytes := (intoBlob ID_BYTES content).map (· % 256)
  size := by
    simp [intoBlob]
  byte := by
    intro b hb
    obtain ⟨a, _, rfl⟩ := List.mem_map.mp hb
    exact Nat.mod_lt _ (by decide)

/-- Embedding of `Id::distance(to)`; the argument `to` is `other` here. -/
def Id.distance (self other : Id) : Id :=
  Id.ofBytes ((List.range ID_BYTES).map fun i => self.bytes.getD i 0 ^^^ other.bytes.getD i 0)

/-- The loop of `threeWayCompare` and `bitsEqual`,
`for (int i = 0; i < ID_BYTES; i++) if (id1.bytes[i] != id2.bytes[i]) { mmi = i; break; }`:
the index at which it breaks, if it does. -/
def firstMismatch (id1 id2 : Id) : Option Nat :=
  (List.range ID_BYTES).find? fun i => id1.bytes.getD i 0 != id2.bytes.getD i 0

/-- Embedding of `Id::threeWayCompare(id1, id2)`. -/
def Id.threeWayCompare (self id1 id2 : Id) : Int :=
  let mmi : Int :=
    match firstMismatch id1 id2 with
    | some i => i
    | none => -1
  if mmi = -1 then 0
  else
    let a := (id1.bytes.getD mmi.toNat 0 ^^^ self.bytes.getD mmi.toNat 0) % 256
    let b := (id2.bytes.getD mmi.toNat 0 ^^^ self.bytes.getD mmi.toNat 0) % 256
    if a < b then -1
    else if a > b then 1
    else 0

/-- Embedding of `Id::bitsEqual(id1, id2, n)`. The result is `none` when
`indexToCheck` is outside the arrays. Past the test `n < 0` the `int n` is not
negative, so that `n >> 3` and `n & 0x07` are taken on its value as a natural
number. -/
def Id.bitsEqual (id1 id2 : Id) (n : Int) : Option Bool :=
  if n < 0 then some true
  else
    let mmi : Nat :=
      match firstMismatch id1 id2 with
      | some i => i
      | none => INT_MAX
    let indexToCheck := n.toNat >>> 3
    match id1.bytes[indexToCheck]?, id2.bytes[indexToCheck]? with
    | some b1, some b2 =>
      let diff := (b1 ^^^ b2) % 256
      let bitsDiff : Bool := decide (diff &&& (0xff80 >>> (n.toNat &&& 0x07)) = 0)
      if mmi = indexToCheck then some bitsDiff
      else some (decide (mmi > indexToCheck))
    | _, _ => none

/-- Embedding of `Id::bitsCopy(src, dest, depth)`: the array `dest` after the
call, `none` when `idx` is outside the arrays. The complement `~mask` is taken
in an `int` of 32 bits. -/
def Id.bitsCopy (src dest : Id) (depth : Int) : Option Id :=
  if depth < 0 then some dest
  else
    let idx := depth.toNat >>> 3
    let bytes := if idx > 0 then src.bytes.take idx ++ dest.bytes.drop idx else dest.bytes
    let mask := 0xff80 >>> (depth.toNat &&& 0x07)
    match bytes[idx]?, src.bytes[idx]? with
    | some d, some s =>
      let d := (d &&& (4294967295 ^^^ mask)) % 256
      let d := (d ||| (s &&& mask)) % 256
      some (Id.ofBytes (bytes.set idx d))
    | _, _ => none

/-- The block of `Id::getLeadingZeros` for the first non-zero byte `b`: the
value `n - (b >> 1)` that it adds to `msb`. -/
def msbOfByte (b : Nat) : Int :=
  let n : Int := 7
  let (n, b) := if b ≥ 1 <<< 4 then (n - 4, b >>> 4) else (n, b)
  let (n, b) := if b ≥ 1 <<< 2 then (n - 2, b >>> 2) else (n, b)
  n - ((b >>> 1 : Nat) : Int)

/-- Embedding of `Id::getLeadingZeros`. -/
def Id.getLeadingZeros (self : Id) : Int :=
  let msb : Int := 0
  let i := ((List.range ID_BYTES).find? fun i => self.bytes.getD i 0 != 0).getD ID_BYTES
  let msb := msb + ((i <<< 3 : Nat) : Int)
  if i < ID_BYTES then msb + msbOfByte (self.bytes.getD i 0)
  else msb

/-- The body of the loop of `Id::toBinaryString` for the index `i`: the string
with the character of the bit and, after every fourth bit, a space appended;
`none` when the index `i / 3` is outside the array. -/
def toBinaryStringStep (self : Id) (str : String) (i : Nat) : Option String :=
  match self.bytes[i / 3]? with
  | none => none
  | some b =>
    let str := str.push (if b &&& (0x80 >>> (i &&& 0x07)) ≠ 0 then '1' else '0')
    some (if i &&& 0x03 = 0x03 then str.push ' ' else str)

/-- The loop of `Id::toBinaryString` run for its first `count` iterations:
the string built, `none` when an index is outside the array. -/
def toBinaryStringLoop (self : Id) (count : Nat) : Option String :=
  (List.range count).foldlM (toBinaryStringStep self) ""

/-- Embedding of `Id::toBinaryString`. -/
def Id.toBinaryString (self : Id) : Option String :=
  toBinaryStringLoop self (ID_BYTES * 8)

/-! ## Vocabulary of the statements -/

/-- A complete frame of the relay stream: the size field is the length of the
frame and the frame holds at least its header. -/
def Framed (f : Bytes) : Prop :=
  ntohs f = f.length ∧ PACKET_HEADER_BYTES ≤ f.length

instance (f : Bytes) : Decidable (Framed f) :=
  inferInstanceAs (Decidable (_ ∧ _))

/-- A beginning of a frame that stops before the frame is complete: fewer bytes
than a header, or fewer bytes than the size field announces. The empty buffer
is one. -/
def Incomplete (r : Bytes) : Prop :=
  r.length < PACKET_HEADER_BYTES ∨ r.length < ntohs r

instance (r : Bytes) : Decidable (Incomplete r) :=
  inferInstanceAs (Decidable (_ ∨ _))

/-- The second connection has the sticky buffer and the record of dispatched
packets of the first. -/
def SameFraming (c c1 : ProxyConnection) : Prop :=
  c1.stickyBuffer = c.stickyBuffer ∧ c1.dispatched = c.dispatched

/-- The second connection agrees with the first on everything that neither
`close`, nor a write to the relay, nor the upstream bookkeeping touches. -/
structure Quiet (c c1 : ProxyConnection) : Prop where
  stickyBuffer : c1.stickyBuffer = c.stickyBuffer
  dispatched : c1.dispatched = c.dispatched
  nonce : c1.nonce = c.nonce
  keepAliveTimestamp : c1.keepAliveTimestamp = c.keepAliveTimestamp
  upstreamWrites : c1.upstreamWrites = c.upstreamWrites
  handlers : c1.handlers = c.handlers
  authorized : c1.authorized = c.authorized
  announced : c1.announced = c.announced
  errors : c1.errors = c.errors
  serverPk : c1.proxy.serverPk = c.proxy.serverPk
  relayPort : c1.proxy.relayPort = c.proxy.relayPort
  box : c1.proxy.box = c.proxy.box
  domainName : c1.proxy.domainName = c.proxy.domainName
  upstreamInitFailures : c1.upstreamInitFailures = c.upstreamInitFailures

/-- The second connection is the first after handlers that neither answer a
challenge nor establish the connection: the state is the same or one of
`Closed`, `Idling`, `Relaying`; the nonce is the same; and if the first
connection had reached `Idling` the open-failed hook has not run. -/
structure Later (c c1 : ProxyConnection) : Prop where
  state : c1.state = c.state ∨ c1.state = ConnectionState.Closed ∨
    c1.state = ConnectionState.Idling ∨ c1.state = ConnectionState.Relaying
  nonce : c1.nonce = c.nonce
  openFailed : (c.state = ConnectionState.Idling ∨ c.state = ConnectionState.Relaying ∨
      c.state = ConnectionState.Closed) →
    c1.hooks.count Hook.onOpenFailed = c.hooks.count Hook.onOpenFailed

/-- An upstream socket is open: the handle is attached and not closing. -/
def upstreamOpen (c : ProxyConnection) : Prop :=
  c.upstream.data = true ∧ c.upstream.closing = false

instance (c : ProxyConnection) : Decidable (upstreamOpen c) :=
  inferInstanceAs (Decidable (_ ∧ _))

/-- No upstream socket is open unless the connection is `Relaying`. -/
def UpstreamOnlyRelaying (c : ProxyConnection) : Prop :=
  c.state ≠ ConnectionState.Relaying → ¬ upstreamOpen c

/-- The second connection has an open upstream socket only if the first has
one and the state is the same: the step opens no upstream, and it does not
change the state of a connection whose upstream stays open. -/
def Steady (c c1 : ProxyConnection) : Prop :=
  upstreamOpen c1 → c1.state = c.state ∧ upstreamOpen c

/-- The second connection is `Closed`, and is the first in the pause flag of
the upstream and in the hooks that have run. -/
structure StaysClosed (c c1 : ProxyConnection) : Prop where
  state : c1.state = ConnectionState.Closed
  upstreamPaused : c1.upstreamPaused = c.upstreamPaused
  hooks : c1.hooks = c.hooks

/-- Bit `i` of an id, bit 0 being the top bit of byte 0. -/
def Id.bit (id : Id) (i : Nat) : Bool :=
  (id.bytes.getD (i / 8) 0).testBit (7 - i % 8)

/-- The value of a byte sequence read as a big-endian unsigned integer. -/
def beValue : Bytes → Nat
  | [] => 0
  | b :: rest => b * 256 ^ rest.length + beValue rest

/-- The binary string of the first `count` bits of `bit`: the characters '0'
and '1', most significant bit first, with a space after every fourth bit. -/
def binaryString (bit : Nat → Bool) (count : Nat) : String :=
  (List.range count).foldl (fun str i =>
    let str := str.push (if bit i then '1' else '0')
    if i % 4 = 3 then str.push ' ' else str) ""

/-- The name of a state, as the spec writes it. -/
def ConnectionState.name : ConnectionState → String
  | .Connecting => "Connecting"
  | .Initializing => "Initializing"
  | .Authenticating => "Authenticating"
  | .Attaching => "Attaching"
  | .Idling => "Idling"
  | .Relaying => "Relaying"
  | .Closed => "Closed"

/-- The connection with its sticky buffer and keep-alive timestamp replaced. -/
@[reducible]
def withFraming (c : ProxyConnection) (sb : Bytes) (t : Nat) : ProxyConnection :=
  { c with stickyBuffer := sb, keepAliveTimestamp := t }

/-- The connection after `processRelayPacket` has been called on each of the
frames in turn; `none` when one of the calls does not return. -/
def dispatchFrames (e : Env) : ProxyConnection → List Bytes → Option ProxyConnection
  | c, [] => some c
  | c, f :: fs =>
    match processRelayPacket e c f f.length with
    | none => none
    | some c1 => dispatchFrames e c1 fs

/-- The loop time of the last read of a chunked delivery, `t` if there is none. -/
def lastTime (t : Nat) (chunks : List (Nat × Bytes)) : Nat :=
  chunks.foldl (fun _ chunk => chunk.1) t

/-- The bytes of a chunked delivery, in order. -/
def streamOf (chunks : List (Nat × Bytes)) : Bytes :=
  (chunks.map Prod.snd).flatten

/-! ## Sample data, for the concrete instances of the statements -/

/-- Flag codes used in the concrete instances. -/
def sampleFlags : PacketFlag where
  AUTH := 0x00
  ATTACH := 0x08
  PING := 0x10
  CONNECT := 0x20
  DISCONNECT := 0x30
  DATA := 0x40
  ERR := 0x70
  sevenBits := by decide
  distinct := by decide

/-- A stand-in for the cryptography in the concrete instances: the ciphertext is
the plaintext followed by a 16-byte tag. -/
def sampleCrypto : Crypto where
  encrypt := fun _ plain _ => plain ++ List.replicate 16 0xAA
  decrypt := fun _ cipher _ => cipher.take (cipher.length - 16)
  encryptWithNode := fun _ plain => plain ++ List.replicate 16 0xBB
  decryptWithNode := fun _ cipher => cipher.take (cipher.length - 16)
  sign := fun data => intoBlob 64 data
  makeBox := fun pk sk => pk ++ sk

/-- An outside world in which every libuv request is accepted. -/
def sampleWorld : World where
  rc := fun _ => 0
  random := fun k => 7 * k + 3
  buffer := fun k i => k + i
  writeQueueSize := fun _ => 0

/-- An outside world in which every libuv request is refused. -/
def refusingWorld : World where
  rc := fun _ => -32
  random := fun k => 7 * k + 3
  buffer := fun k i => k + i
  writeQueueSize := fun _ => 0

/-- The environment of the concrete instances. -/
def sampleEnv : Env where
  pf := sampleFlags
  crypto := sampleCrypto
  world := sampleWorld

/-- The environment of the concrete instances in which libuv refuses requests. -/
def refusingEnv : Env where
  pf := sampleFlags
  crypto := sampleCrypto
  world := refusingWorld

/-- A proxy that has not authenticated yet, with the domain name "a". -/
def sampleProxy : ActiveProxy where
  nodeId := List.replicate 32 1
  sessionKey := { publicKey := List.replicate 32 2, privateKey := List.replicate 32 3 }
  serverPk := none
  box := []
  relayPort := 0
  serverId := List.replicate 32 4
  serverFails := 0
  domainName := [97]
  upstreamFails := 0
  reconnectInterval := 0
  maxConnections := 8
  inFlights := 1
  peerKeypair := List.replicate 64 5

/-- A connection in the given state with open relay socket and keep-alive
timer, no upstream, empty buffers and empty records. -/
def sampleConnection (st : ConnectionState) : ProxyConnection where
  id := 0
  proxy := sampleProxy
  state := st
  keepAliveTimestamp := 0
  stickyBuffer := []
  nonce := List.replicate 24 9
  upstreamPaused := false
  relay := { data := true, closing := false, reading := true }
  upstream := { data := false, closing := false, reading := false }
  keepAliveTimer := { data := true, closing := false, reading := false }
  calls := 0
  relayWrites := []
  upstreamWrites := []
  dispatched := []
  handlers := []
  hooks := []
  authorized := []
  announced := []
  errors := []
  clients := []
  upstreamDials := 0
  upstreamShutdowns := 0
  upstreamInitFailures := 0

/-- A buffer of `n` zero bytes. -/
def zeros (n : Nat) : Bytes :=
  List.replicate n 0

/-- A `PING|ACK` frame of 0x8000 bytes, one more than `MAX_DATA_PACKET_SIZE`, as
the server would deliver it to an idle connection: eight reads of
`MAX_CONTROL_PACKET_SIZE` bytes. -/
def oversizeChunks : List (Nat × Bytes) :=
  [(1, [0x80, 0x00, 0x90] ++ zeros 4093), (2, zeros 4096), (3, zeros 4096), (4, zeros 4096),
   (5, zeros 4096), (6, zeros 4096), (7, zeros 4096), (8, zeros 4096)]

/-- A challenge of 32 bytes. -/
def sampleChallenge : Bytes :=
  List.replicate 32 7

/-- An `AUTH|ACK` packet of 55 bytes, one more than `AUTH_ACK_SIZE`: size field,
flag `AUTH` with the ACK bit, 52 further bytes. -/
def longAuthAck : Bytes :=
  [0x00, 0x37, 0x80] ++ List.replicate 52 0

/-- An `AUTH|ACK` packet of 53 bytes, one less than `AUTH_ACK_SIZE`. -/
def shortAuthAck : Bytes :=
  [0x00, 0x35, 0x80] ++ List.replicate 50 0

/-- An `AUTH|ACK` packet of `AUTH_ACK_SIZE` bytes whose plaintext under the
sample crypto is a server key of 32 bytes `07`, the port bytes `30 39` and the
given domain-enabled byte. -/
def authAckWith (domainEnabled : Nat) : Bytes :=
  [0x00, 0x36, 0x80] ++ (List.replicate 32 7 ++ [0x30, 0x39, domainEnabled])
    ++ List.replicate 16 0

/-- An `ATTACH|ACK` packet of three bytes. -/
def attachAck : Bytes :=
  [0x00, 0x03, 0x88]

/-- An `ERR` packet of 23 bytes whose plaintext under the sample crypto is the
code bytes `01 02` and the message bytes `6F 6B`. -/
def errPacket : Bytes :=
  [0x00, 0x17, 0x70] ++ [0x01, 0x02, 0x6F, 0x6B] ++ List.replicate 16 0

/-- A `CONNECT` packet of `CONNECT_REQ_SIZE` bytes whose plaintext under the
sample crypto is the address length 4, the address `7F 00 00 01` in the
16-byte field and the port bytes `1F 90`. -/
def connectReq : Bytes :=
  [0x00, 0x26, 0x20] ++ ([4, 0x7F, 0, 0, 1] ++ List.replicate 12 0 ++ [0x1F, 0x90])
    ++ List.replicate 16 0

/-- A `CONNECT` packet of 37 bytes, one less than `CONNECT_REQ_SIZE`. -/
def shortConnectReq : Bytes :=
  [0x00, 0x25, 0x20] ++ List.replicate 34 0

/-- A `DISCONNECT` packet of three bytes. -/
def disconnectReq : Bytes :=
  [0x00, 0x03, 0x30]

/-- An outside world in which `uv_tcp_init` succeeds (the first request) and
every later libuv request is refused. -/
def onlyInitWorld : World where
  rc := fun k => if k = 0 then 0 else -32
  random := fun k => 7 * k + 3
  buffer := fun k i => k + i
  writeQueueSize := fun _ => 0

/-- An outside world in which the second libuv request (the `uv_tcp_connect` of
an upstream dial on the sample connection) fails and all others succeed. -/
def dialFailsWorld : World where
  rc := fun k => if k = 1 then -111 else 0
  random := fun k => 7 * k + 3
  buffer := fun k i => k + i
  writeQueueSize := fun _ => 0

/-- An outside world in which the write queue of the relay stream holds exactly
a quarter of `MAX_RELAY_WRITE_QUEUE_SIZE`. -/
def quarterWorld : World where
  rc := fun _ => 0
  random := fun k => 7 * k + 3
  buffer := fun k i => k + i
  writeQueueSize := fun _ => 524288

/-- The environment with the world `onlyInitWorld`. -/
def onlyInitEnv : Env where
  pf := sampleFlags
  crypto := sampleCrypto
  world := onlyInitWorld

/-- The environment with the world `dialFailsWorld`. -/
def dialFailsEnv : Env where
  pf := sampleFlags
  crypto := sampleCrypto
  world := dialFailsWorld

/-- The environment with the world `quarterWorld`. -/
def quarterEnv : Env where
  pf := sampleFlags
  crypto := sampleCrypto
  world := quarterWorld

/-- A proxy configured with a domain name of 256 bytes. -/
def longDomainProxy : ActiveProxy :=
  { sampleProxy with domainName := List.replicate 256 97 }

/-- A connection of `longDomainProxy` that has just been established. -/
def longDomainConnection : ProxyConnection :=
  { sampleConnection ConnectionState.Initializing with proxy := longDomainProxy }

/-- A challenge of 31 bytes, one less than the least size accepted. -/
def shortChallenge : Bytes :=
  List.replicate 31 7

/-- A packet of 22 bytes of type `DATA` with the ACK bit set, whose plaintext
under the sample crypto is `01 02 03`. -/
def dataAckPacket : Bytes :=
  [0x00, 0x16, 0xC0] ++ [1, 2, 3] ++ List.replicate 16 0

/-- A `PING|ACK` packet of three bytes. -/
def pingAck : Bytes :=
  [0x00, 0x03, 0x90]

/-- A run of an idle connection: a `PING|ACK` arrives, the keep-alive timer
ticks 60000 ms later and sends a `PING`, its write completes, a `CONNECT`
arrives and the upstream connects, and the proxy closes the connection. -/
def sampleRun : List Event :=
  [Event.relayRead 1000 3 pingAck, Event.keepAliveTick 61000, Event.controlWritten 0,
   Event.relayRead 62000 38 connectReq, Event.upstreamConnected 0, Event.closeCalled]

/-- A `DATA` packet of 22 bytes whose plaintext under the sample crypto is the
bytes `01 02 03`. -/
def dataPacket : Bytes :=
  [0x00, 0x16, 0x40] ++ [1, 2, 3] ++ List.replicate 16 0

/-- A run of a connection that has answered the challenge: the write of the
`AUTH` completes, the `AUTH|ACK` arrives, a `CONNECT` arrives, the upstream
connects, three bytes arrive from the upstream and a `DATA` packet arrives from
the relay. -/
def sessionRun : List Event :=
  [Event.controlWritten 0, Event.relayRead 2000 54 (authAckWith 1),
   Event.relayRead 3000 38 connectReq, Event.upstreamConnected 0,
   Event.upstreamRead 3 [1, 2, 3], Event.relayRead 4000 22 dataPacket]

/-- A connection that was closed while idle. -/
def closedConnection : ProxyConnection :=
  close (sampleConnection ConnectionState.Idling)

/-- A connection that was closed while idle, with the reading of the upstream
paused. -/
def closedPausedConnection : ProxyConnection :=
  { closedConnection with upstreamPaused := true }

/-- The request of a `CONNECT|ACK` that reports a failure: its tag is 0. -/
def failureAck : WriteRequest :=
  { len := 4, buf := [0x00, 0x04, 0xA0, 0x02], tag := 0 }

/-- A run of a closed connection: an `ERR` packet arrives, the keep-alive timer
ticks, the writes of a control packet and of a successful `CONNECT|ACK`
complete, an upstream connect fails, the upstream reports its end, and `close`
is called again. -/
def closedRun : List Event :=
  [Event.relayRead 1000 23 errPacket, Event.keepAliveTick 2000, Event.controlWritten 0,
   Event.connectAckWritten { len := 4, buf := [0x00, 0x04, 0xA0, 0x03], tag := 1 } 0,
   Event.upstreamConnected (-111), Event.upstreamRead (-4095) [], Event.closeCalled]

/-- A frame whose size field is 0, followed by the flag `PING|ACK`. -/
def zeroSizeFrame : Bytes :=
  [0x00, 0x00, 0x90]

/-- A `PING|ACK` packet of three bytes followed by a frame whose size field
is 1. -/
def pingThenShort : Bytes :=
  [0x00, 0x03, 0x90, 0x00, 0x01, 0x90]

/-- A `DATA` packet of three bytes: the header alone. -/
def shortDataPacket : Bytes :=
  [0x00, 0x03, 0x40]

/-- An `ERR` packet of 20 bytes, one less than header, code and MAC need. Its
plaintext under the sample crypto is the one byte `05`. -/
def shortErrPacket : Bytes :=
  [0x00, 0x14, 0x70] ++ [0x05] ++ List.replicate 16 0

/-- A `CONNECT` packet of `CONNECT_REQ_SIZE` bytes whose plaintext under the
sample crypto is the address length 18, the address `7F 00 00 01` in the
16-byte field and the port bytes `1F 90`. -/
def longAddrConnectReq : Bytes :=
  [0x00, 0x26, 0x20] ++ ([18, 0x7F, 0, 0, 1] ++ List.replicate 12 0 ++ [0x1F, 0x90])
    ++ List.replicate 16 0

/-- The id whose bytes are 0, 1, ..., 31. -/
def countingId : Id :=
  Id.ofBytes (List.range 32)

/-- The id `FF00...00`. -/
def topByteId : Id :=
  Id.ofBytes [0xFF]

/-- The id `0000 0500 ... 00`: byte 2 is `05`, all others are 0. -/
def smallId : Id :=
  Id.ofBytes [0, 0, 0x05]

/-- The id whose bytes are all `A5`. -/
def patternId : Id :=
  Id.ofBytes (List.replicate 32 0xA5)

/-- The id that is `patternId` in its first two bytes and `5A` in the rest. -/
def mixedId : Id :=
  Id.ofBytes ([0xA5, 0xA5] ++ List.replicate 30 0x5A)

/-! ## What the low-level operations leave alone -/

theorem quiet_refl (c : ProxyConnection) : Quiet c c := by
  constructor <;> rfl

theorem quiet_trans {a b c : ProxyConnection} (h1 : Quiet a b) (h2 : Quiet b c) : Quiet a c where
  stickyBuffer := h2.stickyBuffer.trans h1.stickyBuffer
  dispatched := h2.dispatched.trans h1.dispatched
  nonce := h2.nonce.trans h1.nonce
  keepAliveTimestamp := h2.keepAliveTimestamp.trans h1.keepAliveTimestamp
  upstreamWrites := h2.upstreamWrites.trans h1.upstreamWrites
  handlers := h2.handlers.trans h1.handlers
  authorized := h2.authorized.trans h1.authorized
  announced := h2.announced.trans h1.announced
  errors := h2.errors.trans h1.errors
  serverPk := h2.serverPk.trans h1.serverPk
  relayPort := h2.relayPort.trans h1.relayPort
  box := h2.box.trans h1.box
  domainName := h2.domainName.trans h1.domainName
  upstreamInitFailures := h2.upstreamInitFailures.trans h1.upstreamInitFailures

theorem quiet_sameFraming {a b : ProxyConnection} (h : Quiet a b) : SameFraming a b :=
  ⟨h.stickyBuffer, h.dispatched⟩

theorem sameFraming_refl (c : ProxyConnection) : SameFraming c c := ⟨Eq.refl _, Eq.refl _⟩

theorem sameFraming_trans {a b c : ProxyConnection} (h1 : SameFraming a b)
    (h2 : SameFraming b c) : SameFraming a c :=
  ⟨h2.1.trans h1.1, h2.2.trans h1.2⟩

theorem onOpened_quiet (c : ProxyConnection) : Quiet c (onOpened c) := by
  constructor <;> rfl

theorem onOpenFailed_quiet (c : ProxyConnection) : Quiet c (onOpenFailed c) := by
  constructor <;> rfl

theorem onClosed_quiet (c : ProxyConnection) : Quiet c (onClosed c) := by
  constructor <;> rfl

theorem onBusy_quiet (c : ProxyConnection) : Quiet c (onBusy c) := by
  constructor <;> rfl

theorem onIdle_quiet (c : ProxyConnection) : Quiet c (onIdle c) := by
  constructor <;> rfl

theorem close_quiet (c : ProxyConnection) : Quiet c (close c) := by
  unfold close
  split_ifs with h
  · exact quiet_refl c
  · dsimp only
    refine quiet_trans ?_ (onClosed_quiet _)
    split_ifs <;> constructor <;> rfl

theorem close_state (c : ProxyConnection) : (close c).state = ConnectionState.Closed := by
  unfold close
  split_ifs with h
  · exact h
  · dsimp only
    split_ifs <;> rfl

theorem relayWrite_quiet (e : Env) (c : ProxyConnection) (r : WriteRequest) :
    Quiet c (relayWrite e c r) := by
  unfold relayWrite
  dsimp only
  split_ifs
  · exact quiet_trans (by constructor <;> rfl) (close_quiet _)
  · constructor <;> rfl

theorem sendPingRequest_quiet (e : Env) (c : ProxyConnection) :
    Quiet c (sendPingRequest e c) := by
  unfold sendPingRequest
  split_ifs
  · exact quiet_refl c
  · exact quiet_trans (by constructor <;> rfl) (relayWrite_quiet _ _ _)

theorem sendConnectResponse_quiet (e : Env) (c : ProxyConnection) (success : Bool) :
    Quiet c (sendConnectResponse e c success) := by
  unfold sendConnectResponse
  by_cases h : c.state = ConnectionState.Closed
  · rw [if_pos h]
    exact quiet_refl c
  · rw [if_neg h]
    exact quiet_trans (by constructor <;> rfl) (relayWrite_quiet _ _ _)

theorem sendDisconnectRequest_quiet (e : Env) (c : ProxyConnection) :
    Quiet c (sendDisconnectRequest e c) := by
  unfold sendDisconnectRequest
  split_ifs
  · exact quiet_refl c
  · exact quiet_trans (by constructor <;> rfl) (relayWrite_quiet _ _ _)

theorem sendDataRequest_quiet (e : Env) (c : ProxyConnection) (data : Bytes) :
    Quiet c (sendDataRequest e c data) := by
  unfold sendDataRequest
  dsimp only
  split_ifs
  · exact quiet_refl c
  · exact quiet_trans (by constructor <;> rfl) (close_quiet _)
  · constructor <;> rfl
  · constructor <;> rfl

theorem closeUpstream_quiet (e : Env) (c : ProxyConnection) (force : Bool) :
    Quiet c (closeUpstream e c force) := by
  unfold closeUpstream
  dsimp only
  split_ifs <;> first
    | exact quiet_refl c
    | exact quiet_trans (by constructor <;> rfl) (onIdle_quiet _)
    | (constructor <;> rfl)

theorem openUpstream_sameFraming (e : Env) (c : ProxyConnection) :
    SameFraming c (openUpstream e c) := by
  unfold openUpstream
  dsimp only
  have h1 : ∀ d : ProxyConnection, SameFraming d (onIdle
      { sendConnectResponse e d false with state := ConnectionState.Idling }) := fun d =>
    quiet_sameFraming (quiet_trans (quiet_trans (sendConnectResponse_quiet e d false)
      (by constructor <;> rfl)) (onIdle_quiet _))
  have h0 : SameFraming c
      { c with calls := c.calls + 1, upstreamInitFailures := c.upstreamInitFailures + 1 } :=
    ⟨Eq.refl _, Eq.refl _⟩
  split_ifs
  · refine sameFraming_trans (sameFraming_trans h0 (h1 _)) ?_
    exact quiet_sameFraming (quiet_trans (by constructor <;> rfl)
      (sendConnectResponse_quiet _ _ _))
  · refine sameFraming_trans (sameFraming_trans h0 (h1 _)) ?_
    exact ⟨Eq.refl _, Eq.refl _⟩
  · exact quiet_sameFraming (quiet_trans (by constructor <;> rfl)
      (sendConnectResponse_quiet _ _ _))
  · exact ⟨Eq.refl _, Eq.refl _⟩

theorem sendAuthenticateRequest_sameFraming (e : Env) (c : ProxyConnection) (data : Bytes) :
    SameFraming c (sendAuthenticateRequest e c data) := by
  unfold sendAuthenticateRequest
  split_ifs
  · exact sameFraming_refl c
  · dsimp only
    refine sameFraming_trans ?_ (quiet_sameFraming (relayWrite_quiet _ _ _))
    exact ⟨Eq.refl _, Eq.refl _⟩

theorem sendAttachRequest_sameFraming (e : Env) (c : ProxyConnection) (data : Bytes) :
    SameFraming c (sendAttachRequest e c data) := by
  unfold sendAttachRequest
  split_ifs
  · exact sameFraming_refl c
  · dsimp only
    refine sameFraming_trans ?_ (quiet_sameFraming (relayWrite_quiet _ _ _))
    exact ⟨Eq.refl _, Eq.refl _⟩

theorem onAuthenticateResponse_sameFraming (e : Env) (c : ProxyConnection) (packet : Bytes)
    (size : Nat) : SameFraming c (onAuthenticateResponse e c packet size) := by
  unfold onAuthenticateResponse
  dsimp only
  by_cases h : size < AUTH_ACK_SIZE
  · rw [if_pos h]
    refine sameFraming_trans ?_ (quiet_sameFraming (close_quiet _))
    exact ⟨Eq.refl _, Eq.refl _⟩
  · rw [if_neg h]
    exact ⟨Eq.refl _, Eq.refl _⟩

theorem onAttachResponse_sameFraming (c : ProxyConnection) (packet : Bytes) (size : Nat) :
    SameFraming c (onAttachResponse c packet size) :=
  ⟨Eq.refl _, Eq.refl _⟩

theorem onPingResponse_sameFraming (c : ProxyConnection) (packet : Bytes) (size : Nat) :
    SameFraming c (onPingResponse c packet size) :=
  ⟨Eq.refl _, Eq.refl _⟩

theorem onConnectRequest_sameFraming (e : Env) (c : ProxyConnection) (packet : Bytes)
    (size : Nat) : SameFraming c (onConnectRequest e c packet size) := by
  unfold onConnectRequest
  dsimp only
  by_cases h : size < CONNECT_REQ_SIZE
  · rw [if_pos h]
    refine sameFraming_trans ?_ (quiet_sameFraming (close_quiet _))
    exact ⟨Eq.refl _, Eq.refl _⟩
  · rw [if_neg h, if_pos (show ActiveProxy.allow _ _ = true from Eq.refl true)]
    refine sameFraming_trans ?_ (openUpstream_sameFraming _ _)
    exact ⟨Eq.refl _, Eq.refl _⟩

theorem onDisconnectRequest_sameFraming (e : Env) (c : ProxyConnection) (packet : Bytes)
    (size : Nat) : SameFraming c (onDisconnectRequest e c packet size) := by
  unfold onDisconnectRequest
  refine sameFraming_trans ?_ (quiet_sameFraming (closeUpstream_quiet _ _ _))
  exact ⟨Eq.refl _, Eq.refl _⟩

theorem onDataRequest_sameFraming (e : Env) (c : ProxyConnection) (packet : Bytes)
    (size : Nat) (c1 : ProxyConnection) (h : onDataRequest e c packet size = some c1) :
    SameFraming c c1 := by
  unfold onDataRequest at h
  dsimp only at h
  by_cases hb : PTRDIFF_MAX < sizeSub (sizeSub size PACKET_HEADER_BYTES) MAC_BYTES
  · rw [if_pos hb] at h
    exact Option.noConfusion h
  · rw [if_neg hb] at h
    by_cases hrc : e.world.rc c.calls < 0
    · rw [if_pos hrc] at h
      cases h
      refine sameFraming_trans ?_
        (quiet_sameFraming (quiet_trans (sendDisconnectRequest_quiet e _)
          (closeUpstream_quiet e _ _)))
      exact ⟨Eq.refl _, Eq.refl _⟩
    · rw [if_neg hrc] at h
      cases h
      exact ⟨Eq.refl _, Eq.refl _⟩

/-- The ways in which `processRelayPacket` returns: the `ERR` branch has read
a code and closed, or the switch on the state has called one of the handlers or
`close()`. -/
theorem processRelayPacket_some (e : Env) (c : ProxyConnection) (packet : Bytes) (size : Nat)
    (c1 : ProxyConnection) (h : processRelayPacket e c packet size = some c1) :
    (PacketFlag.getType (packet.getD 2 0 % 256) = e.pf.ERR ∧ ∃ code : Nat,
      c1 = close { c with dispatched := c.dispatched ++ [packet.take size]
                          errors := c.errors ++ [code] }) ∨
    (c.state ≠ ConnectionState.Initializing ∧ c.state ≠ ConnectionState.Connecting ∧
      c.state ≠ ConnectionState.Closed ∧
      c1 = close { c with dispatched := c.dispatched ++ [packet.take size] }) ∨
    (c.state = ConnectionState.Authenticating ∧
      c1 = onAuthenticateResponse e
        { c with dispatched := c.dispatched ++ [packet.take size] } packet size) ∨
    (c.state = ConnectionState.Attaching ∧
      c1 = onAttachResponse
        { c with dispatched := c.dispatched ++ [packet.take size] } packet size) ∨
    (c.state = ConnectionState.Idling ∧
      c1 = onPingResponse
        { c with dispatched := c.dispatched ++ [packet.take size] } packet size) ∨
    (c.state = ConnectionState.Idling ∧
      c1 = onConnectRequest e
        { c with dispatched := c.dispatched ++ [packet.take size] } packet size ∧
      PacketFlag.isAck (packet.getD 2 0 % 256) = false ∧
      PacketFlag.getType (packet.getD 2 0 % 256) = e.pf.CONNECT) ∨
    (c.state = ConnectionState.Relaying ∧
      c1 = onDisconnectRequest e
        { c with dispatched := c.dispatched ++ [packet.take size] } packet size) ∨
    (c.state = ConnectionState.Relaying ∧
      onDataRequest e
        { c with dispatched := c.dispatched ++ [packet.take size] } packet size = some c1) := by
  unfold processRelayPacket at h
  dsimp only at h
  by_cases hE : PacketFlag.getType (packet.getD 2 0 % 256) = e.pf.ERR
  · rw [if_pos hE] at h
    by_cases hb : PTRDIFF_MAX < sizeSub (sizeSub size PACKET_HEADER_BYTES) MAC_BYTES
    · rw [if_pos hb] at h
      exact Option.noConfusion h
    · rw [if_neg hb] at h
      by_cases h2 : sizeSub (sizeSub size PACKET_HEADER_BYTES) MAC_BYTES < 2
      · rw [if_pos h2] at h
        exact Option.noConfusion h
      · rw [if_neg h2] at h
        exact Or.inl ⟨hE, _, (Option.some.inj h).symm⟩
  · rw [if_neg hE] at h
    right
    revert h
    cases hst : c.state <;> dsimp only <;> intro h
    · exact Option.noConfusion h
    · exact Option.noConfusion h
    · by_cases hc : (PacketFlag.isAck (packet.getD 2 0 % 256)
          && decide (PacketFlag.getType (packet.getD 2 0 % 256) = e.pf.AUTH)) = true
      · rw [if_pos hc] at h
        exact Or.inr (Or.inl ⟨Eq.refl _, (Option.some.inj h).symm⟩)
      · rw [if_neg hc] at h
        exact Or.inl ⟨by decide, by decide, by decide, (Option.some.inj h).symm⟩
    · by_cases hc : (PacketFlag.isAck (packet.getD 2 0 % 256)
          && decide (PacketFlag.getType (packet.getD 2 0 % 256) = e.pf.ATTACH)) = true
      · rw [if_pos hc] at h
        exact Or.inr (Or.inr (Or.inl ⟨Eq.refl _, (Option.some.inj h).symm⟩))
      · rw [if_neg hc] at h
        exact Or.inl ⟨by decide, by decide, by decide, (Option.some.inj h).symm⟩
    · by_cases hc : (PacketFlag.isAck (packet.getD 2 0 % 256)
          && decide (PacketFlag.getType (packet.getD 2 0 % 256) = e.pf.PING)) = true
      · rw [if_pos hc] at h
        exact Or.inr (Or.inr (Or.inr (Or.inl ⟨Eq.refl _, (Option.some.inj h).symm⟩)))
      · rw [if_neg hc] at h
        by_cases hc2 : (!PacketFlag.isAck (packet.getD 2 0 % 256)
            && decide (PacketFlag.getType (packet.getD 2 0 % 256) = e.pf.CONNECT)) = true
        · rw [if_pos hc2] at h
          simp only [Bool.and_eq_true, Bool.not_eq_true', decide_eq_true_eq] at hc2
          exact Or.inr (Or.inr (Or.inr (Or.inr (Or.inl
            ⟨Eq.refl _, (Option.some.inj h).symm, hc2.1, hc2.2⟩))))
        · rw [if_neg hc2] at h
          exact Or.inl ⟨by decide, by decide, by decide, (Option.some.inj h).symm⟩
    · by_cases hc : PacketFlag.getType (packet.getD 2 0 % 256) = e.pf.DATA
      · rw [if_pos hc] at h
        exact Or.inr (Or.inr (Or.inr (Or.inr (Or.inr (Or.inr ⟨Eq.refl _, h⟩)))))
      · rw [if_neg hc] at h
        by_cases hc2 : (!PacketFlag.isAck (packet.getD 2 0 % 256)
            && decide (PacketFlag.getType (packet.getD 2 0 % 256) = e.pf.DISCONNECT)) = true
        · rw [if_pos hc2] at h
          exact Or.inr (Or.inr (Or.inr (Or.inr (Or.inr (Or.inl
            ⟨Eq.refl _, (Option.some.inj h).symm⟩)))))
        · rw [if_neg hc2] at h
          exact Or.inl ⟨by decide, by decide, by decide, (Option.some.inj h).symm⟩
    · exact Option.noConfusion h

/-- The ways in which one round of the loop of `onRelayRead` returns: nothing
is left to read, an incomplete packet is parked in the sticky buffer, or
`processRelayPacket` returns on the packet at the front and the loop goes on
behind it. -/
theorem relayLoop_some (e : Env) (fuel : Nat) (c : ProxyConnection) (rem : Bytes)
    (c1 : ProxyConnection) (h : relayLoop e (fuel + 1) c rem = some c1) :
    c1 = c ∨
    c1 = { c with stickyBuffer := vectorAppend c.stickyBuffer rem rem.length } ∨
    ∃ d, processRelayPacket e c rem (ntohs rem) = some d ∧
      relayLoop e fuel d (rem.drop (ntohs rem)) = some c1 := by
  unfold relayLoop at h
  by_cases h0 : rem.length > 0
  · rw [if_pos h0] at h
    by_cases h1 : rem.length < PACKET_HEADER_BYTES
    · rw [if_pos h1] at h
      exact Or.inr (Or.inl (Option.some.inj h).symm)
    · rw [if_neg h1] at h
      dsimp only at h
      by_cases h2 : rem.length < ntohs rem
      · rw [if_pos h2] at h
        exact Or.inr (Or.inl (Option.some.inj h).symm)
      · rw [if_neg h2] at h
        cases hp : processRelayPacket e c rem (ntohs rem) with
        | none =>
          rw [hp] at h
          exact Option.noConfusion h
        | some d =>
          rw [hp] at h
          exact Or.inr (Or.inr ⟨d, Eq.refl _, h⟩)
  · rw [if_neg h0] at h
    exact Or.inl (Option.some.inj h).symm

/-- The ways in which the sticky branch of `onRelayRead` returns: the bytes
read are parked behind the incomplete packet, or `processRelayPacket` returns
on the completed packet and the loop goes on behind it. -/
theorem completeSticky_some (e : Env) (fuel : Nat) (c : ProxyConnection) (rem : Bytes)
    (c1 : ProxyConnection) (h : completeSticky e fuel c rem = some c1) :
    c1 = { c with stickyBuffer := vectorAppend c.stickyBuffer rem rem.length } ∨
    ∃ (sb : Bytes) (rest : Bytes) (d : ProxyConnection),
      processRelayPacket e { c with stickyBuffer := sb } sb sb.length = some d ∧
      relayLoop e fuel { d with stickyBuffer := [] } rest = some c1 := by
  unfold completeSticky at h
  dsimp only at h
  split_ifs at h
  · exact Or.inl (Option.some.inj h).symm
  · right
    revert h
    generalize hp : processRelayPacket e _ _ _ = o
    cases o with
    | none => exact fun h => Option.noConfusion h
    | some d => exact fun h => ⟨_, _, d, hp, h⟩

/-- The framing effect of `processRelayPacket` when it returns: the sticky
buffer is left alone and exactly the packet is added to the record of
dispatched packets. -/
theorem processRelayPacket_framing (e : Env) (c : ProxyConnection) (packet : Bytes)
    (size : Nat) (c1 : ProxyConnection) (h : processRelayPacket e c packet size = some c1) :
    c1.stickyBuffer = c.stickyBuffer ∧
    c1.dispatched = c.dispatched ++ [packet.take size] := by
  have key : ∀ d : ProxyConnection,
      SameFraming { c with dispatched := c.dispatched ++ [packet.take size] } d →
      d.stickyBuffer = c.stickyBuffer ∧ d.dispatched = c.dispatched ++ [packet.take size] :=
    fun d h => ⟨h.1, h.2⟩
  apply key
  rcases processRelayPacket_some e c packet size c1 h with
    ⟨_, code, rfl⟩ | ⟨_, _, _, rfl⟩ | ⟨_, rfl⟩ | ⟨_, rfl⟩ | ⟨_, rfl⟩ | ⟨_, rfl, _⟩ |
      ⟨_, rfl⟩ | ⟨_, h1⟩
  · refine sameFraming_trans ?_ (quiet_sameFraming (close_quiet _))
    exact ⟨Eq.refl _, Eq.refl _⟩
  · exact quiet_sameFraming (close_quiet _)
  · exact onAuthenticateResponse_sameFraming _ _ _ _
  · exact onAttachResponse_sameFraming _ _ _
  · exact onPingResponse_sameFraming _ _ _
  · exact onConnectRequest_sameFraming _ _ _ _
  · exact onDisconnectRequest_sameFraming _ _ _ _
  · exact onDataRequest_sameFraming _ _ _ _ _ h1

/-! ## The handlers do not look at the sticky buffer or the timestamp -/

theorem close_withFraming {c1 c2 : ProxyConnection} {sb : Bytes} {t : Nat}
    (h : c1 = withFraming c2 sb t) : close c1 = withFraming (close c2) sb t := by
  subst h
  unfold close
  dsimp only [withFraming]
  split_ifs <;> rfl

theorem relayWrite_withFraming {c1 c2 : ProxyConnection} {sb : Bytes} {t : Nat} (e : Env)
    (r : WriteRequest) (h : c1 = withFraming c2 sb t) :
    relayWrite e c1 r = withFraming (relayWrite e c2 r) sb t := by
  subst h
  unfold relayWrite
  dsimp only [withFraming]
  split_ifs
  · exact close_withFraming (by rfl)
  · rfl

theorem sendPingRequest_withFraming {c1 c2 : ProxyConnection} {sb : Bytes} {t : Nat} (e : Env)
    (h : c1 = withFraming c2 sb t) :
    sendPingRequest e c1 = withFraming (sendPingRequest e c2) sb t := by
  subst h
  unfold sendPingRequest
  dsimp only [withFraming]
  split_ifs
  · rfl
  · exact relayWrite_withFraming e _ (by rfl)

theorem sendDisconnectRequest_withFraming {c1 c2 : ProxyConnection} {sb : Bytes} {t : Nat}
    (e : Env) (h : c1 = withFraming c2 sb t) :
    sendDisconnectRequest e c1 = withFraming (sendDisconnectRequest e c2) sb t := by
  subst h
  unfold sendDisconnectRequest
  dsimp only [withFraming]
  split_ifs
  · rfl
  · exact relayWrite_withFraming e _ (by rfl)

theorem sendConnectResponse_withFraming {c1 c2 : ProxyConnection} {sb : Bytes} {t : Nat}
    (e : Env) (success : Bool) (h : c1 = withFraming c2 sb t) :
    sendConnectResponse e c1 success = withFraming (sendConnectResponse e c2 success) sb t := by
  subst h
  unfold sendConnectResponse
  dsimp only [withFraming]
  by_cases hs : c2.state = ConnectionState.Closed
  · rw [if_pos hs, if_pos hs]
  · rw [if_neg hs, if_neg hs]
    exact relayWrite_withFraming e _ (by rfl)

theorem closeUpstream_withFraming {c1 c2 : ProxyConnection} {sb : Bytes} {t : Nat} (e : Env)
    (force : Bool) (h : c1 = withFraming c2 sb t) :
    closeUpstream e c1 force = withFraming (closeUpstream e c2 force) sb t := by
  subst h
  unfold closeUpstream
  dsimp only [withFraming]
  split_ifs <;> rfl

theorem openUpstream_withFraming {c1 c2 : ProxyConnection} {sb : Bytes} {t : Nat} (e : Env)
    (h : c1 = withFraming c2 sb t) :
    openUpstream e c1 = withFraming (openUpstream e c2) sb t := by
  subst h
  unfold openUpstream
  have h1 : sendConnectResponse e
      { withFraming c2 sb t with
          calls := c2.calls + 1
          upstreamInitFailures := c2.upstreamInitFailures + 1 } false
      = withFraming (sendConnectResponse e { c2 with
          calls := c2.calls + 1
          upstreamInitFailures := c2.upstreamInitFailures + 1 } false) sb t :=
    sendConnectResponse_withFraming e false (by rfl)
  dsimp only [withFraming] at h1
  dsimp only [withFraming, onIdle]
  rw [h1]
  dsimp only
  split_ifs <;> first
    | rfl
    | exact sendConnectResponse_withFraming e false (by rfl)

theorem onAuthenticateResponse_withFraming {c1 c2 : ProxyConnection} {sb : Bytes} {t : Nat}
    (e : Env) (packet : Bytes) (size : Nat) (h : c1 = withFraming c2 sb t) :
    onAuthenticateResponse e c1 packet size
      = withFraming (onAuthenticateResponse e c2 packet size) sb t := by
  subst h
  unfold onAuthenticateResponse
  dsimp only [withFraming]
  by_cases hs : size < AUTH_ACK_SIZE
  · rw [if_pos hs, if_pos hs]
    exact close_withFraming (by rfl)
  · rw [if_neg hs, if_neg hs]
    rfl

theorem onConnectRequest_withFraming {c1 c2 : ProxyConnection} {sb : Bytes} {t : Nat}
    (e : Env) (packet : Bytes) (size : Nat) (h : c1 = withFraming c2 sb t) :
    onConnectRequest e c1 packet size
      = withFraming (onConnectRequest e c2 packet size) sb t := by
  subst h
  unfold onConnectRequest
  dsimp only [withFraming]
  by_cases hs : size < CONNECT_REQ_SIZE
  · rw [if_pos hs, if_pos hs]
    exact close_withFraming (by rfl)
  · rw [if_neg hs, if_neg hs, if_pos (show ActiveProxy.allow _ _ = true from Eq.refl true),
      if_pos (show ActiveProxy.allow _ _ = true from Eq.refl true)]
    exact openUpstream_withFraming e (by rfl)

theorem onDisconnectRequest_withFraming {c1 c2 : ProxyConnection} {sb : Bytes} {t : Nat}
    (e : Env) (packet : Bytes) (size : Nat) (h : c1 = withFraming c2 sb t) :
    onDisconnectRequest e c1 packet size
      = withFraming (onDisconnectRequest e c2 packet size) sb t := by
  subst h
  unfold onDisconnectRequest
  exact closeUpstream_withFraming e true (by rfl)

theorem onDataRequest_withFraming {c1 c2 : ProxyConnection} {sb : Bytes} {t : Nat}
    (e : Env) (packet : Bytes) (size : Nat) (h : c1 = withFraming c2 sb t) :
    onDataRequest e c1 packet size
      = (onDataRequest e c2 packet size).map (fun d => withFraming d sb t) := by
  subst h
  unfold onDataRequest
  dsimp only [withFraming]
  by_cases hb : PTRDIFF_MAX < sizeSub (sizeSub size PACKET_HEADER_BYTES) MAC_BYTES
  · rw [if_pos hb, if_pos hb]
    rfl
  · rw [if_neg hb, if_neg hb]
    split_ifs
    · exact congrArg some (closeUpstream_withFraming e false
        (sendDisconnectRequest_withFraming e (by rfl)))
    · rfl

/-- The result of `processRelayPacket` does not depend on the sticky buffer or
on the keep-alive timestamp, and it hands both on unchanged; nor does it depend
on them whether the call returns. -/
theorem processRelayPacket_withFraming {c1 c2 : ProxyConnection} {sb : Bytes} {t : Nat}
    (e : Env) (packet : Bytes) (size : Nat) (h : c1 = withFraming c2 sb t) :
    processRelayPacket e c1 packet size
      = (processRelayPacket e c2 packet size).map (fun d => withFraming d sb t) := by
  subst h
  unfold processRelayPacket
  dsimp only [withFraming]
  by_cases hE : PacketFlag.getType (packet.getD 2 0 % 256) = e.pf.ERR
  · rw [if_pos hE, if_pos hE]
    by_cases hb : PTRDIFF_MAX < sizeSub (sizeSub size PACKET_HEADER_BYTES) MAC_BYTES
    · rw [if_pos hb, if_pos hb]
      rfl
    · rw [if_neg hb, if_neg hb]
      by_cases h2 : sizeSub (sizeSub size PACKET_HEADER_BYTES) MAC_BYTES < 2
      · rw [if_pos h2, if_pos h2]
        rfl
      · rw [if_neg h2, if_neg h2]
        exact congrArg some (close_withFraming (by rfl))
  · rw [if_neg hE, if_neg hE]
    cases hst : c2.state <;> dsimp only
    · rfl
    · rfl
    · split_ifs
      · exact congrArg some (onAuthenticateResponse_withFraming e _ _ (by rfl))
      · exact congrArg some (close_withFraming (by rfl))
    · split_ifs
      · rfl
      · exact congrArg some (close_withFraming (by rfl))
    · split_ifs
      · rfl
      · exact congrArg some (onConnectRequest_withFraming e _ _ (by rfl))
      · exact congrArg some (close_withFraming (by rfl))
    · split_ifs
      · exact onDataRequest_withFraming e _ _ (by rfl)
      · exact congrArg some (onDisconnectRequest_withFraming e _ _ (by rfl))
      · exact congrArg some (close_withFraming (by rfl))
    · rfl

/-! ## Bytes and frames -/

theorem ntohs_lt (p : Bytes) : ntohs p < 65536 := by
  unfold ntohs
  omega

theorem ntohs_append (a b : Bytes) (h : 2 ≤ a.length) : ntohs (a ++ b) = ntohs a := by
  unfold ntohs
  rw [List.getD_append a b 0 0 (by omega), List.getD_append a b 0 1 (by omega)]

theorem ntohs_htons (n : Nat) (rest : Bytes) (h : n < 65536) : ntohs (htons n ++ rest) = n := by
  unfold ntohs htons
  simp only [List.cons_append, List.getD_cons_zero, List.getD_cons_succ]
  omega

theorem sizeSub_of_le (a b : Nat) (h1 : b ≤ a) (h2 : a < 18446744073709551616) :
    sizeSub a b = a - b := by
  unfold sizeSub
  omega

theorem toSize_toInt32 (a b : Nat) (h1 : b ≤ a) (h2 : a < 65536) :
    toSize (toInt32 ((a : Int) - (b : Int))) = a - b := by
  unfold toSize toInt32
  omega

theorem framed_length_lt {f : Bytes} (h : Framed f) : f.length < 65536 := by
  have := ntohs_lt f
  rw [h.1] at this
  exact this

theorem take_drop_append (f rest : Bytes) (n k : Nat) (h : n + k ≤ f.length) :
    ((f ++ rest).drop n).take k = (f.drop n).take k := by
  rw [List.drop_append_of_le_length (by omega), List.take_append_of_le_length]
  rw [List.length_drop]
  omega

/-- A handler of a frame reads nothing behind the frame: the bytes that follow
it in the read buffer do not matter. -/
theorem processRelayPacket_append (e : Env) (c : ProxyConnection) (f rest : Bytes)
    (hf : Framed f) :
    processRelayPacket e c (f ++ rest) f.length = processRelayPacket e c f f.length := by
  have h3 : 3 ≤ f.length := hf.2
  have hlt := (framed_length_lt hf)
  have hflag : (f ++ rest).getD 2 0 = f.getD 2 0 := List.getD_append f rest 0 2 (by omega)
  have htake : (f ++ rest).take f.length = f.take f.length := by
    rw [List.take_append_of_le_length (Nat.le_refl _)]
  have hsub : sizeSub f.length PACKET_HEADER_BYTES = f.length - 3 :=
    sizeSub_of_le _ _ h3 (by omega)
  have hbody : ((f ++ rest).drop PACKET_HEADER_BYTES).take (f.length - 3)
      = (f.drop PACKET_HEADER_BYTES).take (f.length - 3) :=
    take_drop_append f rest 3 _ (by omega)
  unfold processRelayPacket
  dsimp only
  rw [hflag, htake, hsub, hbody]
  by_cases hE : PacketFlag.getType (f.getD 2 0 % 256) = e.pf.ERR
  · rw [if_pos hE, if_pos hE]
  · rw [if_neg hE, if_neg hE]
    cases hst : c.state <;> dsimp only
    · split_ifs
      · unfold onAuthenticateResponse
        dsimp only
        by_cases hs : f.length < AUTH_ACK_SIZE
        · rw [if_pos hs, if_pos hs]
        · have hlen : PACKET_HEADER_BYTES + (AUTH_ACK_SIZE - PACKET_HEADER_BYTES) ≤ f.length := by
            have h54 : AUTH_ACK_SIZE = 54 := Eq.refl _
            have h03 : PACKET_HEADER_BYTES = 3 := Eq.refl _
            omega
          rw [if_neg hs, if_neg hs, take_drop_append f rest _ _ hlen]
      · rfl
    · split_ifs <;> rfl
    · split_ifs
      · rfl
      · unfold onConnectRequest
        dsimp only
        by_cases hs : f.length < CONNECT_REQ_SIZE
        · rw [if_pos hs, if_pos hs]
        · have hlen : PACKET_HEADER_BYTES + (CONNECT_REQ_SIZE - PACKET_HEADER_BYTES)
              ≤ f.length := by
            have h38 : CONNECT_REQ_SIZE = 38 := Eq.refl _
            have h03 : PACKET_HEADER_BYTES = 3 := Eq.refl _
            omega
          rw [if_neg hs, if_neg hs, take_drop_append f rest _ _ hlen]
      · rfl
    · split_ifs
      · unfold onDataRequest
        dsimp only
        rw [hsub, hbody]
      · rfl
      · rfl

/-! ## Reassembly: `onRelayRead` hands the frames of the stream to `processRelayPacket` -/

theorem processRelayPacket_keepAliveTimestamp (e : Env) (c : ProxyConnection) (packet : Bytes)
    (size : Nat) (c1 : ProxyConnection) (h : processRelayPacket e c packet size = some c1) :
    c1.keepAliveTimestamp = c.keepAliveTimestamp := by
  have h1 : processRelayPacket e c packet size
      = (processRelayPacket e c packet size).map
          (fun d => withFraming d c.stickyBuffer c.keepAliveTimestamp) :=
    processRelayPacket_withFraming e packet size (by rfl)
  rw [h] at h1
  have h2 := congrArg ProxyConnection.keepAliveTimestamp (Option.some.inj h1)
  exact h2

theorem dispatchFrames_cons (e : Env) (c : ProxyConnection) (f : Bytes) (fs : List Bytes) :
    dispatchFrames e c (f :: fs)
      = (processRelayPacket e c f f.length).bind (fun c1 => dispatchFrames e c1 fs) := by
  show (match processRelayPacket e c f f.length with
    | none => none
    | some c1 => dispatchFrames e c1 fs) = _
  cases processRelayPacket e c f f.length <;> rfl

theorem dispatchFrames_append (e : Env) (fs gs : List Bytes) (c : ProxyConnection) :
    dispatchFrames e c (fs ++ gs)
      = (dispatchFrames e c fs).bind (fun c1 => dispatchFrames e c1 gs) := by
  induction fs generalizing c with
  | nil => rfl
  | cons f fs ih =>
    rw [List.cons_append, dispatchFrames_cons, dispatchFrames_cons]
    cases processRelayPacket e c f f.length with
    | none => rfl
    | some c1 => exact ih c1

theorem dispatchFrames_withFraming (e : Env) (fs : List Bytes) (c : ProxyConnection)
    (sb : Bytes) (t : Nat) :
    dispatchFrames e (withFraming c sb t) fs
      = (dispatchFrames e c fs).map (fun d => withFraming d sb t) := by
  induction fs generalizing c with
  | nil => rfl
  | cons f fs ih =>
    rw [dispatchFrames_cons, dispatchFrames_cons,
      processRelayPacket_withFraming e f f.length (Eq.refl (withFraming c sb t))]
    cases processRelayPacket e c f f.length with
    | none => rfl
    | some c1 => exact ih c1

theorem dispatchFrames_framing (e : Env) (fs : List Bytes) (c c1 : ProxyConnection)
    (h : dispatchFrames e c fs = some c1) :
    c1.stickyBuffer = c.stickyBuffer ∧
    c1.keepAliveTimestamp = c.keepAliveTimestamp ∧
    c1.dispatched = c.dispatched ++ fs := by
  induction fs generalizing c with
  | nil =>
    cases h
    exact ⟨Eq.refl _, Eq.refl _, (List.append_nil _).symm⟩
  | cons f fs ih =>
    rw [dispatchFrames_cons] at h
    cases hp : processRelayPacket e c f f.length with
    | none =>
      rw [hp] at h
      exact Option.noConfusion h
    | some d =>
      rw [hp] at h
      obtain ⟨h1, h2, h3⟩ := ih d h
      have hq := processRelayPacket_framing e c f f.length d hp
      refine ⟨h1.trans hq.1,
        h2.trans (processRelayPacket_keepAliveTimestamp e c f f.length d hp), ?_⟩
      rw [h3, hq.2, List.take_length, List.append_assoc]
      rfl

/-- The loop of `onRelayRead` on a buffer that starts at a frame boundary:
each complete frame is handed to `processRelayPacket`, the incomplete rest is
appended to the sticky buffer; the loop returns exactly when each of these
calls of `processRelayPacket` returns. -/
theorem relayLoop_frames (e : Env) (fs : List Bytes) :
    ∀ (fuel : Nat) (c : ProxyConnection) (r : Bytes), (∀ f ∈ fs, Framed f) → Incomplete r →
      fs.length < fuel →
      relayLoop e fuel c (fs.flatten ++ r)
        = (dispatchFrames e c fs).map (fun d => withFraming d (c.stickyBuffer ++ r)
            c.keepAliveTimestamp) := by
  induction fs with
  | nil =>
    intro fuel c r _ hr hfuel
    obtain ⟨fuel, rfl⟩ : ∃ k, fuel = k + 1 := ⟨fuel - 1, by simp at hfuel; omega⟩
    have h03 : PACKET_HEADER_BYTES = 3 := Eq.refl _
    simp only [List.flatten_nil, List.nil_append]
    unfold relayLoop
    by_cases h0 : r.length > 0
    · rw [if_pos h0]
      have hpark : vectorAppend c.stickyBuffer r r.length = c.stickyBuffer ++ r := by
        unfold vectorAppend
        rw [List.take_length]
      by_cases h1 : r.length < PACKET_HEADER_BYTES
      · rw [if_pos h1, hpark]
        rfl
      · rw [if_neg h1]
        dsimp only
        have h2 : r.length < ntohs r := by
          rcases hr with h | h
          · exact absurd h h1
          · exact h
        rw [if_pos h2, hpark]
        rfl
    · rw [if_neg h0]
      have : r = [] := List.length_eq_zero.mp (by omega)
      subst this
      simp only [List.append_nil]
      rfl
  | cons f fs ih =>
    intro fuel c r hfs hr hfuel
    obtain ⟨fuel, rfl⟩ : ∃ k, fuel = k + 1 := ⟨fuel - 1, by simp at hfuel; omega⟩
    have hf : Framed f := hfs f (List.mem_cons_self _ _)
    have h03 : PACKET_HEADER_BYTES = 3 := Eq.refl _
    have h3 : 3 ≤ f.length := hf.2
    simp only [List.flatten_cons, List.append_assoc]
    unfold relayLoop
    have hlen : (f ++ (fs.flatten ++ r)).length = f.length + (fs.flatten ++ r).length :=
      List.length_append _ _
    have hsz : ntohs (f ++ (fs.flatten ++ r)) = f.length := by
      rw [ntohs_append _ _ (by omega), hf.1]
    rw [if_pos (by omega), if_neg (by omega)]
    dsimp only
    rw [hsz, if_neg (by omega), List.drop_left, processRelayPacket_append e c f _ hf,
      dispatchFrames_cons]
    cases hp : processRelayPacket e c f f.length with
    | none => rfl
    | some d =>
      dsimp only [Option.bind]
      rw [ih fuel d r (fun g hg => hfs g (List.mem_cons_of_mem _ hg)) hr
          (by simp at hfuel; omega),
        (processRelayPacket_framing e c f f.length d hp).1,
        processRelayPacket_keepAliveTimestamp e c f f.length d hp]

theorem flatten_length_ge (fs : List Bytes) (hfs : ∀ f ∈ fs, Framed f) :
    3 * fs.length ≤ fs.flatten.length := by
  induction fs with
  | nil => simp
  | cons f fs ih =>
    have h3 : 3 ≤ f.length := (hfs f (List.mem_cons_self _ _)).2
    have := ih (fun g hg => hfs g (List.mem_cons_of_mem _ hg))
    simp only [List.flatten_cons, List.length_append, List.length_cons]
    omega

/-- The sticky branch of `onRelayRead` once the sticky buffer holds a header. -/
theorem completeSticky_frames (e : Env) (fuel : Nat) (c : ProxyConnection) (rem : Bytes)
    (fs : List Bytes) (r : Bytes) (h3 : 3 ≤ c.stickyBuffer.length)
    (hle : c.stickyBuffer.length ≤ ntohs c.stickyBuffer) (hfs : ∀ f ∈ fs, Framed f)
    (hr : Incomplete r) (heq : c.stickyBuffer ++ rem = fs.flatten ++ r)
    (hfuel : fs.length < fuel) :
    completeSticky e fuel c rem
      = (dispatchFrames e c fs).map (fun d => withFraming d r c.keepAliveTimestamp) := by
  have h03 : PACKET_HEADER_BYTES = 3 := Eq.refl _
  have hlt := ntohs_lt c.stickyBuffer
  have hrs : toSize (toInt32 ((ntohs c.stickyBuffer : Int) - (c.stickyBuffer.length : Int)))
      = ntohs c.stickyBuffer - c.stickyBuffer.length := toSize_toInt32 _ _ hle hlt
  have hlen := congrArg List.length heq
  rw [List.length_append, List.length_append] at hlen
  unfold completeSticky
  dsimp only
  rw [hrs]
  cases fs with
  | nil =>
    simp only [List.flatten_nil, List.nil_append] at heq
    simp only [List.flatten_nil, List.length_nil, Nat.zero_add] at hlen
    have hnt : ntohs r = ntohs c.stickyBuffer := by
      rw [← heq, ntohs_append _ _ (by omega)]
    have hr2 : r.length < ntohs r := by
      rcases hr with h | h
      · omega
      · exact h
    rw [if_pos (by omega)]
    unfold vectorAppend
    rw [List.take_length, heq]
    rfl
  | cons f fs =>
    have hf : Framed f := hfs f (List.mem_cons_self _ _)
    have hf3 : 3 ≤ f.length := hf.2
    simp only [List.flatten_cons, List.append_assoc] at heq
    simp only [List.flatten_cons, List.length_append] at hlen
    have hnt : ntohs c.stickyBuffer = f.length := by
      have h1 : ntohs (c.stickyBuffer ++ rem) = ntohs c.stickyBuffer :=
        ntohs_append _ _ (by omega)
      have h2 : ntohs (f ++ (fs.flatten ++ r)) = ntohs f := ntohs_append _ _ (by omega)
      rw [← h1, heq, h2, hf.1]
    rw [hnt]
    rw [hnt] at hle
    have hf_eq : c.stickyBuffer ++ rem.take (f.length - c.stickyBuffer.length) = f := by
      have h1 := congrArg (List.take f.length) heq
      rw [List.take_left, List.take_append_eq_append_take, List.take_of_length_le hle] at h1
      exact h1
    have hrest : rem.drop (f.length - c.stickyBuffer.length) = fs.flatten ++ r := by
      have h1 := congrArg (List.drop f.length) heq
      rw [List.drop_left, List.drop_append_eq_append_drop, List.drop_of_length_le hle,
        List.nil_append] at h1
      exact h1
    rw [if_neg (by omega)]
    unfold vectorAppend
    rw [hf_eq, hrest]
    have hp : processRelayPacket e
        { c with stickyBuffer := f } f f.length
        = (processRelayPacket e c f f.length).map
            (fun d => withFraming d f c.keepAliveTimestamp) :=
      processRelayPacket_withFraming e f f.length (by rfl)
    rw [hp, dispatchFrames_cons]
    cases hq : processRelayPacket e c f f.length with
    | none => rfl
    | some d =>
      dsimp only [Option.map, Option.bind]
      have hloop := relayLoop_frames e fs fuel
        (withFraming d [] c.keepAliveTimestamp) r
        (fun g hg => hfs g (List.mem_cons_of_mem _ hg)) hr (by simp at hfuel; omega)
      rw [dispatchFrames_withFraming] at hloop
      refine hloop.trans ?_
      cases dispatchFrames e d fs <;> rfl

/-- One read: if the sticky buffer followed by the bytes read is a sequence of
complete frames followed by an incomplete one, `onRelayRead` hands these frames
to `processRelayPacket`, in order. It returns exactly when each of these calls
returns, and then leaves the connection that the calls leave, with the
incomplete frame in the sticky buffer. -/
theorem onRelayRead_frames (e : Env) (fuel now : Nat) (c : ProxyConnection) (data : Bytes)
    (fs : List Bytes) (r : Bytes) (hs : Incomplete c.stickyBuffer)
    (hfs : ∀ f ∈ fs, Framed f) (hr : Incomplete r)
    (heq : c.stickyBuffer ++ data = fs.flatten ++ r) (hfuel : fs.length < fuel) :
    onRelayRead e fuel now c data
      = (dispatchFrames e c fs).map (fun d => withFraming d r now) := by
  have h03 : PACKET_HEADER_BYTES = 3 := Eq.refl _
  have hlen := congrArg List.length heq
  rw [List.length_append, List.length_append] at hlen
  have hge := flatten_length_ge fs hfs
  have hmap : ∀ (sb sb2 : Bytes) (t : Nat),
      (Option.map (fun d => withFraming d sb t) (dispatchFrames e c fs)).map
          (fun d => withFraming d sb2 now)
        = (dispatchFrames e c fs).map (fun d => withFraming d sb2 now) := by
    intro sb sb2 t
    cases dispatchFrames e c fs <;> rfl
  unfold onRelayRead
  dsimp only
  by_cases h0 : c.stickyBuffer.length > 0
  · rw [if_pos h0]
    by_cases h1 : c.stickyBuffer.length < PACKET_HEADER_BYTES
    · rw [if_pos h1]
      by_cases h2 : data.length < PACKET_HEADER_BYTES - c.stickyBuffer.length
      · rw [if_pos h2]
        have hnil : fs = [] := List.length_eq_zero.mp (by omega)
        subst hnil
        simp only [List.flatten_nil, List.nil_append] at heq
        unfold vectorAppend
        rw [List.take_length, heq]
        rfl
      · rw [if_neg h2]
        have hk : (vectorAppend c.stickyBuffer data
            (PACKET_HEADER_BYTES - c.stickyBuffer.length)).length = 3 := by
          unfold vectorAppend
          rw [List.length_append, List.length_take]
          omega
        have heq2 : vectorAppend c.stickyBuffer data
            (PACKET_HEADER_BYTES - c.stickyBuffer.length)
            ++ data.drop (PACKET_HEADER_BYTES - c.stickyBuffer.length) = fs.flatten ++ r := by
          unfold vectorAppend
          rw [List.append_assoc, List.take_append_drop, heq]
        have hnt : 3 ≤ ntohs (vectorAppend c.stickyBuffer data
            (PACKET_HEADER_BYTES - c.stickyBuffer.length)) := by
          have h5 := ntohs_append (vectorAppend c.stickyBuffer data
            (PACKET_HEADER_BYTES - c.stickyBuffer.length))
            (data.drop (PACKET_HEADER_BYTES - c.stickyBuffer.length)) (by omega)
          rw [← h5, heq2]
          cases fs with
          | nil =>
            simp only [List.flatten_nil, List.nil_append]
            simp only [List.flatten_nil, List.length_nil, Nat.zero_add] at hlen
            rcases hr with h | h <;> omega
          | cons f fs =>
            have hf : Framed f := hfs f (List.mem_cons_self _ _)
            have hf3 : 3 ≤ f.length := hf.2
            simp only [List.flatten_cons, List.append_assoc]
            rw [ntohs_append _ _ (by omega), hf.1]
            exact hf3
        have hcs := completeSticky_frames e fuel
          (withFraming c (vectorAppend c.stickyBuffer data
            (PACKET_HEADER_BYTES - c.stickyBuffer.length)) now)
          (data.drop (PACKET_HEADER_BYTES - c.stickyBuffer.length)) fs r
          (by show 3 ≤ (vectorAppend _ _ _).length; omega)
          (by show (vectorAppend _ _ _).length ≤ ntohs (vectorAppend _ _ _); omega)
          hfs hr heq2 hfuel
        rw [dispatchFrames_withFraming] at hcs
        exact hcs.trans (hmap _ _ _)
    · rw [if_neg h1]
      have hs2 : c.stickyBuffer.length < ntohs c.stickyBuffer := by
        rcases hs with h | h
        · exact absurd h h1
        · exact h
      have hcs := completeSticky_frames e fuel (withFraming c c.stickyBuffer now) data fs r
        (by show 3 ≤ c.stickyBuffer.length; omega)
        (by show c.stickyBuffer.length ≤ ntohs c.stickyBuffer; omega) hfs hr heq hfuel
      rw [dispatchFrames_withFraming] at hcs
      exact hcs.trans (hmap _ _ _)
  · rw [if_neg h0]
    have hnil : c.stickyBuffer = [] := List.length_eq_zero.mp (by omega)
    rw [hnil, List.nil_append] at heq
    have hloop := relayLoop_frames e fs fuel (withFraming c c.stickyBuffer now) r hfs hr hfuel
    rw [dispatchFrames_withFraming] at hloop
    rw [heq]
    refine hloop.trans ?_
    refine (hmap _ _ _).trans ?_
    show (dispatchFrames e c fs).map (fun d => withFraming d (c.stickyBuffer ++ r) now) = _
    rw [hnil, List.nil_append]

/-- A beginning of a framed stream is a framed stream: some of the frames, then
an incomplete frame that the rest of the stream continues. -/
theorem frames_split (fs : List Bytes) :
    ∀ (x y r : Bytes), (∀ f ∈ fs, Framed f) → Incomplete r → x ++ y = fs.flatten ++ r →
      ∃ fs1 fs2 r1, fs = fs1 ++ fs2 ∧ x = fs1.flatten ++ r1 ∧ Incomplete r1 ∧
        r1 ++ y = fs2.flatten ++ r := by
  have h03 : PACKET_HEADER_BYTES = 3 := Eq.refl _
  induction fs with
  | nil =>
    intro x y r _ hr heq
    simp only [List.flatten_nil, List.nil_append] at heq
    refine ⟨[], [], x, Eq.refl _, Eq.refl _, ?_, heq⟩
    have hlen := congrArg List.length heq
    rw [List.length_append] at hlen
    by_cases hx : x.length < 3
    · exact Or.inl hx
    · right
      have hnt : ntohs r = ntohs x := by rw [← heq, ntohs_append _ _ (by omega)]
      rcases hr with h | h <;> omega
  | cons f fs ih =>
    intro x y r hfs hr heq
    have hf : Framed f := hfs f (List.mem_cons_self _ _)
    have hf3 : 3 ≤ f.length := hf.2
    simp only [List.flatten_cons, List.append_assoc] at heq
    by_cases hx : x.length < f.length
    · refine ⟨[], f :: fs, x, Eq.refl _, Eq.refl _, ?_, ?_⟩
      · by_cases hx3 : x.length < 3
        · exact Or.inl hx3
        · right
          have h1 : ntohs (x ++ y) = ntohs x := ntohs_append _ _ (by omega)
          have h2 : ntohs (f ++ (fs.flatten ++ r)) = ntohs f := ntohs_append _ _ (by omega)
          rw [← h1, heq, h2, hf.1]
          exact hx
      · simp only [List.flatten_cons, List.append_assoc]
        exact heq
    · have hxle : f.length ≤ x.length := by omega
      have hx1 : x.take f.length = f := by
        have h1 := congrArg (List.take f.length) heq
        rw [List.take_left, List.take_append_of_le_length hxle] at h1
        exact h1
      have hx2 : x.drop f.length ++ y = fs.flatten ++ r := by
        have h1 := congrArg (List.drop f.length) heq
        rw [List.drop_left, List.drop_append_of_le_length hxle] at h1
        exact h1
      obtain ⟨fs1, fs2, r1, h1, h2, h3, h4⟩ :=
        ih (x.drop f.length) y r (fun g hg => hfs g (List.mem_cons_of_mem _ hg)) hr hx2
      refine ⟨f :: fs1, fs2, r1, ?_, ?_, h3, h4⟩
      · rw [h1]
        rfl
      · rw [List.flatten_cons, List.append_assoc, ← h2]
        have h5 := (List.take_append_drop f.length x).symm
        rw [hx1] at h5
        exact h5

/-- The refinement statement of the reassembly. If the sticky buffer followed by
the bytes of a chunked delivery is a sequence of complete frames followed by an
incomplete one, then the reads do what calling `processRelayPacket` on each
frame in turn does: they return exactly when each of these calls returns, and
then leave the connection that the calls leave, with the incomplete frame in
the sticky buffer and the time of the last read as keep-alive timestamp. -/
theorem feed_frames (e : Env) (fuel : Nat) :
    ∀ (chunks : List (Nat × Bytes)) (c : ProxyConnection) (fs : List Bytes) (r : Bytes),
      Incomplete c.stickyBuffer → (∀ f ∈ fs, Framed f) → Incomplete r →
      c.stickyBuffer ++ streamOf chunks = fs.flatten ++ r → fs.length < fuel →
      feed e fuel c chunks
        = (dispatchFrames e c fs).map (fun d => withFraming d r
            (lastTime c.keepAliveTimestamp chunks)) := by
  have h03 : PACKET_HEADER_BYTES = 3 := Eq.refl _
  intro chunks
  induction chunks with
  | nil =>
    intro c fs r hs hfs _ heq _
    have hst : streamOf [] = [] := Eq.refl _
    rw [hst, List.append_nil] at heq
    cases fs with
    | nil =>
      simp only [List.flatten_nil, List.nil_append] at heq
      subst heq
      rfl
    | cons f fs =>
      exfalso
      have hf : Framed f := hfs f (List.mem_cons_self _ _)
      have hf3 : 3 ≤ f.length := hf.2
      simp only [List.flatten_cons, List.append_assoc] at heq
      have hlen := congrArg List.length heq
      rw [List.length_append] at hlen
      have hnt : ntohs c.stickyBuffer = f.length := by
        rw [heq, ntohs_append _ _ (by omega), hf.1]
      rcases hs with h | h <;> omega
  | cons chunk rest ih =>
    intro c fs r hs hfs hr heq hfuel
    obtain ⟨now, data⟩ := chunk
    have hst : streamOf ((now, data) :: rest) = data ++ streamOf rest := Eq.refl _
    rw [hst, ← List.append_assoc] at heq
    obtain ⟨fs1, fs2, r1, h1, h2, h3, h4⟩ := frames_split fs _ _ r hfs hr heq
    subst h1
    have hfs1 : ∀ f ∈ fs1, Framed f := fun f hf => hfs f (List.mem_append_left _ hf)
    have hfs2 : ∀ f ∈ fs2, Framed f := fun f hf => hfs f (List.mem_append_right _ hf)
    rw [List.length_append] at hfuel
    have hread := onRelayRead_frames e fuel now c data fs1 r1 hs hfs1 h3 h2 (by omega)
    unfold feed
    rw [hread, dispatchFrames_append]
    cases hd : dispatchFrames e c fs1 with
    | none => rfl
    | some d =>
      dsimp only [Option.map, Option.bind]
      have hrest := ih (withFraming d r1 now) fs2 r h3 hfs2 hr h4 (by omega)
      rw [hrest, dispatchFrames_withFraming]
      cases dispatchFrames e d fs2 <;> rfl

/-! ## Dispatch by `processRelayPacket` -/

theorem packetFlag_ne_ERR (pf : PacketFlag) :
    pf.AUTH ≠ pf.ERR ∧ pf.ATTACH ≠ pf.ERR ∧ pf.PING ≠ pf.ERR ∧ pf.CONNECT ≠ pf.ERR ∧
      pf.DISCONNECT ≠ pf.ERR ∧ pf.DATA ≠ pf.ERR := by
  have h := pf.distinct
  simp only [List.nodup_cons, List.mem_cons, List.mem_singleton, not_or] at h
  tauto

theorem packetFlag_DATA_lt (pf : PacketFlag) : pf.DATA < 128 :=
  pf.sevenBits pf.DATA (by simp)

/-- The payload length `size - PACKET_HEADER_BYTES - MAC_BYTES` of a packet
shorter than header and MAC: the `size_t` subtraction wraps. -/
theorem payload_length_wraps (size : Nat) (h : size < 19) :
    sizeSub (sizeSub size PACKET_HEADER_BYTES) MAC_BYTES = 18446744073709551616 + size - 19 := by
  unfold sizeSub PACKET_HEADER_BYTES MAC_BYTES
  omega

/-- The payload length of a packet that holds header and MAC. -/
theorem payload_length (size : Nat) (h : 19 ≤ size) (hmax : size ≤ PTRDIFF_MAX) :
    sizeSub (sizeSub size PACKET_HEADER_BYTES) MAC_BYTES = size - 19 := by
  unfold PTRDIFF_MAX at hmax
  unfold sizeSub PACKET_HEADER_BYTES MAC_BYTES
  omega

/-- Reading the first two bytes of a block of at least two bytes that has been
written from its start. -/
theorem ntohs_intoBlob (n : Nat) (src : Bytes) (h : 2 ≤ n) :
    ntohs (intoBlob n src) = ntohs src := by
  obtain ⟨m, rfl⟩ : ∃ m, n = m + 1 + 1 := ⟨n - 2, by omega⟩
  unfold ntohs intoBlob
  cases src with
  | nil => simp [List.replicate_succ]
  | cons a rest =>
    cases rest with
    | nil => simp [List.replicate_succ]
    | cons b rest => simp

/-- The `assert` of `processRelayPacket`: a packet other than `ERR` that reaches a connection
in state `Initializing`, `Connecting` or `Closed` ends the process. -/
theorem processRelayPacket_assert (e : Env) (c : ProxyConnection) (packet : Bytes) (size : Nat)
    (hst : c.state = ConnectionState.Initializing ∨ c.state = ConnectionState.Connecting ∨
      c.state = ConnectionState.Closed)
    (htype : PacketFlag.getType (packet.getD 2 0 % 256) ≠ e.pf.ERR) :
    processRelayPacket e c packet size = none := by
  unfold processRelayPacket
  dsimp only
  rw [if_neg htype]
  rcases hst with h | h | h <;> rw [h]

/-- An idle connection hands a `PING|ACK` of any size to `onPingResponse`. -/
theorem processRelayPacket_pingAck (e : Env) (c : ProxyConnection) (packet : Bytes) (size : Nat)
    (hst : c.state = ConnectionState.Idling)
    (hack : PacketFlag.isAck (packet.getD 2 0 % 256) = true)
    (htype : PacketFlag.getType (packet.getD 2 0 % 256) = e.pf.PING) :
    processRelayPacket e c packet size
      = some (onPingResponse { c with dispatched := c.dispatched ++ [packet.take size] }
          packet size) := by
  unfold processRelayPacket
  dsimp only
  rw [htype, hack, if_neg (packetFlag_ne_ERR e.pf).2.2.1, hst]
  dsimp only
  rw [if_pos (by simp)]

/-- A frame larger than `MAX_DATA_PACKET_SIZE` is reassembled and handed to
`processRelayPacket` like any other frame. -/
theorem oversize_dispatched (e : Env) (fuel : Nat) (c : ProxyConnection)
    (chunks : List (Nat × Bytes)) (f : Bytes) (hc : c.stickyBuffer = [])
    (hf : ntohs f = f.length) (hbig : MAX_DATA_PACKET_SIZE < f.length)
    (hs : streamOf chunks = f) (hfuel : 1 < fuel) :
    feed e fuel c chunks
      = (processRelayPacket e c f f.length).map (fun d => withFraming d []
          (lastTime c.keepAliveTimestamp chunks)) := by
  have hF : Framed f := ⟨hf, by
    have h1 : MAX_DATA_PACKET_SIZE = 32767 := Eq.refl _
    have h2 : PACKET_HEADER_BYTES = 3 := Eq.refl _
    omega⟩
  have h := feed_frames e fuel chunks c [f] []
    (by rw [hc]; exact Or.inl (by decide))
    (fun g hg => by rw [List.mem_singleton.mp hg]; exact hF)
    (Or.inl (by decide))
    (by rw [hc, hs]; simp)
    (by simpa using hfuel)
  rw [h, dispatchFrames_cons]
  cases processRelayPacket e c f f.length <;> rfl

theorem zeros_length (n : Nat) : (zeros n).length = n :=
  List.length_replicate n 0

theorem oversizeChunks_stream :
    ∃ rest : Bytes, streamOf oversizeChunks = 0x80 :: 0x00 :: 0x90 :: rest ∧
      rest.length = 32765 := by
  refine ⟨zeros 4093 ++ (zeros 4096 ++ (zeros 4096 ++ (zeros 4096 ++ (zeros 4096 ++
    (zeros 4096 ++ (zeros 4096 ++ (zeros 4096 ++ []))))))), ?_, ?_⟩
  · simp only [streamOf, oversizeChunks, List.map_cons, List.map_nil, List.flatten_cons,
      List.flatten_nil, List.cons_append, List.nil_append]
  · simp only [List.length_append, zeros_length, List.length_nil]

/-! ## Claims on the reassembly of frames -/

/-- C1 (fails on the code). The claim is that every chunking of every byte
sequence passes the same packets to `processRelayPacket` as a single read. On
the three bytes `00 01 90`, whose size field announces a frame of one byte, a
single read passes the one-byte packet `00` to `processRelayPacket`, while the
same bytes read one at a time pass nothing and stay in the sticky buffer. -/
theorem C1_chunking_changes_dispatch :
    (onRelayRead sampleEnv 4 1 (sampleConnection ConnectionState.Idling)
        [0x00, 0x01, 0x90]).map (fun c => (c.dispatched, c.stickyBuffer))
      = some ([[0x00]], [0x01, 0x90]) ∧
    (feed sampleEnv 4 (sampleConnection ConnectionState.Idling)
        [(1, [0x00]), (2, [0x01]), (3, [0x90])]).map (fun c => (c.dispatched, c.stickyBuffer))
      = some ([], [0x00, 0x01, 0x90]) := by
  decide

/-- A relaying connection that receives a `DATA` packet of fewer than 19 bytes:
`onDataRequest` does not return. -/
theorem onDataRequest_aborts (e : Env) (c : ProxyConnection) (packet : Bytes) (size : Nat)
    (hsize : size < 19) : onDataRequest e c packet size = none := by
  unfold onDataRequest
  dsimp only
  rw [payload_length_wraps size hsize, if_pos (by unfold PTRDIFF_MAX; omega)]

/-- A relaying connection hands every packet of type `DATA` to `onDataRequest`. -/
theorem processRelayPacket_data (e : Env) (c : ProxyConnection) (packet : Bytes) (size : Nat)
    (hst : c.state = ConnectionState.Relaying)
    (htype : PacketFlag.getType (packet.getD 2 0 % 256) = e.pf.DATA) :
    processRelayPacket e c packet size
      = onDataRequest e { c with dispatched := c.dispatched ++ [packet.take size] }
          packet size := by
  unfold processRelayPacket
  dsimp only
  rw [htype, if_neg (packetFlag_ne_ERR e.pf).2.2.2.2.2, hst]
  dsimp only
  rw [if_pos (Eq.refl _)]

/-- C2 (fails on the code). The claim is that for every list of frames whose
size field is the frame's own length, between 3 and 0x7FFF, and every chunking
of the concatenated frames, a connection with empty sticky buffer passes
exactly these frames to `processRelayPacket`, each once and in order, and ends
with an empty sticky buffer. The reassembly does its part: for every chunking
the reads do what the calls of `processRelayPacket` on the frames, one after
the other, do; where each of these calls returns, the reads return, exactly
the frames have been passed and the sticky buffer is empty; and after the reads
of a proper beginning of the stream the frames that are complete have been
passed and the sticky buffer holds exactly the bytes received of the next,
incomplete, frame. But a call need not return, and then the reads do not
return and the frames behind are never passed: on a `Relaying` connection a
first frame of type `DATA` with fewer than 19 bytes ends the process in
`onDataRequest`, and a frame, other than `ERR`, that follows a frame which has
closed the connection fails the `assert` of `processRelayPacket`. -/
theorem C2_sticky_reassembly (e : Env) (fuel : Nat) (c : ProxyConnection)
    (frames : List Bytes) (hc : c.stickyBuffer = [])
    (hframes : ∀ f ∈ frames,
      ntohs f = f.length ∧ 3 ≤ f.length ∧ f.length ≤ MAX_DATA_PACKET_SIZE)
    (hfuel : frames.length < fuel) :
    (∀ chunks : List (Nat × Bytes), streamOf chunks = frames.flatten →
      feed e fuel c chunks = (dispatchFrames e c frames).map
        (fun d => withFraming d [] (lastTime c.keepAliveTimestamp chunks))) ∧
    (∀ (chunks : List (Nat × Bytes)) (d : ProxyConnection),
      streamOf chunks = frames.flatten → dispatchFrames e c frames = some d →
      ∃ c1, feed e fuel c chunks = some c1 ∧ c1.dispatched = c.dispatched ++ frames ∧
        c1.stickyBuffer = []) ∧
    (∀ (chunks : List (Nat × Bytes)) (later : Bytes), later ≠ [] →
      streamOf chunks ++ later = frames.flatten →
      ∃ done f todo r, frames = done ++ f :: todo ∧
        streamOf chunks = done.flatten ++ r ∧ r.length < f.length ∧ r = f.take r.length ∧
        ∀ d, dispatchFrames e c done = some d →
          ∃ c1, feed e fuel c chunks = some c1 ∧
            c1.dispatched = c.dispatched ++ done ∧ c1.stickyBuffer = r) ∧
    (∀ (f : Bytes) (rest : List Bytes), frames = f :: rest →
      c.state = ConnectionState.Relaying →
      PacketFlag.getType (f.getD 2 0 % 256) = e.pf.DATA → f.length < 19 →
      processRelayPacket e c f f.length = none ∧
      ∀ chunks : List (Nat × Bytes), streamOf chunks = frames.flatten →
        feed e fuel c chunks = none) ∧
    (∀ (f g : Bytes) (rest : List Bytes) (d : ProxyConnection), frames = f :: g :: rest →
      processRelayPacket e c f f.length = some d → d.state = ConnectionState.Closed →
      PacketFlag.getType (g.getD 2 0 % 256) ≠ e.pf.ERR →
      processRelayPacket e d g g.length = none ∧
      ∀ chunks : List (Nat × Bytes), streamOf chunks = frames.flatten →
        feed e fuel c chunks = none) := by
  have h03 : PACKET_HEADER_BYTES = 3 := Eq.refl _
  have hF : ∀ f ∈ frames, Framed f := fun f hf =>
    ⟨(hframes f hf).1, by rw [h03]; exact (hframes f hf).2.1⟩
  have hnil : Incomplete c.stickyBuffer := by
    rw [hc]
    exact Or.inl (by decide)
  have hall : ∀ chunks : List (Nat × Bytes), streamOf chunks = frames.flatten →
      feed e fuel c chunks = (dispatchFrames e c frames).map
        (fun d => withFraming d [] (lastTime c.keepAliveTimestamp chunks)) :=
    fun chunks hs => feed_frames e fuel chunks c frames [] hnil hF (Or.inl (by decide))
      (by rw [hc, hs]; simp) hfuel
  refine ⟨hall, ?_, ?_, ?_, ?_⟩
  · intro chunks d hs hd
    have h := hall chunks hs
    rw [hd] at h
    exact ⟨_, h, (dispatchFrames_framing e frames c d hd).2.2, Eq.refl _⟩
  · intro chunks later hlater hs
    obtain ⟨fs1, fs2, r1, h1, h2, h3, h4⟩ :=
      frames_split frames (streamOf chunks) later [] hF (Or.inl (by decide))
        (by rw [hs]; simp)
    rw [List.append_nil] at h4
    cases fs2 with
    | nil =>
      exfalso
      simp only [List.flatten_nil, List.append_eq_nil] at h4
      exact hlater h4.2
    | cons f todo =>
      have hf : Framed f := hF f (by rw [h1]; simp)
      have hf3 : 3 ≤ f.length := hf.2
      simp only [List.flatten_cons] at h4
      have hlt : r1.length < f.length := by
        by_cases hr3 : r1.length < 3
        · omega
        · have ha : ntohs (r1 ++ later) = ntohs r1 := ntohs_append _ _ (by omega)
          have hb : ntohs (f ++ todo.flatten) = ntohs f := ntohs_append _ _ (by omega)
          have hn : ntohs r1 = f.length := by rw [← ha, h4, hb, hf.1]
          rcases h3 with h | h <;> omega
      have htake : r1 = f.take r1.length := by
        have h5 := congrArg (List.take r1.length) h4
        rw [List.take_left, List.take_append_of_le_length (by omega)] at h5
        exact h5
      have hlen : fs1.length < fuel := by
        have := congrArg List.length h1
        rw [List.length_append] at this
        omega
      have h := feed_frames e fuel chunks c fs1 r1 hnil
        (fun g hg => hF g (by rw [h1]; exact List.mem_append_left _ hg)) h3
        (by rw [hc, h2]; simp) hlen
      refine ⟨fs1, f, todo, r1, h1, h2, hlt, htake, ?_⟩
      intro d hd
      rw [hd] at h
      exact ⟨_, h, (dispatchFrames_framing e fs1 c d hd).2.2, Eq.refl _⟩
  · intro f rest hfr hst htype hlen
    have hp : processRelayPacket e c f f.length = none := by
      rw [processRelayPacket_data e c f f.length hst htype]
      exact onDataRequest_aborts e _ f f.length hlen
    refine ⟨hp, ?_⟩
    intro chunks hs
    rw [hall chunks hs, hfr, dispatchFrames_cons, hp]
    rfl
  · intro f g rest d hfr hp hd htype
    have hq : processRelayPacket e d g g.length = none :=
      processRelayPacket_assert e d g g.length (Or.inr (Or.inr hd)) htype
    refine ⟨hq, ?_⟩
    intro chunks hs
    rw [hall chunks hs, hfr, dispatchFrames_cons, hp]
    dsimp only [Option.bind]
    rw [dispatchFrames_cons, hq]
    rfl

/-- Instances of C2. Two frames of type `PING|ACK`, of 3 and 4 bytes, delivered
to an idle connection in the chunks `00 03 | 90 00 04 90 | 07`: both are
passed; and the state after the first two chunks. A `DATA` frame of 3 bytes
followed by a `PING|ACK` frame, delivered to a relaying connection in one read:
the read does not return. An `AUTH` frame, which closes an idle connection,
followed by a `PING|ACK` frame: the read does not return. -/
theorem C2_sticky_reassembly_witness :
    (∃ c1, feed sampleEnv 3 (sampleConnection ConnectionState.Idling)
        [(1, [0x00, 0x03]), (2, [0x90, 0x00, 0x04, 0x90]), (3, [0x07])] = some c1 ∧
      c1.dispatched = (sampleConnection ConnectionState.Idling).dispatched
        ++ [[0x00, 0x03, 0x90], [0x00, 0x04, 0x90, 0x07]] ∧
      c1.stickyBuffer = []) ∧
    (∃ done f todo r,
      [[0x00, 0x03, 0x90], [0x00, 0x04, 0x90, 0x07]] = done ++ f :: todo ∧
      streamOf [(1, [0x00, 0x03]), (2, [0x90, 0x00, 0x04, 0x90])] = done.flatten ++ r ∧
      r.length < f.length ∧ r = f.take r.length ∧
      ∀ d, dispatchFrames sampleEnv (sampleConnection ConnectionState.Idling) done = some d →
        ∃ c1, feed sampleEnv 3 (sampleConnection ConnectionState.Idling)
            [(1, [0x00, 0x03]), (2, [0x90, 0x00, 0x04, 0x90])] = some c1 ∧
          c1.dispatched = (sampleConnection ConnectionState.Idling).dispatched ++ done ∧
          c1.stickyBuffer = r) ∧
    (processRelayPacket sampleEnv (sampleConnection ConnectionState.Relaying)
        [0x00, 0x03, 0x40] 3 = none ∧
      feed sampleEnv 3 (sampleConnection ConnectionState.Relaying)
        [(1, [0x00, 0x03, 0x40, 0x00, 0x03, 0x90])] = none) ∧
    feed sampleEnv 3 (sampleConnection ConnectionState.Idling)
      [(1, [0x00, 0x03, 0x00, 0x00, 0x03, 0x90])] = none :=
  have h := C2_sticky_reassembly sampleEnv 3 (sampleConnection ConnectionState.Idling)
    [[0x00, 0x03, 0x90], [0x00, 0x04, 0x90, 0x07]] (Eq.refl _) (by decide) (by decide)
  have h1 := C2_sticky_reassembly sampleEnv 3 (sampleConnection ConnectionState.Relaying)
    [[0x00, 0x03, 0x40], [0x00, 0x03, 0x90]] (Eq.refl _) (by decide) (by decide)
  have h2 := C2_sticky_reassembly sampleEnv 3 (sampleConnection ConnectionState.Idling)
    [[0x00, 0x03, 0x00], [0x00, 0x03, 0x90]] (Eq.refl _) (by decide) (by decide)
  ⟨h.2.1 [(1, [0x00, 0x03]), (2, [0x90, 0x00, 0x04, 0x90]), (3, [0x07])] _ (by decide)
      (Eq.refl _),
   h.2.2.1 [(1, [0x00, 0x03]), (2, [0x90, 0x00, 0x04, 0x90])] [0x07] (by decide) (by decide),
   ⟨(h1.2.2.2.1 _ _ (Eq.refl _) (Eq.refl _) (by decide) (by decide)).1,
    (h1.2.2.2.1 _ _ (Eq.refl _) (Eq.refl _) (by decide) (by decide)).2
      [(1, [0x00, 0x03, 0x40, 0x00, 0x03, 0x90])] (by decide)⟩,
   (h2.2.2.2.2 _ _ _ _ (Eq.refl _) (Eq.refl _) (close_state _) (by decide)).2
      [(1, [0x00, 0x03, 0x00, 0x00, 0x03, 0x90])] (by decide)⟩

/-- An idle connection that receives, in any chunking, a `PING|ACK` frame
larger than `MAX_DATA_PACKET_SIZE` hands it to `onPingResponse` and stays idle. -/
theorem oversize_pingAck (e : Env) (fuel : Nat) (c : ProxyConnection)
    (chunks : List (Nat × Bytes)) (f : Bytes) (hc : c.stickyBuffer = [])
    (hf : ntohs f = f.length) (hbig : MAX_DATA_PACKET_SIZE < f.length)
    (hs : streamOf chunks = f) (hfuel : 1 < fuel)
    (hst : c.state = ConnectionState.Idling)
    (hack : PacketFlag.isAck (f.getD 2 0 % 256) = true)
    (htype : PacketFlag.getType (f.getD 2 0 % 256) = e.pf.PING) :
    ∃ c1, feed e fuel c chunks = some c1 ∧ c1.state = ConnectionState.Idling ∧
      c1.handlers = c.handlers ++ [Handler.onPingResponse] ∧
      c1.dispatched = c.dispatched ++ [f] ∧ c1.stickyBuffer = [] := by
  have h := oversize_dispatched e fuel c chunks f hc hf hbig hs hfuel
  rw [processRelayPacket_pingAck e c f f.length hst hack htype] at h
  refine ⟨_, h, hst, Eq.refl _, ?_, Eq.refl _⟩
  show c.dispatched ++ [f.take f.length] = c.dispatched ++ [f]
  rw [List.take_length]

/-- C3 (counterexample). A frame of 0x8000 bytes, one more than
`MAX_DATA_PACKET_SIZE`, of type `PING` with the ACK bit, read by an idle
connection in eight reads of 4096 bytes: the reads return, the connection is
still `Idling` and not `Closed`, and the frame has been handed to the packet
handler `onPingResponse`. -/
theorem C3_oversize_frame_is_handled :
    ntohs (streamOf oversizeChunks) = 0x8000 ∧ (streamOf oversizeChunks).length = 0x8000 ∧
    MAX_DATA_PACKET_SIZE < 0x8000 ∧
    ∃ c1, feed sampleEnv 2 (sampleConnection ConnectionState.Idling) oversizeChunks = some c1 ∧
      c1.state = ConnectionState.Idling ∧ c1.state ≠ ConnectionState.Closed ∧
      c1.handlers = [Handler.onPingResponse] ∧
      c1.dispatched = [streamOf oversizeChunks] := by
  obtain ⟨rest, hrest, hlen⟩ := oversizeChunks_stream
  have hl : (streamOf oversizeChunks).length = 0x8000 := by
    rw [hrest]
    simp only [List.length_cons, hlen]
  have hn : ntohs (streamOf oversizeChunks) = 0x8000 := by
    rw [hrest]
    rfl
  have hflag : (streamOf oversizeChunks).getD 2 0 = 0x90 := by
    rw [hrest]
    rfl
  refine ⟨hn, hl, by decide, ?_⟩
  obtain ⟨c1, h1, h2, h3, h4, _⟩ := oversize_pingAck sampleEnv 2
    (sampleConnection ConnectionState.Idling) oversizeChunks (streamOf oversizeChunks)
    (Eq.refl _) (by rw [hn, hl]) (by rw [hl]; decide) (Eq.refl _) (by decide) (Eq.refl _)
    (by rw [hflag]; decide) (by rw [hflag]; decide)
  exact ⟨c1, h1, h2, by rw [h2]; decide, h3, h4⟩

/-- C3 (amended). `onRelayRead` makes no check of the size field against
`MAX_DATA_PACKET_SIZE`. For every connection, in whatever state, with empty
sticky buffer, and every stream that starts with a complete frame `f` whose size
field exceeds 0x7FFF and continues with further frames and an incomplete rest,
in any chunking: the reads do what `processRelayPacket` does when it is called
on `f` and then on the frames after it, like on frames of permitted size; where
each of these calls returns, the reads return, `f` and the frames after it
have been passed to `processRelayPacket`, in order, and the rest is in the
sticky buffer. In particular `processRelayPacket` returns and leaves an idle
connection idle on an oversized `PING|ACK`, and the reads of that frame alone
return with the connection idle. Frames whose size field is below 3 are not
part of the statement. -/
theorem C3_oversize_frames_are_dispatched (e : Env) (fuel : Nat) (c : ProxyConnection)
    (chunks : List (Nat × Bytes)) (f : Bytes) (more : List Bytes) (r : Bytes)
    (hc : c.stickyBuffer = []) (hf : ntohs f = f.length)
    (hbig : MAX_DATA_PACKET_SIZE < f.length) (hmore : ∀ g ∈ more, Framed g)
    (hr : Incomplete r) (hs : streamOf chunks = f ++ more.flatten ++ r)
    (hfuel : more.length + 1 < fuel) :
    feed e fuel c chunks
      = (dispatchFrames e c (f :: more)).map
          (fun d => withFraming d r (lastTime c.keepAliveTimestamp chunks)) ∧
    (∀ d, dispatchFrames e c (f :: more) = some d →
      ∃ c1, feed e fuel c chunks = some c1 ∧ c1.dispatched = c.dispatched ++ f :: more ∧
        c1.stickyBuffer = r ∧ c1.state = d.state ∧ c1.handlers = d.handlers) ∧
    (c.state = ConnectionState.Idling → PacketFlag.isAck (f.getD 2 0 % 256) = true →
      PacketFlag.getType (f.getD 2 0 % 256) = e.pf.PING →
      (∃ d, processRelayPacket e c f f.length = some d ∧
        d.state = ConnectionState.Idling ∧
        d.handlers = c.handlers ++ [Handler.onPingResponse]) ∧
      (more = [] → ∃ c1, feed e fuel c chunks = some c1 ∧
        c1.state = ConnectionState.Idling ∧
        c1.handlers = c.handlers ++ [Handler.onPingResponse] ∧
        c1.dispatched = c.dispatched ++ [f] ∧ c1.stickyBuffer = r)) := by
  have hF : Framed f := ⟨hf, by
    have h1 : MAX_DATA_PACKET_SIZE = 32767 := Eq.refl _
    have h2 : PACKET_HEADER_BYTES = 3 := Eq.refl _
    omega⟩
  have hall : feed e fuel c chunks
      = (dispatchFrames e c (f :: more)).map
          (fun d => withFraming d r (lastTime c.keepAliveTimestamp chunks)) :=
    feed_frames e fuel chunks c (f :: more) r
      (by rw [hc]; exact Or.inl (by decide))
      (fun g hg => by
        rcases List.mem_cons.mp hg with h | h
        · rw [h]
          exact hF
        · exact hmore g h)
      hr (by rw [hc, hs]; simp) (by simpa using hfuel)
  refine ⟨hall, ?_, ?_⟩
  · intro d hd
    rw [hd] at hall
    exact ⟨_, hall, (dispatchFrames_framing e (f :: more) c d hd).2.2, Eq.refl _, Eq.refl _,
      Eq.refl _⟩
  · intro hst hack htype
    have hp := processRelayPacket_pingAck e c f f.length hst hack htype
    refine ⟨⟨_, hp, hst, Eq.refl _⟩, ?_⟩
    intro hm
    subst hm
    rw [dispatchFrames_cons, hp] at hall
    refine ⟨_, hall, hst, Eq.refl _, ?_, Eq.refl _⟩
    show c.dispatched ++ [f.take f.length] = c.dispatched ++ [f]
    rw [List.take_length]

/-- An instance of the amended C3: the 0x8000-byte frame of `oversizeChunks`
read by a connection that is `Relaying`, where `PING|ACK` is a wrong packet. -/
theorem C3_oversize_frames_are_dispatched_witness :
    feed sampleEnv 2 (sampleConnection ConnectionState.Relaying) oversizeChunks
      = (dispatchFrames sampleEnv (sampleConnection ConnectionState.Relaying)
          [streamOf oversizeChunks]).map
          (fun d => withFraming d []
            (lastTime (sampleConnection ConnectionState.Relaying).keepAliveTimestamp
              oversizeChunks)) :=
  have hl : (streamOf oversizeChunks).length = 0x8000 := by
    obtain ⟨rest, hrest, hlen⟩ := oversizeChunks_stream
    rw [hrest]
    simp only [List.length_cons, hlen]
  have hn : ntohs (streamOf oversizeChunks) = 0x8000 := by
    obtain ⟨rest, hrest, _⟩ := oversizeChunks_stream
    rw [hrest]
    rfl
  (C3_oversize_frames_are_dispatched sampleEnv 2 (sampleConnection ConnectionState.Relaying)
    oversizeChunks (streamOf oversizeChunks) [] [] (Eq.refl _) (by rw [hn, hl])
    (by rw [hl]; decide) (by simp) (Or.inl (by decide)) (by simp) (by decide)).1

/-! ## The DATA codec -/

theorem intoBlob_length (n : Nat) (src : Bytes) : (intoBlob n src).length = n := by
  unfold intoBlob
  rw [List.length_take, List.length_append, List.length_replicate]
  omega

theorem intoBlob_of_length (n : Nat) (src : Bytes) (h : src.length = n) :
    intoBlob n src = src := by
  unfold intoBlob
  rw [List.take_append_of_le_length (by omega), List.take_of_length_le (by omega)]

theorem close_relayWrites (c : ProxyConnection) : (close c).relayWrites = c.relayWrites := by
  unfold close
  split_ifs with h
  · rfl
  · dsimp only
    split_ifs <;> rfl

/-- What `sendDataRequest` hands to `uv_write` on an open connection: one
request, the header followed by the cipher blob. -/
theorem sendDataRequest_relayWrites (e : Env) (c : ProxyConnection) (data : Bytes)
    (hst : c.state ≠ ConnectionState.Closed) :
    (sendDataRequest e c data).relayWrites = c.relayWrites ++
      [{ len := PACKET_HEADER_BYTES + MAC_BYTES + data.length
         buf := htons (PACKET_HEADER_BYTES + MAC_BYTES + data.length) ++ [e.pf.data] ++
           intoBlob (data.length + MAC_BYTES) (e.crypto.encrypt c.proxy.box data c.nonce)
         tag := 0 }] := by
  unfold sendDataRequest
  rw [if_neg hst]
  dsimp only
  split_ifs
  · rw [close_relayWrites]
  · rfl
  · rfl

/-- What `onDataRequest` hands to `uv_write` on the upstream stream when it
returns, and what it leaves alone. -/
theorem onDataRequest_effect (e : Env) (c : ProxyConnection) (packet : Bytes) (size : Nat)
    (c1 : ProxyConnection) (h : onDataRequest e c packet size = some c1) :
    c1.upstreamWrites = c.upstreamWrites ++
      [{ len := sizeSub (sizeSub size PACKET_HEADER_BYTES) MAC_BYTES
         buf := e.crypto.decrypt c.proxy.box
           ((packet.drop PACKET_HEADER_BYTES).take (sizeSub size PACKET_HEADER_BYTES)) c.nonce
         tag := 0 }] ∧
    c1.handlers = c.handlers ++ [Handler.onDataRequest] ∧
    c1.dispatched = c.dispatched := by
  unfold onDataRequest at h
  dsimp only at h
  by_cases hb : PTRDIFF_MAX < sizeSub (sizeSub size PACKET_HEADER_BYTES) MAC_BYTES
  · rw [if_pos hb] at h
    exact Option.noConfusion h
  · rw [if_neg hb] at h
    by_cases hrc : e.world.rc c.calls < 0
    · rw [if_pos hrc] at h
      cases h
      have h := quiet_trans (sendDisconnectRequest_quiet e _) (closeUpstream_quiet e
        (sendDisconnectRequest e
          { c with
            handlers := c.handlers ++ [Handler.onDataRequest]
            upstreamWrites := c.upstreamWrites ++
              [{ len := sizeSub (sizeSub size PACKET_HEADER_BYTES) MAC_BYTES
                 buf := e.crypto.decrypt c.proxy.box
                   ((packet.drop PACKET_HEADER_BYTES).take
                     (sizeSub size PACKET_HEADER_BYTES)) c.nonce
                 tag := 0 }]
            calls := c.calls + 1 }) false)
      exact ⟨h.upstreamWrites, h.handlers, h.dispatched⟩
    · rw [if_neg hrc] at h
      cases h
      exact ⟨Eq.refl _, Eq.refl _, Eq.refl _⟩

/-- On a packet that holds header and MAC, `onDataRequest` returns: the
connection after the request has been handed to `uv_write`, or, when `uv_write`
refuses it, after `sendDisconnectRequest()` and `closeUpstream()`. -/
theorem onDataRequest_returns (e : Env) (c : ProxyConnection) (packet : Bytes) (size : Nat)
    (hsize : 19 ≤ size) (hmax : size ≤ PTRDIFF_MAX) :
    ∃ c1, onDataRequest e c packet size = some c1 ∧
      (0 ≤ e.world.rc c.calls → c1 = { c with
        handlers := c.handlers ++ [Handler.onDataRequest]
        upstreamWrites := c.upstreamWrites ++
          [{ len := size - 19
             buf := e.crypto.decrypt c.proxy.box
               ((packet.drop PACKET_HEADER_BYTES).take
                 (sizeSub size PACKET_HEADER_BYTES)) c.nonce
             tag := 0 }]
        calls := c.calls + 1 }) := by
  unfold onDataRequest
  dsimp only
  rw [payload_length size hsize hmax, if_neg (by omega)]
  by_cases hrc : e.world.rc c.calls < 0
  · rw [if_pos hrc]
    exact ⟨_, Eq.refl _, fun h => absurd hrc (not_lt.mpr h)⟩
  · rw [if_neg hrc]
    exact ⟨_, Eq.refl _, fun _ => Eq.refl _⟩

/-- C4. Codec round trip for DATA. Let the session box satisfy
`decrypt(encrypt(p, nonce), nonce) = p` with a ciphertext of `|p| + 16` bytes,
for a plaintext `p` of 1 to 32748 bytes. The request that `sendDataRequest`
builds on an open connection is one packet `pkt`: size field, the flag `DATA`,
the ciphertext. A relaying connection with the same box and nonce and an empty
sticky buffer that reads `pkt` parses it as exactly one frame, whose flag has
type `DATA` and no ACK bit and whose payload is the ciphertext, hands it to
`onDataRequest`, and what `onDataRequest` writes upstream is exactly `p`. -/
theorem C4_data_round_trip (e : Env) (cs cr : ProxyConnection) (p : Bytes) (fuel now : Nat)
    (hp1 : 1 ≤ p.length) (hp2 : p.length ≤ 32748)
    (hopen : cs.state ≠ ConnectionState.Closed)
    (hrelaying : cr.state = ConnectionState.Relaying) (hsticky : cr.stickyBuffer = [])
    (hnonce : cr.nonce = cs.nonce) (hbox : cr.proxy.box = cs.proxy.box)
    (hdec : e.crypto.decrypt cs.proxy.box (e.crypto.encrypt cs.proxy.box p cs.nonce) cs.nonce
      = p)
    (hlen : (e.crypto.encrypt cs.proxy.box p cs.nonce).length = p.length + 16)
    (hfuel : 1 < fuel) :
    ∃ pkt : Bytes,
      (sendDataRequest e cs p).relayWrites
        = cs.relayWrites ++ [{ len := pkt.length, buf := pkt, tag := 0 }] ∧
      pkt = htons (p.length + 19) ++ [e.pf.DATA] ++ e.crypto.encrypt cs.proxy.box p cs.nonce ∧
      PacketFlag.getType (pkt.getD 2 0 % 256) = e.pf.DATA ∧
      PacketFlag.isAck (pkt.getD 2 0 % 256) = false ∧
      pkt.drop PACKET_HEADER_BYTES = e.crypto.encrypt cs.proxy.box p cs.nonce ∧
      ∃ cr1, onRelayRead e fuel now cr pkt = some cr1 ∧
        cr1.dispatched = cr.dispatched ++ [pkt] ∧
        cr1.stickyBuffer = [] ∧
        cr1.handlers = cr.handlers ++ [Handler.onDataRequest] ∧
        cr1.upstreamWrites = cr.upstreamWrites ++ [{ len := p.length, buf := p, tag := 0 }] := by
  have h03 : PACKET_HEADER_BYTES = 3 := Eq.refl _
  have h16 : MAC_BYTES = 16 := Eq.refl _
  have hblob : intoBlob (p.length + MAC_BYTES) (e.crypto.encrypt cs.proxy.box p cs.nonce)
      = e.crypto.encrypt cs.proxy.box p cs.nonce := intoBlob_of_length _ _ (by rw [hlen, h16])
  have hsz : PACKET_HEADER_BYTES + MAC_BYTES + p.length = p.length + 19 := by omega
  obtain ⟨pkt, hpkt⟩ : ∃ pkt : Bytes, pkt = htons (p.length + 19) ++ [e.pf.DATA]
      ++ e.crypto.encrypt cs.proxy.box p cs.nonce := ⟨_, Eq.refl _⟩
  have hpl : pkt.length = p.length + 19 := by
    rw [hpkt]
    simp only [htons, List.length_append, List.length_cons, List.length_nil, hlen]
    omega
  have hdata := packetFlag_DATA_lt e.pf
  have hflag : pkt.getD 2 0 = e.pf.DATA := by
    rw [hpkt]
    rfl
  have htypeD : PacketFlag.getType (pkt.getD 2 0 % 256) = e.pf.DATA := by
    rw [hflag]
    unfold PacketFlag.getType
    omega
  have hdrop : pkt.drop PACKET_HEADER_BYTES = e.crypto.encrypt cs.proxy.box p cs.nonce := by
    rw [hpkt]
    rfl
  have hF : Framed pkt := by
    refine ⟨?_, by rw [hpl, h03]; omega⟩
    rw [hpl, hpkt, List.append_assoc, ntohs_htons _ _ (by omega)]
  refine ⟨pkt, ?_, hpkt, htypeD, ?_, hdrop, ?_⟩
  · rw [sendDataRequest_relayWrites e cs p hopen, hblob, hsz, hpl, hpkt]
    rfl
  · rw [hflag]
    unfold PacketFlag.isAck
    simp only [decide_eq_false_iff_not, not_le]
    omega
  · have hread := onRelayRead_frames e fuel now cr pkt [pkt] []
      (by rw [hsticky]; exact Or.inl (by decide))
      (fun g hg => by rw [List.mem_singleton.mp hg]; exact hF) (Or.inl (by decide))
      (by rw [hsticky]; simp) (by simpa using hfuel)
    obtain ⟨d, hd, _⟩ := onDataRequest_returns e
      { cr with dispatched := cr.dispatched ++ [pkt.take pkt.length] } pkt pkt.length
      (by omega) (by unfold PTRDIFF_MAX; omega)
    have hproc : dispatchFrames e cr [pkt] = some d := by
      rw [dispatchFrames_cons, processRelayPacket_data e cr pkt pkt.length hrelaying htypeD, hd]
      rfl
    rw [hproc] at hread
    obtain ⟨he1, he2, _⟩ := onDataRequest_effect e _ _ _ d hd
    refine ⟨_, hread, ?_, Eq.refl _, ?_, ?_⟩
    · exact (dispatchFrames_framing e [pkt] cr d hproc).2.2
    · exact he2
    · show d.upstreamWrites = _
      have hs1 : sizeSub (p.length + 19) PACKET_HEADER_BYTES = p.length + 16 := by
        rw [sizeSub_of_le _ _ (by omega) (by omega)]
        omega
      have hs2 : sizeSub (p.length + 16) MAC_BYTES = p.length := by
        rw [sizeSub_of_le _ _ (by omega) (by omega)]
        omega
      have htk : (e.crypto.encrypt cs.proxy.box p cs.nonce).take (p.length + 16)
          = e.crypto.encrypt cs.proxy.box p cs.nonce :=
        List.take_of_length_le (by rw [hlen])
      rw [he1]
      dsimp only
      rw [hpl, hs1, hs2, hdrop, htk, hbox, hnonce, hdec]

/-- An instance of C4: the plaintext `01 02 03` under the sample crypto, sent by
one relaying connection and read by another with the same box and nonce. -/
theorem C4_data_round_trip_witness :
    ∃ pkt : Bytes,
      (sendDataRequest sampleEnv (sampleConnection ConnectionState.Relaying) [1, 2, 3]).relayWrites
        = (sampleConnection ConnectionState.Relaying).relayWrites
          ++ [{ len := pkt.length, buf := pkt, tag := 0 }] ∧
      pkt = htons (([1, 2, 3] : Bytes).length + 19) ++ [sampleEnv.pf.DATA]
        ++ sampleEnv.crypto.encrypt (sampleConnection ConnectionState.Relaying).proxy.box
          [1, 2, 3] (sampleConnection ConnectionState.Relaying).nonce ∧
      PacketFlag.getType (pkt.getD 2 0 % 256) = sampleEnv.pf.DATA ∧
      PacketFlag.isAck (pkt.getD 2 0 % 256) = false ∧
      pkt.drop PACKET_HEADER_BYTES
        = sampleEnv.crypto.encrypt (sampleConnection ConnectionState.Relaying).proxy.box
          [1, 2, 3] (sampleConnection ConnectionState.Relaying).nonce ∧
      ∃ cr1, onRelayRead sampleEnv 2 5 (sampleConnection ConnectionState.Relaying) pkt
          = some cr1 ∧
        cr1.dispatched = (sampleConnection ConnectionState.Relaying).dispatched ++ [pkt] ∧
        cr1.stickyBuffer = [] ∧
        cr1.handlers = (sampleConnection ConnectionState.Relaying).handlers
          ++ [Handler.onDataRequest] ∧
        cr1.upstreamWrites = (sampleConnection ConnectionState.Relaying).upstreamWrites
          ++ [{ len := ([1, 2, 3] : Bytes).length, buf := [1, 2, 3], tag := 0 }] :=
  C4_data_round_trip sampleEnv (sampleConnection ConnectionState.Relaying)
    (sampleConnection ConnectionState.Relaying) [1, 2, 3] 2 5 (by decide) (by decide)
    (by decide) (Eq.refl _) (Eq.refl _) (Eq.refl _) (Eq.refl _) (by decide) (by decide)
    (by decide)

/-- C5. `MAX_UPSTREAM_READ_BUFFER_SIZE` is 0x7FFF - 3 - 16 = 32748 and the buffer
offered for an upstream read is never larger. For an upstream read of `n` bytes,
1 ≤ n ≤ 32748, on a connection that is not closed, `sendDataRequest` hands
exactly one request to `uv_write`: a DATA packet of `n + 19` bytes, at most
0x7FFF, whose big-endian size field is `n + 19` (no truncation to 16 bits);
for `n = 32748` the packet has exactly 0x7FFF bytes. -/
theorem C5_data_packet_size (e : Env) (c : ProxyConnection) (data : Bytes)
    (hopen : c.state ≠ ConnectionState.Closed) (h1 : 1 ≤ data.length)
    (h2 : data.length ≤ 32748) :
    MAX_UPSTREAM_READ_BUFFER_SIZE = 0x7FFF - 3 - 16 ∧ MAX_UPSTREAM_READ_BUFFER_SIZE = 32748 ∧
    (∀ suggested : Nat, upstreamReadBufferSize suggested ≤ MAX_UPSTREAM_READ_BUFFER_SIZE) ∧
    ∃ pkt : Bytes,
      (sendDataRequest e c data).relayWrites
        = c.relayWrites ++ [{ len := data.length + 19, buf := pkt, tag := 0 }] ∧
      pkt.length = data.length + 19 ∧ data.length + 19 ≤ 0x7FFF ∧
      ntohs pkt = data.length + 19 ∧
      pkt.getD 2 0 = e.pf.DATA ∧
      (data.length = 32748 → pkt.length = 0x7FFF) := by
  have h03 : PACKET_HEADER_BYTES = 3 := Eq.refl _
  have h16 : MAC_BYTES = 16 := Eq.refl _
  have hsz : PACKET_HEADER_BYTES + MAC_BYTES + data.length = data.length + 19 := by omega
  refine ⟨Eq.refl _, Eq.refl _, ?_, ?_⟩
  · intro suggested
    unfold upstreamReadBufferSize
    split_ifs with h
    · exact Nat.le_refl _
    · omega
  · obtain ⟨pkt, hpkt⟩ : ∃ pkt : Bytes, pkt = htons (data.length + 19) ++ [e.pf.data]
        ++ intoBlob (data.length + MAC_BYTES) (e.crypto.encrypt c.proxy.box data c.nonce) :=
      ⟨_, Eq.refl _⟩
    have hpl : pkt.length = data.length + 19 := by
      rw [hpkt]
      simp only [htons, List.length_append, List.length_cons, List.length_nil,
        intoBlob_length]
      omega
    refine ⟨pkt, ?_, hpl, by omega, ?_, ?_, ?_⟩
    · rw [sendDataRequest_relayWrites e c data hopen, hsz, hpkt]
    · rw [hpkt, List.append_assoc, ntohs_htons _ _ (by omega)]
    · rw [hpkt]
      rfl
    · intro h
      rw [hpl, h]

/-- An instance of C5: an upstream read of the three bytes `01 02 03`. -/
theorem C5_data_packet_size_witness :
    MAX_UPSTREAM_READ_BUFFER_SIZE = 0x7FFF - 3 - 16 ∧ MAX_UPSTREAM_READ_BUFFER_SIZE = 32748 ∧
    (∀ suggested : Nat, upstreamReadBufferSize suggested ≤ MAX_UPSTREAM_READ_BUFFER_SIZE) ∧
    ∃ pkt : Bytes,
      (sendDataRequest sampleEnv (sampleConnection ConnectionState.Relaying) [1, 2, 3]).relayWrites
        = (sampleConnection ConnectionState.Relaying).relayWrites
          ++ [{ len := ([1, 2, 3] : Bytes).length + 19, buf := pkt, tag := 0 }] ∧
      pkt.length = ([1, 2, 3] : Bytes).length + 19 ∧
      ([1, 2, 3] : Bytes).length + 19 ≤ 0x7FFF ∧
      ntohs pkt = ([1, 2, 3] : Bytes).length + 19 ∧
      pkt.getD 2 0 = sampleEnv.pf.DATA ∧
      (([1, 2, 3] : Bytes).length = 32748 → pkt.length = 0x7FFF) :=
  C5_data_packet_size sampleEnv (sampleConnection ConnectionState.Relaying) [1, 2, 3]
    (by decide) (by decide) (by decide)

/-! ## The handshake -/

/-- The effect of the shared tail of the `send…` functions: the request is
handed to `uv_write`; the connection is closed when `uv_write` refuses it and
keeps its state otherwise; the nonce is not touched. -/
theorem relayWrite_effect (e : Env) (c : ProxyConnection) (r : WriteRequest) :
    (relayWrite e c r).relayWrites = c.relayWrites ++ [r] ∧
    (relayWrite e c r).state
      = (if e.world.rc c.calls < 0 then ConnectionState.Closed else c.state) ∧
    (relayWrite e c r).nonce = c.nonce := by
  unfold relayWrite
  dsimp only
  split_ifs
  · exact ⟨close_relayWrites _, close_state _, (close_quiet _).nonce⟩
  · exact ⟨Eq.refl _, Eq.refl _, Eq.refl _⟩

theorem randomBytes_length (w : World) (k n : Nat) : (randomBytes w k n).length = n := by
  unfold randomBytes
  rw [List.length_map, List.length_range]

/-- C6 (counterexample). A connection in state `Initializing` of a proxy that
is not yet authenticated receives a challenge of 32 bytes, and `uv_write`
refuses the AUTH request (return code -32): the connection ends `Closed`, not
`Authenticating`. -/
theorem C6_refused_write_closes :
    (sampleConnection ConnectionState.Initializing).proxy.isAuthenticated = false ∧
    sampleChallenge.length = 32 ∧
    (onChallenge refusingEnv (sampleConnection ConnectionState.Initializing)
      sampleChallenge).state = ConnectionState.Closed ∧
    (onChallenge refusingEnv (sampleConnection ConnectionState.Initializing)
      sampleChallenge).state ≠ ConnectionState.Authenticating := by
  decide

/-- C6 (amended). For every connection in state `Initializing` and every
challenge of `n` bytes, 32 ≤ n ≤ 256: if the proxy does not yet know the
server session key, exactly one request is handed to `uv_write` on the relay
stream, the AUTH packet, and the state is `Authenticating` if `uv_write`
accepts it and `Closed` if it refuses it; otherwise exactly one ATTACH packet
is handed over and the state is `Attaching`, or `Closed` on refusal. In both
packets the sealed plaintext holds, after the session key and the fresh nonce,
the first 64 bytes of the node's signature over exactly the `n` challenge
bytes. -/
theorem C6_challenge_response (e : Env) (c : ProxyConnection) (data : Bytes)
    (hst : c.state = ConnectionState.Initializing) (h32 : 32 ≤ data.length)
    (h256 : data.length ≤ 256) :
    ∃ (padding : Nat) (pad : Bytes), padding < 256 ∧ pad.length = padding ∧
      (onChallenge e c data).nonce = randomBytes e.world c.calls NONCE_BYTES ∧
      (c.proxy.isAuthenticated = false →
        (onChallenge e c data).relayWrites = c.relayWrites ++
          [{ len := 3 + c.proxy.nodeId.length + 16
               + (32 + 24 + 64 + 1 + c.proxy.domainName.length + padding)
             buf := htons (3 + c.proxy.nodeId.length + 16
                 + (32 + 24 + 64 + 1 + c.proxy.domainName.length + padding))
               ++ [e.pf.AUTH] ++ c.proxy.nodeId
               ++ intoBlob (32 + 24 + 64 + 1 + c.proxy.domainName.length + padding + 16)
                 (e.crypto.encryptWithNode c.proxy.serverId
                   (intoBlob (32 + 24 + 64 + 1 + c.proxy.domainName.length + padding)
                     (c.proxy.sessionKey.publicKey ++ (onChallenge e c data).nonce
                       ++ (e.crypto.sign data).take 64
                       ++ [c.proxy.domainName.length % 256] ++ c.proxy.domainName ++ pad)))
             tag := 0 }] ∧
        (onChallenge e c data).state
          = (if e.world.rc (c.calls + 3) < 0 then ConnectionState.Closed
             else ConnectionState.Authenticating)) ∧
      (c.proxy.isAuthenticated = true →
        (onChallenge e c data).relayWrites = c.relayWrites ++
          [{ len := 3 + c.proxy.nodeId.length + 16 + (32 + 24 + 64) + padding
             buf := htons (3 + c.proxy.nodeId.length + 16 + (32 + 24 + 64) + padding)
               ++ [e.pf.ATTACH] ++ c.proxy.nodeId
               ++ intoBlob (32 + 24 + 64 + 16)
                 (e.crypto.encryptWithNode c.proxy.serverId
                   (intoBlob (32 + 24 + 64)
                     (c.proxy.sessionKey.publicKey ++ (onChallenge e c data).nonce
                       ++ (e.crypto.sign data).take 64)))
               ++ pad
             tag := 0 }] ∧
        (onChallenge e c data).state
          = (if e.world.rc (c.calls + 3) < 0 then ConnectionState.Closed
             else ConnectionState.Attaching)) := by
  have hne : c.state ≠ ConnectionState.Closed := by
    rw [hst]
    decide
  have hsize : ¬ ((decide (data.length < 32) || decide (data.length > 256)) = true) := by
    simp only [Bool.or_eq_true, decide_eq_true_eq, not_or, not_lt]
    omega
  by_cases hauth : c.proxy.isAuthenticated = true
  · have hrun : onChallenge e c data = sendAttachRequest e c data := by
      unfold onChallenge
      rw [if_neg hsize, if_pos hauth]
    have hn : (onChallenge e c data).nonce = randomBytes e.world c.calls NONCE_BYTES := by
      rw [hrun]
      unfold sendAttachRequest
      rw [if_neg hne]
      exact (relayWrite_effect e _ _).2.2
    refine ⟨e.world.random (c.calls + 1) % 256,
      randomBytes e.world (c.calls + 1 + 1) (e.world.random (c.calls + 1) % 256),
      Nat.mod_lt _ (by decide), randomBytes_length _ _ _, hn, ?_, ?_⟩
    · intro h
      rw [h] at hauth
      exact absurd hauth (by decide)
    · intro _
      rw [hn, hrun]
      unfold sendAttachRequest
      rw [if_neg hne]
      dsimp only
      exact ⟨(relayWrite_effect e _ _).1, (relayWrite_effect e _ _).2.1⟩
  · have hrun : onChallenge e c data = sendAuthenticateRequest e c data := by
      unfold onChallenge
      rw [if_neg hsize, if_neg hauth]
    have hn : (onChallenge e c data).nonce = randomBytes e.world c.calls NONCE_BYTES := by
      rw [hrun]
      unfold sendAuthenticateRequest
      rw [if_neg hne]
      exact (relayWrite_effect e _ _).2.2
    refine ⟨e.world.random (c.calls + 1) % 256,
      randomBytes e.world (c.calls + 1 + 1) (e.world.random (c.calls + 1) % 256),
      Nat.mod_lt _ (by decide), randomBytes_length _ _ _, hn, ?_, ?_⟩
    · intro _
      rw [hn, hrun]
      unfold sendAuthenticateRequest
      rw [if_neg hne]
      dsimp only
      exact ⟨(relayWrite_effect e _ _).1, (relayWrite_effect e _ _).2.1⟩
    · intro h
      exact absurd h hauth

/-- An instance of the amended C6: the sample connection, not yet authenticated,
receives the sample challenge and `uv_write` accepts the request. One request is
handed over, its flag byte is `AUTH`, and the state is `Authenticating`. -/
theorem C6_challenge_response_witness :
    ∃ request : WriteRequest,
      (onChallenge sampleEnv (sampleConnection ConnectionState.Initializing)
        sampleChallenge).relayWrites = [request] ∧
      request.buf.getD 2 0 = sampleEnv.pf.AUTH ∧
      (onChallenge sampleEnv (sampleConnection ConnectionState.Initializing)
        sampleChallenge).state = ConnectionState.Authenticating := by
  obtain ⟨padding, pad, _, _, _, h, _⟩ := C6_challenge_response sampleEnv
    (sampleConnection ConnectionState.Initializing) sampleChallenge (Eq.refl _) (by decide)
    (by decide)
  obtain ⟨hw, hs⟩ := h (by decide)
  exact ⟨_, hw, Eq.refl _, hs.trans (by decide)⟩

/-- A connection in state `Authenticating` hands a packet of type `AUTH` with
the ACK bit to `onAuthenticateResponse`. -/
theorem processRelayPacket_authAck (e : Env) (c : ProxyConnection) (packet : Bytes) (size : Nat)
    (hst : c.state = ConnectionState.Authenticating)
    (hack : PacketFlag.isAck (packet.getD 2 0 % 256) = true)
    (htype : PacketFlag.getType (packet.getD 2 0 % 256) = e.pf.AUTH) :
    processRelayPacket e c packet size
      = some (onAuthenticateResponse e { c with dispatched := c.dispatched ++ [packet.take size] }
          packet size) := by
  unfold processRelayPacket
  dsimp only
  rw [htype, hack, if_neg (packetFlag_ne_ERR e.pf).1, hst]
  dsimp only
  rw [if_pos (by simp)]

/-- A connection in state `Attaching` hands a packet of type `ATTACH` with the
ACK bit to `onAttachResponse`. -/
theorem processRelayPacket_attachAck (e : Env) (c : ProxyConnection) (packet : Bytes)
    (size : Nat) (hst : c.state = ConnectionState.Attaching)
    (hack : PacketFlag.isAck (packet.getD 2 0 % 256) = true)
    (htype : PacketFlag.getType (packet.getD 2 0 % 256) = e.pf.ATTACH) :
    processRelayPacket e c packet size
      = some (onAttachResponse { c with dispatched := c.dispatched ++ [packet.take size] }
          packet size) := by
  unfold processRelayPacket
  dsimp only
  rw [htype, hack, if_neg (packetFlag_ne_ERR e.pf).2.1, hst]
  dsimp only
  rw [if_pos (by simp)]

/-- An `AUTH|ACK` shorter than `AUTH_ACK_SIZE` closes the connection; nothing is
recorded and nothing is announced. -/
theorem onAuthenticateResponse_short (e : Env) (c : ProxyConnection) (packet : Bytes)
    (size : Nat) (hsize : size < AUTH_ACK_SIZE) :
    (onAuthenticateResponse e c packet size).state = ConnectionState.Closed ∧
    (onAuthenticateResponse e c packet size).proxy.serverPk = c.proxy.serverPk ∧
    (onAuthenticateResponse e c packet size).proxy.relayPort = c.proxy.relayPort ∧
    (onAuthenticateResponse e c packet size).proxy.box = c.proxy.box ∧
    (onAuthenticateResponse e c packet size).authorized = c.authorized ∧
    (onAuthenticateResponse e c packet size).announced = c.announced := by
  unfold onAuthenticateResponse
  dsimp only
  rw [if_pos hsize]
  have h := close_quiet { c with handlers := c.handlers ++ [Handler.onAuthenticateResponse] }
  exact ⟨close_state _, h.serverPk, h.relayPort, h.box, h.authorized, h.announced⟩

/-- An `AUTH|ACK` of at least `AUTH_ACK_SIZE` bytes is accepted: the result in
terms of the 35 bytes of plaintext. -/
theorem onAuthenticateResponse_accepted (e : Env) (c : ProxyConnection) (packet : Bytes)
    (size : Nat) (hsize : AUTH_ACK_SIZE ≤ size) :
    onAuthenticateResponse e c packet size
      = onOpened
          { onAuthorized e { c with handlers := c.handlers ++ [Handler.onAuthenticateResponse] }
              ((intoBlob 35 (e.crypto.decryptWithNode c.proxy.serverId
                ((packet.drop 3).take 51))).take 32)
              (ntohs ((intoBlob 35 (e.crypto.decryptWithNode c.proxy.serverId
                ((packet.drop 3).take 51))).drop 32)) with
            announced := c.announced ++
              [{ keypair := c.proxy.peerKeypair, nodeId := c.proxy.serverId
                 origin := c.proxy.nodeId
                 port := ntohs ((intoBlob 35 (e.crypto.decryptWithNode c.proxy.serverId
                   ((packet.drop 3).take 51))).drop 32)
                 domain :=
                   if (intoBlob 35 (e.crypto.decryptWithNode c.proxy.serverId
                     ((packet.drop 3).take 51))).getD 34 0 % 256 ≠ 0
                   then c.proxy.domainName else [] }]
            state := ConnectionState.Idling } := by
  unfold onAuthenticateResponse
  dsimp only
  rw [if_neg (by omega)]
  simp only [onAuthorized, decide_eq_true_eq]
  rfl

/-- C7 (counterexample). An `AUTH|ACK` of 55 bytes, not the exact
`AUTH_ACK_SIZE` of 54, received in state `Authenticating`: the connection is
not closed but moves to `Idling`, and a server key and port are recorded. -/
theorem C7_longer_authAck_is_accepted :
    longAuthAck.length = 55 ∧ AUTH_ACK_SIZE = 54 ∧
    ∃ c1, processRelayPacket sampleEnv (sampleConnection ConnectionState.Authenticating)
        longAuthAck 55 = some c1 ∧
      c1.state = ConnectionState.Idling ∧ c1.authorized.length = 1 ∧
      c1.announced.length = 1 :=
  ⟨by decide, by decide, _, Eq.refl _, by decide, by decide, by decide⟩

/-- C7 (amended). `AUTH_ACK_SIZE` is 3 + 16 + 32 + 2 + 1 = 54. For every
connection in state `Authenticating`, an `AUTH|ACK` packet moves the connection
to `Idling` if and only if its size is at least 54 (a longer packet is accepted,
its trailing bytes are ignored); an `AUTH|ACK` of fewer than 54 bytes closes the
connection without recording a server session key or relay port and without
announcing a peer. -/
theorem C7_authAck_size (e : Env) (c : ProxyConnection) (packet : Bytes) (size : Nat)
    (hst : c.state = ConnectionState.Authenticating)
    (hack : PacketFlag.isAck (packet.getD 2 0 % 256) = true)
    (htype : PacketFlag.getType (packet.getD 2 0 % 256) = e.pf.AUTH) :
    AUTH_ACK_SIZE = 3 + 16 + 32 + 2 + 1 ∧ AUTH_ACK_SIZE = 54 ∧
    ∃ c1, processRelayPacket e c packet size = some c1 ∧
      (c1.state = ConnectionState.Idling ↔ 54 ≤ size) ∧
      (size < 54 →
        c1.state = ConnectionState.Closed ∧
        c1.proxy.serverPk = c.proxy.serverPk ∧
        c1.proxy.relayPort = c.proxy.relayPort ∧
        c1.authorized = c.authorized ∧
        c1.announced = c.announced) := by
  have h54 : AUTH_ACK_SIZE = 54 := Eq.refl _
  refine ⟨Eq.refl _, h54, _, processRelayPacket_authAck e c packet size hst hack htype,
    ⟨?_, ?_⟩, ?_⟩
  · intro h
    by_contra hlt
    have hs := (onAuthenticateResponse_short e
      { c with dispatched := c.dispatched ++ [packet.take size] } packet size
      (by omega)).1
    rw [hs] at h
    exact absurd h (by decide)
  · intro h
    rw [onAuthenticateResponse_accepted e _ packet size (by omega)]
    rfl
  · intro h
    have hs := onAuthenticateResponse_short e
      { c with dispatched := c.dispatched ++ [packet.take size] } packet size (by omega)
    exact ⟨hs.1, hs.2.1, hs.2.2.1, hs.2.2.2.2.1, hs.2.2.2.2.2⟩

/-- An instance of the amended C7: the `AUTH|ACK` of 53 bytes. -/
theorem C7_authAck_size_witness :
    AUTH_ACK_SIZE = 3 + 16 + 32 + 2 + 1 ∧ AUTH_ACK_SIZE = 54 ∧
    ∃ c1, processRelayPacket sampleEnv (sampleConnection ConnectionState.Authenticating)
        shortAuthAck 53 = some c1 ∧
      (c1.state = ConnectionState.Idling ↔ 54 ≤ 53) ∧
      (53 < 54 →
        c1.state = ConnectionState.Closed ∧
        c1.proxy.serverPk = (sampleConnection ConnectionState.Authenticating).proxy.serverPk ∧
        c1.proxy.relayPort
          = (sampleConnection ConnectionState.Authenticating).proxy.relayPort ∧
        c1.authorized = (sampleConnection ConnectionState.Authenticating).authorized ∧
        c1.announced = (sampleConnection ConnectionState.Authenticating).announced) :=
  C7_authAck_size sampleEnv (sampleConnection ConnectionState.Authenticating) shortAuthAck 53
    (Eq.refl _) (by decide) (by decide)

/-- The plaintext of an accepted `AUTH|ACK` read as server key, port and
domain-enabled byte. -/
theorem authAck_plaintext (pk : Bytes) (hi lo d : Nat) (hpk : pk.length = 32)
    (hhi : hi < 256) (hlo : lo < 256) :
    (intoBlob 35 (pk ++ [hi, lo, d])).take 32 = pk ∧
    ntohs ((intoBlob 35 (pk ++ [hi, lo, d])).drop 32) = 256 * hi + lo ∧
    (intoBlob 35 (pk ++ [hi, lo, d])).getD 34 0 = d := by
  rw [intoBlob_of_length 35 _ (by simp [hpk])]
  refine ⟨List.take_left' hpk, ?_, ?_⟩
  · rw [List.drop_left' hpk]
    unfold ntohs
    simp only [List.getD_cons_zero, List.getD_cons_succ]
    omega
  · rw [List.getD_append_right _ _ _ _ (by omega), hpk]
    rfl

/-- C8. For every `AUTH|ACK` accepted in state `Authenticating` (at least
`AUTH_ACK_SIZE` bytes) whose plaintext, decrypted from the 51 bytes after the
header, is a key `pk` of 32 bytes followed by the bytes `hi`, `lo`, `d`:
`onAuthorized` is called once, with `pk` and the port `256 * hi + lo`;
`announcePeer` is called exactly once, with a record that carries that port; the
state afterwards is `Idling`; the proxy has recorded `pk` and the port as relay
port, so that the port bytes `30 39` give the relay port 12345. -/
theorem C8_authAck_fields (e : Env) (c : ProxyConnection) (packet : Bytes) (size : Nat)
    (pk : Bytes) (hi lo d : Nat)
    (hst : c.state = ConnectionState.Authenticating)
    (hack : PacketFlag.isAck (packet.getD 2 0 % 256) = true)
    (htype : PacketFlag.getType (packet.getD 2 0 % 256) = e.pf.AUTH)
    (hsize : AUTH_ACK_SIZE ≤ size) (hpk : pk.length = 32) (hhi : hi < 256) (hlo : lo < 256)
    (hplain : e.crypto.decryptWithNode c.proxy.serverId ((packet.drop 3).take 51)
      = pk ++ [hi, lo, d]) :
    ∃ c1 peer, processRelayPacket e c packet size = some c1 ∧
      c1.authorized = c.authorized ++ [(pk, 256 * hi + lo)] ∧
      c1.announced = c.announced ++ [peer] ∧ peer.port = 256 * hi + lo ∧
      peer.keypair = c.proxy.peerKeypair ∧ peer.nodeId = c.proxy.serverId ∧
      peer.origin = c.proxy.nodeId ∧
      c1.state = ConnectionState.Idling ∧
      c1.hooks = c.hooks ++ [Hook.onAuthorized, Hook.onOpened] ∧
      c1.proxy.serverPk = some pk ∧ c1.proxy.relayPort = 256 * hi + lo ∧
      (hi = 0x30 → lo = 0x39 → c1.proxy.relayPort = 12345) := by
  obtain ⟨h1, h2, _⟩ := authAck_plaintext pk hi lo d hpk hhi hlo
  refine ⟨_, _, (processRelayPacket_authAck e c packet size hst hack htype).trans
    (congrArg some (onAuthenticateResponse_accepted e _ packet size hsize)), ?_, Eq.refl _, ?_,
    Eq.refl _, Eq.refl _, Eq.refl _, Eq.refl _, ?_, ?_, ?_, ?_⟩
  · show c.authorized ++ [(_, _)] = _
    dsimp only
    rw [hplain, h1, h2]
  · dsimp only
    rw [hplain, h2]
  · show c.hooks ++ [Hook.onAuthorized] ++ [Hook.onOpened] = _
    rw [List.append_assoc]
    rfl
  · show some _ = some pk
    dsimp only
    rw [hplain, h1]
  · show ntohs _ = _
    dsimp only
    rw [hplain, h2]
  · intro a b
    show ntohs _ = _
    dsimp only
    rw [hplain, h2, a, b]

/-- An instance of C8: the `AUTH|ACK` of 54 bytes whose plaintext is the key
`07…07`, the port bytes `30 39` and the domain-enabled byte 1. -/
theorem C8_authAck_fields_witness :
    ∃ c1, processRelayPacket sampleEnv (sampleConnection ConnectionState.Authenticating)
        (authAckWith 1) 54 = some c1 ∧
      c1.authorized = [(List.replicate 32 7, 12345)] ∧
      c1.announced.map (fun peer => peer.port) = [12345] ∧
      c1.state = ConnectionState.Idling ∧
      c1.proxy.relayPort = 12345 := by
  obtain ⟨c1, peer, h0, h1, h2, h3, _, _, _, h4, _, _, _, h5⟩ := C8_authAck_fields sampleEnv
    (sampleConnection ConnectionState.Authenticating) (authAckWith 1) 54
    (List.replicate 32 7) 0x30 0x39 1 (Eq.refl _) (by decide) (by decide) (by decide)
    (by decide) (by decide) (by decide) (by decide)
  refine ⟨c1, h0, h1, ?_, h4, h5 (Eq.refl _) (Eq.refl _)⟩
  rw [h2]
  show [peer.port] = [12345]
  rw [h3]

/-- C9 (counterexample). An accepted `AUTH|ACK` whose domain-enabled byte is 2,
not 1, for a proxy configured with the domain name "a": the announced peer
record carries the configured domain name, it is not empty. -/
theorem C9_domain_enabled_two :
    (sampleConnection ConnectionState.Authenticating).proxy.domainName = [97] ∧
    sampleEnv.crypto.decryptWithNode
      (sampleConnection ConnectionState.Authenticating).proxy.serverId
      (((authAckWith 2).drop 3).take 51) = List.replicate 32 7 ++ [0x30, 0x39, 2] ∧
    ∃ c1, processRelayPacket sampleEnv (sampleConnection ConnectionState.Authenticating)
        (authAckWith 2) 54 = some c1 ∧
      c1.state = ConnectionState.Idling ∧
      c1.announced.map (fun peer => peer.domain) = [[97]] :=
  ⟨by decide, by decide, _, Eq.refl _, by decide, by decide⟩

/-- C9 (amended). For every accepted `AUTH|ACK` whose plaintext is a key of 32
bytes followed by the bytes `hi`, `lo`, `d`: exactly one peer record is
announced, and it carries the configured domain name if the domain-enabled
byte `d` is non-zero (1 or any other non-zero value) and the empty domain if
`d` is zero. -/
theorem C9_domain_enabled (e : Env) (c : ProxyConnection) (packet : Bytes) (size : Nat)
    (pk : Bytes) (hi lo d : Nat)
    (hst : c.state = ConnectionState.Authenticating)
    (hack : PacketFlag.isAck (packet.getD 2 0 % 256) = true)
    (htype : PacketFlag.getType (packet.getD 2 0 % 256) = e.pf.AUTH)
    (hsize : AUTH_ACK_SIZE ≤ size) (hpk : pk.length = 32) (hhi : hi < 256) (hlo : lo < 256)
    (hd : d < 256)
    (hplain : e.crypto.decryptWithNode c.proxy.serverId ((packet.drop 3).take 51)
      = pk ++ [hi, lo, d]) :
    ∃ c1 peer, processRelayPacket e c packet size = some c1 ∧
      c1.announced = c.announced ++ [peer] ∧
      peer.domain = (if d = 0 then [] else c.proxy.domainName) ∧
      (d = 1 → peer.domain = c.proxy.domainName) ∧
      (d ≠ 0 → peer.domain = c.proxy.domainName) ∧
      (d = 0 → peer.domain = []) := by
  obtain ⟨_, _, h3⟩ := authAck_plaintext pk hi lo d hpk hhi hlo
  have hrun := (processRelayPacket_authAck e c packet size hst hack htype).trans
    (congrArg some (onAuthenticateResponse_accepted e _ packet size hsize))
  have hdom : (if (intoBlob 35 (e.crypto.decryptWithNode c.proxy.serverId
      ((packet.drop 3).take 51))).getD 34 0 % 256 ≠ 0 then c.proxy.domainName else [])
      = (if d = 0 then [] else c.proxy.domainName) := by
    rw [hplain, h3, Nat.mod_eq_of_lt hd]
    split_ifs <;> first | rfl | omega
  refine ⟨_, { keypair := c.proxy.peerKeypair, nodeId := c.proxy.serverId
               origin := c.proxy.nodeId
               port := ntohs ((intoBlob 35 (e.crypto.decryptWithNode c.proxy.serverId
                 ((packet.drop 3).take 51))).drop 32)
               domain := if (intoBlob 35 (e.crypto.decryptWithNode c.proxy.serverId
                   ((packet.drop 3).take 51))).getD 34 0 % 256 ≠ 0
                 then c.proxy.domainName else [] }, hrun, Eq.refl _, hdom, ?_, ?_, ?_⟩
  all_goals
    intro h
    refine hdom.trans ?_
    split_ifs
    all_goals first | rfl | omega

/-- An instance of the amended C9: the `AUTH|ACK` whose domain-enabled byte is 0
announces a record with the empty domain. -/
theorem C9_domain_enabled_witness :
    ∃ c1, processRelayPacket sampleEnv (sampleConnection ConnectionState.Authenticating)
        (authAckWith 0) 54 = some c1 ∧
      c1.announced.map (fun peer => peer.domain) = [[]] := by
  obtain ⟨c1, peer, h0, h1, _, _, _, h2⟩ := C9_domain_enabled sampleEnv
    (sampleConnection ConnectionState.Authenticating) (authAckWith 0) 54
    (List.replicate 32 7) 0x30 0x39 0 (Eq.refl _) (by decide) (by decide) (by decide)
    (by decide) (by decide) (by decide) (by decide) (by decide)
  refine ⟨c1, h0, ?_⟩
  rw [h1]
  show [peer.domain] = [[]]
  rw [h2 (Eq.refl _)]

/-- C10. ATTACH idempotence. For every connection in state `Attaching`,
processing an `ATTACH|ACK` packet, of whatever size, sets the state to `Idling`
and runs the `onOpened` hook, which resets the failure counter and the
reconnect interval of the proxy; beyond the records of the dispatch nothing
else changes: `onAuthorized` is not called, no peer is announced, the relay
port and server session key of the proxy, the nonce and the sticky buffer of
the connection are what they were, and nothing is written. -/
theorem C10_attachAck_only_opens (e : Env) (c : ProxyConnection) (packet : Bytes)
    (size : Nat) (hst : c.state = ConnectionState.Attaching)
    (hack : PacketFlag.isAck (packet.getD 2 0 % 256) = true)
    (htype : PacketFlag.getType (packet.getD 2 0 % 256) = e.pf.ATTACH) :
    ∃ c1, processRelayPacket e c packet size = some c1 ∧
      c1 = { c with
          state := ConnectionState.Idling
          hooks := c.hooks ++ [Hook.onOpened]
          proxy := { c.proxy with serverFails := 0, reconnectInterval := 0 }
          dispatched := c.dispatched ++ [packet.take size]
          handlers := c.handlers ++ [Handler.onAttachResponse] } ∧
      c1.state = ConnectionState.Idling ∧
      c1.hooks = c.hooks ++ [Hook.onOpened] ∧
      c1.authorized = c.authorized ∧
      c1.announced = c.announced ∧
      c1.proxy.relayPort = c.proxy.relayPort ∧
      c1.proxy.serverPk = c.proxy.serverPk ∧
      c1.proxy.box = c.proxy.box ∧
      c1.nonce = c.nonce ∧
      c1.stickyBuffer = c.stickyBuffer ∧
      c1.relayWrites = c.relayWrites ∧
      c1.upstreamWrites = c.upstreamWrites :=
  ⟨_, processRelayPacket_attachAck e c packet size hst hack htype,
    Eq.refl _, Eq.refl _, Eq.refl _, Eq.refl _, Eq.refl _, Eq.refl _, Eq.refl _,
    Eq.refl _, Eq.refl _, Eq.refl _, Eq.refl _, Eq.refl _⟩

/-- An instance of C10: the three-byte `ATTACH|ACK` on the sample connection. -/
theorem C10_attachAck_only_opens_witness :
    ∃ c1, processRelayPacket sampleEnv (sampleConnection ConnectionState.Attaching)
        attachAck 3 = some c1 ∧
      c1.state = ConnectionState.Idling ∧
      c1.hooks = (sampleConnection ConnectionState.Attaching).hooks ++ [Hook.onOpened] ∧
      c1.authorized = (sampleConnection ConnectionState.Attaching).authorized ∧
      c1.announced = (sampleConnection ConnectionState.Attaching).announced ∧
      c1.proxy.relayPort = (sampleConnection ConnectionState.Attaching).proxy.relayPort ∧
      c1.proxy.serverPk = (sampleConnection ConnectionState.Attaching).proxy.serverPk := by
  obtain ⟨c1, h0, _, h1, h2, h3, h4, h5, h6, _⟩ := C10_attachAck_only_opens sampleEnv
    (sampleConnection ConnectionState.Attaching) attachAck 3 (Eq.refl _) (by decide)
    (by decide)
  exact ⟨c1, h0, h1, h2, h3, h4, h5, h6⟩

/-! ## Wrong packets and `ERR` -/

/-- The function `close` issues no request and reads nothing from the world. -/
theorem close_bookkeeping (c : ProxyConnection) :
    (close c).upstreamDials = c.upstreamDials ∧
    (close c).upstreamShutdowns = c.upstreamShutdowns ∧
    (close c).upstreamPaused = c.upstreamPaused ∧
    (close c).clients = c.clients ∧ (close c).calls = c.calls := by
  unfold close
  split_ifs with h
  · exact ⟨Eq.refl _, Eq.refl _, Eq.refl _, Eq.refl _, Eq.refl _⟩
  · dsimp only
    split_ifs <;> exact ⟨Eq.refl _, Eq.refl _, Eq.refl _, Eq.refl _, Eq.refl _⟩

theorem packetFlag_DISCONNECT_ne_DATA (pf : PacketFlag) : pf.DISCONNECT ≠ pf.DATA := by
  have h := pf.distinct
  simp only [List.nodup_cons, List.mem_cons, List.mem_singleton, not_or] at h
  tauto

/-- C11. For every packet whose type is not `ERR` and that is wrong for the
state of the connection (in `Authenticating` anything but `AUTH` with ACK, in
`Attaching` anything but `ATTACH` with ACK, in `Idling` anything but `PING`
with ACK or `CONNECT` without ACK, in `Relaying` a type that is neither `DATA`
nor `DISCONNECT`, or `DISCONNECT` with ACK), `processRelayPacket` does nothing
but `close`: the state is `Closed`, no packet handler is entered, nothing is
written to the relay or the upstream and no upstream dial is started. -/
theorem C11_wrong_packet_closes (e : Env) (c : ProxyConnection) (packet : Bytes) (size : Nat)
    (hERR : PacketFlag.getType (packet.getD 2 0 % 256) ≠ e.pf.ERR)
    (hwrong :
      (c.state = ConnectionState.Authenticating ∧
        ¬ (PacketFlag.isAck (packet.getD 2 0 % 256) = true ∧
          PacketFlag.getType (packet.getD 2 0 % 256) = e.pf.AUTH)) ∨
      (c.state = ConnectionState.Attaching ∧
        ¬ (PacketFlag.isAck (packet.getD 2 0 % 256) = true ∧
          PacketFlag.getType (packet.getD 2 0 % 256) = e.pf.ATTACH)) ∨
      (c.state = ConnectionState.Idling ∧
        ¬ (PacketFlag.isAck (packet.getD 2 0 % 256) = true ∧
          PacketFlag.getType (packet.getD 2 0 % 256) = e.pf.PING) ∧
        ¬ (PacketFlag.isAck (packet.getD 2 0 % 256) = false ∧
          PacketFlag.getType (packet.getD 2 0 % 256) = e.pf.CONNECT)) ∨
      (c.state = ConnectionState.Relaying ∧
        ((PacketFlag.getType (packet.getD 2 0 % 256) ≠ e.pf.DATA ∧
          PacketFlag.getType (packet.getD 2 0 % 256) ≠ e.pf.DISCONNECT) ∨
         (PacketFlag.getType (packet.getD 2 0 % 256) = e.pf.DISCONNECT ∧
          PacketFlag.isAck (packet.getD 2 0 % 256) = true)))) :
    ∃ c1, processRelayPacket e c packet size = some c1 ∧
      c1 = close { c with dispatched := c.dispatched ++ [packet.take size] } ∧
      c1.state = ConnectionState.Closed ∧
      c1.handlers = c.handlers ∧
      c1.relayWrites = c.relayWrites ∧
      c1.upstreamWrites = c.upstreamWrites ∧
      c1.upstreamDials = c.upstreamDials ∧
      c1.authorized = c.authorized ∧
      c1.announced = c.announced := by
  have hrun : processRelayPacket e c packet size
      = some (close { c with dispatched := c.dispatched ++ [packet.take size] }) := by
    unfold processRelayPacket
    dsimp only
    rw [if_neg hERR]
    rcases hwrong with ⟨hst, h⟩ | ⟨hst, h⟩ | ⟨hst, h1, h2⟩ | ⟨hst, h⟩
    · rw [hst]
      dsimp only
      rw [if_neg (by simpa using h)]
    · rw [hst]
      dsimp only
      rw [if_neg (by simpa using h)]
    · rw [hst]
      dsimp only
      rw [if_neg (by simpa using h1), if_neg (by simpa using h2)]
    · rw [hst]
      dsimp only
      rcases h with ⟨h1, h2⟩ | ⟨h1, h2⟩
      · rw [if_neg h1, if_neg (by
          intro hh
          simp only [Bool.and_eq_true, Bool.not_eq_true', decide_eq_true_eq] at hh
          exact h2 hh.2)]
      · rw [if_neg (by rw [h1]; exact packetFlag_DISCONNECT_ne_DATA e.pf), if_neg (by
          intro hh
          simp only [Bool.and_eq_true, Bool.not_eq_true', decide_eq_true_eq] at hh
          rw [h2] at hh
          exact absurd hh.1 (by decide))]
  have hq := close_quiet { c with dispatched := c.dispatched ++ [packet.take size] }
  exact ⟨_, hrun, Eq.refl _, close_state _, hq.handlers, close_relayWrites _, hq.upstreamWrites,
    (close_bookkeeping _).1, hq.authorized, hq.announced⟩

/-- An instance of C11: an idle connection receives a `DISCONNECT`. -/
theorem C11_wrong_packet_closes_witness :
    ∃ c1, processRelayPacket sampleEnv (sampleConnection ConnectionState.Idling)
        disconnectReq 3 = some c1 ∧
      c1.state = ConnectionState.Closed ∧ c1.handlers = [] := by
  obtain ⟨c1, h0, _, h1, h2, _⟩ := C11_wrong_packet_closes sampleEnv
    (sampleConnection ConnectionState.Idling) disconnectReq 3 (by decide)
    (Or.inr (Or.inr (Or.inl ⟨Eq.refl _, by decide, by decide⟩)))
  exact ⟨c1, h0, h1, h2⟩

/-- The `ERR` branch of `processRelayPacket` on a packet that holds header, MAC
and the two bytes of the code. -/
theorem processRelayPacket_err (e : Env) (c : ProxyConnection) (packet : Bytes) (size : Nat)
    (hERR : PacketFlag.getType (packet.getD 2 0 % 256) = e.pf.ERR)
    (hsize : 21 ≤ size) (hmax : size ≤ PTRDIFF_MAX) :
    processRelayPacket e c packet size
      = some (close { c with
          dispatched := c.dispatched ++ [packet.take size]
          errors := c.errors ++ [ntohs (e.crypto.decrypt c.proxy.box
            ((packet.drop 3).take (sizeSub size 3)) c.nonce)] }) := by
  unfold processRelayPacket
  dsimp only
  rw [if_pos hERR, payload_length size (by omega) hmax, if_neg (by omega), if_neg (by omega),
    ntohs_intoBlob _ _ (by omega)]
  rfl

/-- The `ERR` branch of `processRelayPacket` on a packet of fewer than 21 bytes
does not return: below 19 bytes the length of the plaintext block wraps, with
19 or 20 bytes the two bytes of the code are not both inside the block. -/
theorem processRelayPacket_err_short (e : Env) (c : ProxyConnection) (packet : Bytes)
    (size : Nat) (hERR : PacketFlag.getType (packet.getD 2 0 % 256) = e.pf.ERR)
    (hsize : size < 21) :
    processRelayPacket e c packet size = none := by
  unfold processRelayPacket
  dsimp only
  rw [if_pos hERR]
  by_cases h19 : size < 19
  · rw [payload_length_wraps size h19, if_pos (by unfold PTRDIFF_MAX; omega)]
  · rw [payload_length size (by omega) (by unfold PTRDIFF_MAX; omega),
      if_neg (by unfold PTRDIFF_MAX; omega), if_pos (by omega)]

theorem relayLoop_keepAliveTimestamp (e : Env) :
    ∀ (fuel : Nat) (c : ProxyConnection) (rem : Bytes) (c1 : ProxyConnection),
      relayLoop e fuel c rem = some c1 → c1.keepAliveTimestamp = c.keepAliveTimestamp := by
  intro fuel
  induction fuel with
  | zero =>
    intro c rem c1 h
    unfold relayLoop at h
    exact absurd h (by simp)
  | succ fuel ih =>
    intro c rem c1 h
    unfold relayLoop at h
    by_cases h0 : rem.length > 0
    · rw [if_pos h0] at h
      by_cases h1 : rem.length < PACKET_HEADER_BYTES
      · rw [if_pos h1] at h
        rw [← Option.some.inj h]
      · rw [if_neg h1] at h
        dsimp only at h
        by_cases h2 : rem.length < ntohs rem
        · rw [if_pos h2] at h
          rw [← Option.some.inj h]
        · rw [if_neg h2] at h
          cases hp : processRelayPacket e c rem (ntohs rem) with
          | none =>
            rw [hp] at h
            exact Option.noConfusion h
          | some d =>
            rw [hp] at h
            rw [ih _ _ _ h]
            exact processRelayPacket_keepAliveTimestamp e c rem (ntohs rem) d hp
    · rw [if_neg h0] at h
      rw [← Option.some.inj h]

theorem completeSticky_keepAliveTimestamp (e : Env) (fuel : Nat) (c : ProxyConnection)
    (rem : Bytes) (c1 : ProxyConnection) (h : completeSticky e fuel c rem = some c1) :
    c1.keepAliveTimestamp = c.keepAliveTimestamp := by
  unfold completeSticky at h
  dsimp only at h
  split_ifs at h
  · rw [← Option.some.inj h]
  · revert h
    generalize hp : processRelayPacket e _ _ _ = o
    cases o with
    | none => exact fun h => Option.noConfusion h
    | some d =>
      intro h
      have h1 := processRelayPacket_keepAliveTimestamp e _ _ _ d hp
      have h2 := relayLoop_keepAliveTimestamp e _ _ _ _ h
      exact h2.trans h1

/-- Whenever `onRelayRead` returns, the keep-alive timestamp is the loop time
of the read. -/
theorem onRelayRead_keepAliveTimestamp (e : Env) (fuel now : Nat) (c : ProxyConnection)
    (data : Bytes) (c1 : ProxyConnection) (h : onRelayRead e fuel now c data = some c1) :
    c1.keepAliveTimestamp = now := by
  unfold onRelayRead at h
  dsimp only at h
  split_ifs at h
  · rw [← Option.some.inj h]
  · exact completeSticky_keepAliveTimestamp e fuel _ _ c1 h
  · exact completeSticky_keepAliveTimestamp e fuel _ _ c1 h
  · exact relayLoop_keepAliveTimestamp e fuel _ _ c1 h

/-- The function `onChallenge` does not assign the keep-alive timestamp. -/
theorem onChallenge_keepAliveTimestamp (e : Env) (c : ProxyConnection) (data : Bytes) :
    (onChallenge e c data).keepAliveTimestamp = c.keepAliveTimestamp := by
  unfold onChallenge
  split_ifs
  · rfl
  · unfold sendAttachRequest
    split_ifs
    · rfl
    · exact (relayWrite_quiet e _ _).keepAliveTimestamp
  · unfold sendAuthenticateRequest
    split_ifs
    · rfl
    · exact (relayWrite_quiet e _ _).keepAliveTimestamp

/-- C13 (fails on the code). The claim is that after every read of at least one
byte from the server the keep-alive timestamp is the loop time of the read,
the read that delivers the challenge included. For a connection that is not
`Initializing` the read goes to `onRelayRead`, and the timestamp is the loop
time whenever the read returns (on a buffer that continues the frames of the
stream it returns exactly when the calls of `processRelayPacket` on the frames
that it completes return). For a connection that is `Initializing` the read
goes to `onChallenge`, which leaves the timestamp at its previous value. -/
theorem C13_challenge_read_keeps_timestamp (e : Env) (fuel now : Nat) (c : ProxyConnection)
    (nread : Int) (buf : Bytes) (hread : 0 < nread) :
    (c.state = ConnectionState.Initializing →
      establishReadCb e fuel now c nread buf
        = some (onChallenge e c (buf.take nread.toNat)) ∧
      (onChallenge e c (buf.take nread.toNat)).keepAliveTimestamp = c.keepAliveTimestamp) ∧
    (c.state ≠ ConnectionState.Initializing →
      ∀ c1, establishReadCb e fuel now c nread buf = some c1 → c1.keepAliveTimestamp = now) ∧
    (c.state ≠ ConnectionState.Initializing →
      ∀ (fs : List Bytes) (r : Bytes), Incomplete c.stickyBuffer → (∀ f ∈ fs, Framed f) →
        Incomplete r → c.stickyBuffer ++ buf.take nread.toNat = fs.flatten ++ r →
        fs.length < fuel →
        establishReadCb e fuel now c nread buf
          = (dispatchFrames e c fs).map (fun d => withFraming d r now) ∧
        ∀ d, dispatchFrames e c fs = some d →
          ∃ c1, establishReadCb e fuel now c nread buf = some c1 ∧
            c1.keepAliveTimestamp = now) := by
  have hpos : nread > 0 := hread
  refine ⟨?_, ?_, ?_⟩
  · intro hst
    refine ⟨?_, onChallenge_keepAliveTimestamp e c _⟩
    unfold establishReadCb
    rw [if_pos hpos, if_pos hst]
  · intro hst c1 h
    unfold establishReadCb at h
    rw [if_pos hpos, if_neg hst] at h
    exact onRelayRead_keepAliveTimestamp e fuel now c _ c1 h
  · intro hst fs r hs hfs hr heq hfuel
    have hall : establishReadCb e fuel now c nread buf
        = (dispatchFrames e c fs).map (fun d => withFraming d r now) := by
      unfold establishReadCb
      rw [if_pos hpos, if_neg hst]
      exact onRelayRead_frames e fuel now c _ fs r hs hfs hr heq hfuel
    refine ⟨hall, ?_⟩
    intro d hd
    rw [hd] at hall
    exact ⟨_, hall, Eq.refl now⟩

/-- An instance of C13: the sample connection, `Initializing` with timestamp 0,
reads the 32 bytes of the sample challenge at loop time 5000; the timestamp is
still 0 afterwards. -/
theorem C13_challenge_read_keeps_timestamp_witness :
    ∃ c1, establishReadCb sampleEnv 1 5000 (sampleConnection ConnectionState.Initializing) 32
        sampleChallenge = some c1 ∧
      c1.state = ConnectionState.Authenticating ∧ c1.keepAliveTimestamp = 0 ∧
      c1.keepAliveTimestamp ≠ 5000 := by
  obtain ⟨h1, h2⟩ := (C13_challenge_read_keeps_timestamp sampleEnv 1 5000
    (sampleConnection ConnectionState.Initializing) 32 sampleChallenge (by decide)).1
    (Eq.refl _)
  refine ⟨_, h1, by decide, h2, ?_⟩
  rw [h2]
  decide

/-- What `sendPingRequest` does on a connection that is not closed: one `PING`
packet is handed to `uv_write`, and the connection is closed if `uv_write`
refuses it. -/
theorem sendPingRequest_effect (e : Env) (c : ProxyConnection)
    (hst : c.state ≠ ConnectionState.Closed) :
    (sendPingRequest e c).relayWrites = c.relayWrites ++
      [{ len := 3 + e.world.random c.calls % 256
         buf := htons (3 + e.world.random c.calls % 256) ++ [e.pf.PING]
           ++ randomBytes e.world (c.calls + 1) (e.world.random c.calls % 256)
         tag := 0 }] ∧
    (sendPingRequest e c).state
      = (if e.world.rc (c.calls + 2) < 0 then ConnectionState.Closed else c.state) := by
  unfold sendPingRequest
  rw [if_neg hst]
  dsimp only
  exact ⟨(relayWrite_effect e _ _).1, (relayWrite_effect e _ _).2.1⟩

/-- The function `keepAlive` by cases: suppressed while relaying, the dead
check, and the jittered ping check. -/
theorem keepAlive_cases (e : Env) (now : Nat) (c : ProxyConnection)
    (hts : c.keepAliveTimestamp ≤ now) (hnow : now < 18446744073709551616) :
    (c.state = ConnectionState.Relaying → keepAlive e now c = c) ∧
    (c.state ≠ ConnectionState.Relaying → 180000 ≤ now - c.keepAliveTimestamp →
      keepAlive e now c = close c) ∧
    (c.state = ConnectionState.Idling → now - c.keepAliveTimestamp < 180000 →
      60000 - e.world.random c.calls % 10000 ≤ now - c.keepAliveTimestamp →
      keepAlive e now c = sendPingRequest e { c with calls := c.calls + 1 }) ∧
    (c.state ≠ ConnectionState.Relaying → now - c.keepAliveTimestamp < 180000 →
      ¬ (c.state = ConnectionState.Idling ∧
        60000 - e.world.random c.calls % 10000 ≤ now - c.keepAliveTimestamp) →
      keepAlive e now c = { c with calls := c.calls + 1 }) := by
  have hsub : sizeSub now c.keepAliveTimestamp = now - c.keepAliveTimestamp :=
    sizeSub_of_le now c.keepAliveTimestamp hts hnow
  have hdead : MAX_KEEP_ALIVE_RETRY * KEEP_ALIVE_INTERVAL % 4294967296 = 180000 := Eq.refl _
  have hjit : KEEP_ALIVE_CHECK_INTERVAL * 2 % 4294967296 = 10000 := Eq.refl _
  have hint : KEEP_ALIVE_INTERVAL = 60000 := Eq.refl _
  have hj : e.world.random c.calls % 10000 < 10000 := Nat.mod_lt _ (by decide)
  have hu : u32Sub KEEP_ALIVE_INTERVAL (e.world.random c.calls % 10000)
      = 60000 - e.world.random c.calls % 10000 := by
    unfold u32Sub
    rw [hint]
    omega
  refine ⟨?_, ?_, ?_, ?_⟩
  · intro hst
    unfold keepAlive
    rw [if_pos hst]
  · intro hst hel
    unfold keepAlive
    rw [if_neg hst, hsub, hdead, if_pos hel]
  · intro hst hel hping
    have hst2 : c.state ≠ ConnectionState.Relaying := by
      rw [hst]
      decide
    unfold keepAlive
    rw [if_neg hst2, hsub, hdead, if_neg (by omega), hjit]
    dsimp only
    rw [hu, hsub,
      if_pos (by simp only [Bool.and_eq_true, decide_eq_true_eq]; exact ⟨hst, hping⟩)]
  · intro hst hel hno
    unfold keepAlive
    rw [if_neg hst, hsub, hdead, if_neg (by omega), hjit]
    dsimp only
    rw [hu, hsub, if_neg (by simp only [Bool.and_eq_true, decide_eq_true_eq]; exact hno)]

/-- C14 (counterexample). An idle connection whose last server bytes came
60000 ms before the tick, a third of the dead limit: the tick sends a `PING`,
`uv_write` refuses it, and the tick leaves the connection `Closed`. -/
theorem C14_refused_ping_closes :
    (sampleConnection ConnectionState.Idling).keepAliveTimestamp = 0 ∧
    60000 - (sampleConnection ConnectionState.Idling).keepAliveTimestamp < 180000 ∧
    (keepAlive refusingEnv 60000 (sampleConnection ConnectionState.Idling)).state
      = ConnectionState.Closed := by
  decide

/-- C14 (amended). `MAX_KEEP_ALIVE_RETRY * KEEP_ALIVE_INTERVAL` is 180000. For
a tick at loop time `now`, not before the keep-alive timestamp: in state
`Relaying` the tick changes nothing, however long the silence; in state
`Closed` the connection stays closed and nothing is sent; in every other
state, if `now - keep_alive_ts ≥ 180000` the tick does nothing but `close`, so
the connection is `Closed` and no `PING` is sent; and if
`now - keep_alive_ts < 180000` the connection is `Closed` after the tick only
if it was before, or if it is `Idling`, the tick sends a `PING` and `uv_write`
refuses it. -/
theorem C14_keepAlive_dead_check (e : Env) (now : Nat) (c : ProxyConnection)
    (hts : c.keepAliveTimestamp ≤ now) (hnow : now < 18446744073709551616) :
    MAX_KEEP_ALIVE_RETRY * KEEP_ALIVE_INTERVAL = 180000 ∧
    (c.state = ConnectionState.Relaying → keepAlive e now c = c) ∧
    (c.state = ConnectionState.Closed →
      (keepAlive e now c).state = ConnectionState.Closed ∧
      (keepAlive e now c).relayWrites = c.relayWrites) ∧
    (c.state ≠ ConnectionState.Relaying → c.state ≠ ConnectionState.Closed →
      180000 ≤ now - c.keepAliveTimestamp →
      keepAlive e now c = close c ∧ (keepAlive e now c).state = ConnectionState.Closed ∧
      (keepAlive e now c).relayWrites = c.relayWrites) ∧
    (now - c.keepAliveTimestamp < 180000 →
      ((keepAlive e now c).state = ConnectionState.Closed ↔
        c.state = ConnectionState.Closed ∨
        (c.state = ConnectionState.Idling ∧
          60000 - e.world.random c.calls % 10000 ≤ now - c.keepAliveTimestamp ∧
          e.world.rc (c.calls + 3) < 0))) := by
  obtain ⟨hR, hD, hP, hN⟩ := keepAlive_cases e now c hts hnow
  refine ⟨Eq.refl _, hR, ?_, ?_, ?_⟩
  · intro hst
    have hst2 : c.state ≠ ConnectionState.Relaying := by
      rw [hst]
      decide
    by_cases hel : 180000 ≤ now - c.keepAliveTimestamp
    · rw [hD hst2 hel]
      exact ⟨close_state _, close_relayWrites _⟩
    · rw [hN hst2 (by omega) (by
        intro h
        rw [hst] at h
        exact absurd h.1 (by decide))]
      exact ⟨hst, Eq.refl _⟩
  · intro hst _ hel
    rw [hD hst hel]
    exact ⟨Eq.refl _, close_state _, close_relayWrites _⟩
  · intro hel
    by_cases hst : c.state = ConnectionState.Relaying
    · rw [hR hst, hst]
      constructor
      · intro h
        exact absurd h (by decide)
      · rintro (h | ⟨h, _⟩)
        · exact absurd h (by decide)
        · exact absurd h (by decide)
    · by_cases hping : c.state = ConnectionState.Idling ∧
          60000 - e.world.random c.calls % 10000 ≤ now - c.keepAliveTimestamp
      · have hne : ({ c with calls := c.calls + 1 } : ProxyConnection).state
            ≠ ConnectionState.Closed := by
          show c.state ≠ ConnectionState.Closed
          rw [hping.1]
          decide
        rw [hP hping.1 hel hping.2, (sendPingRequest_effect e _ hne).2]
        show (if e.world.rc (c.calls + 3) < 0 then ConnectionState.Closed else c.state)
          = ConnectionState.Closed ↔ _
        by_cases hrc : e.world.rc (c.calls + 3) < 0
        · rw [if_pos hrc]
          exact ⟨fun _ => Or.inr ⟨hping.1, hping.2, hrc⟩, fun _ => Eq.refl _⟩
        · rw [if_neg hrc]
          constructor
          · intro h
            exact Or.inl h
          · rintro (h | ⟨_, _, h⟩)
            · exact h
            · exact absurd h hrc
      · rw [hN hst hel hping]
        show c.state = ConnectionState.Closed ↔ _
        constructor
        · intro h
          exact Or.inl h
        · rintro (h | ⟨h1, h2, _⟩)
          · exact h
          · exact absurd ⟨h1, h2⟩ hping

/-- An instance of the amended C14: an authenticating connection that has been
silent for 180000 ms is closed by the tick, and nothing is sent. -/
theorem C14_keepAlive_dead_check_witness :
    (keepAlive sampleEnv 180000 (sampleConnection ConnectionState.Authenticating)).state
      = ConnectionState.Closed ∧
    (keepAlive sampleEnv 180000 (sampleConnection ConnectionState.Authenticating)).relayWrites
      = [] :=
  have h := (C14_keepAlive_dead_check sampleEnv 180000
    (sampleConnection ConnectionState.Authenticating) (by decide) (by decide)).2.2.2.1
    (by decide) (by decide) (by decide)
  ⟨h.2.1, h.2.2⟩

/-- C15. On a tick at loop time `now`, not before the keep-alive timestamp,
with `now - keep_alive_ts < 180000`: the jitter `j` of the tick is below
`2 * KEEP_ALIVE_CHECK_INTERVAL = 10000` and `KEEP_ALIVE_INTERVAL - j` is
`60000 - j` without wrapping; if the state is `Idling` and
`now - keep_alive_ts ≥ 60000 - j` exactly one packet, a `PING`, is handed to
`uv_write`, and otherwise none; so none is sent when the elapsed time is at
most 50000, and one is sent in `Idling` whenever it is 60000 or more. -/
theorem C15_keepAlive_ping (e : Env) (now : Nat) (c : ProxyConnection)
    (hts : c.keepAliveTimestamp ≤ now) (hnow : now < 18446744073709551616)
    (hel : now - c.keepAliveTimestamp < 180000) :
    ∃ j, j = e.world.random c.calls % (KEEP_ALIVE_CHECK_INTERVAL * 2) ∧ j < 10000 ∧
      KEEP_ALIVE_CHECK_INTERVAL * 2 = 10000 ∧ KEEP_ALIVE_INTERVAL = 60000 ∧
      u32Sub KEEP_ALIVE_INTERVAL j = 60000 - j ∧ j ≤ 60000 ∧
      (c.state = ConnectionState.Idling ∧ 60000 - j ≤ now - c.keepAliveTimestamp →
        ∃ ping : WriteRequest, (keepAlive e now c).relayWrites = c.relayWrites ++ [ping] ∧
          ping.buf.getD 2 0 = e.pf.PING ∧ PacketFlag.isAck (ping.buf.getD 2 0) = false) ∧
      (¬ (c.state = ConnectionState.Idling ∧ 60000 - j ≤ now - c.keepAliveTimestamp) →
        (keepAlive e now c).relayWrites = c.relayWrites) ∧
      (now - c.keepAliveTimestamp ≤ 50000 → (keepAlive e now c).relayWrites = c.relayWrites) ∧
      (c.state = ConnectionState.Idling → 60000 ≤ now - c.keepAliveTimestamp →
        ∃ ping : WriteRequest, (keepAlive e now c).relayWrites = c.relayWrites ++ [ping] ∧
          ping.buf.getD 2 0 = e.pf.PING) := by
  obtain ⟨hR, _, hP, hN⟩ := keepAlive_cases e now c hts hnow
  have hj : e.world.random c.calls % 10000 < 10000 := Nat.mod_lt _ (by decide)
  have hsent : c.state = ConnectionState.Idling →
      60000 - e.world.random c.calls % 10000 ≤ now - c.keepAliveTimestamp →
      ∃ ping : WriteRequest, (keepAlive e now c).relayWrites = c.relayWrites ++ [ping] ∧
        ping.buf.getD 2 0 = e.pf.PING ∧ PacketFlag.isAck (ping.buf.getD 2 0) = false := by
    intro hst hping
    have hne : ({ c with calls := c.calls + 1 } : ProxyConnection).state
        ≠ ConnectionState.Closed := by
      show c.state ≠ ConnectionState.Closed
      rw [hst]
      decide
    have hw := (sendPingRequest_effect e _ hne).1
    rw [← hP hst hel hping] at hw
    have hack : PacketFlag.isAck e.pf.PING = false := by
      have h7 : e.pf.PING < 128 := e.pf.sevenBits e.pf.PING (by simp)
      unfold PacketFlag.isAck
      rw [decide_eq_false_iff_not]
      omega
    exact ⟨_, hw, Eq.refl _, hack⟩
  have hnone : ¬ (c.state = ConnectionState.Idling ∧
      60000 - e.world.random c.calls % 10000 ≤ now - c.keepAliveTimestamp) →
      (keepAlive e now c).relayWrites = c.relayWrites := by
    intro hno
    by_cases hst : c.state = ConnectionState.Relaying
    · rw [hR hst]
    · rw [hN hst hel hno]
  have hu : u32Sub KEEP_ALIVE_INTERVAL (e.world.random c.calls % 10000)
      = 60000 - e.world.random c.calls % 10000 := by
    have hint : KEEP_ALIVE_INTERVAL = 60000 := Eq.refl _
    unfold u32Sub
    rw [hint]
    omega
  refine ⟨e.world.random c.calls % 10000, Eq.refl _, hj, Eq.refl _, Eq.refl _, hu, by omega,
    fun h => hsent h.1 h.2, hnone, ?_, ?_⟩
  · intro h50
    exact hnone (fun h => by omega)
  · intro hst h60
    obtain ⟨ping, h1, h2, _⟩ := hsent hst (by omega)
    exact ⟨ping, h1, h2⟩

/-- An instance of C15: an idle connection 60000 ms after the last server
bytes; the tick hands one `PING` to `uv_write`. -/
theorem C15_keepAlive_ping_witness :
    ∃ ping : WriteRequest,
      (keepAlive sampleEnv 60000 (sampleConnection ConnectionState.Idling)).relayWrites
        = [ping] ∧
      ping.buf.getD 2 0 = sampleEnv.pf.PING := by
  obtain ⟨j, _, _, _, _, _, _, _, _, _, h⟩ := C15_keepAlive_ping sampleEnv 60000
    (sampleConnection ConnectionState.Idling) (by decide) (by decide) (by decide)
  exact h (Eq.refl _) (by decide)

/-! ## CONNECT, the upstream dial and DISCONNECT -/

/-- An idle connection hands a `CONNECT` without the ACK bit to
`onConnectRequest`. -/
theorem processRelayPacket_connect (e : Env) (c : ProxyConnection) (packet : Bytes) (size : Nat)
    (hst : c.state = ConnectionState.Idling)
    (hack : PacketFlag.isAck (packet.getD 2 0 % 256) = false)
    (htype : PacketFlag.getType (packet.getD 2 0 % 256) = e.pf.CONNECT) :
    processRelayPacket e c packet size
      = some (onConnectRequest e { c with dispatched := c.dispatched ++ [packet.take size] }
          packet size) := by
  unfold processRelayPacket
  dsimp only
  rw [htype, hack, if_neg (packetFlag_ne_ERR e.pf).2.2.2.1, hst]
  dsimp only
  rw [if_neg (by simp), if_pos (by simp)]

/-- A relaying connection hands a `DISCONNECT` without the ACK bit to
`onDisconnectRequest`. -/
theorem processRelayPacket_disconnect (e : Env) (c : ProxyConnection) (packet : Bytes)
    (size : Nat) (hst : c.state = ConnectionState.Relaying)
    (hack : PacketFlag.isAck (packet.getD 2 0 % 256) = false)
    (htype : PacketFlag.getType (packet.getD 2 0 % 256) = e.pf.DISCONNECT) :
    processRelayPacket e c packet size
      = some (onDisconnectRequest e { c with dispatched := c.dispatched ++ [packet.take size] }
          packet size) := by
  unfold processRelayPacket
  dsimp only
  rw [htype, hack, if_neg (packetFlag_ne_ERR e.pf).2.2.2.2.1, hst]
  dsimp only
  rw [if_neg (packetFlag_DISCONNECT_ne_DATA e.pf), if_pos (by simp)]

/-- The success byte written by `randomBoolean` for a failure has bit 0 clear. -/
theorem randomBoolean_false_even (i : Nat) : randomBoolean i false % 2 = 0 := by
  have h : (randomBoolean i false).testBit 0 = false := by
    unfold randomBoolean
    rw [if_neg (by decide), Nat.testBit_and]
    have : Nat.testBit 0xFE 0 = false := by decide
    rw [this, Bool.and_false]
  rcases Nat.mod_two_eq_zero_or_one (randomBoolean i false) with h0 | h1
  · exact h0
  · rw [Nat.testBit_zero, h1] at h
    exact absurd h (by decide)

theorem relayWrite_upstreamDials (e : Env) (c : ProxyConnection) (r : WriteRequest) :
    (relayWrite e c r).upstreamDials = c.upstreamDials := by
  unfold relayWrite
  dsimp only
  split_ifs
  · exact (close_bookkeeping _).1
  · rfl

theorem relayWrite_clients (e : Env) (c : ProxyConnection) (r : WriteRequest) :
    (relayWrite e c r).clients = c.clients := by
  unfold relayWrite
  dsimp only
  split_ifs
  · exact (close_bookkeeping _).2.2.2.1
  · rfl

/-- What `sendConnectResponse` does on a connection that is not closed: one
`CONNECT|ACK` is handed to `uv_write`, with the success byte of
`randomBoolean` and the tag of the outcome, and the connection is closed if
`uv_write` refuses it. -/
theorem sendConnectResponse_effect (e : Env) (c : ProxyConnection) (success : Bool)
    (hst : c.state ≠ ConnectionState.Closed) :
    (sendConnectResponse e c success).relayWrites = c.relayWrites ++
      [{ len := 3 + 1 + e.world.random c.calls % 256
         buf := htons (3 + 1 + e.world.random c.calls % 256) ++ [e.pf.CONNECT + 128]
           ++ [randomBoolean (e.world.random (c.calls + 1)) success]
           ++ randomBytes e.world (c.calls + 2) (e.world.random c.calls % 256)
         tag := if success then 1 else 0 }] ∧
    (sendConnectResponse e c success).state
      = (if e.world.rc (c.calls + 3) < 0 then ConnectionState.Closed else c.state) ∧
    (sendConnectResponse e c success).upstreamDials = c.upstreamDials := by
  unfold sendConnectResponse
  rw [if_neg hst]
  dsimp only
  exact ⟨(relayWrite_effect e _ _).1, (relayWrite_effect e _ _).2.1,
    relayWrite_upstreamDials e _ _⟩

/-- A failure report: `sendConnectResponse(false)` on a connection that is not
closed hands one `CONNECT|ACK` with success bit 0 and tag 0 to `uv_write`; the
connection is closed if `uv_write` refuses it and keeps its state otherwise. -/
theorem sendConnectResponse_failure (e : Env) (c : ProxyConnection)
    (hst : c.state ≠ ConnectionState.Closed) :
    ∃ ack : WriteRequest,
      (sendConnectResponse e c false).relayWrites = c.relayWrites ++ [ack] ∧
      ack.buf.getD 2 0 = e.pf.CONNECT + 128 ∧ ack.buf.getD 3 0 % 2 = 0 ∧ ack.tag = 0 ∧
      ack.buf.take 2 = htons ack.len ∧
      (sendConnectResponse e c false).state
        = (if e.world.rc (c.calls + 3) < 0 then ConnectionState.Closed else c.state) := by
  obtain ⟨hw, hs, _⟩ := sendConnectResponse_effect e c false hst
  exact ⟨_, hw, Eq.refl _, randomBoolean_false_even _, Eq.refl _, Eq.refl _, hs⟩

theorem sendConnectResponse_upstreamDials (e : Env) (c : ProxyConnection) (success : Bool) :
    (sendConnectResponse e c success).upstreamDials = c.upstreamDials := by
  by_cases hst : c.state = ConnectionState.Closed
  · unfold sendConnectResponse
    rw [if_pos hst]
  · exact (sendConnectResponse_effect e c success hst).2.2

/-- The function `openUpstream` when `uv_tcp_init` and `uv_tcp_connect` both
succeed: the dial is under way and nothing else happens. -/
theorem openUpstream_dialled (e : Env) (c : ProxyConnection) (h0 : 0 ≤ e.world.rc c.calls)
    (h1 : 0 ≤ e.world.rc (c.calls + 1)) :
    openUpstream e c
      = { c with
          upstream := { uvTcpInit c.upstream with data := true }
          upstreamDials := c.upstreamDials + 1
          calls := c.calls + 1 + 1 } := by
  unfold openUpstream
  dsimp only
  rw [if_neg (not_lt.mpr h0)]
  dsimp only
  rw [if_neg (not_lt.mpr h1)]

/-- The function `openUpstream` when `uv_tcp_init` succeeds and
`uv_tcp_connect` fails at once: the upstream handle is closed and
`sendConnectResponse(false)` is called. -/
theorem openUpstream_refused (e : Env) (c : ProxyConnection) (h0 : 0 ≤ e.world.rc c.calls)
    (h1 : e.world.rc (c.calls + 1) < 0) :
    openUpstream e c
      = sendConnectResponse e
          { c with
            upstream := uvClose { uvTcpInit c.upstream with data := true }
            upstreamDials := c.upstreamDials + 1
            calls := c.calls + 1 + 1 } false := by
  unfold openUpstream
  dsimp only
  rw [if_neg (not_lt.mpr h0)]
  dsimp only
  rw [if_pos h1]

/-- Every call of `openUpstream` issues exactly one `uv_tcp_connect`. -/
theorem openUpstream_upstreamDials (e : Env) (c : ProxyConnection) :
    (openUpstream e c).upstreamDials = c.upstreamDials + 1 := by
  unfold openUpstream
  dsimp only
  by_cases h0 : e.world.rc c.calls < 0
  · rw [if_pos h0]
    dsimp only [onIdle]
    by_cases h1 : e.world.rc
        (sendConnectResponse e { c with
            calls := c.calls + 1
            upstreamInitFailures := c.upstreamInitFailures + 1 } false).calls < 0
    · rw [if_pos h1, sendConnectResponse_upstreamDials]
      show (sendConnectResponse e { c with
          calls := c.calls + 1
          upstreamInitFailures := c.upstreamInitFailures + 1 } false).upstreamDials + 1 = _
      rw [sendConnectResponse_upstreamDials]
    · rw [if_neg h1]
      show (sendConnectResponse e { c with
          calls := c.calls + 1
          upstreamInitFailures := c.upstreamInitFailures + 1 } false).upstreamDials + 1 = _
      rw [sendConnectResponse_upstreamDials]
  · rw [if_neg h0]
    dsimp only
    by_cases h1 : e.world.rc (c.calls + 1) < 0
    · rw [if_pos h1, sendConnectResponse_upstreamDials]
    · rw [if_neg h1]

theorem sendConnectResponse_clients (e : Env) (c : ProxyConnection) (success : Bool) :
    (sendConnectResponse e c success).clients = c.clients := by
  unfold sendConnectResponse
  by_cases hst : c.state = ConnectionState.Closed
  · rw [if_pos hst]
  · rw [if_neg hst]
    dsimp only
    exact relayWrite_clients e _ _

/-- The function `openUpstream` leaves the record of client addresses alone. -/
theorem openUpstream_clients (e : Env) (c : ProxyConnection) :
    (openUpstream e c).clients = c.clients := by
  unfold openUpstream
  dsimp only
  by_cases h0 : e.world.rc c.calls < 0
  · rw [if_pos h0]
    dsimp only [onIdle]
    by_cases h1 : e.world.rc
        (sendConnectResponse e { c with
            calls := c.calls + 1
            upstreamInitFailures := c.upstreamInitFailures + 1 } false).calls < 0
    · rw [if_pos h1, sendConnectResponse_clients]
      show (sendConnectResponse e { c with
          calls := c.calls + 1
          upstreamInitFailures := c.upstreamInitFailures + 1 } false).clients = _
      rw [sendConnectResponse_clients]
    · rw [if_neg h1]
      show (sendConnectResponse e { c with
          calls := c.calls + 1
          upstreamInitFailures := c.upstreamInitFailures + 1 } false).clients = _
      rw [sendConnectResponse_clients]
  · rw [if_neg h0]
    dsimp only
    by_cases h1 : e.world.rc (c.calls + 1) < 0
    · rw [if_pos h1, sendConnectResponse_clients]
    · rw [if_neg h1]

/-- A `CONNECT` shorter than `CONNECT_REQ_SIZE` closes the connection. -/
theorem onConnectRequest_short (e : Env) (c : ProxyConnection) (packet : Bytes) (size : Nat)
    (hsize : size < CONNECT_REQ_SIZE) :
    onConnectRequest e c packet size
      = close { c with handlers := c.handlers ++ [Handler.onConnectRequest] } := by
  unfold onConnectRequest
  dsimp only
  rw [if_pos hsize]

/-- A `CONNECT` of at least `CONNECT_REQ_SIZE` bytes: the state is set to
`Relaying`, the client address is read from the 19 bytes of plaintext and
`openUpstream` is called. -/
theorem onConnectRequest_accepted (e : Env) (c : ProxyConnection) (packet : Bytes) (size : Nat)
    (hsize : CONNECT_REQ_SIZE ≤ size) :
    onConnectRequest e c packet size
      = openUpstream e
          { c with
            handlers := c.handlers ++ [Handler.onConnectRequest]
            state := ConnectionState.Relaying
            hooks := c.hooks ++ [Hook.onBusy]
            clients := c.clients ++
              [((intoBlob 19 (e.crypto.decrypt c.proxy.box ((packet.drop 3).take 35)
                  c.nonce)).getD 0 0 % 256,
                ((intoBlob 19 (e.crypto.decrypt c.proxy.box ((packet.drop 3).take 35)
                  c.nonce)).drop 1).take
                  ((intoBlob 19 (e.crypto.decrypt c.proxy.box ((packet.drop 3).take 35)
                    c.nonce)).getD 0 0 % 256),
                ntohs ((intoBlob 19 (e.crypto.decrypt c.proxy.box ((packet.drop 3).take 35)
                  c.nonce)).drop 17))] } := by
  unfold onConnectRequest
  dsimp only
  rw [if_neg (by omega), if_pos (show ActiveProxy.allow _ _ = true from Eq.refl true)]
  rfl

/-- A `CONNECT` of at least `CONNECT_REQ_SIZE` bytes ends in the call of
`openUpstream` on a connection that is `Relaying` and has the client address
on record. -/
theorem onConnectRequest_dial (e : Env) (c : ProxyConnection) (packet : Bytes) (size : Nat)
    (hsize : CONNECT_REQ_SIZE ≤ size) :
    ∃ c2, onConnectRequest e c packet size = openUpstream e c2 ∧ c2.calls = c.calls ∧
      c2.state = ConnectionState.Relaying ∧ c2.relayWrites = c.relayWrites ∧
      c2.upstreamDials = c.upstreamDials ∧
      c2.clients = c.clients ++
        [((intoBlob 19 (e.crypto.decrypt c.proxy.box ((packet.drop 3).take 35)
            c.nonce)).getD 0 0 % 256,
          ((intoBlob 19 (e.crypto.decrypt c.proxy.box ((packet.drop 3).take 35)
            c.nonce)).drop 1).take
            ((intoBlob 19 (e.crypto.decrypt c.proxy.box ((packet.drop 3).take 35)
              c.nonce)).getD 0 0 % 256),
          ntohs ((intoBlob 19 (e.crypto.decrypt c.proxy.box ((packet.drop 3).take 35)
            c.nonce)).drop 17))] :=
  ⟨_, onConnectRequest_accepted e c packet size hsize, Eq.refl _, Eq.refl _, Eq.refl _,
    Eq.refl _, Eq.refl _⟩

/-- The port of a `CONNECT` plaintext of 19 bytes: the big-endian value of its
bytes 17 and 18. -/
theorem connect_plaintext (a : Nat) (addr : Bytes) (hi lo : Nat) (haddr : addr.length = 16)
    (hhi : hi < 256) (hlo : lo < 256) :
    ntohs ((intoBlob 19 (a :: addr ++ [hi, lo])).drop 17) = 256 * hi + lo ∧
    (a :: addr ++ [hi, lo]).getD 17 0 = hi ∧ (a :: addr ++ [hi, lo]).getD 18 0 = lo := by
  have hdrop : (a :: addr ++ [hi, lo]).drop 17 = [hi, lo] := by
    show (addr ++ [hi, lo]).drop 16 = [hi, lo]
    exact List.drop_left' haddr
  refine ⟨?_, ?_, ?_⟩
  · rw [intoBlob_of_length 19 _ (by simp [haddr]), hdrop]
    unfold ntohs
    simp only [List.getD_cons_zero, List.getD_cons_succ]
    rw [Nat.mod_eq_of_lt hhi, Nat.mod_eq_of_lt hlo]
  · show (addr ++ [hi, lo]).getD 16 0 = hi
    rw [List.getD_append_right _ _ _ _ (by omega), haddr]
    rfl
  · show (addr ++ [hi, lo]).getD 17 0 = lo
    rw [List.getD_append_right _ _ _ _ (by omega), haddr]
    rfl

/-- C16 (counterexample). An idle connection receives a `CONNECT` of
`CONNECT_REQ_SIZE` bytes; `uv_tcp_init` succeeds, `uv_tcp_connect` fails at
once and `uv_write` refuses the `CONNECT|ACK`: when the handler returns the
connection is `Closed`, not `Relaying`. -/
theorem C16_refused_dial_closes :
    connectReq.length = 38 ∧
    ∃ c1, processRelayPacket onlyInitEnv (sampleConnection ConnectionState.Idling) connectReq
        38 = some c1 ∧
      c1.handlers = [Handler.onConnectRequest] ∧
      c1.upstreamDials = 1 ∧
      c1.state = ConnectionState.Closed ∧
      c1.state ≠ ConnectionState.Relaying :=
  ⟨by decide, _, Eq.refl _, by decide, by decide, by decide, by decide⟩

/-- C16 (amended). `CONNECT_REQ_SIZE` is 3 + 16 + 1 + 16 + 2 = 38. For every
connection in state `Idling` and every `CONNECT` packet with the ACK bit clear:
if its size is below 38 the connection is closed, it is not `Relaying`, and no
upstream dial is started and nothing is written. If its size is at least 38,
the client port is read as the big-endian value of bytes 17 and 18 of the
plaintext (the 35 bytes after the header, decrypted), and exactly one
`uv_tcp_connect` is issued for the upstream. When the handler returns the
state is `Relaying` if `uv_tcp_init` and `uv_tcp_connect` succeed; if
`uv_tcp_init` succeeds and `uv_tcp_connect` fails at once, one `CONNECT|ACK`
with success bit 0 is handed to `uv_write` and the state is `Relaying` if
`uv_write` accepts it and `Closed` if it refuses it. The run after a failing
`uv_tcp_init` is not part of the statement. -/
theorem C16_connect_request (e : Env) (c : ProxyConnection) (packet : Bytes) (size : Nat)
    (hst : c.state = ConnectionState.Idling)
    (hack : PacketFlag.isAck (packet.getD 2 0 % 256) = false)
    (htype : PacketFlag.getType (packet.getD 2 0 % 256) = e.pf.CONNECT) :
    CONNECT_REQ_SIZE = 3 + 16 + 1 + 16 + 2 ∧ CONNECT_REQ_SIZE = 38 ∧
    ∃ c1, processRelayPacket e c packet size = some c1 ∧
      (size < 38 →
        c1.state = ConnectionState.Closed ∧
        c1.state ≠ ConnectionState.Relaying ∧
        c1.upstreamDials = c.upstreamDials ∧
        c1.relayWrites = c.relayWrites) ∧
      (38 ≤ size →
        c1.upstreamDials = c.upstreamDials + 1 ∧
        (∀ (a : Nat) (addr : Bytes) (hi lo : Nat), addr.length = 16 → hi < 256 → lo < 256 →
          e.crypto.decrypt c.proxy.box ((packet.drop 3).take 35) c.nonce
            = a :: addr ++ [hi, lo] →
          ∃ addrLen address, c1.clients
            = c.clients ++ [(addrLen, address, 256 * hi + lo)]) ∧
        (e.world.rc c.calls ≥ 0 → e.world.rc (c.calls + 1) ≥ 0 →
          c1.state = ConnectionState.Relaying ∧
          c1.relayWrites = c.relayWrites) ∧
        (e.world.rc c.calls ≥ 0 → e.world.rc (c.calls + 1) < 0 →
          ∃ ack : WriteRequest,
            c1.relayWrites = c.relayWrites ++ [ack] ∧
            ack.buf.getD 2 0 = e.pf.CONNECT + 128 ∧ ack.buf.getD 3 0 % 2 = 0 ∧
            c1.state
              = (if e.world.rc (c.calls + 5) < 0 then ConnectionState.Closed
                 else ConnectionState.Relaying))) := by
  have h38 : CONNECT_REQ_SIZE = 38 := Eq.refl _
  have hrun := processRelayPacket_connect e c packet size hst hack htype
  refine ⟨Eq.refl _, h38, _, hrun, ?_, ?_⟩
  · intro hsize
    rw [onConnectRequest_short e _ packet size (by omega)]
    refine ⟨close_state _, ?_, (close_bookkeeping _).1, close_relayWrites _⟩
    rw [close_state]
    decide
  · intro hsize
    obtain ⟨c2, hc2, hcalls, hstate, hwrites, hdials, hclients⟩ :=
      onConnectRequest_dial e { c with dispatched := c.dispatched ++ [packet.take size] }
        packet size (by omega)
    have hcalls2 : c2.calls = c.calls := hcalls
    have hne : c2.state ≠ ConnectionState.Closed := by
      rw [hstate]
      decide
    rw [hc2]
    refine ⟨?_, ?_, ?_, ?_⟩
    · rw [openUpstream_upstreamDials, hdials]
    · intro a addr hi lo haddr hhi hlo hplain
      rw [openUpstream_clients]
      refine ⟨(intoBlob 19 (a :: addr ++ [hi, lo])).getD 0 0 % 256,
        ((intoBlob 19 (a :: addr ++ [hi, lo])).drop 1).take
          ((intoBlob 19 (a :: addr ++ [hi, lo])).getD 0 0 % 256), ?_⟩
      show c2.clients = _
      dsimp only at hclients
      rw [hclients, hplain, (connect_plaintext a addr hi lo haddr hhi hlo).1]
    · intro h0 h1
      rw [openUpstream_dialled e c2 (by rw [hcalls2]; exact h0) (by rw [hcalls2]; exact h1)]
      exact ⟨hstate, hwrites⟩
    · intro h0 h1
      rw [openUpstream_refused e c2 (by rw [hcalls2]; exact h0) (by rw [hcalls2]; exact h1)]
      obtain ⟨ack, hw, h2, h3, _, _, hs⟩ := sendConnectResponse_failure e
        { c2 with
          upstream := uvClose { uvTcpInit c2.upstream with data := true }
          upstreamDials := c2.upstreamDials + 1
          calls := c2.calls + 1 + 1 } hne
      refine ⟨ack, hw.trans ?_, h2, h3, hs.trans ?_⟩
      · show c2.relayWrites ++ [ack] = _
        rw [hwrites]
      · show (if e.world.rc (c2.calls + 1 + 1 + 3) < 0 then ConnectionState.Closed
            else c2.state) = _
        rw [hcalls2, hstate]

/-- An instance of the amended C16: the sample `CONNECT` of 38 bytes, port
bytes `1F 90`, on the idle sample connection when libuv accepts every request. -/
theorem C16_connect_request_witness :
    ∃ c1, processRelayPacket sampleEnv (sampleConnection ConnectionState.Idling) connectReq
        38 = some c1 ∧
      c1.upstreamDials = 1 ∧
      c1.state = ConnectionState.Relaying ∧
      (∃ addrLen address, c1.clients = [(addrLen, address, 8080)]) := by
  obtain ⟨_, _, c1, h0, _, h⟩ := C16_connect_request sampleEnv
    (sampleConnection ConnectionState.Idling) connectReq 38 (Eq.refl _) (by decide) (by decide)
  have h := h (by decide)
  exact ⟨c1, h0, h.1, (h.2.2.1 (by decide) (by decide)).1,
    h.2.1 4 ([0x7F, 0, 0, 1] ++ List.replicate 12 0) 0x1F 0x90 (by decide) (by decide)
      (by decide) (by decide)⟩

/-- C17 (counterexample). A relaying connection whose upstream connect is
reported as failed by the completion callback: the `CONNECT|ACK` is handed to
`uv_write`, `uv_write` refuses it, and the connection is `Closed`. -/
theorem C17_refused_ack_closes :
    (sampleConnection ConnectionState.Relaying).state = ConnectionState.Relaying ∧
    (openUpstreamConnectCb refusingEnv (sampleConnection ConnectionState.Relaying)
      (-111)).relayWrites.length = 1 ∧
    (openUpstreamConnectCb refusingEnv (sampleConnection ConnectionState.Relaying)
      (-111)).state = ConnectionState.Closed := by
  decide

/-- C17 (amended). For every connection in state `Relaying` whose upstream
connect fails, at once in `openUpstream` (after a successful `uv_tcp_init`) or
later in the completion callback: exactly one packet is handed to `uv_write`,
a `CONNECT|ACK` whose success bit (bit 0) is 0, tagged as a failure; the
connection stays `Relaying` if `uv_write` accepts the packet and is `Closed` if
`uv_write` refuses it. Whenever the write of a `CONNECT|ACK` tagged as a
failure completes with a status that is not negative, the state is `Idling`
and the idle hook has run. -/
theorem C17_upstream_connect_failure (e : Env) (c : ProxyConnection)
    (hst : c.state = ConnectionState.Relaying) :
    (e.world.rc c.calls ≥ 0 → e.world.rc (c.calls + 1) < 0 →
      ∃ ack : WriteRequest, (openUpstream e c).relayWrites = c.relayWrites ++ [ack] ∧
        ack.buf.getD 2 0 = e.pf.CONNECT + 128 ∧ ack.buf.getD 3 0 % 2 = 0 ∧ ack.tag = 0 ∧
        (openUpstream e c).state
          = (if e.world.rc (c.calls + 5) < 0 then ConnectionState.Closed
             else ConnectionState.Relaying)) ∧
    (∀ status : Int, status < 0 →
      ∃ ack : WriteRequest,
        (openUpstreamConnectCb e c status).relayWrites = c.relayWrites ++ [ack] ∧
        ack.buf.getD 2 0 = e.pf.CONNECT + 128 ∧ ack.buf.getD 3 0 % 2 = 0 ∧ ack.tag = 0 ∧
        (openUpstreamConnectCb e c status).state
          = (if e.world.rc (c.calls + 3) < 0 then ConnectionState.Closed
             else ConnectionState.Relaying)) ∧
    (∀ (c1 : ProxyConnection) (ack : WriteRequest) (status : Int), ack.tag = 0 → 0 ≤ status →
      (sendConnectResponseWriteCb e c1 ack status).state = ConnectionState.Idling ∧
      (sendConnectResponseWriteCb e c1 ack status).hooks = c1.hooks ++ [Hook.onIdle]) := by
  have hne : c.state ≠ ConnectionState.Closed := by
    rw [hst]
    decide
  refine ⟨?_, ?_, ?_⟩
  · intro h0 h1
    rw [openUpstream_refused e c h0 h1]
    obtain ⟨ack, hw, h2, h3, h4, _, hs⟩ := sendConnectResponse_failure e
      { c with
        upstream := uvClose { uvTcpInit c.upstream with data := true }
        upstreamDials := c.upstreamDials + 1
        calls := c.calls + 1 + 1 } hne
    refine ⟨ack, hw, h2, h3, h4, hs.trans ?_⟩
    show (if e.world.rc (c.calls + 1 + 1 + 3) < 0 then ConnectionState.Closed else c.state) = _
    rw [hst]
  · intro status hstatus
    have hrun : openUpstreamConnectCb e c status
        = sendConnectResponse e { c with upstream := uvClose c.upstream } false := by
      unfold openUpstreamConnectCb
      dsimp only
      rw [if_pos hstatus, decide_eq_false (by omega)]
    rw [hrun]
    obtain ⟨ack, hw, h2, h3, h4, _, hs⟩ := sendConnectResponse_failure e
      { c with upstream := uvClose c.upstream } hne
    refine ⟨ack, hw, h2, h3, h4, hs.trans ?_⟩
    show (if e.world.rc (c.calls + 3) < 0 then ConnectionState.Closed else c.state) = _
    rw [hst]
  · intro c1 ack status htag hstatus
    unfold sendConnectResponseWriteCb
    rw [if_neg (not_lt.mpr hstatus), htag]
    exact ⟨Eq.refl _, Eq.refl _⟩

/-- An instance of the amended C17: the sample connection, relaying, when the
dial fails at once and `uv_write` accepts the `CONNECT|ACK`. -/
theorem C17_upstream_connect_failure_witness :
    ∃ ack : WriteRequest,
      (openUpstream dialFailsEnv (sampleConnection ConnectionState.Relaying)).relayWrites
        = [ack] ∧
      ack.buf.getD 3 0 % 2 = 0 ∧
      (openUpstream dialFailsEnv (sampleConnection ConnectionState.Relaying)).state
        = ConnectionState.Relaying ∧
      (sendConnectResponseWriteCb dialFailsEnv
        (openUpstream dialFailsEnv (sampleConnection ConnectionState.Relaying)) ack 0).state
        = ConnectionState.Idling := by
  have h := C17_upstream_connect_failure dialFailsEnv (sampleConnection ConnectionState.Relaying)
    (Eq.refl _)
  obtain ⟨ack, h1, _, h3, h4, h5⟩ := h.1 (by decide) (by decide)
  exact ⟨ack, h1, h3, h5.trans (by decide), (h.2.2 _ ack 0 h4 (by decide)).1⟩

/-- C18 (counterexample). An idle connection receives a `CONNECT`; the dial
fails at once, the upstream handle is closed and the `CONNECT|ACK` is under
way, so the connection is `Relaying` with a closing upstream. A `DISCONNECT`
that arrives now is handled by `onDisconnectRequest`, and the connection is
still `Relaying`, not `Idling`, when the handler returns. -/
theorem C18_closing_upstream_stays_relaying :
    ∃ c1 c2, processRelayPacket dialFailsEnv (sampleConnection ConnectionState.Idling)
        connectReq 38 = some c1 ∧
      c1.state = ConnectionState.Relaying ∧
      c1.upstream.closing = true ∧
      processRelayPacket dialFailsEnv c1 disconnectReq 3 = some c2 ∧
      c2.handlers = [Handler.onConnectRequest, Handler.onDisconnectRequest] ∧
      c2.state = ConnectionState.Relaying :=
  ⟨_, _, Eq.refl _, by decide, by decide, Eq.refl _, by decide, by decide⟩

/-- C18 (amended). For every connection in state `Relaying`, a `DISCONNECT`
with the ACK bit clear is handled by `onDisconnectRequest`: upstream reading
is stopped, no shutdown request is issued and nothing is sent to the server.
If the upstream handle is attached and not closing it is closed at once and
the state is `Idling` when the handler returns, the idle hook having run; if
the upstream handle is detached or already closing, the state is still
`Relaying` when the handler returns. -/
theorem C18_disconnect_request (e : Env) (c : ProxyConnection) (packet : Bytes) (size : Nat)
    (hst : c.state = ConnectionState.Relaying)
    (hack : PacketFlag.isAck (packet.getD 2 0 % 256) = false)
    (htype : PacketFlag.getType (packet.getD 2 0 % 256) = e.pf.DISCONNECT) :
    ∃ c1, processRelayPacket e c packet size = some c1 ∧
      c1.handlers = c.handlers ++ [Handler.onDisconnectRequest] ∧
      c1.upstreamShutdowns = c.upstreamShutdowns ∧
      c1.relayWrites = c.relayWrites ∧
      c1.upstream.reading = false ∧
      (c.upstream.data = true → c.upstream.closing = false →
        c1.state = ConnectionState.Idling ∧
        c1.upstream.closing = true ∧
        c1.hooks = c.hooks ++ [Hook.onIdle]) ∧
      (c.upstream.data = false ∨ c.upstream.closing = true →
        c1.state = ConnectionState.Relaying ∧
        c1.hooks = c.hooks) := by
  have hne : ¬ c.state = ConnectionState.Closed := by
    rw [hst]
    decide
  refine ⟨_, processRelayPacket_disconnect e c packet size hst hack htype, ?_⟩
  unfold onDisconnectRequest closeUpstream
  dsimp only [uvReadStop]
  rw [if_neg hne]
  cases hd : c.upstream.data <;> cases hc : c.upstream.closing <;>
    simp [uvClose, onIdle, hst]

/-- An instance of the amended C18: the sample connection, relaying with an
open upstream, receives the three-byte `DISCONNECT`. -/
theorem C18_disconnect_request_witness :
    ∃ c1, processRelayPacket sampleEnv
        { sampleConnection ConnectionState.Relaying with
          upstream := { data := true, closing := false, reading := true } }
        disconnectReq 3 = some c1 ∧
      c1.state = ConnectionState.Idling ∧
      c1.relayWrites = [] ∧
      c1.upstreamShutdowns = 0 := by
  obtain ⟨c1, h0, _, h1, h2, _, h3, _⟩ := C18_disconnect_request sampleEnv
    { sampleConnection ConnectionState.Relaying with
      upstream := { data := true, closing := false, reading := true } }
    disconnectReq 3 (Eq.refl _) (by decide) (by decide)
  exact ⟨c1, h0, (h3 (Eq.refl _) (Eq.refl _)).1, h2, h1⟩

/-! ## Backpressure -/

/-- C19. `MAX_RELAY_WRITE_QUEUE_SIZE` is 2 * 1024 * 1024 = 2097152. After
`sendDataRequest` has handed a `DATA` packet to `uv_write` on a connection that
is not closed and `uv_write` has accepted it: if the write-queue size of the
relay stream is at least 2097152, `upstreamPaused` is true and upstream
reading is stopped; if it is below, `upstreamPaused` and the upstream handle
are what they were. So a connection that was not paused is paused afterwards
if and only if the queue size is at least the cap. -/
theorem C19_pause_on_full_queue (e : Env) (c : ProxyConnection) (data : Bytes)
    (hst : c.state ≠ ConnectionState.Closed) (hrc : 0 ≤ e.world.rc c.calls) :
    MAX_RELAY_WRITE_QUEUE_SIZE = 2 * 1024 * 1024 ∧ MAX_RELAY_WRITE_QUEUE_SIZE = 2097152 ∧
    (2097152 ≤ e.world.writeQueueSize (c.calls + 1) →
      (sendDataRequest e c data).upstreamPaused = true ∧
      (sendDataRequest e c data).upstream.reading = false) ∧
    (e.world.writeQueueSize (c.calls + 1) < 2097152 →
      (sendDataRequest e c data).upstreamPaused = c.upstreamPaused ∧
      (sendDataRequest e c data).upstream = c.upstream) ∧
    (c.upstreamPaused = false →
      ((sendDataRequest e c data).upstreamPaused = true ↔
        2097152 ≤ e.world.writeQueueSize (c.calls + 1))) ∧
    (sendDataRequest e c data).state = c.state := by
  have hcap : MAX_RELAY_WRITE_QUEUE_SIZE = 2097152 := Eq.refl _
  have hrun : sendDataRequest e c data
      = (if e.world.writeQueueSize (c.calls + 1) ≥ MAX_RELAY_WRITE_QUEUE_SIZE then
          { c with
            relayWrites := c.relayWrites ++
              [{ len := PACKET_HEADER_BYTES + MAC_BYTES + data.length
                 buf := htons (PACKET_HEADER_BYTES + MAC_BYTES + data.length) ++ [e.pf.data]
                   ++ intoBlob (data.length + MAC_BYTES)
                     (e.crypto.encrypt c.proxy.box data c.nonce)
                 tag := 0 }]
            calls := c.calls + 1 + 1
            upstreamPaused := true
            upstream := uvReadStop c.upstream }
        else
          { c with
            relayWrites := c.relayWrites ++
              [{ len := PACKET_HEADER_BYTES + MAC_BYTES + data.length
                 buf := htons (PACKET_HEADER_BYTES + MAC_BYTES + data.length) ++ [e.pf.data]
                   ++ intoBlob (data.length + MAC_BYTES)
                     (e.crypto.encrypt c.proxy.box data c.nonce)
                 tag := 0 }]
            calls := c.calls + 1 + 1 }) := by
    unfold sendDataRequest
    rw [if_neg hst]
    dsimp only
    rw [if_neg (not_lt.mpr hrc)]
  rw [hrun, hcap]
  by_cases hq : e.world.writeQueueSize (c.calls + 1) ≥ 2097152
  · rw [if_pos hq]
    refine ⟨Eq.refl _, Eq.refl _, fun _ => ⟨Eq.refl _, Eq.refl _⟩, fun h => ?_,
      fun _ => ⟨fun _ => hq, fun _ => Eq.refl _⟩, Eq.refl _⟩
    omega
  · rw [if_neg hq]
    refine ⟨Eq.refl _, Eq.refl _, fun h => absurd h hq, fun _ => ⟨Eq.refl _, Eq.refl _⟩,
      fun hp => ⟨fun h => ?_, fun h => absurd h hq⟩, Eq.refl _⟩
    have h2 : c.upstreamPaused = true := h
    rw [hp] at h2
    exact absurd h2 (by decide)

/-- An instance of C19: three bytes from the upstream on the relaying sample
connection while the write queue is empty; the connection is not paused. -/
theorem C19_pause_on_full_queue_witness :
    (sendDataRequest sampleEnv (sampleConnection ConnectionState.Relaying)
      [1, 2, 3]).upstreamPaused = false ∧
    (sendDataRequest sampleEnv (sampleConnection ConnectionState.Relaying)
      [1, 2, 3]).state = ConnectionState.Relaying :=
  have h := C19_pause_on_full_queue sampleEnv (sampleConnection ConnectionState.Relaying)
    [1, 2, 3] (by decide) (by decide)
  ⟨(h.2.2.2.1 (by decide)).1, h.2.2.2.2.2⟩

theorem relayWrite_upstreamPaused (e : Env) (c : ProxyConnection) (r : WriteRequest) :
    (relayWrite e c r).upstreamPaused = c.upstreamPaused := by
  unfold relayWrite
  dsimp only
  split_ifs
  · exact (close_bookkeeping _).2.2.1
  · rfl

theorem sendDisconnectRequest_upstreamPaused (e : Env) (c : ProxyConnection) :
    (sendDisconnectRequest e c).upstreamPaused = c.upstreamPaused := by
  unfold sendDisconnectRequest
  by_cases hst : c.state = ConnectionState.Closed
  · rw [if_pos hst]
  · rw [if_neg hst]
    dsimp only
    exact relayWrite_upstreamPaused e _ _

theorem closeUpstream_upstreamPaused (e : Env) (c : ProxyConnection) (force : Bool) :
    (closeUpstream e c force).upstreamPaused = c.upstreamPaused := by
  unfold closeUpstream onIdle
  dsimp only
  split_ifs <;> rfl

/-- The function `startReadUpstream` does not assign `upstreamPaused`. -/
theorem startReadUpstream_upstreamPaused (e : Env) (c : ProxyConnection) :
    (startReadUpstream e c).upstreamPaused = c.upstreamPaused := by
  unfold startReadUpstream
  dsimp only
  by_cases h : e.world.rc c.calls < 0
  · rw [if_pos h, closeUpstream_upstreamPaused, sendDisconnectRequest_upstreamPaused]
  · rw [if_neg h]

/-- C20 (counterexample). A paused connection whose `DATA` write completes
when the write queue holds exactly 524288 bytes, which is not below a quarter
of the cap: the connection does not stay paused, upstream reading is resumed. -/
theorem C20_resumes_at_quarter :
    quarterEnv.world.writeQueueSize 0 = 524288 ∧ MAX_RELAY_WRITE_QUEUE_SIZE / 4 = 524288 ∧
    (sendDataRequestWriteCb quarterEnv
      { sampleConnection ConnectionState.Relaying with
        upstreamPaused := true
        upstream := { data := true, closing := false, reading := false } } 0).upstreamPaused
      = false ∧
    (sendDataRequestWriteCb quarterEnv
      { sampleConnection ConnectionState.Relaying with
        upstreamPaused := true
        upstream := { data := true, closing := false, reading := false } } 0).upstream.reading
      = true := by
  decide

/-- C20 (amended). `MAX_RELAY_WRITE_QUEUE_SIZE >> 2` is 524288. When the write
of a `DATA` packet completes, with whatever status, while `upstreamPaused` is
true: if the write-queue size of the relay stream is at most 524288,
`upstreamPaused` becomes false and `startReadUpstream` is called, so that
upstream reading is on again when the write succeeded and `uv_read_start`
succeeds; if the queue size is above 524288, `upstreamPaused` stays true and,
when the write succeeded, nothing but the count of reads of the world
changes. -/
theorem C20_resume_below_quarter (e : Env) (c : ProxyConnection) (status : Int)
    (hp : c.upstreamPaused = true) :
    MAX_RELAY_WRITE_QUEUE_SIZE >>> 2 = 524288 ∧
    (e.world.writeQueueSize c.calls ≤ 524288 →
      (sendDataRequestWriteCb e c status).upstreamPaused = false ∧
      sendDataRequestWriteCb e c status
        = startReadUpstream e
            { (if status < 0 then close c else c) with
              calls := c.calls + 1, upstreamPaused := false } ∧
      (0 ≤ status → 0 ≤ e.world.rc (c.calls + 1) →
        (sendDataRequestWriteCb e c status).upstream.reading = true ∧
        (sendDataRequestWriteCb e c status).state = c.state)) ∧
    (524288 < e.world.writeQueueSize c.calls →
      (sendDataRequestWriteCb e c status).upstreamPaused = true ∧
      (0 ≤ status → sendDataRequestWriteCb e c status = { c with calls := c.calls + 1 })) := by
  have hq4 : MAX_RELAY_WRITE_QUEUE_SIZE >>> 2 = 524288 := Eq.refl _
  have hp2 : (if status < 0 then close c else c).upstreamPaused = true := by
    split_ifs
    · rw [(close_bookkeeping c).2.2.1, hp]
    · exact hp
  have hcalls : (if status < 0 then close c else c).calls = c.calls := by
    split_ifs
    · exact (close_bookkeeping c).2.2.2.2
    · rfl
  refine ⟨hq4, ?_, ?_⟩
  · intro hq
    have hrun : sendDataRequestWriteCb e c status
        = startReadUpstream e
            { (if status < 0 then close c else c) with
              calls := c.calls + 1, upstreamPaused := false } := by
      unfold sendDataRequestWriteCb
      dsimp only
      rw [if_pos hp2, hcalls, hq4, if_pos hq]
    refine ⟨?_, hrun, ?_⟩
    · rw [hrun, startReadUpstream_upstreamPaused]
    · intro hs hrc
      rw [hrun, if_neg (not_lt.mpr hs)]
      unfold startReadUpstream
      dsimp only
      rw [if_neg (not_lt.mpr hrc)]
      exact ⟨Eq.refl _, Eq.refl _⟩
  · intro hq
    have hrun : sendDataRequestWriteCb e c status
        = { (if status < 0 then close c else c) with calls := c.calls + 1 } := by
      unfold sendDataRequestWriteCb
      dsimp only
      rw [if_pos hp2, hcalls, hq4, if_neg (by omega)]
    refine ⟨?_, ?_⟩
    · rw [hrun]
      exact hp2
    · intro hs
      rw [hrun, if_neg (not_lt.mpr hs)]

/-- An instance of the amended C20: the paused sample connection when the
write queue is empty; upstream reading is resumed. -/
theorem C20_resume_below_quarter_witness :
    (sendDataRequestWriteCb sampleEnv
      { sampleConnection ConnectionState.Relaying with
        upstreamPaused := true
        upstream := { data := true, closing := false, reading := false } } 0).upstreamPaused
      = false ∧
    (sendDataRequestWriteCb sampleEnv
      { sampleConnection ConnectionState.Relaying with
        upstreamPaused := true
        upstream := { data := true, closing := false, reading := false } } 0).upstream.reading
      = true :=
  have h := (C20_resume_below_quarter sampleEnv
    { sampleConnection ConnectionState.Relaying with
      upstreamPaused := true
      upstream := { data := true, closing := false, reading := false } } 0 (Eq.refl _)).2.1
    (by decide)
  ⟨h.1, (h.2.2 (by decide) (by decide)).1⟩

/-! ## Packet formats -/

/-- What `sendAuthenticateRequest` hands to `uv_write` on a connection that is
not closed: one request, built from the fresh nonce, the padding length drawn
and the padding bytes. -/
theorem sendAuthenticateRequest_packet (e : Env) (c : ProxyConnection) (data : Bytes)
    (hst : c.state ≠ ConnectionState.Closed) :
    (sendAuthenticateRequest e c data).relayWrites = c.relayWrites ++
      [{ len := 3 + c.proxy.nodeId.length + 16
           + (32 + 24 + 64 + 1 + c.proxy.domainName.length + e.world.random (c.calls + 1) % 256)
         buf := htons (3 + c.proxy.nodeId.length + 16
             + (32 + 24 + 64 + 1 + c.proxy.domainName.length
               + e.world.random (c.calls + 1) % 256))
           ++ [e.pf.AUTH] ++ c.proxy.nodeId
           ++ intoBlob (32 + 24 + 64 + 1 + c.proxy.domainName.length
               + e.world.random (c.calls + 1) % 256 + 16)
             (e.crypto.encryptWithNode c.proxy.serverId
               (intoBlob (32 + 24 + 64 + 1 + c.proxy.domainName.length
                   + e.world.random (c.calls + 1) % 256)
                 (c.proxy.sessionKey.publicKey ++ randomBytes e.world c.calls 24
                   ++ (e.crypto.sign data).take 64
                   ++ [c.proxy.domainName.length % 256] ++ c.proxy.domainName
                   ++ randomBytes e.world (c.calls + 2)
                     (e.world.random (c.calls + 1) % 256))))
         tag := 0 }] := by
  unfold sendAuthenticateRequest
  rw [if_neg hst]
  dsimp only
  exact (relayWrite_effect e _ _).1

/-- The length of the `AUTH` plaintext when the key and the signature have the
sizes of their types. -/
theorem auth_plaintext_length (pk nonce sig domain pad : Bytes) (hpk : pk.length = 32)
    (hnonce : nonce.length = 24) (hsig : 64 ≤ sig.length) :
    (pk ++ nonce ++ sig.take 64 ++ [domain.length % 256] ++ domain ++ pad).length
      = 32 + 24 + 64 + 1 + domain.length + pad.length := by
  simp only [List.length_append, List.length_take, List.length_cons, List.length_nil, hpk,
    hnonce]
  omega

theorem packet_header (n flag : Nat) (body : Bytes) (hn : n < 65536) :
    ntohs (htons n ++ [flag] ++ body) = n ∧ (htons n ++ [flag] ++ body).take 2 = htons n ∧
    (htons n ++ [flag] ++ body).getD 2 0 = flag ∧
    (htons n ++ [flag] ++ body).drop 3 = body ∧
    (htons n ++ [flag] ++ body).length = 3 + body.length := by
  refine ⟨?_, Eq.refl _, Eq.refl _, Eq.refl _, ?_⟩
  · rw [List.append_assoc]
    exact ntohs_htons n _ hn
  · simp only [htons, List.cons_append, List.nil_append, List.length_cons]
    omega

theorem packetFlag_noAck (pf : PacketFlag) :
    PacketFlag.isAck pf.AUTH = false ∧ PacketFlag.isAck pf.ATTACH = false ∧
    PacketFlag.isAck pf.PING = false ∧ PacketFlag.isAck pf.DISCONNECT = false ∧
    PacketFlag.isAck pf.DATA = false ∧ PacketFlag.isAck (pf.CONNECT + 128) = true ∧
    PacketFlag.getType (pf.CONNECT + 128) = pf.CONNECT := by
  have h1 := pf.sevenBits pf.AUTH (by simp)
  have h2 := pf.sevenBits pf.ATTACH (by simp)
  have h3 := pf.sevenBits pf.PING (by simp)
  have h4 := pf.sevenBits pf.DISCONNECT (by simp)
  have h5 := pf.sevenBits pf.DATA (by simp)
  have h6 := pf.sevenBits pf.CONNECT (by simp)
  unfold PacketFlag.isAck PacketFlag.getType
  simp only [decide_eq_false_iff_not, decide_eq_true_eq]
  omega

/-- C21. Let the node id and the session public key have their 32 bytes and the
signature its 64, on a connection that is not closed. For every domain name of
`d ≤ 255` bytes and every padding length `p < 256` drawn, the one packet that
`sendAuthenticateRequest` hands to `uv_write` is
3 + 32 + 16 + (32 + 24 + 64 + 1 + d + p) = 172 + d + p bytes long; its size
field is that length; its flag byte is `AUTH` without the ACK bit; bytes 3 to
34 are the node id; the rest is the sealed box of the plaintext, which is the
session key, the nonce, the signature, the byte `d`, the `d` domain bytes and
`p` padding bytes, in that order. -/
theorem C21_auth_packet_layout (e : Env) (c : ProxyConnection) (data : Bytes)
    (hst : c.state ≠ ConnectionState.Closed) (hid : c.proxy.nodeId.length = 32)
    (hpk : c.proxy.sessionKey.publicKey.length = 32) (hsig : 64 ≤ (e.crypto.sign data).length)
    (hd : c.proxy.domainName.length ≤ 255) :
    ∃ (p : Nat) (nonce pad plain : Bytes) (request : WriteRequest),
      p = e.world.random (c.calls + 1) % 256 ∧ p < 256 ∧ pad.length = p ∧ nonce.length = 24 ∧
      (sendAuthenticateRequest e c data).nonce = nonce ∧
      (sendAuthenticateRequest e c data).relayWrites = c.relayWrites ++ [request] ∧
      3 + 32 + 16 + (32 + 24 + 64 + 1 + c.proxy.domainName.length + p)
        = 172 + c.proxy.domainName.length + p ∧
      request.len = 172 + c.proxy.domainName.length + p ∧
      request.buf.length = 172 + c.proxy.domainName.length + p ∧
      ntohs request.buf = 172 + c.proxy.domainName.length + p ∧
      request.buf.getD 2 0 = e.pf.AUTH ∧ PacketFlag.isAck (request.buf.getD 2 0) = false ∧
      (request.buf.drop 3).take 32 = c.proxy.nodeId ∧
      request.buf.drop 35
        = intoBlob (121 + c.proxy.domainName.length + p + 16)
            (e.crypto.encryptWithNode c.proxy.serverId plain) ∧
      plain = c.proxy.sessionKey.publicKey ++ nonce ++ (e.crypto.sign data).take 64
        ++ [c.proxy.domainName.length] ++ c.proxy.domainName ++ pad ∧
      ((e.crypto.sign data).take 64).length = 64 ∧
      plain.length = 121 + c.proxy.domainName.length + p := by
  have hw := sendAuthenticateRequest_packet e c data hst
  have hnl : (randomBytes e.world c.calls 24).length = 24 := randomBytes_length _ _ _
  have hpl : (randomBytes e.world (c.calls + 2) (e.world.random (c.calls + 1) % 256)).length
      = e.world.random (c.calls + 1) % 256 := randomBytes_length _ _ _
  have hp : e.world.random (c.calls + 1) % 256 < 256 := Nat.mod_lt _ (by decide)
  have hlen := auth_plaintext_length c.proxy.sessionKey.publicKey
    (randomBytes e.world c.calls 24) (e.crypto.sign data) c.proxy.domainName
    (randomBytes e.world (c.calls + 2) (e.world.random (c.calls + 1) % 256)) hpk hnl hsig
  rw [hpl] at hlen
  have hblob := intoBlob_of_length (32 + 24 + 64 + 1 + c.proxy.domainName.length
      + e.world.random (c.calls + 1) % 256) _ hlen
  rw [hblob, hid, Nat.mod_eq_of_lt (by omega : c.proxy.domainName.length < 256)] at hw
  rw [Nat.mod_eq_of_lt (by omega : c.proxy.domainName.length < 256)] at hlen
  have hn : (sendAuthenticateRequest e c data).nonce = randomBytes e.world c.calls 24 := by
    unfold sendAuthenticateRequest
    rw [if_neg hst]
    exact (relayWrite_effect e _ _).2.2
  obtain ⟨h1, _, h3, h4, h5⟩ := packet_header
    (3 + 32 + 16 + (32 + 24 + 64 + 1 + c.proxy.domainName.length
      + e.world.random (c.calls + 1) % 256)) e.pf.AUTH
    (c.proxy.nodeId ++ intoBlob (32 + 24 + 64 + 1 + c.proxy.domainName.length
        + e.world.random (c.calls + 1) % 256 + 16)
      (e.crypto.encryptWithNode c.proxy.serverId
        (c.proxy.sessionKey.publicKey ++ randomBytes e.world c.calls 24
          ++ (e.crypto.sign data).take 64 ++ [c.proxy.domainName.length]
          ++ c.proxy.domainName
          ++ randomBytes e.world (c.calls + 2) (e.world.random (c.calls + 1) % 256))))
    (by omega)
  simp only [← List.append_assoc] at h1 h3 h4 h5
  refine ⟨_, _, _, _, _, Eq.refl _, hp, hpl, hnl, hn, hw, by omega, by show _ + _ = _; omega,
    ?_, ?_, h3, ?_, ?_, ?_, Eq.refl _, ?_, ?_⟩
  · rw [h5, List.length_append, intoBlob_length, hid]
    omega
  · rw [h1]
    omega
  · show PacketFlag.isAck (List.getD _ 2 0) = false
    rw [h3]
    exact (packetFlag_noAck e.pf).1
  · show List.take 32 (List.drop 3 _) = _
    rw [h4]
    exact List.take_left' hid
  · show List.drop 35 _ = _
    have h35 : ∀ l : Bytes, l.drop 35 = (l.drop 3).drop 32 := fun l => by
      rw [List.drop_drop]
    rw [h35, h4, List.drop_left' hid]
  · rw [List.length_take]
    omega
  · rw [hlen]

/-- An instance of C21: the sample connection, domain name "a", answers the
sample challenge with an `AUTH` packet whose size field is its length. -/
theorem C21_auth_packet_layout_witness :
    ∃ (p : Nat) (request : WriteRequest), p < 256 ∧
      (sendAuthenticateRequest sampleEnv (sampleConnection ConnectionState.Initializing)
        sampleChallenge).relayWrites = [request] ∧
      request.buf.length = 172 + 1 + p ∧ ntohs request.buf = 172 + 1 + p ∧
      request.buf.getD 2 0 = sampleEnv.pf.AUTH := by
  obtain ⟨p, _, _, _, request, _, hp, _, _, _, hw, _, _, hl, hs, hf, _⟩ :=
    C21_auth_packet_layout sampleEnv (sampleConnection ConnectionState.Initializing)
      sampleChallenge (by decide) (by decide) (by decide) (by decide) (by decide)
  exact ⟨p, request, hp, hw, hl, hs, hf⟩

/-- The `AUTH` packet in terms of the 120 bytes that precede the domain length
byte in the plaintext: the byte written is the domain length modulo 256, and
the size field holds the total length modulo 65536. -/
theorem sendAuthenticateRequest_domain (e : Env) (c : ProxyConnection) (data : Bytes)
    (hst : c.state ≠ ConnectionState.Closed)
    (hpk : c.proxy.sessionKey.publicKey.length = 32)
    (hsig : 64 ≤ (e.crypto.sign data).length) :
    ∃ (pre pad : Bytes) (request : WriteRequest), pre.length = 120 ∧
      pad.length = e.world.random (c.calls + 1) % 256 ∧
      (sendAuthenticateRequest e c data).relayWrites = c.relayWrites ++ [request] ∧
      request.len = 3 + c.proxy.nodeId.length + 16
        + (121 + c.proxy.domainName.length + pad.length) ∧
      request.buf = htons request.len ++ [e.pf.AUTH] ++ c.proxy.nodeId
        ++ intoBlob (121 + c.proxy.domainName.length + pad.length + 16)
          (e.crypto.encryptWithNode c.proxy.serverId
            (pre ++ [c.proxy.domainName.length % 256] ++ c.proxy.domainName ++ pad)) := by
  have hw := sendAuthenticateRequest_packet e c data hst
  have hnl : (randomBytes e.world c.calls 24).length = 24 := randomBytes_length _ _ _
  have hpl : (randomBytes e.world (c.calls + 2) (e.world.random (c.calls + 1) % 256)).length
      = e.world.random (c.calls + 1) % 256 := randomBytes_length _ _ _
  have hlen := auth_plaintext_length c.proxy.sessionKey.publicKey
    (randomBytes e.world c.calls 24) (e.crypto.sign data) c.proxy.domainName
    (randomBytes e.world (c.calls + 2) (e.world.random (c.calls + 1) % 256)) hpk hnl hsig
  rw [hpl] at hlen
  have hblob := intoBlob_of_length (32 + 24 + 64 + 1 + c.proxy.domainName.length
      + e.world.random (c.calls + 1) % 256) _ hlen
  rw [hblob] at hw
  refine ⟨c.proxy.sessionKey.publicKey ++ randomBytes e.world c.calls 24
      ++ (e.crypto.sign data).take 64,
    randomBytes e.world (c.calls + 2) (e.world.random (c.calls + 1) % 256), _, ?_, hpl, hw,
    ?_, ?_⟩
  · rw [List.length_append, List.length_append, List.length_take, hpk, hnl]
    omega
  · show _ = 3 + c.proxy.nodeId.length + 16 + (121 + c.proxy.domainName.length + _)
    rw [hpl]
  · show htons _ ++ _ ++ _ ++ intoBlob _ _ = htons _ ++ _ ++ _ ++ intoBlob _ _
    rw [hpl]

/-- C22 (counterexample). A proxy configured with a domain name of 256 bytes:
the `AUTH` plaintext holds, after its first 120 bytes, the length byte 0
followed by the 256 domain bytes. -/
theorem C22_long_domain_length_byte :
    longDomainConnection.proxy.domainName.length = 256 ∧
    ∃ (pre pad : Bytes) (request : WriteRequest), pre.length = 120 ∧
      (sendAuthenticateRequest sampleEnv longDomainConnection sampleChallenge).relayWrites
        = [request] ∧
      request.buf.drop 35 = intoBlob (121 + 256 + pad.length + 16)
        (sampleCrypto.encryptWithNode longDomainConnection.proxy.serverId
          (pre ++ [0] ++ longDomainConnection.proxy.domainName ++ pad)) := by
  have hd : longDomainConnection.proxy.domainName.length = 256 := List.length_replicate _ _
  have hid : longDomainConnection.proxy.nodeId.length = 32 := List.length_replicate _ _
  obtain ⟨pre, pad, request, h1, _, h3, _, h5⟩ := sendAuthenticateRequest_domain sampleEnv
    longDomainConnection sampleChallenge (by decide) (List.length_replicate _ _) (by decide)
  refine ⟨hd, pre, pad, request, h1, h3, ?_⟩
  rw [h5, hd]
  have h35 : ∀ l : Bytes, l.drop 35 = (l.drop 3).drop 32 := fun l => by
    rw [List.drop_drop]
  have h4 : ∀ (n flag : Nat) (a b : Bytes), (htons n ++ [flag] ++ a ++ b).drop 3 = a ++ b :=
    fun _ _ _ _ => Eq.refl _
  rw [h35, h4, List.drop_left' hid]
  rfl

/-- C22 (amended). Let the session public key have its 32 bytes, the signature
its 64 and the node id its 32, on a connection that is not closed. For every
configured domain name of at most 255 bytes, the byte that
`sendAuthenticateRequest` writes after the first 120 bytes of the plaintext is
the number of domain bytes, the domain bytes follow it, so that the domain is
recovered as the `domain_len` bytes after that byte, and the size field of the
packet is the actual length of the packet. -/
theorem C22_domain_length_byte (e : Env) (c : ProxyConnection) (data : Bytes)
    (hst : c.state ≠ ConnectionState.Closed) (hid : c.proxy.nodeId.length = 32)
    (hpk : c.proxy.sessionKey.publicKey.length = 32) (hsig : 64 ≤ (e.crypto.sign data).length)
    (hd : c.proxy.domainName.length ≤ 255) :
    ∃ (plain : Bytes) (request : WriteRequest),
      (sendAuthenticateRequest e c data).relayWrites = c.relayWrites ++ [request] ∧
      request.buf.drop 35 = intoBlob (plain.length + 16)
        (e.crypto.encryptWithNode c.proxy.serverId plain) ∧
      plain.getD 120 0 = c.proxy.domainName.length ∧
      (plain.drop 121).take (plain.getD 120 0) = c.proxy.domainName ∧
      ntohs request.buf = request.buf.length ∧ request.len = request.buf.length := by
  obtain ⟨pre, pad, request, h1, h2, h3, h4, h5⟩ :=
    sendAuthenticateRequest_domain e c data hst hpk hsig
  have hp : e.world.random (c.calls + 1) % 256 < 256 := Nat.mod_lt _ (by decide)
  have hmod : c.proxy.domainName.length % 256 = c.proxy.domainName.length :=
    Nat.mod_eq_of_lt (by omega)
  rw [hmod] at h5
  have hbyte : (pre ++ [c.proxy.domainName.length] ++ c.proxy.domainName ++ pad).getD 120 0
      = c.proxy.domainName.length := by
    rw [List.append_assoc, List.append_assoc, List.getD_append_right _ _ _ _ (by omega), h1]
    rfl
  have hlen : (pre ++ [c.proxy.domainName.length] ++ c.proxy.domainName ++ pad).length
      = 121 + c.proxy.domainName.length + pad.length := by
    simp only [List.length_append, List.length_cons, List.length_nil, h1]
  obtain ⟨g1, _, _, g4, g5⟩ := packet_header request.len e.pf.AUTH
    (c.proxy.nodeId ++ intoBlob (121 + c.proxy.domainName.length + pad.length + 16)
      (e.crypto.encryptWithNode c.proxy.serverId
        (pre ++ [c.proxy.domainName.length] ++ c.proxy.domainName ++ pad)))
    (by omega)
  simp only [← List.append_assoc] at g1 g4 g5
  rw [← h5] at g1 g4 g5
  refine ⟨pre ++ [c.proxy.domainName.length] ++ c.proxy.domainName ++ pad, request, h3, ?_,
    hbyte, ?_, ?_, ?_⟩
  · have h35 : ∀ l : Bytes, l.drop 35 = (l.drop 3).drop 32 := fun l => by
      rw [List.drop_drop]
    rw [h35, g4, List.drop_left' hid, hlen]
  · rw [hbyte]
    have hpre : (pre ++ [c.proxy.domainName.length]).length = 121 := by
      rw [List.length_append, h1]
      rfl
    rw [List.append_assoc (pre ++ [c.proxy.domainName.length]), List.drop_left' hpre,
      List.take_left' (Eq.refl _)]
  · rw [g1, g5, List.length_append, intoBlob_length, hid, h4]
    omega
  · rw [g5, List.length_append, intoBlob_length, hid, h4]
    omega

/-- An instance of the amended C22: the sample connection, domain name "a". -/
theorem C22_domain_length_byte_witness :
    ∃ (plain : Bytes) (request : WriteRequest),
      (sendAuthenticateRequest sampleEnv (sampleConnection ConnectionState.Initializing)
        sampleChallenge).relayWrites = [request] ∧
      plain.getD 120 0 = 1 ∧ (plain.drop 121).take 1 = [97] ∧
      ntohs request.buf = request.buf.length := by
  obtain ⟨plain, request, h1, _, h3, h4, h5, _⟩ := C22_domain_length_byte sampleEnv
    (sampleConnection ConnectionState.Initializing) sampleChallenge (by decide) (by decide)
    (by decide) (by decide) (by decide)
  rw [h3] at h4
  exact ⟨plain, request, h1, h3, h4, h5⟩

set_option maxRecDepth 100000 in
/-- The helper `randomBoolean` on every byte: bit 0 is the boolean, the upper
bits are those of the byte. -/
theorem randomBoolean_byte : ∀ r < 256, ∀ v : Bool,
    randomBoolean r v % 2 = (if v then 1 else 0) ∧ randomBoolean r v / 2 = r / 2 ∧
      randomBoolean r v < 256 := by
  decide

/-- C23. For every boolean `success` and every random byte `r`, the byte that
`randomBoolean` produces has bit 0 equal to `success` and every bit above bit
0, so bits 1 to 7, equal to that of `r`; it is the success byte (byte 3) of the
`CONNECT|ACK` that `sendConnectResponse` builds, so that the receiver recovers
`success` from bit 0. -/
theorem C23_success_bit (r : Nat) (success : Bool) (hr : r < 256) :
    (randomBoolean r success).testBit 0 = success ∧
    (∀ i, 0 < i → (randomBoolean r success).testBit i = r.testBit i) ∧
    randomBoolean r success % 2 = (if success then 1 else 0) ∧
    randomBoolean r success / 2 = r / 2 ∧ randomBoolean r success < 256 ∧
    (∀ (e : Env) (c : ProxyConnection), c.state ≠ ConnectionState.Closed →
      e.world.random (c.calls + 1) % 256 = r →
      ∃ ack : WriteRequest,
        (sendConnectResponse e c success).relayWrites = c.relayWrites ++ [ack] ∧
        ack.buf.getD 2 0 = e.pf.CONNECT + 128 ∧ ack.buf.getD 3 0 = randomBoolean r success ∧
        (ack.buf.getD 3 0).testBit 0 = success) := by
  obtain ⟨h1, h2, h3⟩ := randomBoolean_byte r hr success
  have hbit : (randomBoolean r success).testBit 0 = success := by
    rw [Nat.testBit_zero, h1]
    cases success <;> decide
  refine ⟨hbit, ?_, h1, h2, h3, ?_⟩
  · intro i hi
    obtain ⟨j, rfl⟩ : ∃ j, i = j + 1 := ⟨i - 1, by omega⟩
    rw [Nat.testBit_succ, Nat.testBit_succ, h2]
  · intro e c hst hrand
    have hsame : randomBoolean (e.world.random (c.calls + 1)) success
        = randomBoolean r success := by
      unfold randomBoolean
      rw [hrand, Nat.mod_eq_of_lt hr]
    have hw := (sendConnectResponse_effect e c success hst).1
    rw [hsame] at hw
    exact ⟨_, hw, Eq.refl _, Eq.refl _, hbit⟩

/-- An instance of C23: the random byte `A6` and a success. -/
theorem C23_success_bit_witness :
    randomBoolean 0xA6 true = 0xA7 ∧ (randomBoolean 0xA6 true).testBit 0 = true ∧
    (randomBoolean 0xA6 true).testBit 5 = Nat.testBit 0xA6 5 :=
  have h := C23_success_bit 0xA6 true (by decide)
  ⟨by decide, h.1, h.2.1 5 (by decide)⟩

/-- What `sendDisconnectRequest` does on a connection that is not closed: one
`DISCONNECT` packet is handed to `uv_write`. -/
theorem sendDisconnectRequest_effect (e : Env) (c : ProxyConnection)
    (hst : c.state ≠ ConnectionState.Closed) :
    (sendDisconnectRequest e c).relayWrites = c.relayWrites ++
      [{ len := 3 + e.world.random c.calls % 256
         buf := htons (3 + e.world.random c.calls % 256) ++ [e.pf.DISCONNECT]
           ++ randomBytes e.world (c.calls + 1) (e.world.random c.calls % 256)
         tag := 0 }] ∧
    (sendDisconnectRequest e c).state
      = (if e.world.rc (c.calls + 2) < 0 then ConnectionState.Closed else c.state) := by
  unfold sendDisconnectRequest
  rw [if_neg hst]
  dsimp only
  exact ⟨(relayWrite_effect e _ _).1, (relayWrite_effect e _ _).2.1⟩

/-- C24. On a connection that is not closed, the packet that each of
`sendPingRequest`, `sendDisconnectRequest` and `sendConnectResponse` hands to
`uv_write` has length 3 + k + p, with k = 1 for `CONNECT|ACK` and 0 for the
others and p < 256 the padding length drawn; its first two bytes are the
big-endian encoding of that length; its third byte is the flag of the packet
type, with the ACK bit set for `CONNECT|ACK` only; and its length is at most
260, below `MAX_CONTROL_PACKET_SIZE` = 0x1000. -/
theorem C24_control_packet_layout (e : Env) (c : ProxyConnection) (success : Bool)
    (hst : c.state ≠ ConnectionState.Closed) :
    ∃ p, p = e.world.random c.calls % 256 ∧ p < 256 ∧
      MAX_CONTROL_PACKET_SIZE = 0x1000 ∧
      (∃ ping : WriteRequest, (sendPingRequest e c).relayWrites = c.relayWrites ++ [ping] ∧
        ping.len = 3 + 0 + p ∧ ping.buf.length = 3 + 0 + p ∧
        ping.buf.take 2 = htons (3 + 0 + p) ∧ ntohs ping.buf = 3 + 0 + p ∧
        ping.buf.getD 2 0 = e.pf.PING ∧ PacketFlag.isAck (ping.buf.getD 2 0) = false ∧
        ping.buf.length ≤ 260 ∧ ping.buf.length < MAX_CONTROL_PACKET_SIZE) ∧
      (∃ disconnect : WriteRequest,
        (sendDisconnectRequest e c).relayWrites = c.relayWrites ++ [disconnect] ∧
        disconnect.len = 3 + 0 + p ∧ disconnect.buf.length = 3 + 0 + p ∧
        disconnect.buf.take 2 = htons (3 + 0 + p) ∧ ntohs disconnect.buf = 3 + 0 + p ∧
        disconnect.buf.getD 2 0 = e.pf.DISCONNECT ∧
        PacketFlag.isAck (disconnect.buf.getD 2 0) = false ∧
        disconnect.buf.length ≤ 260 ∧ disconnect.buf.length < MAX_CONTROL_PACKET_SIZE) ∧
      (∃ ack : WriteRequest,
        (sendConnectResponse e c success).relayWrites = c.relayWrites ++ [ack] ∧
        ack.len = 3 + 1 + p ∧ ack.buf.length = 3 + 1 + p ∧
        ack.buf.take 2 = htons (3 + 1 + p) ∧ ntohs ack.buf = 3 + 1 + p ∧
        PacketFlag.getType (ack.buf.getD 2 0) = e.pf.CONNECT ∧
        PacketFlag.isAck (ack.buf.getD 2 0) = true ∧
        ack.buf.length ≤ 260 ∧ ack.buf.length < MAX_CONTROL_PACKET_SIZE) := by
  have hp : e.world.random c.calls % 256 < 256 := Nat.mod_lt _ (by decide)
  have hmax : MAX_CONTROL_PACKET_SIZE = 4096 := Eq.refl _
  have hflags := packetFlag_noAck e.pf
  refine ⟨_, Eq.refl _, hp, Eq.refl _, ?_, ?_, ?_⟩
  · obtain ⟨g1, g2, g3, _, g5⟩ := packet_header (3 + e.world.random c.calls % 256) e.pf.PING
      (randomBytes e.world (c.calls + 1) (e.world.random c.calls % 256)) (by omega)
    rw [randomBytes_length] at g5
    refine ⟨_, (sendPingRequest_effect e c hst).1, Eq.refl _, ?_, ?_, ?_, g3, ?_, ?_, ?_⟩
    · show List.length (htons _ ++ _ ++ _) = _
      omega
    · show List.take 2 (htons _ ++ _ ++ _) = _
      rw [g2]
    · show ntohs (htons _ ++ _ ++ _) = _
      omega
    · show PacketFlag.isAck (List.getD (htons _ ++ _ ++ _) 2 0) = false
      rw [g3]
      exact hflags.2.2.1
    · show List.length (htons _ ++ _ ++ _) ≤ _
      omega
    · show List.length (htons _ ++ _ ++ _) < _
      omega
  · obtain ⟨g1, g2, g3, _, g5⟩ := packet_header (3 + e.world.random c.calls % 256)
      e.pf.DISCONNECT (randomBytes e.world (c.calls + 1) (e.world.random c.calls % 256))
      (by omega)
    rw [randomBytes_length] at g5
    refine ⟨_, (sendDisconnectRequest_effect e c hst).1, Eq.refl _, ?_, ?_, ?_, g3, ?_, ?_,
      ?_⟩
    · show List.length (htons _ ++ _ ++ _) = _
      omega
    · show List.take 2 (htons _ ++ _ ++ _) = _
      rw [g2]
    · show ntohs (htons _ ++ _ ++ _) = _
      omega
    · show PacketFlag.isAck (List.getD (htons _ ++ _ ++ _) 2 0) = false
      rw [g3]
      exact hflags.2.2.2.1
    · show List.length (htons _ ++ _ ++ _) ≤ _
      omega
    · show List.length (htons _ ++ _ ++ _) < _
      omega
  · obtain ⟨g1, g2, g3, _, g5⟩ := packet_header (3 + 1 + e.world.random c.calls % 256)
      (e.pf.CONNECT + 128)
      ([randomBoolean (e.world.random (c.calls + 1)) success]
        ++ randomBytes e.world (c.calls + 2) (e.world.random c.calls % 256)) (by omega)
    have hb : ([randomBoolean (e.world.random (c.calls + 1)) success]
        ++ randomBytes e.world (c.calls + 2) (e.world.random c.calls % 256)).length
        = 1 + e.world.random c.calls % 256 := by
      rw [List.length_append, randomBytes_length]
      rfl
    rw [hb] at g5
    simp only [← List.append_assoc] at g1 g2 g3 g5
    refine ⟨_, (sendConnectResponse_effect e c success hst).1, Eq.refl _, ?_, ?_, ?_, ?_, ?_,
      ?_, ?_⟩
    · show List.length (htons _ ++ _ ++ _ ++ _) = _
      omega
    · show List.take 2 (htons _ ++ _ ++ _ ++ _) = _
      rw [g2]
    · show ntohs (htons _ ++ _ ++ _ ++ _) = _
      rw [g1]
    · show PacketFlag.getType (List.getD (htons _ ++ _ ++ _ ++ _) 2 0) = _
      rw [g3]
      exact hflags.2.2.2.2.2.2
    · show PacketFlag.isAck (List.getD (htons _ ++ _ ++ _ ++ _) 2 0) = true
      rw [g3]
      exact hflags.2.2.2.2.2.1
    · show List.length (htons _ ++ _ ++ _ ++ _) ≤ _
      omega
    · show List.length (htons _ ++ _ ++ _ ++ _) < _
      omega

/-- An instance of C24: the `PING` of the idle sample connection. -/
theorem C24_control_packet_layout_witness :
    ∃ (p : Nat) (ping : WriteRequest), p < 256 ∧
      (sendPingRequest sampleEnv (sampleConnection ConnectionState.Idling)).relayWrites
        = [ping] ∧
      ping.buf.length = 3 + 0 + p ∧ ntohs ping.buf = 3 + 0 + p ∧
      ping.buf.getD 2 0 = sampleEnv.pf.PING := by
  obtain ⟨p, _, hp, _, ⟨ping, h1, _, h3, _, h5, h6, _⟩, _⟩ := C24_control_packet_layout
    sampleEnv (sampleConnection ConnectionState.Idling) false (by decide)
  exact ⟨p, ping, hp, h1, h3, h5, h6⟩

/-! ## Bad challenges and `DATA` with the ACK bit -/

/-- C29 (fails on the code). The claim is that a first read of fewer than 32
or more than 256 bytes closes the connection. For every connection in state
`Initializing` and every such read, `onChallenge` returns without doing
anything: the connection is exactly what it was, still `Initializing` and not
`Closed`, and neither `AUTH` nor `ATTACH` is sent. -/
theorem C29_bad_challenge_is_ignored (e : Env) (fuel now : Nat) (c : ProxyConnection)
    (data : Bytes) (hst : c.state = ConnectionState.Initializing) (hpos : 0 < data.length)
    (hbad : data.length < 32 ∨ 256 < data.length) :
    onChallenge e c data = c ∧
    establishReadCb e fuel now c data.length data = some c ∧
    (onChallenge e c data).state = ConnectionState.Initializing ∧
    (onChallenge e c data).state ≠ ConnectionState.Closed ∧
    (onChallenge e c data).relayWrites = c.relayWrites := by
  have hrun : onChallenge e c data = c := by
    unfold onChallenge
    rw [if_pos (by
      simp only [Bool.or_eq_true, decide_eq_true_eq]
      omega)]
  refine ⟨hrun, ?_, ?_, ?_, ?_⟩
  · unfold establishReadCb
    rw [if_pos (by omega), if_pos hst, Int.toNat_ofNat, List.take_length, hrun]
  · rw [hrun, hst]
  · rw [hrun, hst]
    decide
  · rw [hrun]

/-- An instance of C29: the sample connection reads a challenge of 31 bytes. -/
theorem C29_bad_challenge_is_ignored_witness :
    shortChallenge.length = 31 ∧
    establishReadCb sampleEnv 1 5000 (sampleConnection ConnectionState.Initializing) 31
      shortChallenge = some (sampleConnection ConnectionState.Initializing) ∧
    (onChallenge sampleEnv (sampleConnection ConnectionState.Initializing)
      shortChallenge).state = ConnectionState.Initializing :=
  have h := C29_bad_challenge_is_ignored sampleEnv 1 5000
    (sampleConnection ConnectionState.Initializing) shortChallenge (Eq.refl _) (by decide)
    (Or.inl (by decide))
  ⟨by decide, h.2.1, h.2.2.1⟩

/-- C30 (fails on the code). The claim is that a relaying connection treats a
packet of type `DATA` with the ACK bit set as a wrong packet for the state:
the connection is closed and nothing of the payload is decrypted or written
upstream. The `Relaying` case of `processRelayPacket` tests `type == DATA`
without a look at the ACK bit, while the test of `DISCONNECT` next to it and
the tests of the other states look at it. So for every connection in state
`Relaying` and every packet of type `DATA` that holds header and MAC, its ACK
bit set or clear, `processRelayPacket` returns what `onDataRequest` returns:
the handler has been entered, the payload after the header has been decrypted
with the session box and the connection nonce and handed to `uv_write` on the
upstream, and when that write is accepted the connection is still `Relaying`,
not `Closed`, and nothing is sent to the server. -/
theorem C30_data_with_any_ack (e : Env) (c : ProxyConnection) (packet : Bytes) (size : Nat)
    (hst : c.state = ConnectionState.Relaying)
    (htype : PacketFlag.getType (packet.getD 2 0 % 256) = e.pf.DATA)
    (hsize : 19 ≤ size) (hmax : size ≤ PTRDIFF_MAX) :
    ∃ c1, processRelayPacket e c packet size = some c1 ∧
      c1.handlers = c.handlers ++ [Handler.onDataRequest] ∧
      c1.upstreamWrites = c.upstreamWrites ++
        [{ len := size - 19
           buf := e.crypto.decrypt c.proxy.box ((packet.drop 3).take (size - 3)) c.nonce
           tag := 0 }] ∧
      (0 ≤ e.world.rc c.calls →
        c1.state = ConnectionState.Relaying ∧ c1.state ≠ ConnectionState.Closed ∧
        c1.relayWrites = c.relayWrites) := by
  obtain ⟨c1, h0, hacc⟩ := onDataRequest_returns e
    { c with dispatched := c.dispatched ++ [packet.take size] } packet size hsize hmax
  obtain ⟨h1, h2, _⟩ := onDataRequest_effect e _ packet size c1 h0
  have hs3 : sizeSub size PACKET_HEADER_BYTES = size - 3 :=
    sizeSub_of_le _ _ (by unfold PACKET_HEADER_BYTES; omega) (by unfold PTRDIFF_MAX at hmax; omega)
  refine ⟨c1, (processRelayPacket_data e c packet size hst htype).trans h0, h2, ?_, ?_⟩
  · rw [h1, payload_length size hsize hmax, hs3]
    rfl
  · intro hrc
    rw [hacc hrc]
    refine ⟨hst, ?_, Eq.refl _⟩
    show c.state ≠ ConnectionState.Closed
    rw [hst]
    decide

/-- An instance of C30: the sample `DATA` packet of 22 bytes with the ACK bit,
plaintext `01 02 03`, on the relaying sample connection: the plaintext is
written to the upstream and the connection is still `Relaying`. -/
theorem C30_data_with_any_ack_witness :
    PacketFlag.isAck (dataAckPacket.getD 2 0 % 256) = true ∧
    PacketFlag.getType (dataAckPacket.getD 2 0 % 256) = sampleEnv.pf.DATA ∧
    ∃ c1, processRelayPacket sampleEnv (sampleConnection ConnectionState.Relaying)
        dataAckPacket 22 = some c1 ∧
      c1.handlers = [Handler.onDataRequest] ∧
      c1.upstreamWrites = [{ len := 3, buf := [1, 2, 3], tag := 0 }] ∧
      c1.state = ConnectionState.Relaying ∧ c1.state ≠ ConnectionState.Closed := by
  obtain ⟨c1, h0, h1, h2, h3⟩ := C30_data_with_any_ack sampleEnv
    (sampleConnection ConnectionState.Relaying) dataAckPacket 22 (Eq.refl _) (by decide)
    (by decide) (by decide)
  exact ⟨by decide, by decide, c1, h0, h1, h2, (h3 (by decide)).1, (h3 (by decide)).2.1⟩

/-! ## Runs of an established connection -/

theorem later_refl (c : ProxyConnection) : Later c c :=
  ⟨Or.inl (Eq.refl _), Eq.refl _, fun _ => Eq.refl _⟩

theorem later_trans {a b c : ProxyConnection} (h1 : Later a b) (h2 : Later b c) :
    Later a c where
  state := by
    rcases h2.state with h | h | h | h
    · rw [h]
      exact h1.state
    · exact Or.inr (Or.inl h)
    · exact Or.inr (Or.inr (Or.inl h))
    · exact Or.inr (Or.inr (Or.inr h))
  nonce := h2.nonce.trans h1.nonce
  openFailed := by
    intro ha
    have hb : b.state = ConnectionState.Idling ∨ b.state = ConnectionState.Relaying ∨
        b.state = ConnectionState.Closed := by
      rcases h1.state with h | h | h | h
      · rw [h]
        exact ha
      · exact Or.inr (Or.inr h)
      · exact Or.inl h
      · exact Or.inr (Or.inl h)
    exact (h2.openFailed hb).trans (h1.openFailed ha)

/-- A connection that differs from another in fields other than the state, the
nonce and the record of hooks comes later. -/
theorem later_of_eq {c c1 : ProxyConnection} (h1 : c1.state = c.state)
    (h2 : c1.nonce = c.nonce) (h3 : c1.hooks = c.hooks) : Later c c1 :=
  ⟨Or.inl h1, h2, fun _ => by rw [h3]⟩

theorem count_onOpenFailed (l : List Hook) (h : Hook) (hne : h ≠ Hook.onOpenFailed) :
    (l ++ [h]).count Hook.onOpenFailed = l.count Hook.onOpenFailed := by
  rw [List.count_append, List.count_singleton, if_neg (by
    intro hh
    exact hne (eq_of_beq hh))]
  rfl

theorem onIdle_later (c : ProxyConnection) : Later c (onIdle c) :=
  ⟨Or.inl (Eq.refl _), Eq.refl _, fun _ => count_onOpenFailed _ _ (by decide)⟩

theorem onBusy_later (c : ProxyConnection) : Later c (onBusy c) :=
  ⟨Or.inl (Eq.refl _), Eq.refl _, fun _ => count_onOpenFailed _ _ (by decide)⟩

theorem onClosed_later (c : ProxyConnection) : Later c (onClosed c) :=
  ⟨Or.inl (Eq.refl _), Eq.refl _, fun _ => count_onOpenFailed _ _ (by decide)⟩

theorem onOpened_later (c : ProxyConnection) : Later c (onOpened c) :=
  ⟨Or.inl (Eq.refl _), Eq.refl _, fun _ => count_onOpenFailed _ _ (by decide)⟩

theorem onAuthorized_later (e : Env) (c : ProxyConnection) (pk : Bytes) (port : Nat) :
    Later c (onAuthorized e c pk port) :=
  ⟨Or.inl (Eq.refl _), Eq.refl _, fun _ => count_onOpenFailed _ _ (by decide)⟩

/-- The hooks that `close` runs, by the state before the call. -/
theorem close_hooks (c : ProxyConnection) (hst : c.state ≠ ConnectionState.Closed) :
    (close c).hooks = c.hooks
      ++ (if c.state.toNat ≤ ConnectionState.Attaching.toNat then [Hook.onOpenFailed] else [])
      ++ (if c.state = ConnectionState.Relaying then [Hook.onIdle] else [])
      ++ [Hook.onClosed] := by
  unfold close
  rw [if_neg hst]
  dsimp only
  by_cases h1 : c.state.toNat ≤ ConnectionState.Attaching.toNat
  · by_cases h2 : c.state = ConnectionState.Relaying
    · rw [h2] at h1
      exact absurd h1 (by decide)
    · rw [if_pos h1, if_neg h2, if_pos h1, if_neg h2]
      simp only [onOpenFailed, onClosed, List.append_nil]
  · by_cases h2 : c.state = ConnectionState.Relaying
    · rw [if_neg h1, if_pos h2, if_neg h1, if_pos h2]
      simp only [onIdle, onClosed, List.append_nil]
    · rw [if_neg h1, if_neg h2, if_neg h1, if_neg h2]
      simp only [onClosed, List.append_nil]

theorem close_later (c : ProxyConnection) : Later c (close c) := by
  refine ⟨Or.inr (Or.inl (close_state c)), (close_quiet c).nonce, ?_⟩
  intro hS
  by_cases hst : c.state = ConnectionState.Closed
  · unfold close
    rw [if_pos hst]
  · rw [close_hooks c hst]
    have h1 : ¬ c.state.toNat ≤ ConnectionState.Attaching.toNat := by
      rcases hS with h | h | h <;> rw [h] <;> decide
    rw [if_neg h1, List.append_nil, count_onOpenFailed _ _ (by decide)]
    by_cases h2 : c.state = ConnectionState.Relaying
    · rw [if_pos h2, count_onOpenFailed _ _ (by decide)]
    · rw [if_neg h2, List.append_nil]

theorem relayWrite_later (e : Env) (c : ProxyConnection) (r : WriteRequest) :
    Later c (relayWrite e c r) := by
  unfold relayWrite
  dsimp only
  split_ifs
  · exact later_trans (by exact later_of_eq (Eq.refl _) (Eq.refl _) (Eq.refl _)) (close_later _)
  · exact later_of_eq (Eq.refl _) (Eq.refl _) (Eq.refl _)

theorem sendPingRequest_later (e : Env) (c : ProxyConnection) :
    Later c (sendPingRequest e c) := by
  unfold sendPingRequest
  split_ifs
  · exact later_refl c
  · exact later_trans (by exact later_of_eq (Eq.refl _) (Eq.refl _) (Eq.refl _))
      (relayWrite_later _ _ _)

theorem sendDisconnectRequest_later (e : Env) (c : ProxyConnection) :
    Later c (sendDisconnectRequest e c) := by
  unfold sendDisconnectRequest
  split_ifs
  · exact later_refl c
  · exact later_trans (by exact later_of_eq (Eq.refl _) (Eq.refl _) (Eq.refl _))
      (relayWrite_later _ _ _)

theorem sendConnectResponse_later (e : Env) (c : ProxyConnection) (success : Bool) :
    Later c (sendConnectResponse e c success) := by
  unfold sendConnectResponse
  by_cases h : c.state = ConnectionState.Closed
  · rw [if_pos h]
    exact later_refl c
  · rw [if_neg h]
    exact later_trans (by exact later_of_eq (Eq.refl _) (Eq.refl _) (Eq.refl _))
      (relayWrite_later _ _ _)

theorem sendDataRequest_later (e : Env) (c : ProxyConnection) (data : Bytes) :
    Later c (sendDataRequest e c data) := by
  unfold sendDataRequest
  by_cases h : c.state = ConnectionState.Closed
  · rw [if_pos h]
    exact later_refl c
  · rw [if_neg h]
    dsimp only
    split_ifs
    · exact later_trans (by exact later_of_eq (Eq.refl _) (Eq.refl _) (Eq.refl _)) (close_later _)
    · exact later_of_eq (Eq.refl _) (Eq.refl _) (Eq.refl _)
    · exact later_of_eq (Eq.refl _) (Eq.refl _) (Eq.refl _)

theorem closeUpstream_later (e : Env) (c : ProxyConnection) (force : Bool) :
    Later c (closeUpstream e c force) := by
  unfold closeUpstream
  dsimp only
  split_ifs
  all_goals first
    | exact later_refl c
    | exact later_of_eq (Eq.refl _) (Eq.refl _) (Eq.refl _)
    | exact ⟨Or.inr (Or.inr (Or.inl (Eq.refl _))), Eq.refl _,
        fun _ => count_onOpenFailed _ _ (by decide)⟩

theorem openUpstream_later (e : Env) (c : ProxyConnection) : Later c (openUpstream e c) := by
  unfold openUpstream
  dsimp only
  by_cases h0 : e.world.rc c.calls < 0
  · rw [if_pos h0]
    have hs := sendConnectResponse_later e { c with
        calls := c.calls + 1
        upstreamInitFailures := c.upstreamInitFailures + 1 } false
    have h1 : Later c (onIdle { sendConnectResponse e { c with
        calls := c.calls + 1
        upstreamInitFailures := c.upstreamInitFailures + 1 } false with
        state := ConnectionState.Idling }) :=
      ⟨Or.inr (Or.inr (Or.inl (Eq.refl _))), hs.nonce, fun hS =>
        (count_onOpenFailed _ _ (by decide)).trans (hs.openFailed hS)⟩
    split_ifs
    · exact later_trans (later_trans h1 (by exact later_of_eq (Eq.refl _) (Eq.refl _) (Eq.refl _)))
        (sendConnectResponse_later _ _ _)
    · exact later_trans h1 (by exact later_of_eq (Eq.refl _) (Eq.refl _) (Eq.refl _))
  · rw [if_neg h0]
    dsimp only
    split_ifs
    · exact later_trans (by exact later_of_eq (Eq.refl _) (Eq.refl _) (Eq.refl _))
        (sendConnectResponse_later _ _ _)
    · exact later_of_eq (Eq.refl _) (Eq.refl _) (Eq.refl _)

theorem startReadUpstream_later (e : Env) (c : ProxyConnection) :
    Later c (startReadUpstream e c) := by
  unfold startReadUpstream
  dsimp only
  split_ifs
  · exact later_trans (later_trans (by exact later_of_eq (Eq.refl _) (Eq.refl _) (Eq.refl _))
      (sendDisconnectRequest_later e _)) (closeUpstream_later e _ false)
  · exact later_of_eq (Eq.refl _) (Eq.refl _) (Eq.refl _)

theorem onAuthenticateResponse_later (e : Env) (c : ProxyConnection) (packet : Bytes)
    (size : Nat) : Later c (onAuthenticateResponse e c packet size) := by
  unfold onAuthenticateResponse
  dsimp only
  by_cases h : size < AUTH_ACK_SIZE
  · rw [if_pos h]
    exact later_trans (by exact later_of_eq (Eq.refl _) (Eq.refl _) (Eq.refl _))
      (close_later _)
  · rw [if_neg h]
    refine ⟨Or.inr (Or.inr (Or.inl (Eq.refl _))), Eq.refl _, fun _ => ?_⟩
    show ((c.hooks ++ [Hook.onAuthorized]) ++ [Hook.onOpened]).count _ = _
    rw [count_onOpenFailed _ _ (by decide), count_onOpenFailed _ _ (by decide)]

theorem onAttachResponse_later (c : ProxyConnection) (packet : Bytes) (size : Nat) :
    Later c (onAttachResponse c packet size) :=
  ⟨Or.inr (Or.inr (Or.inl (Eq.refl _))), Eq.refl _,
    fun _ => count_onOpenFailed _ _ (by decide)⟩

theorem onPingResponse_later (c : ProxyConnection) (packet : Bytes) (size : Nat) :
    Later c (onPingResponse c packet size) :=
  later_of_eq (Eq.refl _) (Eq.refl _) (Eq.refl _)

theorem onConnectRequest_later (e : Env) (c : ProxyConnection) (packet : Bytes) (size : Nat) :
    Later c (onConnectRequest e c packet size) := by
  unfold onConnectRequest
  dsimp only
  by_cases h : size < CONNECT_REQ_SIZE
  · rw [if_pos h]
    exact later_trans (by exact later_of_eq (Eq.refl _) (Eq.refl _) (Eq.refl _))
      (close_later _)
  · rw [if_neg h, if_pos (show ActiveProxy.allow _ _ = true from Eq.refl true)]
    refine later_trans ?_ (openUpstream_later e _)
    exact ⟨Or.inr (Or.inr (Or.inr (Eq.refl _))), Eq.refl _,
      fun _ => count_onOpenFailed _ _ (by decide)⟩

theorem onDisconnectRequest_later (e : Env) (c : ProxyConnection) (packet : Bytes)
    (size : Nat) : Later c (onDisconnectRequest e c packet size) := by
  unfold onDisconnectRequest
  exact later_trans (by exact later_of_eq (Eq.refl _) (Eq.refl _) (Eq.refl _))
    (closeUpstream_later e _ true)

theorem onDataRequest_later (e : Env) (c : ProxyConnection) (packet : Bytes) (size : Nat)
    (c1 : ProxyConnection) (h : onDataRequest e c packet size = some c1) : Later c c1 := by
  unfold onDataRequest at h
  dsimp only at h
  by_cases hb : PTRDIFF_MAX < sizeSub (sizeSub size PACKET_HEADER_BYTES) MAC_BYTES
  · rw [if_pos hb] at h
    exact Option.noConfusion h
  · rw [if_neg hb] at h
    by_cases hrc : e.world.rc c.calls < 0
    · rw [if_pos hrc] at h
      cases h
      refine later_trans (later_trans ?_ (sendDisconnectRequest_later e _))
        (closeUpstream_later e _ false)
      exact later_of_eq (Eq.refl _) (Eq.refl _) (Eq.refl _)
    · rw [if_neg hrc] at h
      cases h
      exact later_of_eq (Eq.refl _) (Eq.refl _) (Eq.refl _)

/-- No packet from the server on which `processRelayPacket` returns takes the
connection back before `Idling`, changes the nonce, or runs the open-failed
hook once `Idling` was reached. -/
theorem processRelayPacket_later (e : Env) (c : ProxyConnection) (packet : Bytes)
    (size : Nat) (c1 : ProxyConnection) (h : processRelayPacket e c packet size = some c1) :
    Later c c1 := by
  have h0 : Later c { c with dispatched := c.dispatched ++ [packet.take size] } :=
    later_of_eq (Eq.refl _) (Eq.refl _) (Eq.refl _)
  refine later_trans h0 ?_
  rcases processRelayPacket_some e c packet size c1 h with
    ⟨_, code, rfl⟩ | ⟨_, _, _, rfl⟩ | ⟨_, rfl⟩ | ⟨_, rfl⟩ | ⟨_, rfl⟩ | ⟨_, rfl, _⟩ |
      ⟨_, rfl⟩ | ⟨_, h1⟩
  · exact later_trans (by exact later_of_eq (Eq.refl _) (Eq.refl _) (Eq.refl _))
      (close_later _)
  · exact close_later _
  · exact onAuthenticateResponse_later _ _ _ _
  · exact onAttachResponse_later _ _ _
  · exact onPingResponse_later _ _ _
  · exact onConnectRequest_later _ _ _ _
  · exact onDisconnectRequest_later _ _ _ _
  · exact onDataRequest_later _ _ _ _ _ h1

theorem relayLoop_later (e : Env) :
    ∀ (fuel : Nat) (c : ProxyConnection) (rem : Bytes) (c1 : ProxyConnection),
      relayLoop e fuel c rem = some c1 → Later c c1 := by
  intro fuel
  induction fuel with
  | zero =>
    intro c rem c1 h
    unfold relayLoop at h
    exact absurd h (by simp)
  | succ fuel ih =>
    intro c rem c1 h
    rcases relayLoop_some e fuel c rem c1 h with rfl | rfl | ⟨d, hp, hloop⟩
    · exact later_refl _
    · exact later_of_eq (Eq.refl _) (Eq.refl _) (Eq.refl _)
    · exact later_trans (processRelayPacket_later e c rem (ntohs rem) d hp) (ih _ _ _ hloop)

theorem completeSticky_later (e : Env) (fuel : Nat) (c : ProxyConnection) (rem : Bytes)
    (c1 : ProxyConnection) (h : completeSticky e fuel c rem = some c1) : Later c c1 := by
  rcases completeSticky_some e fuel c rem c1 h with rfl | ⟨sb, rest, d, hp, hloop⟩
  · exact later_of_eq (Eq.refl _) (Eq.refl _) (Eq.refl _)
  · have h1 : Later c { c with stickyBuffer := sb } :=
      later_of_eq (Eq.refl _) (Eq.refl _) (Eq.refl _)
    have h2 := processRelayPacket_later e _ sb sb.length d hp
    have h3 : Later d { d with stickyBuffer := [] } :=
      later_of_eq (Eq.refl _) (Eq.refl _) (Eq.refl _)
    exact later_trans (later_trans (later_trans h1 h2) h3) (relayLoop_later e _ _ _ _ hloop)

theorem onRelayRead_later (e : Env) (fuel now : Nat) (c : ProxyConnection) (data : Bytes)
    (c1 : ProxyConnection) (h : onRelayRead e fuel now c data = some c1) : Later c c1 := by
  unfold onRelayRead at h
  dsimp only at h
  split_ifs at h
  · rw [← Option.some.inj h]
    exact later_of_eq (Eq.refl _) (Eq.refl _) (Eq.refl _)
  · exact later_trans (by exact later_of_eq (Eq.refl _) (Eq.refl _) (Eq.refl _))
      (completeSticky_later e fuel _ _ c1 h)
  · exact later_trans (by exact later_of_eq (Eq.refl _) (Eq.refl _) (Eq.refl _))
      (completeSticky_later e fuel _ _ c1 h)
  · exact later_trans (by exact later_of_eq (Eq.refl _) (Eq.refl _) (Eq.refl _))
      (relayLoop_later e fuel _ _ c1 h)

theorem keepAlive_later (e : Env) (now : Nat) (c : ProxyConnection) :
    Later c (keepAlive e now c) := by
  unfold keepAlive
  dsimp only
  split_ifs
  · exact later_refl c
  · exact close_later c
  · exact later_trans (by exact later_of_eq (Eq.refl _) (Eq.refl _) (Eq.refl _))
      (sendPingRequest_later e _)
  · exact later_of_eq (Eq.refl _) (Eq.refl _) (Eq.refl _)

theorem controlWriteCb_later (c : ProxyConnection) (status : Int) :
    Later c (controlWriteCb c status) := by
  unfold controlWriteCb
  split_ifs
  · exact close_later c
  · exact later_refl c

theorem sendConnectResponseWriteCb_later (e : Env) (c : ProxyConnection)
    (request : WriteRequest) (status : Int) :
    Later c (sendConnectResponseWriteCb e c request status) := by
  unfold sendConnectResponseWriteCb
  dsimp only
  by_cases hs : status < 0
  · rw [if_pos hs]
    exact close_later c
  · rw [if_neg hs]
    have h1 : Later c (if (decide (request.tag ≠ 0) && c.upstream.data) = true
        then startReadUpstream e c else c) := by
      split_ifs
      · exact startReadUpstream_later e c
      · exact later_refl c
    by_cases ht : request.tag = 0
    · rw [if_pos ht]
      refine later_trans h1 ?_
      exact ⟨Or.inr (Or.inr (Or.inl (Eq.refl _))), Eq.refl _,
        fun _ => count_onOpenFailed _ _ (by decide)⟩
    · rw [if_neg ht]
      exact h1

theorem sendDataRequestWriteCb_later (e : Env) (c : ProxyConnection) (status : Int) :
    Later c (sendDataRequestWriteCb e c status) := by
  unfold sendDataRequestWriteCb
  dsimp only
  have h1 : Later c (if status < 0 then close c else c) := by
    split_ifs
    · exact close_later c
    · exact later_refl c
  have h2 : ∀ d : ProxyConnection, Later d
      (if d.upstreamPaused = true then
        if e.world.writeQueueSize d.calls ≤ MAX_RELAY_WRITE_QUEUE_SIZE >>> 2 then
          startReadUpstream e { d with calls := d.calls + 1, upstreamPaused := false }
        else { d with calls := d.calls + 1 }
      else d) := by
    intro d
    split_ifs
    · exact later_trans (by exact later_of_eq (Eq.refl _) (Eq.refl _) (Eq.refl _))
        (startReadUpstream_later e _)
    · exact later_of_eq (Eq.refl _) (Eq.refl _) (Eq.refl _)
    · exact later_refl _
  exact later_trans h1 (h2 _)

theorem openUpstreamConnectCb_later (e : Env) (c : ProxyConnection) (status : Int) :
    Later c (openUpstreamConnectCb e c status) := by
  unfold openUpstreamConnectCb
  dsimp only
  refine later_trans ?_ (sendConnectResponse_later e _ _)
  split_ifs
  · exact later_of_eq (Eq.refl _) (Eq.refl _) (Eq.refl _)
  · exact later_refl c

theorem onDataRequestWriteCb_later (e : Env) (c : ProxyConnection) (status : Int) :
    Later c (onDataRequestWriteCb e c status) := by
  unfold onDataRequestWriteCb
  split_ifs
  · exact later_trans (sendDisconnectRequest_later e c) (closeUpstream_later e _ false)
  · exact later_refl c

theorem startReadUpstreamReadCb_later (e : Env) (c : ProxyConnection) (nread : Int)
    (buf : Bytes) : Later c (startReadUpstreamReadCb e c nread buf) := by
  unfold startReadUpstreamReadCb
  split_ifs
  · exact sendDataRequest_later e c _
  · exact later_trans (sendDisconnectRequest_later e c) (closeUpstream_later e _ false)
  · exact later_refl c

theorem closeUpstreamShutdownCb_later (c : ProxyConnection) (status : Int) :
    Later c (closeUpstreamShutdownCb c status) := by
  unfold closeUpstreamShutdownCb
  split_ifs
  · exact later_refl c
  · exact ⟨Or.inr (Or.inr (Or.inl (Eq.refl _))), Eq.refl _,
      fun _ => count_onOpenFailed _ _ (by decide)⟩

/-- Every event handler but the read of a connection that is `Initializing`
leaves a connection that comes later. -/
theorem handle_later (e : Env) (fuel : Nat) (c : ProxyConnection) (ev : Event)
    (c1 : ProxyConnection)
    (hev : c.state = ConnectionState.Initializing → ∀ now nread buf,
      ev = Event.relayRead now nread buf → nread ≤ 0)
    (h : handle e fuel c ev = some c1) : Later c c1 := by
  cases ev with
  | relayRead now nread buf =>
    change establishReadCb e fuel now c nread buf = some c1 at h
    unfold establishReadCb at h
    by_cases hn : nread > 0
    · rw [if_pos hn] at h
      by_cases hst : c.state = ConnectionState.Initializing
      · have := hev hst now nread buf (Eq.refl _)
        omega
      · rw [if_neg hst] at h
        exact onRelayRead_later e fuel now c _ c1 h
    · rw [if_neg hn] at h
      split_ifs at h
      · rw [← Option.some.inj h]
        exact close_later c
      · rw [← Option.some.inj h]
        exact later_refl c
  | keepAliveTick now =>
    rw [← Option.some.inj h]
    exact keepAlive_later e now c
  | controlWritten status =>
    rw [← Option.some.inj h]
    exact controlWriteCb_later c status
  | connectAckWritten request status =>
    rw [← Option.some.inj h]
    exact sendConnectResponseWriteCb_later e c request status
  | dataWritten status =>
    rw [← Option.some.inj h]
    exact sendDataRequestWriteCb_later e c status
  | upstreamConnected status =>
    rw [← Option.some.inj h]
    exact openUpstreamConnectCb_later e c status
  | upstreamRead nread buf =>
    rw [← Option.some.inj h]
    exact startReadUpstreamReadCb_later e c nread buf
  | upstreamWritten status =>
    rw [← Option.some.inj h]
    exact onDataRequestWriteCb_later e c status
  | upstreamShutdown status =>
    rw [← Option.some.inj h]
    exact closeUpstreamShutdownCb_later c status
  | closeCalled =>
    rw [← Option.some.inj h]
    exact close_later c
  | timerClosed =>
    rw [← Option.some.inj h]
    exact later_of_eq (Eq.refl _) (Eq.refl _) (Eq.refl _)
  | upstreamClosed =>
    rw [← Option.some.inj h]
    exact later_of_eq (Eq.refl _) (Eq.refl _) (Eq.refl _)
  | relayClosed =>
    rw [← Option.some.inj h]
    exact later_of_eq (Eq.refl _) (Eq.refl _) (Eq.refl _)

theorem later_ne_initializing {c c1 : ProxyConnection} (h : Later c c1)
    (hst : c.state ≠ ConnectionState.Initializing) :
    c1.state ≠ ConnectionState.Initializing := by
  rcases h.state with h1 | h1 | h1 | h1
  · rw [h1]
    exact hst
  all_goals
    rw [h1]
    decide

/-- A run of a connection that is past `Initializing` leaves a connection that
comes later. -/
theorem run_later (e : Env) (fuel : Nat) :
    ∀ (evs : List Event) (c c1 : ProxyConnection),
      c.state ≠ ConnectionState.Initializing → run e fuel c evs = some c1 → Later c c1 := by
  intro evs
  induction evs with
  | nil =>
    intro c c1 _ h
    unfold run at h
    rw [← Option.some.inj h]
    exact later_refl c
  | cons ev rest ih =>
    intro c c1 hst h
    unfold run at h
    cases hh : handle e fuel c ev with
    | none =>
      rw [hh] at h
      exact absurd h (by simp)
    | some c2 =>
      rw [hh] at h
      have h2 := handle_later e fuel c ev c2 (fun hi => absurd hi hst) hh
      exact later_trans h2 (ih c2 c1 (later_ne_initializing h2 hst) h)

/-- The failure counter of the proxy after `close`: the open-failed hook bumps
it, no other hook of `close` touches it. -/
theorem close_serverFails (c : ProxyConnection) (hst : c.state ≠ ConnectionState.Closed) :
    (close c).proxy.serverFails
      = c.proxy.serverFails
        + (if c.state.toNat ≤ ConnectionState.Attaching.toNat then 1 else 0) := by
  unfold close
  rw [if_neg hst]
  dsimp only
  by_cases h1 : c.state.toNat ≤ ConnectionState.Attaching.toNat
  · by_cases h2 : c.state = ConnectionState.Relaying
    · rw [h2] at h1
      exact absurd h1 (by decide)
    · rw [if_pos h1, if_neg h2, if_pos h1]
      rfl
  · by_cases h2 : c.state = ConnectionState.Relaying
    · rw [if_neg h1, if_pos h2, if_neg h1]
      rfl
    · rw [if_neg h1, if_neg h2, if_neg h1]
      rfl

theorem toNat_le_attaching (st : ConnectionState) :
    st.toNat ≤ ConnectionState.Attaching.toNat ↔
      (st = ConnectionState.Connecting ∨ st = ConnectionState.Initializing ∨
        st = ConnectionState.Authenticating ∨ st = ConnectionState.Attaching) := by
  cases st <;> decide

theorem later_reached {c c1 : ProxyConnection} (h : Later c c1)
    (hS : c.state = ConnectionState.Idling ∨ c.state = ConnectionState.Relaying ∨
      c.state = ConnectionState.Closed) :
    c1.state = ConnectionState.Idling ∨ c1.state = ConnectionState.Relaying ∨
      c1.state = ConnectionState.Closed := by
  rcases h.state with h1 | h1 | h1 | h1
  · rw [h1]
    exact hS
  · exact Or.inr (Or.inr h1)
  · exact Or.inl h1
  · exact Or.inr (Or.inl h1)

theorem reached_ne_initializing {c : ProxyConnection}
    (hS : c.state = ConnectionState.Idling ∨ c.state = ConnectionState.Relaying ∨
      c.state = ConnectionState.Closed) : c.state ≠ ConnectionState.Initializing := by
  rcases hS with h | h | h <;> rw [h] <;> decide

/-- C25. The function `close` runs the open-failed hook, once, if and only if
the state before the call is `Connecting`, `Initializing`, `Authenticating` or
`Attaching`, and the failure counter of the proxy is then one higher; in every
other state the hook does not run and the counter is what it was. For a
connection that is `Idling`, `Relaying` or `Closed`, every event handler that
returns leaves it `Idling`, `Relaying` or `Closed` and does not run the
open-failed hook, and so does every run of event handlers: a connection that
has reached `Idling` never runs the hook. (The handler that establishes the
connection runs once, before all of these.) -/
theorem C25_open_failed_hook (e : Env) (fuel : Nat) (c : ProxyConnection) :
    ((close c).hooks.count Hook.onOpenFailed = c.hooks.count Hook.onOpenFailed + 1 ↔
      (c.state = ConnectionState.Connecting ∨ c.state = ConnectionState.Initializing ∨
        c.state = ConnectionState.Authenticating ∨ c.state = ConnectionState.Attaching)) ∧
    ((c.state = ConnectionState.Connecting ∨ c.state = ConnectionState.Initializing ∨
        c.state = ConnectionState.Authenticating ∨ c.state = ConnectionState.Attaching) →
      (close c).proxy.serverFails = c.proxy.serverFails + 1) ∧
    (¬ (c.state = ConnectionState.Connecting ∨ c.state = ConnectionState.Initializing ∨
        c.state = ConnectionState.Authenticating ∨ c.state = ConnectionState.Attaching) →
      (close c).hooks.count Hook.onOpenFailed = c.hooks.count Hook.onOpenFailed ∧
      (close c).proxy.serverFails = c.proxy.serverFails) ∧
    ((c.state = ConnectionState.Idling ∨ c.state = ConnectionState.Relaying ∨
        c.state = ConnectionState.Closed) →
      (∀ (ev : Event) (c1 : ProxyConnection), handle e fuel c ev = some c1 →
        (c1.state = ConnectionState.Idling ∨ c1.state = ConnectionState.Relaying ∨
          c1.state = ConnectionState.Closed) ∧
        c1.hooks.count Hook.onOpenFailed = c.hooks.count Hook.onOpenFailed) ∧
      (∀ (evs : List Event) (c1 : ProxyConnection), run e fuel c evs = some c1 →
        (c1.state = ConnectionState.Idling ∨ c1.state = ConnectionState.Relaying ∨
          c1.state = ConnectionState.Closed) ∧
        c1.hooks.count Hook.onOpenFailed = c.hooks.count Hook.onOpenFailed)) := by
  have hcount : (close c).hooks.count Hook.onOpenFailed
      = c.hooks.count Hook.onOpenFailed
        + (if c.state.toNat ≤ ConnectionState.Attaching.toNat then 1 else 0) := by
    by_cases hst : c.state = ConnectionState.Closed
    · have h1 : ¬ c.state.toNat ≤ ConnectionState.Attaching.toNat := by
        rw [hst]
        decide
      rw [if_neg h1]
      unfold close
      rw [if_pos hst]
      rfl
    · rw [close_hooks c hst, count_onOpenFailed _ _ (by decide)]
      by_cases h1 : c.state.toNat ≤ ConnectionState.Attaching.toNat
      · have h2 : c.state ≠ ConnectionState.Relaying := by
          intro h
          rw [h] at h1
          exact absurd h1 (by decide)
        rw [if_pos h1, if_neg h2, List.append_nil, if_pos h1, List.count_append]
        rfl
      · rw [if_neg h1, List.append_nil, if_neg h1]
        by_cases h2 : c.state = ConnectionState.Relaying
        · rw [if_pos h2, count_onOpenFailed _ _ (by decide)]
          rfl
        · rw [if_neg h2, List.append_nil]
          rfl
  have hfails : (close c).proxy.serverFails
      = c.proxy.serverFails
        + (if c.state.toNat ≤ ConnectionState.Attaching.toNat then 1 else 0) := by
    by_cases hst : c.state = ConnectionState.Closed
    · have h1 : ¬ c.state.toNat ≤ ConnectionState.Attaching.toNat := by
        rw [hst]
        decide
      rw [if_neg h1]
      unfold close
      rw [if_pos hst]
      rfl
    · exact close_serverFails c hst
  refine ⟨?_, ?_, ?_, ?_⟩
  · rw [hcount, ← toNat_le_attaching]
    by_cases h1 : c.state.toNat ≤ ConnectionState.Attaching.toNat
    · rw [if_pos h1]
      exact ⟨fun _ => h1, fun _ => Eq.refl _⟩
    · rw [if_neg h1]
      exact ⟨fun h => by omega, fun h => absurd h h1⟩
  · intro h
    rw [hfails, if_pos ((toNat_le_attaching c.state).mpr h)]
  · intro h
    rw [hcount, hfails, if_neg (fun h1 => h ((toNat_le_attaching c.state).mp h1))]
    exact ⟨Eq.refl _, Eq.refl _⟩
  · intro hS
    have hni := reached_ne_initializing hS
    constructor
    · intro ev c1 h
      have hl := handle_later e fuel c ev c1 (fun hi => absurd hi hni) h
      exact ⟨later_reached hl hS, hl.openFailed hS⟩
    · intro evs c1 h
      have hl := run_later e fuel evs c c1 hni h
      exact ⟨later_reached hl hS, hl.openFailed hS⟩

/-- An instance of C25: the sample run of an idle connection returns, ends
`Closed`, and the open-failed hook has not run. -/
theorem C25_open_failed_hook_witness :
    (run sampleEnv 2 (sampleConnection ConnectionState.Idling) sampleRun).isSome = true ∧
    ∀ c1, run sampleEnv 2 (sampleConnection ConnectionState.Idling) sampleRun = some c1 →
      (c1.state = ConnectionState.Idling ∨ c1.state = ConnectionState.Relaying ∨
        c1.state = ConnectionState.Closed) ∧
      c1.hooks.count Hook.onOpenFailed = 0 :=
  ⟨by decide, ((C25_open_failed_hook sampleEnv 2
    (sampleConnection ConnectionState.Idling)).2.2.2 (Or.inl (Eq.refl _))).2 sampleRun⟩

/-! ## The nonce -/

/-- The answer to a challenge on a connection in state `Initializing`: a
challenge of a bad size changes nothing; any other draws the nonce and leaves
the state `Initializing`. -/
theorem onChallenge_nonce (e : Env) (c : ProxyConnection) (data : Bytes)
    (hst : c.state = ConnectionState.Initializing) :
    ((data.length < 32 ∨ 256 < data.length) ∧ onChallenge e c data = c) ∨
    (32 ≤ data.length ∧ data.length ≤ 256 ∧
      (onChallenge e c data).nonce = randomBytes e.world c.calls NONCE_BYTES ∧
      (onChallenge e c data).state ≠ ConnectionState.Initializing) := by
  have hne : c.state ≠ ConnectionState.Closed := by
    rw [hst]
    decide
  by_cases hsize : (decide (data.length < 32) || decide (data.length > 256)) = true
  · left
    constructor
    · simp only [Bool.or_eq_true, decide_eq_true_eq] at hsize
      exact hsize
    · unfold onChallenge
      rw [if_pos hsize]
  · right
    have hlen : 32 ≤ data.length ∧ data.length ≤ 256 := by
      simp only [Bool.or_eq_true, decide_eq_true_eq, not_or, not_lt] at hsize
      omega
    refine ⟨hlen.1, hlen.2, ?_⟩
    unfold onChallenge
    rw [if_neg hsize]
    by_cases hauth : c.proxy.isAuthenticated = true
    · rw [if_pos hauth]
      unfold sendAttachRequest
      rw [if_neg hne]
      dsimp only
      refine ⟨(relayWrite_effect e _ _).2.2, ?_⟩
      rw [(relayWrite_effect e _ _).2.1]
      dsimp only
      split_ifs <;> decide
    · rw [if_neg hauth]
      unfold sendAuthenticateRequest
      rw [if_neg hne]
      dsimp only
      refine ⟨(relayWrite_effect e _ _).2.2, ?_⟩
      rw [(relayWrite_effect e _ _).2.1]
      dsimp only
      split_ifs <;> decide

/-- Every event handler either keeps the nonce, and does not enter the state
`Initializing`, or it is the read of a challenge of 32 to 256 bytes on a
connection in state `Initializing`, draws the nonce and leaves that state. -/
theorem handle_nonce (e : Env) (fuel : Nat) (c : ProxyConnection) (ev : Event)
    (c1 : ProxyConnection) (h : handle e fuel c ev = some c1) :
    (c1.nonce = c.nonce ∧
      (c.state ≠ ConnectionState.Initializing → c1.state ≠ ConnectionState.Initializing)) ∨
    (c.state = ConnectionState.Initializing ∧
      (∃ now nread buf, ev = Event.relayRead now nread buf ∧ 0 < nread ∧
        32 ≤ (buf.take nread.toNat).length ∧ (buf.take nread.toNat).length ≤ 256) ∧
      c1.nonce = randomBytes e.world c.calls NONCE_BYTES ∧
      c1.state ≠ ConnectionState.Initializing) := by
  by_cases hread : c.state = ConnectionState.Initializing ∧
      ∃ now nread buf, ev = Event.relayRead now nread buf ∧ 0 < nread
  · obtain ⟨hst, now, nread, buf, hev, hn⟩ := hread
    rw [hev] at h
    change establishReadCb e fuel now c nread buf = some c1 at h
    unfold establishReadCb at h
    rw [if_pos hn, if_pos hst] at h
    rw [← Option.some.inj h]
    rcases onChallenge_nonce e c (buf.take nread.toNat) hst with ⟨_, h1⟩ | ⟨h1, h2, h3, h4⟩
    · left
      rw [h1]
      exact ⟨Eq.refl _, fun hh => hh⟩
    · right
      exact ⟨hst, ⟨now, nread, buf, hev, hn, h1, h2⟩, h3, h4⟩
  · left
    have hl := handle_later e fuel c ev c1 (fun hst now nread buf hev => by
      by_contra hn
      exact hread ⟨hst, now, nread, buf, hev, by omega⟩) h
    exact ⟨hl.nonce, later_ne_initializing hl⟩

/-- The nonce at the end of a run is the nonce at its start, or the run has
one event whose handler draws the nonce: before it the nonce is the one at the
start, after it the nonce is the one drawn. -/
theorem run_nonce (e : Env) (fuel : Nat) :
    ∀ (evs : List Event) (c c1 : ProxyConnection), run e fuel c evs = some c1 →
      c1.nonce = c.nonce ∨
      ∃ (pre : List Event) (ev : Event) (post : List Event) (c0 c2 : ProxyConnection),
        evs = pre ++ ev :: post ∧ run e fuel c pre = some c0 ∧ c0.nonce = c.nonce ∧
        c0.state = ConnectionState.Initializing ∧
        handle e fuel c0 ev = some c2 ∧
        c2.nonce = randomBytes e.world c0.calls NONCE_BYTES ∧
        c2.state ≠ ConnectionState.Initializing ∧ c1.nonce = c2.nonce := by
  intro evs
  induction evs with
  | nil =>
    intro c c1 h
    unfold run at h
    rw [← Option.some.inj h]
    exact Or.inl (Eq.refl _)
  | cons ev rest ih =>
    intro c c1 h
    unfold run at h
    cases hh : handle e fuel c ev with
    | none =>
      rw [hh] at h
      exact absurd h (by simp)
    | some c2 =>
      rw [hh] at h
      dsimp only at h
      rcases handle_nonce e fuel c ev c2 hh with ⟨hn, hs⟩ | ⟨hst, _, hn, hs⟩
      · by_cases hst : c2.state = ConnectionState.Initializing
        · rcases ih c2 c1 h with h1 | ⟨pre, ev1, post, c0, c3, h1, h2, h3, h4, h5, h6, h7, h8⟩
          · exact Or.inl (h1.trans hn)
          · right
            refine ⟨ev :: pre, ev1, post, c0, c3, ?_, ?_, h3.trans hn, h4, h5, h6, h7, h8⟩
            · rw [h1]
              rfl
            · show run e fuel c (ev :: pre) = some c0
              unfold run
              rw [hh]
              exact h2
        · exact Or.inl ((run_later e fuel rest c2 c1 hst h).nonce.trans hn)
      · right
        exact ⟨[], ev, rest, c, c2, Eq.refl _, Eq.refl _, Eq.refl _, hst, hh, hn, hs,
          (run_later e fuel rest c2 c1 hs h).nonce⟩

/-- An `ERR` packet on which `processRelayPacket` returns has been decrypted with
the nonce of the connection and its code is put on record. -/
theorem processRelayPacket_err_some (e : Env) (c : ProxyConnection) (packet : Bytes)
    (size : Nat) (c1 : ProxyConnection)
    (htype : PacketFlag.getType (packet.getD 2 0 % 256) = e.pf.ERR)
    (h : processRelayPacket e c packet size = some c1) :
    c1.errors = c.errors ++
      [ntohs (e.crypto.decrypt c.proxy.box
        ((packet.drop PACKET_HEADER_BYTES).take (sizeSub size PACKET_HEADER_BYTES)) c.nonce)] := by
  unfold processRelayPacket at h
  dsimp only at h
  rw [if_pos htype] at h
  by_cases hb : PTRDIFF_MAX < sizeSub (sizeSub size PACKET_HEADER_BYTES) MAC_BYTES
  · rw [if_pos hb] at h
    exact Option.noConfusion h
  · rw [if_neg hb] at h
    by_cases h2 : sizeSub (sizeSub size PACKET_HEADER_BYTES) MAC_BYTES < 2
    · rw [if_pos h2] at h
      exact Option.noConfusion h
    · rw [if_neg h2, ntohs_intoBlob _ _ (by omega)] at h
      rw [← Option.some.inj h]
      exact (close_quiet _).errors

/-- C28. The nonce of a connection is assigned at most once. Every event handler
that returns either leaves the nonce as it was, and does not enter the state
`Initializing`, or it is the read of a challenge of 32 to 256 bytes on a
connection in state `Initializing`: then the nonce is the 24 bytes drawn from
the random source and the state is no longer `Initializing`. Hence no run of
event handlers from a state other than `Initializing` changes the nonce, and in
every run at most one event assigns it: the nonce at the end is the one at the
start or the one that event has drawn. The operations that use a nonce take it
from the connection: `sendDataRequest` encrypts with it, and `onDataRequest`,
`onConnectRequest` and the `ERR` branch of `processRelayPacket` decrypt with
it whenever they return, which `onDataRequest` does on a packet of at least 19
bytes and the `ERR` branch on a packet of at least 21 bytes. -/
theorem C28_nonce_assigned_once (e : Env) (fuel : Nat) (c : ProxyConnection) :
    (∀ (ev : Event) (c1 : ProxyConnection), handle e fuel c ev = some c1 →
      (c1.nonce = c.nonce ∧
        (c.state ≠ ConnectionState.Initializing → c1.state ≠ ConnectionState.Initializing)) ∨
      (c.state = ConnectionState.Initializing ∧
        (∃ now nread buf, ev = Event.relayRead now nread buf ∧ 0 < nread ∧
          32 ≤ (buf.take nread.toNat).length ∧ (buf.take nread.toNat).length ≤ 256) ∧
        c1.nonce = randomBytes e.world c.calls NONCE_BYTES ∧
        c1.state ≠ ConnectionState.Initializing)) ∧
    (c.state ≠ ConnectionState.Initializing →
      ∀ (evs : List Event) (c1 : ProxyConnection), run e fuel c evs = some c1 →
        c1.nonce = c.nonce ∧ c1.state ≠ ConnectionState.Initializing) ∧
    (∀ (evs : List Event) (c1 : ProxyConnection), run e fuel c evs = some c1 →
      c1.nonce = c.nonce ∨
      ∃ (pre : List Event) (ev : Event) (post : List Event) (c0 c2 : ProxyConnection),
        evs = pre ++ ev :: post ∧ run e fuel c pre = some c0 ∧ c0.nonce = c.nonce ∧
        c0.state = ConnectionState.Initializing ∧
        handle e fuel c0 ev = some c2 ∧
        c2.nonce = randomBytes e.world c0.calls NONCE_BYTES ∧
        c2.state ≠ ConnectionState.Initializing ∧ c1.nonce = c2.nonce) ∧
    (∀ data : Bytes, c.state ≠ ConnectionState.Closed →
      (sendDataRequest e c data).relayWrites = c.relayWrites ++
        [{ len := PACKET_HEADER_BYTES + MAC_BYTES + data.length
           buf := htons (PACKET_HEADER_BYTES + MAC_BYTES + data.length) ++ [e.pf.data] ++
             intoBlob (data.length + MAC_BYTES) (e.crypto.encrypt c.proxy.box data c.nonce)
           tag := 0 }]) ∧
    (∀ (packet : Bytes) (size : Nat),
      (∀ c1, onDataRequest e c packet size = some c1 →
        c1.upstreamWrites = c.upstreamWrites ++
          [{ len := sizeSub (sizeSub size PACKET_HEADER_BYTES) MAC_BYTES
             buf := e.crypto.decrypt c.proxy.box
               ((packet.drop PACKET_HEADER_BYTES).take (sizeSub size PACKET_HEADER_BYTES))
               c.nonce
             tag := 0 }]) ∧
      (19 ≤ size → size ≤ PTRDIFF_MAX →
        ∃ c1, onDataRequest e c packet size = some c1)) ∧
    (∀ (packet : Bytes) (size : Nat), CONNECT_REQ_SIZE ≤ size →
      ∃ plain : Bytes,
        plain = intoBlob 19 (e.crypto.decrypt c.proxy.box ((packet.drop 3).take 35) c.nonce) ∧
        (onConnectRequest e c packet size).clients = c.clients ++
          [(plain.getD 0 0 % 256, (plain.drop 1).take (plain.getD 0 0 % 256),
            ntohs (plain.drop 17))]) ∧
    (∀ (packet : Bytes) (size : Nat),
      PacketFlag.getType (packet.getD 2 0 % 256) = e.pf.ERR →
      (∀ c1, processRelayPacket e c packet size = some c1 →
        c1.errors = c.errors ++
          [ntohs (e.crypto.decrypt c.proxy.box
            ((packet.drop PACKET_HEADER_BYTES).take (sizeSub size PACKET_HEADER_BYTES))
            c.nonce)]) ∧
      (21 ≤ size → size ≤ PTRDIFF_MAX →
        ∃ c1, processRelayPacket e c packet size = some c1)) := by
  refine ⟨handle_nonce e fuel c, ?_, fun evs c1 h => run_nonce e fuel evs c c1 h,
    fun data hst => sendDataRequest_relayWrites e c data hst,
    fun packet size => ⟨fun c1 h => (onDataRequest_effect e c packet size c1 h).1,
      fun h1 h2 => (onDataRequest_returns e c packet size h1 h2).imp fun _ h => h.1⟩, ?_,
    fun packet size htype => ⟨fun c1 h => processRelayPacket_err_some e c packet size c1 htype h,
      fun h1 h2 => ⟨_, processRelayPacket_err e c packet size htype h1 h2⟩⟩⟩
  · intro hst evs c1 h
    have hl := run_later e fuel evs c c1 hst h
    exact ⟨hl.nonce, later_ne_initializing hl hst⟩
  · intro packet size hsize
    obtain ⟨c2, h1, _, _, _, _, h2⟩ := onConnectRequest_dial e c packet size hsize
    refine ⟨_, Eq.refl _, ?_⟩
    rw [h1, openUpstream_clients, h2]

/-- An instance of C28: the sample connection in state `Initializing` reads
the sample challenge and draws its nonce, the bytes 0 to 23 of the sample
world; the session that follows returns and ends with that nonce. -/
theorem C28_nonce_assigned_once_witness :
    handle sampleEnv 2 (sampleConnection ConnectionState.Initializing)
        (Event.relayRead 1000 32 sampleChallenge)
      = some (onChallenge sampleEnv (sampleConnection ConnectionState.Initializing)
          sampleChallenge) ∧
    (onChallenge sampleEnv (sampleConnection ConnectionState.Initializing)
      sampleChallenge).nonce = List.range 24 ∧
    (run sampleEnv 2 (onChallenge sampleEnv (sampleConnection ConnectionState.Initializing)
      sampleChallenge) sessionRun).isSome = true ∧
    ∀ c1, run sampleEnv 2 (onChallenge sampleEnv
        (sampleConnection ConnectionState.Initializing) sampleChallenge) sessionRun = some c1 →
      c1.nonce = (onChallenge sampleEnv (sampleConnection ConnectionState.Initializing)
          sampleChallenge).nonce ∧
      c1.state ≠ ConnectionState.Initializing :=
  ⟨rfl, by decide, by decide,
    (C28_nonce_assigned_once sampleEnv 2 (onChallenge sampleEnv
      (sampleConnection ConnectionState.Initializing) sampleChallenge)).2.1 (by decide)
      sessionRun⟩

/-! ## The state `Closed` -/

theorem staysClosed_trans {a b c : ProxyConnection} (h1 : StaysClosed a b)
    (h2 : StaysClosed b c) : StaysClosed a c :=
  ⟨h2.state, h2.upstreamPaused.trans h1.upstreamPaused, h2.hooks.trans h1.hooks⟩

theorem close_closed (c : ProxyConnection) (hst : c.state = ConnectionState.Closed) :
    close c = c := by
  unfold close
  rw [if_pos hst]

theorem sendPingRequest_closed (e : Env) (c : ProxyConnection)
    (hst : c.state = ConnectionState.Closed) : sendPingRequest e c = c := by
  unfold sendPingRequest
  rw [if_pos hst]

theorem sendDisconnectRequest_closed (e : Env) (c : ProxyConnection)
    (hst : c.state = ConnectionState.Closed) : sendDisconnectRequest e c = c := by
  unfold sendDisconnectRequest
  rw [if_pos hst]

theorem sendConnectResponse_closed (e : Env) (c : ProxyConnection) (success : Bool)
    (hst : c.state = ConnectionState.Closed) : sendConnectResponse e c success = c := by
  unfold sendConnectResponse
  rw [if_pos hst]

theorem sendDataRequest_closed (e : Env) (c : ProxyConnection) (data : Bytes)
    (hst : c.state = ConnectionState.Closed) : sendDataRequest e c data = c := by
  unfold sendDataRequest
  rw [if_pos hst]

theorem closeUpstream_closed (e : Env) (c : ProxyConnection) (force : Bool)
    (hst : c.state = ConnectionState.Closed) : closeUpstream e c force = c := by
  unfold closeUpstream
  rw [if_pos hst]

/-- On a closed connection `startReadUpstream` still calls `uv_read_start`; the
state, the pause flag and the hooks are left alone. -/
theorem startReadUpstream_closed (e : Env) (c : ProxyConnection)
    (hst : c.state = ConnectionState.Closed) : StaysClosed c (startReadUpstream e c) := by
  unfold startReadUpstream
  dsimp only
  have h1 : ({ c with calls := c.calls + 1 } : ProxyConnection).state
      = ConnectionState.Closed := hst
  split_ifs
  · rw [sendDisconnectRequest_closed e _ h1, closeUpstream_closed e _ false h1]
    exact ⟨hst, Eq.refl _, Eq.refl _⟩
  · exact ⟨hst, Eq.refl _, Eq.refl _⟩

/-- A packet on which `processRelayPacket` returns on a closed connection (an
`ERR`; every other packet fails the `assert`) is put on record and nothing else
happens: `close` leaves a closed connection alone. -/
theorem processRelayPacket_closed (e : Env) (c : ProxyConnection) (packet : Bytes) (size : Nat)
    (c1 : ProxyConnection) (hst : c.state = ConnectionState.Closed)
    (h : processRelayPacket e c packet size = some c1) :
    StaysClosed c c1 := by
  rcases processRelayPacket_some e c packet size c1 h with
    ⟨_, code, rfl⟩ | ⟨_, _, h3, _⟩ | ⟨h1, _⟩ | ⟨h1, _⟩ | ⟨h1, _⟩ | ⟨h1, _⟩ | ⟨h1, _⟩ |
      ⟨h1, _⟩
  · rw [close_closed _ (by exact hst)]
    exact ⟨hst, Eq.refl _, Eq.refl _⟩
  · exact absurd hst h3
  all_goals
    rw [hst] at h1
    exact ConnectionState.noConfusion h1

theorem relayLoop_closed (e : Env) :
    ∀ (fuel : Nat) (c : ProxyConnection) (rem : Bytes) (c1 : ProxyConnection),
      c.state = ConnectionState.Closed → relayLoop e fuel c rem = some c1 →
      StaysClosed c c1 := by
  intro fuel
  induction fuel with
  | zero =>
    intro c rem c1 _ h
    unfold relayLoop at h
    exact absurd h (by simp)
  | succ fuel ih =>
    intro c rem c1 hst h
    rcases relayLoop_some e fuel c rem c1 h with rfl | rfl | ⟨d, hp, hloop⟩
    · exact ⟨hst, Eq.refl _, Eq.refl _⟩
    · exact ⟨hst, Eq.refl _, Eq.refl _⟩
    · have hq := processRelayPacket_closed e c rem (ntohs rem) d hst hp
      exact staysClosed_trans hq (ih _ _ _ hq.state hloop)

theorem completeSticky_closed (e : Env) (fuel : Nat) (c : ProxyConnection) (rem : Bytes)
    (c1 : ProxyConnection) (hst : c.state = ConnectionState.Closed)
    (h : completeSticky e fuel c rem = some c1) : StaysClosed c c1 := by
  rcases completeSticky_some e fuel c rem c1 h with rfl | ⟨sb, rest, d, hp, hloop⟩
  · exact ⟨hst, Eq.refl _, Eq.refl _⟩
  · have hq := processRelayPacket_closed e { c with stickyBuffer := sb } sb sb.length d
      (by exact hst) hp
    have h1 : StaysClosed c { d with stickyBuffer := [] } :=
      ⟨hq.state, hq.upstreamPaused, hq.hooks⟩
    exact staysClosed_trans h1 (relayLoop_closed e _ _ _ _ h1.state hloop)

theorem onRelayRead_closed (e : Env) (fuel now : Nat) (c : ProxyConnection) (data : Bytes)
    (c1 : ProxyConnection) (hst : c.state = ConnectionState.Closed)
    (h : onRelayRead e fuel now c data = some c1) : StaysClosed c c1 := by
  unfold onRelayRead at h
  dsimp only at h
  split_ifs at h
  · rw [← Option.some.inj h]
    exact ⟨hst, Eq.refl _, Eq.refl _⟩
  · have hp := completeSticky_closed e fuel _ _ c1 (by exact hst) h
    exact ⟨hp.state, hp.upstreamPaused, hp.hooks⟩
  · have hp := completeSticky_closed e fuel _ _ c1 (by exact hst) h
    exact ⟨hp.state, hp.upstreamPaused, hp.hooks⟩
  · have hp := relayLoop_closed e fuel _ _ c1 (by exact hst) h
    exact ⟨hp.state, hp.upstreamPaused, hp.hooks⟩

theorem keepAlive_closed (e : Env) (now : Nat) (c : ProxyConnection)
    (hst : c.state = ConnectionState.Closed) : StaysClosed c (keepAlive e now c) := by
  unfold keepAlive
  dsimp only
  split_ifs
  · exact ⟨hst, Eq.refl _, Eq.refl _⟩
  · rw [close_closed c hst]
    exact ⟨hst, Eq.refl _, Eq.refl _⟩
  · rw [sendPingRequest_closed e _ (by exact hst)]
    exact ⟨hst, Eq.refl _, Eq.refl _⟩
  · exact ⟨hst, Eq.refl _, Eq.refl _⟩

/-- Every event handler but three leaves a closed connection closed, with its
pause flag and its hooks: the exceptions are the completed write of a
`CONNECT|ACK` that reports a failure, the completed write of a `DATA` on a
paused connection whose write queue is short, and the completed shutdown of an
upstream that is not closing. -/
theorem handle_closed (e : Env) (fuel : Nat) (c : ProxyConnection) (ev : Event)
    (c1 : ProxyConnection) (hst : c.state = ConnectionState.Closed)
    (hack : ∀ request status, ev = Event.connectAckWritten request status →
      request.tag ≠ 0 ∨ status < 0)
    (hdata : ∀ status, ev = Event.dataWritten status →
      c.upstreamPaused = false ∨
        MAX_RELAY_WRITE_QUEUE_SIZE >>> 2 < e.world.writeQueueSize c.calls)
    (hshut : ∀ status, ev = Event.upstreamShutdown status → c.upstream.closing = true)
    (h : handle e fuel c ev = some c1) : StaysClosed c c1 := by
  have hni : c.state ≠ ConnectionState.Initializing := by
    rw [hst]
    decide
  cases ev with
  | relayRead now nread buf =>
    change establishReadCb e fuel now c nread buf = some c1 at h
    unfold establishReadCb at h
    by_cases hn : nread > 0
    · rw [if_pos hn, if_neg hni] at h
      exact onRelayRead_closed e fuel now c _ c1 hst h
    · rw [if_neg hn] at h
      split_ifs at h
      · rw [← Option.some.inj h, close_closed c hst]
        exact ⟨hst, Eq.refl _, Eq.refl _⟩
      · rw [← Option.some.inj h]
        exact ⟨hst, Eq.refl _, Eq.refl _⟩
  | keepAliveTick now =>
    rw [← Option.some.inj h]
    exact keepAlive_closed e now c hst
  | controlWritten status =>
    rw [← Option.some.inj h]
    unfold controlWriteCb
    split_ifs
    · rw [close_closed c hst]
      exact ⟨hst, Eq.refl _, Eq.refl _⟩
    · exact ⟨hst, Eq.refl _, Eq.refl _⟩
  | connectAckWritten request status =>
    rw [← Option.some.inj h]
    unfold sendConnectResponseWriteCb
    dsimp only
    by_cases hs : status < 0
    · rw [if_pos hs, close_closed c hst]
      exact ⟨hst, Eq.refl _, Eq.refl _⟩
    · rw [if_neg hs]
      rcases hack request status (Eq.refl _) with ht | hs1
      · rw [if_neg ht]
        split_ifs
        · exact startReadUpstream_closed e c hst
        · exact ⟨hst, Eq.refl _, Eq.refl _⟩
      · exact absurd hs1 hs
  | dataWritten status =>
    rw [← Option.some.inj h]
    unfold sendDataRequestWriteCb
    dsimp only
    have h1 : (if status < 0 then close c else c) = c := by
      split_ifs
      · exact close_closed c hst
      · rfl
    rw [h1]
    by_cases hp : c.upstreamPaused = true
    · rw [if_pos hp]
      rcases hdata status (Eq.refl _) with hp1 | hq
      · rw [hp1] at hp
        exact absurd hp (by decide)
      · rw [if_neg (Nat.not_le.mpr hq)]
        exact ⟨hst, Eq.refl _, Eq.refl _⟩
    · rw [if_neg hp]
      exact ⟨hst, Eq.refl _, Eq.refl _⟩
  | upstreamConnected status =>
    rw [← Option.some.inj h]
    unfold openUpstreamConnectCb
    dsimp only
    split_ifs
    · rw [sendConnectResponse_closed e _ _ (by exact hst)]
      exact ⟨hst, Eq.refl _, Eq.refl _⟩
    · rw [sendConnectResponse_closed e _ _ hst]
      exact ⟨hst, Eq.refl _, Eq.refl _⟩
  | upstreamRead nread buf =>
    rw [← Option.some.inj h]
    unfold startReadUpstreamReadCb
    split_ifs
    · rw [sendDataRequest_closed e c _ hst]
      exact ⟨hst, Eq.refl _, Eq.refl _⟩
    · dsimp only
      rw [sendDisconnectRequest_closed e c hst, closeUpstream_closed e c false hst]
      exact ⟨hst, Eq.refl _, Eq.refl _⟩
    · exact ⟨hst, Eq.refl _, Eq.refl _⟩
  | upstreamWritten status =>
    rw [← Option.some.inj h]
    unfold onDataRequestWriteCb
    split_ifs
    · dsimp only
      rw [sendDisconnectRequest_closed e c hst, closeUpstream_closed e c false hst]
      exact ⟨hst, Eq.refl _, Eq.refl _⟩
    · exact ⟨hst, Eq.refl _, Eq.refl _⟩
  | upstreamShutdown status =>
    rw [← Option.some.inj h]
    unfold closeUpstreamShutdownCb
    rw [if_pos (hshut status (Eq.refl _))]
    exact ⟨hst, Eq.refl _, Eq.refl _⟩
  | closeCalled =>
    rw [← Option.some.inj h, close_closed c hst]
    exact ⟨hst, Eq.refl _, Eq.refl _⟩
  | timerClosed =>
    rw [← Option.some.inj h]
    exact ⟨hst, Eq.refl _, Eq.refl _⟩
  | upstreamClosed =>
    rw [← Option.some.inj h]
    exact ⟨hst, Eq.refl _, Eq.refl _⟩
  | relayClosed =>
    rw [← Option.some.inj h]
    exact ⟨hst, Eq.refl _, Eq.refl _⟩

theorem run_closed (e : Env) (fuel : Nat) :
    ∀ (evs : List Event) (c c1 : ProxyConnection), c.state = ConnectionState.Closed →
      (∀ ev ∈ evs, Event.mayReopen ev = false) → run e fuel c evs = some c1 →
      StaysClosed c c1 := by
  intro evs
  induction evs with
  | nil =>
    intro c c1 hst _ h
    unfold run at h
    rw [← Option.some.inj h]
    exact ⟨hst, Eq.refl _, Eq.refl _⟩
  | cons ev rest ih =>
    intro c c1 hst hevs h
    unfold run at h
    cases hh : handle e fuel c ev with
    | none =>
      rw [hh] at h
      exact absurd h (by simp)
    | some c2 =>
      rw [hh] at h
      dsimp only at h
      have hev : Event.mayReopen ev = false := hevs ev (List.mem_cons_self _ _)
      have h2 : StaysClosed c c2 := by
        refine handle_closed e fuel c ev c2 hst ?_ ?_ ?_ hh
        · intro request status heq
          rw [heq] at hev
          simp only [Event.mayReopen, Bool.and_eq_false_iff, decide_eq_false_iff_not] at hev
          rcases hev with h1 | h1
          · exact Or.inl h1
          · exact Or.inr (by omega)
        · intro status heq
          rw [heq] at hev
          simp [Event.mayReopen] at hev
        · intro status heq
          rw [heq] at hev
          simp [Event.mayReopen] at hev
      exact staysClosed_trans h2
        (ih c2 c1 h2.state (fun ev1 h1 => hevs ev1 (List.mem_cons_of_mem _ h1)) h)

/-- C26. The state `Closed` is not absorbing. For a connection that is `Closed`,
every event handler that returns leaves it `Closed`, with the pause flag and
the hooks it had, except three; a second `close` changes nothing; and a run of
handlers other than those three leaves the connection `Closed`, so that the
closed hook does not run again. The three exceptions: the completed write of a
`CONNECT|ACK` with tag 0 sets the state to `Idling` and runs the idle hook, and
a `close` after it runs the closed hook a second time; the completed write of a
`DATA`, when the upstream is paused and the write queue holds at most a quarter
of its limit, clears the pause flag; the completed shutdown of an upstream that
is not closing sets the state to `Idling`. -/
theorem C26_closed_is_left (e : Env) (fuel : Nat) (c : ProxyConnection)
    (hst : c.state = ConnectionState.Closed) :
    (∀ (ev : Event) (c1 : ProxyConnection),
      (∀ request status, ev = Event.connectAckWritten request status →
        request.tag ≠ 0 ∨ status < 0) →
      (∀ status, ev = Event.dataWritten status →
        c.upstreamPaused = false ∨
          MAX_RELAY_WRITE_QUEUE_SIZE >>> 2 < e.world.writeQueueSize c.calls) →
      (∀ status, ev = Event.upstreamShutdown status → c.upstream.closing = true) →
      handle e fuel c ev = some c1 →
      c1.state = ConnectionState.Closed ∧ c1.upstreamPaused = c.upstreamPaused ∧
        c1.hooks = c.hooks) ∧
    close c = c ∧
    (∀ evs : List Event, (∀ ev ∈ evs, Event.mayReopen ev = false) →
      ∀ c1 : ProxyConnection, run e fuel c evs = some c1 →
      c1.state = ConnectionState.Closed ∧ c1.upstreamPaused = c.upstreamPaused ∧
        c1.hooks = c.hooks) ∧
    (∀ (request : WriteRequest) (status : Int), request.tag = 0 → 0 ≤ status →
      (sendConnectResponseWriteCb e c request status).state = ConnectionState.Idling ∧
      (sendConnectResponseWriteCb e c request status).hooks = c.hooks ++ [Hook.onIdle] ∧
      (close (sendConnectResponseWriteCb e c request status)).hooks
        = c.hooks ++ [Hook.onIdle] ++ [Hook.onClosed]) ∧
    (∀ status : Int, c.upstreamPaused = true →
      e.world.writeQueueSize c.calls ≤ MAX_RELAY_WRITE_QUEUE_SIZE >>> 2 →
      (sendDataRequestWriteCb e c status).state = ConnectionState.Closed ∧
      (sendDataRequestWriteCb e c status).upstreamPaused = false) ∧
    (∀ status : Int, c.upstream.closing = false →
      (closeUpstreamShutdownCb c status).state = ConnectionState.Idling) := by
  refine ⟨?_, close_closed c hst, ?_, ?_, ?_, ?_⟩
  · intro ev c1 hack hdata hshut h
    have hs := handle_closed e fuel c ev c1 hst hack hdata hshut h
    exact ⟨hs.state, hs.upstreamPaused, hs.hooks⟩
  · intro evs hevs c1 h
    have hs := run_closed e fuel evs c c1 hst hevs h
    exact ⟨hs.state, hs.upstreamPaused, hs.hooks⟩
  · intro request status ht hs
    have hc : ¬ ((decide (request.tag ≠ 0) && c.upstream.data) = true) := by
      rw [ht]
      simp
    have heq : sendConnectResponseWriteCb e c request status
        = onIdle { c with state := ConnectionState.Idling } := by
      unfold sendConnectResponseWriteCb
      dsimp only
      rw [if_neg (not_lt.mpr hs), if_neg hc, if_pos ht]
    rw [heq]
    exact ⟨Eq.refl _, Eq.refl _, Eq.refl _⟩
  · intro status hp hq
    have h1 : (if status < 0 then close c else c) = c := by
      split_ifs
      · exact close_closed c hst
      · rfl
    have heq : sendDataRequestWriteCb e c status
        = startReadUpstream e { c with calls := c.calls + 1, upstreamPaused := false } := by
      unfold sendDataRequestWriteCb
      dsimp only
      rw [h1, if_pos hp, if_pos hq]
    rw [heq]
    have hs := startReadUpstream_closed e
      { c with calls := c.calls + 1, upstreamPaused := false } hst
    exact ⟨hs.state, hs.upstreamPaused⟩
  · intro status hc
    unfold closeUpstreamShutdownCb
    rw [if_neg (by rw [hc]; decide)]
    rfl

/-- An instance of C26 on a connection that was closed while idle: the sample
run of handlers returns and leaves it `Closed`; the completed write of a
`CONNECT|ACK` that reports a failure makes it `Idling`, and a `close` after
that runs the closed hook a second time. -/
theorem C26_closed_is_left_witness :
    closedConnection.state = ConnectionState.Closed ∧
    closedConnection.hooks = [Hook.onClosed] ∧
    (run sampleEnv 3 closedConnection closedRun).isSome = true ∧
    (∀ c1, run sampleEnv 3 closedConnection closedRun = some c1 →
      c1.state = ConnectionState.Closed ∧ c1.upstreamPaused = closedConnection.upstreamPaused ∧
        c1.hooks = closedConnection.hooks) ∧
    (sendConnectResponseWriteCb sampleEnv closedConnection failureAck 0).state
      = ConnectionState.Idling ∧
    (close (sendConnectResponseWriteCb sampleEnv closedConnection failureAck 0)).hooks
      = [Hook.onClosed, Hook.onIdle, Hook.onClosed] :=
  ⟨by decide, by decide, by decide,
    (C26_closed_is_left sampleEnv 3 closedConnection (by decide)).2.2.1 closedRun (by decide),
    ((C26_closed_is_left sampleEnv 3 closedConnection (by decide)).2.2.2.1 failureAck 0
      (by decide) (by decide)).1,
    ((C26_closed_is_left sampleEnv 3 closedConnection (by decide)).2.2.2.1 failureAck 0
      (by decide) (by decide)).2.2⟩

/-! ## The upstream socket and the state `Relaying` -/

theorem steady_refl (c : ProxyConnection) : Steady c c :=
  fun h => ⟨Eq.refl _, h⟩

theorem steady_trans {a b c : ProxyConnection} (h1 : Steady a b) (h2 : Steady b c) :
    Steady a c :=
  fun h => ⟨(h2 h).1.trans (h1 (h2 h).2).1, (h1 (h2 h).2).2⟩

theorem steady_of_eq {c c1 : ProxyConnection} (hs : c1.state = c.state)
    (hd : c1.upstream.data = c.upstream.data)
    (hc : c1.upstream.closing = c.upstream.closing) : Steady c c1 :=
  fun h => ⟨hs, hd ▸ h.1, hc ▸ h.2⟩

theorem steady_of_not_open {c c1 : ProxyConnection} (h : ¬ upstreamOpen c1) : Steady c c1 :=
  fun ho => absurd ho h

theorem not_open_of_closing {c : ProxyConnection} (h : c.upstream.closing = true) :
    ¬ upstreamOpen c := by
  intro ho
  rw [ho.2] at h
  exact Bool.noConfusion h

theorem not_open_of_detached {c : ProxyConnection} (h : c.upstream.data = false) :
    ¬ upstreamOpen c := by
  intro ho
  rw [ho.1] at h
  exact Bool.noConfusion h

theorem inv_steady {c c1 : ProxyConnection} (h : UpstreamOnlyRelaying c) (hs : Steady c c1) :
    UpstreamOnlyRelaying c1 := by
  intro hst ho
  obtain ⟨h1, h2⟩ := hs ho
  exact h (by rw [← h1]; exact hst) h2

/-- A step from a state other than `Relaying` that opens no upstream. -/
theorem inv_unopened {c c1 : ProxyConnection} (h : UpstreamOnlyRelaying c)
    (hst : c.state ≠ ConnectionState.Relaying) (hu : upstreamOpen c1 → upstreamOpen c) :
    UpstreamOnlyRelaying c1 :=
  fun _ ho => h hst (hu ho)

theorem closeStream_not_open (h : Handle) :
    ¬ ((closeStream h).data = true ∧ (closeStream h).closing = false) := by
  rcases h with ⟨d, cl, r⟩
  cases d <;> cases cl <;> cases r <;> decide

theorem close_upstream (c : ProxyConnection) (hst : c.state ≠ ConnectionState.Closed) :
    (close c).upstream = closeStream c.upstream := by
  unfold close
  rw [if_neg hst]
  dsimp only
  split_ifs <;> rfl

/-- After `close` no upstream socket is open, unless the connection was closed
before and `close` did nothing. -/
theorem close_steady (c : ProxyConnection) : Steady c (close c) := by
  by_cases hst : c.state = ConnectionState.Closed
  · rw [close_closed c hst]
    exact steady_refl c
  · apply steady_of_not_open
    unfold upstreamOpen
    rw [close_upstream c hst]
    exact closeStream_not_open _

theorem relayWrite_steady (e : Env) (c : ProxyConnection) (r : WriteRequest) :
    Steady c (relayWrite e c r) := by
  unfold relayWrite
  dsimp only
  split_ifs
  · exact steady_trans (by exact steady_of_eq (Eq.refl _) (Eq.refl _) (Eq.refl _))
      (close_steady _)
  · exact steady_of_eq (Eq.refl _) (Eq.refl _) (Eq.refl _)

theorem sendPingRequest_steady (e : Env) (c : ProxyConnection) :
    Steady c (sendPingRequest e c) := by
  unfold sendPingRequest
  split_ifs
  · exact steady_refl c
  · exact steady_trans (by exact steady_of_eq (Eq.refl _) (Eq.refl _) (Eq.refl _))
      (relayWrite_steady _ _ _)

theorem sendDisconnectRequest_steady (e : Env) (c : ProxyConnection) :
    Steady c (sendDisconnectRequest e c) := by
  unfold sendDisconnectRequest
  split_ifs
  · exact steady_refl c
  · exact steady_trans (by exact steady_of_eq (Eq.refl _) (Eq.refl _) (Eq.refl _))
      (relayWrite_steady _ _ _)

theorem sendConnectResponse_steady (e : Env) (c : ProxyConnection) (success : Bool) :
    Steady c (sendConnectResponse e c success) := by
  unfold sendConnectResponse
  by_cases h : c.state = ConnectionState.Closed
  · rw [if_pos h]
    exact steady_refl c
  · rw [if_neg h]
    exact steady_trans (by exact steady_of_eq (Eq.refl _) (Eq.refl _) (Eq.refl _))
      (relayWrite_steady _ _ _)

theorem sendDataRequest_steady (e : Env) (c : ProxyConnection) (data : Bytes) :
    Steady c (sendDataRequest e c data) := by
  unfold sendDataRequest
  by_cases h : c.state = ConnectionState.Closed
  · rw [if_pos h]
    exact steady_refl c
  · rw [if_neg h]
    dsimp only
    split_ifs
    · exact steady_trans (by exact steady_of_eq (Eq.refl _) (Eq.refl _) (Eq.refl _))
        (close_steady _)
    · exact steady_of_eq (Eq.refl _) (Eq.refl _) (Eq.refl _)
    · exact steady_of_eq (Eq.refl _) (Eq.refl _) (Eq.refl _)

theorem closeUpstream_steady (e : Env) (c : ProxyConnection) (force : Bool) :
    Steady c (closeUpstream e c force) := by
  unfold closeUpstream
  dsimp only
  split_ifs
  all_goals first
    | exact steady_refl c
    | exact steady_of_eq (Eq.refl _) (Eq.refl _) (Eq.refl _)
    | exact steady_of_not_open (not_open_of_closing (Eq.refl _))

theorem startReadUpstream_steady (e : Env) (c : ProxyConnection) :
    Steady c (startReadUpstream e c) := by
  unfold startReadUpstream
  dsimp only
  split_ifs
  · exact steady_trans (steady_trans (by exact steady_of_eq (Eq.refl _) (Eq.refl _) (Eq.refl _))
      (sendDisconnectRequest_steady e _)) (closeUpstream_steady e _ false)
  · exact steady_of_eq (Eq.refl _) (Eq.refl _) (Eq.refl _)

theorem onPingResponse_steady (c : ProxyConnection) (packet : Bytes) (size : Nat) :
    Steady c (onPingResponse c packet size) :=
  steady_of_eq (Eq.refl _) (Eq.refl _) (Eq.refl _)

theorem onDisconnectRequest_steady (e : Env) (c : ProxyConnection) (packet : Bytes)
    (size : Nat) : Steady c (onDisconnectRequest e c packet size) := by
  unfold onDisconnectRequest
  exact steady_trans (by exact steady_of_eq (Eq.refl _) (Eq.refl _) (Eq.refl _))
    (closeUpstream_steady e _ true)

theorem onDataRequest_steady (e : Env) (c : ProxyConnection) (packet : Bytes) (size : Nat)
    (c1 : ProxyConnection) (h : onDataRequest e c packet size = some c1) : Steady c c1 := by
  unfold onDataRequest at h
  dsimp only at h
  by_cases hb : PTRDIFF_MAX < sizeSub (sizeSub size PACKET_HEADER_BYTES) MAC_BYTES
  · rw [if_pos hb] at h
    exact Option.noConfusion h
  · rw [if_neg hb] at h
    by_cases hrc : e.world.rc c.calls < 0
    · rw [if_pos hrc] at h
      cases h
      refine steady_trans (steady_trans ?_ (sendDisconnectRequest_steady e _))
        (closeUpstream_steady e _ false)
      exact steady_of_eq (Eq.refl _) (Eq.refl _) (Eq.refl _)
    · rw [if_neg hrc] at h
      cases h
      exact steady_of_eq (Eq.refl _) (Eq.refl _) (Eq.refl _)

theorem keepAlive_steady (e : Env) (now : Nat) (c : ProxyConnection) :
    Steady c (keepAlive e now c) := by
  unfold keepAlive
  dsimp only
  split_ifs
  · exact steady_refl c
  · exact close_steady c
  · exact steady_trans (by exact steady_of_eq (Eq.refl _) (Eq.refl _) (Eq.refl _))
      (sendPingRequest_steady e _)
  · exact steady_of_eq (Eq.refl _) (Eq.refl _) (Eq.refl _)

theorem controlWriteCb_steady (c : ProxyConnection) (status : Int) :
    Steady c (controlWriteCb c status) := by
  unfold controlWriteCb
  split_ifs
  · exact close_steady c
  · exact steady_refl c

theorem sendDataRequestWriteCb_steady (e : Env) (c : ProxyConnection) (status : Int) :
    Steady c (sendDataRequestWriteCb e c status) := by
  unfold sendDataRequestWriteCb
  dsimp only
  have h1 : Steady c (if status < 0 then close c else c) := by
    split_ifs
    · exact close_steady c
    · exact steady_refl c
  have h2 : ∀ d : ProxyConnection, Steady d
      (if d.upstreamPaused = true then
        if e.world.writeQueueSize d.calls ≤ MAX_RELAY_WRITE_QUEUE_SIZE >>> 2 then
          startReadUpstream e { d with calls := d.calls + 1, upstreamPaused := false }
        else { d with calls := d.calls + 1 }
      else d) := by
    intro d
    split_ifs
    · exact steady_trans (by exact steady_of_eq (Eq.refl _) (Eq.refl _) (Eq.refl _))
        (startReadUpstream_steady e _)
    · exact steady_of_eq (Eq.refl _) (Eq.refl _) (Eq.refl _)
    · exact steady_refl _
  exact steady_trans h1 (h2 _)

theorem openUpstreamConnectCb_steady (e : Env) (c : ProxyConnection) (status : Int) :
    Steady c (openUpstreamConnectCb e c status) := by
  unfold openUpstreamConnectCb
  dsimp only
  split_ifs
  · exact steady_trans (by exact steady_of_not_open (not_open_of_closing (Eq.refl _)))
      (sendConnectResponse_steady e _ _)
  · exact sendConnectResponse_steady e c _

theorem onDataRequestWriteCb_steady (e : Env) (c : ProxyConnection) (status : Int) :
    Steady c (onDataRequestWriteCb e c status) := by
  unfold onDataRequestWriteCb
  split_ifs
  · exact steady_trans (sendDisconnectRequest_steady e c) (closeUpstream_steady e _ false)
  · exact steady_refl c

theorem startReadUpstreamReadCb_steady (e : Env) (c : ProxyConnection) (nread : Int)
    (buf : Bytes) : Steady c (startReadUpstreamReadCb e c nread buf) := by
  unfold startReadUpstreamReadCb
  split_ifs
  · exact sendDataRequest_steady e c _
  · exact steady_trans (sendDisconnectRequest_steady e c) (closeUpstream_steady e _ false)
  · exact steady_refl c

theorem closeUpstreamShutdownCb_steady (c : ProxyConnection) (status : Int) :
    Steady c (closeUpstreamShutdownCb c status) := by
  unfold closeUpstreamShutdownCb
  split_ifs
  · exact steady_refl c
  · exact steady_of_not_open (not_open_of_closing (Eq.refl _))

theorem sendAuthenticateRequest_unopened (e : Env) (c : ProxyConnection) (data : Bytes) :
    upstreamOpen (sendAuthenticateRequest e c data) → upstreamOpen c := by
  unfold sendAuthenticateRequest
  split_ifs
  · exact id
  · intro h
    exact (relayWrite_steady e _ _ h).2

theorem sendAttachRequest_unopened (e : Env) (c : ProxyConnection) (data : Bytes) :
    upstreamOpen (sendAttachRequest e c data) → upstreamOpen c := by
  unfold sendAttachRequest
  split_ifs
  · exact id
  · intro h
    exact (relayWrite_steady e _ _ h).2

theorem onChallenge_inv (e : Env) (c : ProxyConnection) (data : Bytes)
    (h : UpstreamOnlyRelaying c) (hst : c.state ≠ ConnectionState.Relaying) :
    UpstreamOnlyRelaying (onChallenge e c data) := by
  refine inv_unopened h hst ?_
  unfold onChallenge
  split_ifs
  · exact id
  · exact sendAttachRequest_unopened e c data
  · exact sendAuthenticateRequest_unopened e c data

theorem onAuthenticateResponse_inv (e : Env) (c : ProxyConnection) (packet : Bytes)
    (size : Nat) (h : UpstreamOnlyRelaying c) (hst : c.state ≠ ConnectionState.Relaying) :
    UpstreamOnlyRelaying (onAuthenticateResponse e c packet size) := by
  refine inv_unopened h hst ?_
  unfold onAuthenticateResponse
  dsimp only
  by_cases hsz : size < AUTH_ACK_SIZE
  · rw [if_pos hsz]
    intro ho
    exact (close_steady _ ho).2
  · rw [if_neg hsz]
    exact id

theorem onAttachResponse_inv (c : ProxyConnection) (packet : Bytes) (size : Nat)
    (h : UpstreamOnlyRelaying c) (hst : c.state ≠ ConnectionState.Relaying) :
    UpstreamOnlyRelaying (onAttachResponse c packet size) :=
  inv_unopened h hst id

/-- The function `openUpstream` on a `Relaying` connection when `uv_tcp_init`
succeeds: the dial is under way, or the upstream is closing. -/
theorem openUpstream_inv (e : Env) (c : ProxyConnection) (h0 : 0 ≤ e.world.rc c.calls)
    (hst : c.state = ConnectionState.Relaying) : UpstreamOnlyRelaying (openUpstream e c) := by
  by_cases h1 : e.world.rc (c.calls + 1) < 0
  · rw [openUpstream_refused e c h0 h1]
    intro _ ho
    exact not_open_of_closing (Eq.refl _) (sendConnectResponse_steady e _ false ho).2
  · rw [openUpstream_dialled e c h0 (not_lt.mp h1)]
    intro hne
    exact absurd hst hne

theorem onConnectRequest_inv (e : Env) (c : ProxyConnection) (packet : Bytes) (size : Nat)
    (hinit : CONNECT_REQ_SIZE ≤ size → 0 ≤ e.world.rc c.calls)
    (h : UpstreamOnlyRelaying c) : UpstreamOnlyRelaying (onConnectRequest e c packet size) := by
  by_cases hs : size < CONNECT_REQ_SIZE
  · rw [onConnectRequest_short e c packet size hs]
    exact inv_steady h (steady_trans (by exact steady_of_eq (Eq.refl _) (Eq.refl _) (Eq.refl _))
      (close_steady _))
  · rw [onConnectRequest_accepted e c packet size (not_lt.mp hs)]
    exact openUpstream_inv e _ (hinit (not_lt.mp hs)) (Eq.refl _)

/-- No packet from the server on which `processRelayPacket` returns leaves an
upstream socket open on a connection that is not `Relaying`, if `uv_tcp_init`
succeeds for an accepted `CONNECT`. -/
theorem processRelayPacket_inv (e : Env) (c : ProxyConnection) (packet : Bytes) (size : Nat)
    (c1 : ProxyConnection)
    (hinit : c.state = ConnectionState.Idling →
      PacketFlag.isAck (packet.getD 2 0 % 256) = false →
      PacketFlag.getType (packet.getD 2 0 % 256) = e.pf.CONNECT →
      CONNECT_REQ_SIZE ≤ size → 0 ≤ e.world.rc c.calls)
    (h : UpstreamOnlyRelaying c) (hp : processRelayPacket e c packet size = some c1) :
    UpstreamOnlyRelaying c1 := by
  have h0 : UpstreamOnlyRelaying { c with dispatched := c.dispatched ++ [packet.take size] } :=
    inv_steady h (steady_of_eq (Eq.refl _) (Eq.refl _) (Eq.refl _))
  rcases processRelayPacket_some e c packet size c1 hp with
    ⟨_, code, rfl⟩ | ⟨_, _, _, rfl⟩ | ⟨hs, rfl⟩ | ⟨hs, rfl⟩ | ⟨hs, rfl⟩ |
      ⟨hs, rfl, hack, htype⟩ | ⟨hs, rfl⟩ | ⟨hs, h1⟩
  · exact inv_steady h (steady_trans (by exact steady_of_eq (Eq.refl _) (Eq.refl _) (Eq.refl _))
      (close_steady _))
  · exact inv_steady h0 (close_steady _)
  · exact onAuthenticateResponse_inv e _ packet size h0 (by
      show c.state ≠ ConnectionState.Relaying
      rw [hs]
      decide)
  · exact onAttachResponse_inv _ packet size h0 (by
      show c.state ≠ ConnectionState.Relaying
      rw [hs]
      decide)
  · exact inv_steady h0 (onPingResponse_steady _ packet size)
  · exact onConnectRequest_inv e _ packet size (fun hsz => hinit hs hack htype hsz) h0
  · exact inv_steady h0 (onDisconnectRequest_steady e _ packet size)
  · exact inv_steady h0 (onDataRequest_steady e _ packet size c1 h1)

/-! ### The count of the failed calls of `uv_tcp_init` -/

/-- The function `openUpstream` counts the call of `uv_tcp_init` if it fails. -/
theorem openUpstream_initFailures (e : Env) (c : ProxyConnection) :
    (openUpstream e c).upstreamInitFailures
      = c.upstreamInitFailures + (if e.world.rc c.calls < 0 then 1 else 0) := by
  unfold openUpstream
  dsimp only
  by_cases h0 : e.world.rc c.calls < 0
  · rw [if_pos h0, if_pos h0]
    dsimp only [onIdle]
    split_ifs
    · rw [(sendConnectResponse_quiet e _ false).upstreamInitFailures]
      show (sendConnectResponse e _ false).upstreamInitFailures = _
      rw [(sendConnectResponse_quiet e _ false).upstreamInitFailures]
    · show (sendConnectResponse e _ false).upstreamInitFailures = _
      rw [(sendConnectResponse_quiet e _ false).upstreamInitFailures]
  · rw [if_neg h0, if_neg h0]
    dsimp only
    split_ifs
    · rw [(sendConnectResponse_quiet e _ false).upstreamInitFailures]
      rfl
    · rfl

theorem onConnectRequest_initFailures (e : Env) (c : ProxyConnection) (packet : Bytes)
    (size : Nat) :
    (onConnectRequest e c packet size).upstreamInitFailures
      = c.upstreamInitFailures
        + (if CONNECT_REQ_SIZE ≤ size ∧ e.world.rc c.calls < 0 then 1 else 0) := by
  by_cases hs : size < CONNECT_REQ_SIZE
  · rw [onConnectRequest_short e c packet size hs, (close_quiet _).upstreamInitFailures,
      if_neg (fun h => absurd h.1 (not_le.mpr hs))]
    rfl
  · rw [onConnectRequest_accepted e c packet size (not_lt.mp hs), openUpstream_initFailures]
    by_cases h0 : e.world.rc c.calls < 0
    · rw [if_pos (show e.world.rc c.calls < 0 from h0), if_pos ⟨not_lt.mp hs, h0⟩]
    · rw [if_neg (show ¬ e.world.rc c.calls < 0 from h0), if_neg (fun h => h0 h.2)]

theorem onAuthenticateResponse_initFailures (e : Env) (c : ProxyConnection) (packet : Bytes)
    (size : Nat) :
    (onAuthenticateResponse e c packet size).upstreamInitFailures = c.upstreamInitFailures := by
  unfold onAuthenticateResponse
  dsimp only
  by_cases hs : size < AUTH_ACK_SIZE
  · rw [if_pos hs]
    exact (close_quiet _).upstreamInitFailures
  · rw [if_neg hs]
    rfl

theorem onDataRequest_initFailures (e : Env) (c : ProxyConnection) (packet : Bytes)
    (size : Nat) (c1 : ProxyConnection) (h : onDataRequest e c packet size = some c1) :
    c1.upstreamInitFailures = c.upstreamInitFailures := by
  unfold onDataRequest at h
  dsimp only at h
  by_cases hb : PTRDIFF_MAX < sizeSub (sizeSub size PACKET_HEADER_BYTES) MAC_BYTES
  · rw [if_pos hb] at h
    exact Option.noConfusion h
  · rw [if_neg hb] at h
    by_cases hrc : e.world.rc c.calls < 0
    · rw [if_pos hrc] at h
      cases h
      exact (quiet_trans (sendDisconnectRequest_quiet e _)
        (closeUpstream_quiet e _ false)).upstreamInitFailures
    · rw [if_neg hrc] at h
      cases h
      rfl

/-- A call of `processRelayPacket` that returns does not lower the count of the
failed calls of `uv_tcp_init`, and it leaves the count as it was only if the
`uv_tcp_init` of every `CONNECT` that it has accepted has succeeded. -/
theorem processRelayPacket_initFailures (e : Env) (c : ProxyConnection) (packet : Bytes)
    (size : Nat) (c1 : ProxyConnection) (hp : processRelayPacket e c packet size = some c1) :
    c.upstreamInitFailures ≤ c1.upstreamInitFailures ∧
    (c1.upstreamInitFailures = c.upstreamInitFailures →
      c.state = ConnectionState.Idling →
      PacketFlag.isAck (packet.getD 2 0 % 256) = false →
      PacketFlag.getType (packet.getD 2 0 % 256) = e.pf.CONNECT →
      CONNECT_REQ_SIZE ≤ size → 0 ≤ e.world.rc c.calls) := by
  have hconn : c.state = ConnectionState.Idling →
      PacketFlag.isAck (packet.getD 2 0 % 256) = false →
      PacketFlag.getType (packet.getD 2 0 % 256) = e.pf.CONNECT →
      c1.upstreamInitFailures = c.upstreamInitFailures
        + (if CONNECT_REQ_SIZE ≤ size ∧ e.world.rc c.calls < 0 then 1 else 0) := by
    intro hs hack htype
    have h1 := processRelayPacket_connect e c packet size hs hack htype
    rw [hp] at h1
    rw [Option.some.inj h1, onConnectRequest_initFailures]
  constructor
  · rcases processRelayPacket_some e c packet size c1 hp with
      ⟨_, code, rfl⟩ | ⟨_, _, _, rfl⟩ | ⟨hs, rfl⟩ | ⟨hs, rfl⟩ | ⟨hs, rfl⟩ |
        ⟨hs, _, hack, htype⟩ | ⟨hs, rfl⟩ | ⟨hs, h1⟩
    · rw [(close_quiet _).upstreamInitFailures]
    · rw [(close_quiet _).upstreamInitFailures]
    · rw [onAuthenticateResponse_initFailures]
    · exact Nat.le_refl _
    · exact Nat.le_refl _
    · rw [hconn hs hack htype]
      exact Nat.le_add_right _ _
    · unfold onDisconnectRequest
      rw [(closeUpstream_quiet e _ true).upstreamInitFailures]
    · rw [onDataRequest_initFailures e _ packet size c1 h1]
  · intro hf hs hack htype hsz
    have h1 := hconn hs hack htype
    by_contra hneg
    rw [if_pos ⟨hsz, not_le.mp hneg⟩] at h1
    omega

theorem relayLoop_initFailures (e : Env) :
    ∀ (fuel : Nat) (c : ProxyConnection) (rem : Bytes) (c1 : ProxyConnection),
      relayLoop e fuel c rem = some c1 →
      c.upstreamInitFailures ≤ c1.upstreamInitFailures := by
  intro fuel
  induction fuel with
  | zero =>
    intro c rem c1 h
    unfold relayLoop at h
    exact absurd h (by simp)
  | succ fuel ih =>
    intro c rem c1 h
    rcases relayLoop_some e fuel c rem c1 h with rfl | rfl | ⟨d, hp, hloop⟩
    · exact Nat.le_refl _
    · exact Nat.le_refl _
    · exact Nat.le_trans (processRelayPacket_initFailures e c rem (ntohs rem) d hp).1
        (ih _ _ _ hloop)

/-- The loop of `onRelayRead`, when it returns and no call of `uv_tcp_init` has
failed in it, leaves no upstream socket open on a connection that is not
`Relaying`. -/
theorem relayLoop_inv (e : Env) :
    ∀ (fuel : Nat) (c : ProxyConnection) (rem : Bytes) (c1 : ProxyConnection),
      UpstreamOnlyRelaying c → relayLoop e fuel c rem = some c1 →
      c1.upstreamInitFailures = c.upstreamInitFailures →
      UpstreamOnlyRelaying c1 := by
  intro fuel
  induction fuel with
  | zero =>
    intro c rem c1 _ h
    unfold relayLoop at h
    exact absurd h (by simp)
  | succ fuel ih =>
    intro c rem c1 hinv h hf
    rcases relayLoop_some e fuel c rem c1 h with rfl | rfl | ⟨d, hp, hloop⟩
    · exact hinv
    · exact inv_steady hinv (steady_of_eq (Eq.refl _) (Eq.refl _) (Eq.refl _))
    · have h1 := processRelayPacket_initFailures e c rem (ntohs rem) d hp
      have h2 := relayLoop_initFailures e fuel d _ c1 hloop
      have hd : d.upstreamInitFailures = c.upstreamInitFailures := by omega
      exact ih _ _ _ (processRelayPacket_inv e c rem (ntohs rem) d (h1.2 hd) hinv hp) hloop
        (by omega)

theorem completeSticky_inv (e : Env) (fuel : Nat)
    (c : ProxyConnection) (rem : Bytes) (c1 : ProxyConnection) (hinv : UpstreamOnlyRelaying c)
    (h : completeSticky e fuel c rem = some c1)
    (hf : c1.upstreamInitFailures = c.upstreamInitFailures) : UpstreamOnlyRelaying c1 := by
  rcases completeSticky_some e fuel c rem c1 h with rfl | ⟨sb, rest, d, hp, hloop⟩
  · exact inv_steady hinv (steady_of_eq (Eq.refl _) (Eq.refl _) (Eq.refl _))
  · have h1 := processRelayPacket_initFailures e { c with stickyBuffer := sb } sb sb.length d hp
    have h2 := relayLoop_initFailures e fuel { d with stickyBuffer := [] } rest c1 hloop
    have h1a : c.upstreamInitFailures ≤ d.upstreamInitFailures := h1.1
    have h2a : d.upstreamInitFailures ≤ c1.upstreamInitFailures := h2
    have hd : d.upstreamInitFailures = c.upstreamInitFailures := by omega
    have hinv1 : UpstreamOnlyRelaying { c with stickyBuffer := sb } :=
      inv_steady hinv (steady_of_eq (Eq.refl _) (Eq.refl _) (Eq.refl _))
    have hinvd := processRelayPacket_inv e { c with stickyBuffer := sb } sb sb.length d
      (h1.2 hd) hinv1 hp
    have hinvd2 : UpstreamOnlyRelaying { d with stickyBuffer := [] } :=
      inv_steady hinvd (steady_of_eq (Eq.refl _) (Eq.refl _) (Eq.refl _))
    exact relayLoop_inv e fuel _ rest c1 hinvd2 hloop (by
      show c1.upstreamInitFailures = d.upstreamInitFailures
      omega)

theorem onRelayRead_inv (e : Env) (fuel now : Nat)
    (c : ProxyConnection) (data : Bytes) (c1 : ProxyConnection) (hinv : UpstreamOnlyRelaying c)
    (h : onRelayRead e fuel now c data = some c1)
    (hf : c1.upstreamInitFailures = c.upstreamInitFailures) : UpstreamOnlyRelaying c1 := by
  unfold onRelayRead at h
  dsimp only at h
  split_ifs at h
  · rw [← Option.some.inj h]
    exact inv_steady hinv (steady_of_eq (Eq.refl _) (Eq.refl _) (Eq.refl _))
  · exact completeSticky_inv e fuel _ _ c1
      (inv_steady hinv (by exact steady_of_eq (Eq.refl _) (Eq.refl _) (Eq.refl _))) h hf
  · exact completeSticky_inv e fuel _ _ c1
      (inv_steady hinv (by exact steady_of_eq (Eq.refl _) (Eq.refl _) (Eq.refl _))) h hf
  · exact relayLoop_inv e fuel _ _ c1
      (inv_steady hinv (by exact steady_of_eq (Eq.refl _) (Eq.refl _) (Eq.refl _))) h hf

/-- The completed write of a `CONNECT|ACK`: a report of a failure sets the
state to `Idling` and leaves the upstream alone, so no upstream may be open
when it completes. -/
theorem sendConnectResponseWriteCb_inv (e : Env) (c : ProxyConnection)
    (request : WriteRequest) (status : Int) (hinv : UpstreamOnlyRelaying c)
    (hack : request.tag = 0 → 0 ≤ status → ¬ upstreamOpen c) :
    UpstreamOnlyRelaying (sendConnectResponseWriteCb e c request status) := by
  unfold sendConnectResponseWriteCb
  dsimp only
  by_cases hs : status < 0
  · rw [if_pos hs]
    exact inv_steady hinv (close_steady c)
  · rw [if_neg hs]
    have h1 : Steady c (if (decide (request.tag ≠ 0) && c.upstream.data) = true
        then startReadUpstream e c else c) := by
      split_ifs
      · exact startReadUpstream_steady e c
      · exact steady_refl c
    by_cases ht : request.tag = 0
    · rw [if_pos ht]
      intro _ ho
      exact hack ht (not_lt.mp hs) (h1 ho).2
    · rw [if_neg ht]
      exact inv_steady hinv h1

/-- Every event handler that returns keeps the upstream closed on a connection
that is not `Relaying`, under two conditions: no call of `uv_tcp_init` has
failed in the handler, and the write of a `CONNECT|ACK` that reports a failure
completes when no upstream is open. -/
theorem handle_inv (e : Env) (fuel : Nat) (c : ProxyConnection) (ev : Event)
    (c1 : ProxyConnection) (hinv : UpstreamOnlyRelaying c)
    (hack : ∀ request status, ev = Event.connectAckWritten request status →
      request.tag = 0 → 0 ≤ status → ¬ upstreamOpen c)
    (h : handle e fuel c ev = some c1)
    (hf : c1.upstreamInitFailures = c.upstreamInitFailures) : UpstreamOnlyRelaying c1 := by
  cases ev with
  | relayRead now nread buf =>
    change establishReadCb e fuel now c nread buf = some c1 at h
    unfold establishReadCb at h
    by_cases hn : nread > 0
    · rw [if_pos hn] at h
      by_cases hst : c.state = ConnectionState.Initializing
      · rw [if_pos hst] at h
        rw [← Option.some.inj h]
        exact onChallenge_inv e c _ hinv (by rw [hst]; decide)
      · rw [if_neg hst] at h
        exact onRelayRead_inv e fuel now c _ c1 hinv h hf
    · rw [if_neg hn] at h
      split_ifs at h
      · rw [← Option.some.inj h]
        exact inv_steady hinv (close_steady c)
      · rw [← Option.some.inj h]
        exact hinv
  | keepAliveTick now =>
    rw [← Option.some.inj h]
    exact inv_steady hinv (keepAlive_steady e now c)
  | controlWritten status =>
    rw [← Option.some.inj h]
    exact inv_steady hinv (controlWriteCb_steady c status)
  | connectAckWritten request status =>
    rw [← Option.some.inj h]
    exact sendConnectResponseWriteCb_inv e c request status hinv
      (hack request status (Eq.refl _))
  | dataWritten status =>
    rw [← Option.some.inj h]
    exact inv_steady hinv (sendDataRequestWriteCb_steady e c status)
  | upstreamConnected status =>
    rw [← Option.some.inj h]
    exact inv_steady hinv (openUpstreamConnectCb_steady e c status)
  | upstreamRead nread buf =>
    rw [← Option.some.inj h]
    exact inv_steady hinv (startReadUpstreamReadCb_steady e c nread buf)
  | upstreamWritten status =>
    rw [← Option.some.inj h]
    exact inv_steady hinv (onDataRequestWriteCb_steady e c status)
  | upstreamShutdown status =>
    rw [← Option.some.inj h]
    exact inv_steady hinv (closeUpstreamShutdownCb_steady c status)
  | closeCalled =>
    rw [← Option.some.inj h]
    exact inv_steady hinv (close_steady c)
  | timerClosed =>
    rw [← Option.some.inj h]
    exact inv_steady hinv (steady_of_eq (Eq.refl _) (Eq.refl _) (Eq.refl _))
  | upstreamClosed =>
    rw [← Option.some.inj h]
    exact inv_steady hinv (steady_of_not_open (not_open_of_detached (Eq.refl _)))
  | relayClosed =>
    rw [← Option.some.inj h]
    exact inv_steady hinv (steady_of_eq (Eq.refl _) (Eq.refl _) (Eq.refl _))

/-- After `sendConnectResponse(false)` on a connection whose upstream handle is
closing: no upstream socket is open, and the connection is in the state it was
in if `uv_write` accepts the packet and `Closed` if `uv_write` refuses it. -/
theorem sendConnectResponse_closing (e : Env) (d : ProxyConnection)
    (hne : d.state ≠ ConnectionState.Closed) (hcl : d.upstream.closing = true) :
    ¬ upstreamOpen (sendConnectResponse e d false) ∧
    (sendConnectResponse e d false).state
      = (if e.world.rc (d.calls + 3) < 0 then ConnectionState.Closed else d.state) ∧
    (0 ≤ e.world.rc (d.calls + 3) →
      (sendConnectResponse e d false).upstream.closing = true) := by
  refine ⟨fun ho => not_open_of_closing hcl (sendConnectResponse_steady e d false ho).2,
    (sendConnectResponse_effect e d false hne).2.1, ?_⟩
  intro hw
  have hu : (sendConnectResponse e d false).upstream = d.upstream := by
    unfold sendConnectResponse
    rw [if_neg hne]
    dsimp only
    unfold relayWrite
    dsimp only
    rw [if_neg (not_lt.mpr hw)]
  rw [hu]
  exact hcl

/-- C27 (counterexample). An idle connection without an upstream reads a
`CONNECT`; `uv_tcp_connect` fails at once, so the upstream handle is closed and
the `CONNECT|ACK` that reports the failure is handed to `uv_write`. When the
read handler returns the connection is `Relaying`, not `Closed`, and its
upstream is closing: no upstream socket is open. Only the completion of the
write of the `CONNECT|ACK` makes the connection `Idling`. -/
theorem C27_relaying_without_upstream :
    ¬ upstreamOpen (sampleConnection ConnectionState.Idling) ∧
    (handle dialFailsEnv 2 (sampleConnection ConnectionState.Idling)
        (Event.relayRead 1000 38 connectReq)).map (fun c => (c.state, c.upstream))
      = some (ConnectionState.Relaying, { data := true, closing := true, reading := false }) ∧
    (handle dialFailsEnv 2 (sampleConnection ConnectionState.Idling)
        (Event.relayRead 1000 38 connectReq)).map (fun c => decide (upstreamOpen c))
      = some false ∧
    (run dialFailsEnv 2 (sampleConnection ConnectionState.Idling)
        [Event.relayRead 1000 38 connectReq, Event.connectAckWritten failureAck 0]).map
        (fun c => c.state)
      = some ConnectionState.Idling := by
  decide

/-- C27 (amended). Let no upstream socket be open on the connection unless its
state is `Relaying`. Then the same holds after every event handler that
returns, under two conditions: no call of `uv_tcp_init` has failed in the
handler (the count of the failed calls is what it was; `openUpstream` raises it
exactly when its `uv_tcp_init` fails), and the write of a `CONNECT|ACK` that
reports a failure completes when no upstream is open. For a single packet the
first condition is that `uv_tcp_init` succeeds if the packet is an accepted
`CONNECT`. In the state `Relaying` the upstream socket need not be open. An
accepted `CONNECT` on an idle connection whose `uv_tcp_init` succeeds leaves
the connection `Relaying` with an open upstream socket when `uv_tcp_connect`
succeeds; when `uv_tcp_connect` fails at once, no upstream socket is open
afterwards, and the connection is `Relaying` if `uv_write` accepts the
`CONNECT|ACK` that reports the failure and `Closed` if `uv_write` refuses it.
The same holds when the connect of a `Relaying` connection fails in its
completion callback. The completed write of the `CONNECT|ACK` that reports the
failure then leaves the connection `Idling`, or `Closed` if the write has
failed, and opens no upstream socket. -/
theorem C27_upstream_only_when_relaying (e : Env) (fuel : Nat) (c : ProxyConnection)
    (hinv : UpstreamOnlyRelaying c) :
    (∀ (ev : Event) (c1 : ProxyConnection), handle e fuel c ev = some c1 →
      c1.upstreamInitFailures = c.upstreamInitFailures →
      (∀ request status, ev = Event.connectAckWritten request status →
        request.tag = 0 → 0 ≤ status → ¬ upstreamOpen c) →
      UpstreamOnlyRelaying c1) ∧
    (∀ d : ProxyConnection, (openUpstream e d).upstreamInitFailures
      = d.upstreamInitFailures + (if e.world.rc d.calls < 0 then 1 else 0)) ∧
    (∀ (packet : Bytes) (size : Nat) (c1 : ProxyConnection),
      (c.state = ConnectionState.Idling →
        PacketFlag.isAck (packet.getD 2 0 % 256) = false →
        PacketFlag.getType (packet.getD 2 0 % 256) = e.pf.CONNECT →
        CONNECT_REQ_SIZE ≤ size → 0 ≤ e.world.rc c.calls) →
      processRelayPacket e c packet size = some c1 → UpstreamOnlyRelaying c1) ∧
    (∀ (packet : Bytes) (size : Nat), c.state = ConnectionState.Idling →
      PacketFlag.isAck (packet.getD 2 0 % 256) = false →
      PacketFlag.getType (packet.getD 2 0 % 256) = e.pf.CONNECT →
      CONNECT_REQ_SIZE ≤ size → 0 ≤ e.world.rc c.calls →
      ∃ c1, processRelayPacket e c packet size = some c1 ∧
        c1.upstreamInitFailures = c.upstreamInitFailures ∧
        (0 ≤ e.world.rc (c.calls + 1) →
          c1.state = ConnectionState.Relaying ∧ upstreamOpen c1) ∧
        (e.world.rc (c.calls + 1) < 0 →
          ¬ upstreamOpen c1 ∧
          c1.state = (if e.world.rc (c.calls + 5) < 0 then ConnectionState.Closed
            else ConnectionState.Relaying) ∧
          (0 ≤ e.world.rc (c.calls + 5) → c1.upstream.closing = true))) ∧
    (∀ status : Int, status < 0 → c.state = ConnectionState.Relaying →
      ∃ c1, handle e fuel c (Event.upstreamConnected status) = some c1 ∧
        ¬ upstreamOpen c1 ∧
        c1.state = (if e.world.rc (c.calls + 3) < 0 then ConnectionState.Closed
          else ConnectionState.Relaying) ∧
        (0 ≤ e.world.rc (c.calls + 3) → c1.upstream.closing = true)) ∧
    (∀ (request : WriteRequest) (status : Int), request.tag = 0 →
      ∃ c1, handle e fuel c (Event.connectAckWritten request status) = some c1 ∧
        c1.state = (if status < 0 then ConnectionState.Closed else ConnectionState.Idling) ∧
        (¬ upstreamOpen c → ¬ upstreamOpen c1)) := by
  refine ⟨fun ev c1 h hf hack => handle_inv e fuel c ev c1 hinv hack h hf,
    fun d => openUpstream_initFailures e d,
    fun packet size c1 hinit hp => processRelayPacket_inv e c packet size c1 hinit hinv hp,
    ?_, ?_, ?_⟩
  · intro packet size hst hack htype hsize h0
    obtain ⟨c2, hrun, hcalls, hstate, _⟩ := onConnectRequest_dial e
      { c with dispatched := c.dispatched ++ [packet.take size] } packet size hsize
    have hc : c2.calls = c.calls := hcalls
    have h0c : 0 ≤ e.world.rc c2.calls := by
      rw [hc]
      exact h0
    have hp := processRelayPacket_connect e c packet size hst hack htype
    refine ⟨_, hp, ?_, ?_, ?_⟩
    · rw [onConnectRequest_initFailures, if_neg (fun h => absurd h0 (not_le.mpr h.2))]
      rfl
    · intro h1
      have h1c : 0 ≤ e.world.rc (c2.calls + 1) := by
        rw [hc]
        exact h1
      rw [hrun, openUpstream_dialled e c2 h0c h1c]
      exact ⟨hstate, Eq.refl _, Eq.refl _⟩
    · intro h1
      have h1c : e.world.rc (c2.calls + 1) < 0 := by
        rw [hc]
        exact h1
      rw [hrun, openUpstream_refused e c2 h0c h1c]
      have hne : c2.state ≠ ConnectionState.Closed := by
        rw [hstate]
        decide
      obtain ⟨k1, k2, k3⟩ := sendConnectResponse_closing e
        { c2 with
          upstream := uvClose { uvTcpInit c2.upstream with data := true }
          upstreamDials := c2.upstreamDials + 1
          calls := c2.calls + 1 + 1 } hne (Eq.refl _)
      refine ⟨k1, k2.trans ?_, fun hw => k3 ?_⟩
      · show (if e.world.rc (c2.calls + 1 + 1 + 3) < 0 then ConnectionState.Closed
            else c2.state) = _
        rw [hc, hstate]
      · show 0 ≤ e.world.rc (c2.calls + 1 + 1 + 3)
        rw [hc]
        exact hw
  · intro status hs hst
    have hne : c.state ≠ ConnectionState.Closed := by
      rw [hst]
      decide
    have hrun : handle e fuel c (Event.upstreamConnected status)
        = some (sendConnectResponse e { c with upstream := uvClose c.upstream } false) := by
      show some (openUpstreamConnectCb e c status) = _
      unfold openUpstreamConnectCb
      dsimp only
      rw [if_pos hs]
      have hd : decide (status = 0) = false := decide_eq_false (by omega)
      rw [hd]
    obtain ⟨k1, k2, k3⟩ := sendConnectResponse_closing e
      { c with upstream := uvClose c.upstream } hne (Eq.refl _)
    refine ⟨_, hrun, k1, k2.trans ?_, k3⟩
    show (if e.world.rc (c.calls + 3) < 0 then ConnectionState.Closed else c.state) = _
    rw [hst]
  · intro request status htag
    refine ⟨_, Eq.refl _, ?_, ?_⟩
    · show (sendConnectResponseWriteCb e c request status).state = _
      unfold sendConnectResponseWriteCb
      dsimp only
      by_cases hs : status < 0
      · rw [if_pos hs, if_pos hs]
        exact close_state c
      · rw [if_neg hs, if_neg hs, if_pos htag]
        rfl
    · intro hno ho
      have ho2 : upstreamOpen (sendConnectResponseWriteCb e c request status) := ho
      unfold sendConnectResponseWriteCb at ho2
      dsimp only at ho2
      by_cases hs : status < 0
      · rw [if_pos hs] at ho2
        exact hno (close_steady c ho2).2
      · rw [if_neg hs, if_pos htag] at ho2
        have h3 : (decide (request.tag ≠ 0) && c.upstream.data) = false := by
          rw [htag]
          rfl
        rw [h3] at ho2
        exact hno ho2

/-- An instance of the amended C27: the sample idle connection has no upstream;
it reads the sample `CONNECT` and every request of libuv succeeds. The read
returns, no call of `uv_tcp_init` has failed in it, and no upstream socket is
open unless the state is `Relaying`; the packet leaves the connection
`Relaying` with its upstream socket open. -/
theorem C27_upstream_only_when_relaying_witness :
    (∃ c1, handle sampleEnv 2 (sampleConnection ConnectionState.Idling)
        (Event.relayRead 1000 38 connectReq) = some c1 ∧
      c1.upstreamInitFailures
        = (sampleConnection ConnectionState.Idling).upstreamInitFailures ∧
      UpstreamOnlyRelaying c1) ∧
    (∃ c1, processRelayPacket sampleEnv (sampleConnection ConnectionState.Idling)
        connectReq 38 = some c1 ∧
      c1.state = ConnectionState.Relaying ∧ upstreamOpen c1) :=
  have h := C27_upstream_only_when_relaying sampleEnv 2
    (sampleConnection ConnectionState.Idling) (fun _ h => absurd h.1 (by decide))
  have hr : ∃ c1, handle sampleEnv 2 (sampleConnection ConnectionState.Idling)
      (Event.relayRead 1000 38 connectReq) = some c1 ∧
      c1.upstreamInitFailures
        = (sampleConnection ConnectionState.Idling).upstreamInitFailures :=
    ⟨_, rfl, by decide⟩
  ⟨hr.elim fun c1 hc => ⟨c1, hc.1, hc.2,
      h.1 _ c1 hc.1 hc.2 (fun _ _ hev => Event.noConfusion hev)⟩,
    (h.2.2.2.1 connectReq 38 (Eq.refl _) (by decide) (by decide) (by decide)
      (by decide)).elim fun c1 hc => ⟨c1, hc.1, hc.2.2.1 (by decide)⟩⟩

/-! ## Termination of `onRelayRead` -/

/-- A frame whose size field is 0 at the head of the unread bytes: the loop
hands it to `processRelayPacket`, advances by 0 bytes and meets it again. -/
theorem relayLoop_zero (e : Env) (rem : Bytes) (h0 : ntohs rem = 0)
    (h3 : PACKET_HEADER_BYTES ≤ rem.length) :
    ∀ (fuel : Nat) (c : ProxyConnection), relayLoop e fuel c rem = none := by
  intro fuel
  induction fuel with
  | zero =>
    intro c
    rfl
  | succ fuel ih =>
    intro c
    unfold relayLoop
    have hpos : rem.length > 0 := by
      unfold PACKET_HEADER_BYTES at h3
      omega
    rw [if_pos hpos, if_neg (not_lt.mpr h3)]
    dsimp only
    rw [h0, if_neg (Nat.not_lt_zero _), List.drop_zero]
    cases processRelayPacket e c rem 0 with
    | none => rfl
    | some d => exact ih d

/-- The loop comes to its end, within one step per unread byte, when no size
field that it can meet is 0, unless one of its calls of `processRelayPacket`
does not return. -/
theorem relayLoop_returns (e : Env) :
    ∀ (fuel : Nat) (c : ProxyConnection) (rem : Bytes), rem.length < fuel →
      (∀ k, PACKET_HEADER_BYTES ≤ (rem.drop k).length → ntohs (rem.drop k) ≠ 0) →
      (∃ c1, relayLoop e fuel c rem = some c1) ∨
      (∃ (d : ProxyConnection) (k : Nat),
        processRelayPacket e d (rem.drop k) (ntohs (rem.drop k)) = none) := by
  intro fuel
  induction fuel with
  | zero =>
    intro c rem h
    exact absurd h (Nat.not_lt_zero _)
  | succ fuel ih =>
    intro c rem hfuel hsize
    unfold relayLoop
    by_cases h0 : rem.length > 0
    · rw [if_pos h0]
      by_cases h1 : rem.length < PACKET_HEADER_BYTES
      · rw [if_pos h1]
        exact Or.inl ⟨_, Eq.refl _⟩
      · rw [if_neg h1]
        dsimp only
        by_cases h2 : rem.length < ntohs rem
        · rw [if_pos h2]
          exact Or.inl ⟨_, Eq.refl _⟩
        · rw [if_neg h2]
          have hne : ntohs rem ≠ 0 := by
            have := hsize 0 (by rw [List.drop_zero]; exact not_lt.mp h1)
            rw [List.drop_zero] at this
            exact this
          cases hp : processRelayPacket e c rem (ntohs rem) with
          | none =>
            right
            refine ⟨c, 0, ?_⟩
            rw [List.drop_zero]
            exact hp
          | some d =>
            dsimp only
            rcases ih d (rem.drop (ntohs rem)) (by rw [List.length_drop]; omega)
                (fun k hk => by
                  rw [List.drop_drop] at hk ⊢
                  exact hsize _ hk) with h | ⟨d1, k, h⟩
            · exact Or.inl h
            · right
              rw [List.drop_drop] at h
              exact ⟨d1, _, h⟩
    · rw [if_neg h0]
      exact Or.inl ⟨_, Eq.refl _⟩

/-- C34 (fails on the code). The claim is that `onRelayRead` terminates for
every input. For every connection with an empty sticky buffer and every read
of at least three bytes that begins with a size field of 0, `onRelayRead` does
not return, whatever the number of iterations of its loop: the iteration on
that frame consumes no byte, so that the loop meets the frame again whenever
`processRelayPacket` returns on it. On an idle connection and a frame of type
`PING` with the ACK bit, `processRelayPacket` returns on the frame every time
and leaves the connection idle, so the loop runs for ever. When no size field
that the loop can meet is 0, the loop comes to its end within one iteration per
unread byte: it returns, unless one of its calls of `processRelayPacket` does
not return. -/
theorem C34_zero_size_frame_never_ends (e : Env) (now : Nat) (c : ProxyConnection)
    (data : Bytes) (hsb : c.stickyBuffer = []) (h0 : ntohs data = 0)
    (h3 : PACKET_HEADER_BYTES ≤ data.length) :
    (∀ fuel, onRelayRead e fuel now c data = none) ∧
    (∀ fuel, relayLoop e fuel c data = none) ∧
    (∀ (fuel : Nat) (d : ProxyConnection), relayLoop e (fuel + 1) d data
      = (processRelayPacket e d data 0).bind (fun d1 => relayLoop e fuel d1 data)) ∧
    (PacketFlag.isAck (data.getD 2 0 % 256) = true →
      PacketFlag.getType (data.getD 2 0 % 256) = e.pf.PING →
      ∀ d : ProxyConnection, d.state = ConnectionState.Idling →
        ∃ d1, processRelayPacket e d data 0 = some d1 ∧
          d1.state = ConnectionState.Idling) ∧
    (∀ (fuel : Nat) (d : ProxyConnection) (rem : Bytes), rem.length < fuel →
      (∀ k, PACKET_HEADER_BYTES ≤ (rem.drop k).length → ntohs (rem.drop k) ≠ 0) →
      (∃ d1, relayLoop e fuel d rem = some d1) ∨
      (∃ (d1 : ProxyConnection) (k : Nat),
        processRelayPacket e d1 (rem.drop k) (ntohs (rem.drop k)) = none)) := by
  refine ⟨?_, fun fuel => relayLoop_zero e data h0 h3 fuel c, ?_, ?_,
    fun fuel d rem h1 h2 => relayLoop_returns e fuel d rem h1 h2⟩
  · intro fuel
    unfold onRelayRead
    dsimp only
    rw [hsb, if_neg (by simp)]
    exact relayLoop_zero e data h0 h3 fuel _
  · intro fuel d
    have hpos : data.length > 0 := by
      unfold PACKET_HEADER_BYTES at h3
      omega
    rw [relayLoop, if_pos hpos, if_neg (not_lt.mpr h3)]
    dsimp only
    rw [h0, if_neg (Nat.not_lt_zero _), List.drop_zero]
    cases processRelayPacket e d data 0 <;> rfl
  · intro hack htype d hd
    exact ⟨_, processRelayPacket_pingAck e d data 0 hd hack htype, hd⟩

/-- An instance of C34: the idle sample connection reads the three bytes
`00 00 90`, a `PING` with the ACK bit whose size field is 0; the read does not
return within 1000 iterations of the loop, although `processRelayPacket`
returns on the frame and leaves the connection idle; while the read of a
`PING|ACK` followed by a frame of size 1 returns. -/
theorem C34_zero_size_frame_never_ends_witness :
    onRelayRead sampleEnv 1000 1 (sampleConnection ConnectionState.Idling) zeroSizeFrame
      = none ∧
    (∃ d1, processRelayPacket sampleEnv (sampleConnection ConnectionState.Idling)
        zeroSizeFrame 0 = some d1 ∧ d1.state = ConnectionState.Idling) ∧
    (onRelayRead sampleEnv 7 1 (sampleConnection ConnectionState.Idling)
      pingThenShort).isSome = true :=
  have h := C34_zero_size_frame_never_ends sampleEnv 1
    (sampleConnection ConnectionState.Idling) zeroSizeFrame (Eq.refl _) (by decide) (by decide)
  ⟨h.1 1000, h.2.2.2.1 (by decide) (by decide) _ (Eq.refl _), by decide⟩

/-! ## The names of the states -/

/-- C35 (fails on the code). The claim is that `StateNames[state]` is within
the table and is the name of the state, for each of the seven states. The
table has five entries: the lookup is outside the table for `Relaying` and
`Closed`, so that `status` has no defined result in these states, and inside
the table it gives the name of the state for `Connecting` only; for
`Initializing`, `Authenticating`, `Attaching` and `Idling` it gives the names
"Authenticating", "Idling", "Relaying" and "Closed". -/
theorem C35_state_names_table (c : ProxyConnection) (refCount now : Nat) :
    StateNames.length = 5 ∧
    (∀ st : ConnectionState, st.toNat < StateNames.length ↔
      st ≠ ConnectionState.Relaying ∧ st ≠ ConnectionState.Closed) ∧
    (∀ st : ConnectionState, stateName st = some st.name ↔ st = ConnectionState.Connecting) ∧
    stateName ConnectionState.Connecting = some "Connecting" ∧
    stateName ConnectionState.Initializing = some "Authenticating" ∧
    stateName ConnectionState.Authenticating = some "Idling" ∧
    stateName ConnectionState.Attaching = some "Relaying" ∧
    stateName ConnectionState.Idling = some "Closed" ∧
    stateName ConnectionState.Relaying = none ∧
    stateName ConnectionState.Closed = none ∧
    (status c refCount now = none ↔
      c.state = ConnectionState.Relaying ∨ c.state = ConnectionState.Closed) := by
  refine ⟨rfl, ?_, ?_, rfl, rfl, rfl, rfl, rfl, rfl, rfl, ?_⟩
  · intro st
    cases st <;> decide
  · intro st
    cases st <;> decide
  · unfold status
    cases hst : c.state <;> simp [stateName, StateNames, ConnectionState.toNat]

/-- An instance of C35: the status of a relaying connection has no defined
result, and that of a connection in state `Connecting` is the string with the
name of the state. -/
theorem C35_state_names_table_witness :
    status (sampleConnection ConnectionState.Relaying) 1 5000 = none ∧
    status (sampleConnection ConnectionState.Connecting) 1 5000
      = some "Connection[0]: ref=1, state=Connecting, lastReceive=5s, " :=
  ⟨(C35_state_names_table (sampleConnection ConnectionState.Relaying) 1 5000).2.2.2.2.2.2.2.2.2.2.mpr
    (Or.inl (Eq.refl _)), by decide⟩

/-! ## Undersized `DATA` and `ERR`, the address of a `CONNECT`, and the `CONNECT|ACK` -/

/-- C31 (fails on the code). The claim is that an undersized `DATA` or `ERR`
packet is rejected by closing the connection, before its payload length is
computed. Neither `onDataRequest` nor the `ERR` branch of `processRelayPacket`
tests the size, as `onConnectRequest` does, which closes the connection on a
`CONNECT` that is too short. For every connection in state `Relaying` and
every `DATA` packet of fewer than 19 bytes, `processRelayPacket` hands the
packet to `onDataRequest`, where the payload length `size - 3 - 16`, taken in
`size_t`, wraps to 2^64 + size - 19, more than `PTRDIFF_MAX`: the `new` of that
many bytes fails inside the `noexcept` handler and ends the process, so the
handler does not return and the connection is not closed. For every connection
and every `ERR` packet of fewer than 21 bytes `processRelayPacket` does not
return with a defined connection either: below 19 bytes the length of the
plaintext block wraps in the same way, and with 19 or 20 bytes the block has
fewer than the two bytes that are read as the code. -/
theorem C31_undersized_packets_are_not_rejected (e : Env) (c : ProxyConnection)
    (packet : Bytes) (size : Nat) :
    (c.state = ConnectionState.Relaying →
      PacketFlag.getType (packet.getD 2 0 % 256) = e.pf.DATA → size < 3 + 16 →
      sizeSub (sizeSub size PACKET_HEADER_BYTES) MAC_BYTES = 18446744073709551616 + size - 19 ∧
      PTRDIFF_MAX < 18446744073709551616 + size - 19 ∧
      processRelayPacket e c packet size
        = onDataRequest e { c with dispatched := c.dispatched ++ [packet.take size] }
            packet size ∧
      processRelayPacket e c packet size = none) ∧
    (PacketFlag.getType (packet.getD 2 0 % 256) = e.pf.ERR → size < 3 + 16 + 2 →
      processRelayPacket e c packet size = none ∧
      (size < 19 →
        sizeSub (sizeSub size PACKET_HEADER_BYTES) MAC_BYTES
          = 18446744073709551616 + size - 19) ∧
      (19 ≤ size →
        sizeSub (sizeSub size PACKET_HEADER_BYTES) MAC_BYTES = size - 19 ∧ size - 19 < 2)) ∧
    (c.state = ConnectionState.Idling →
      PacketFlag.isAck (packet.getD 2 0 % 256) = false →
      PacketFlag.getType (packet.getD 2 0 % 256) = e.pf.CONNECT → size < CONNECT_REQ_SIZE →
      ∃ c1, processRelayPacket e c packet size = some c1 ∧
        c1.state = ConnectionState.Closed) := by
  refine ⟨?_, ?_, ?_⟩
  · intro hst htype hsize
    have hd := processRelayPacket_data e c packet size hst htype
    refine ⟨payload_length_wraps size hsize, by unfold PTRDIFF_MAX; omega, hd, ?_⟩
    rw [hd]
    exact onDataRequest_aborts e _ packet size hsize
  · intro htype hsize
    refine ⟨processRelayPacket_err_short e c packet size htype hsize,
      fun h => payload_length_wraps size h, fun h => ⟨payload_length size h
        (by unfold PTRDIFF_MAX; omega), by omega⟩⟩
  · intro hst hack htype hsize
    refine ⟨_, processRelayPacket_connect e c packet size hst hack htype, ?_⟩
    rw [onConnectRequest_short e _ packet size hsize]
    exact close_state _

/-- An instance of C31: the relaying sample connection receives a `DATA`
packet of three bytes, and an `ERR` packet of 20 bytes: `processRelayPacket`
returns on neither. -/
theorem C31_undersized_packets_are_not_rejected_witness :
    processRelayPacket sampleEnv (sampleConnection ConnectionState.Relaying) shortDataPacket 3
      = none ∧
    processRelayPacket sampleEnv (sampleConnection ConnectionState.Relaying) shortErrPacket 20
      = none :=
  ⟨((C31_undersized_packets_are_not_rejected sampleEnv
      (sampleConnection ConnectionState.Relaying) shortDataPacket 3).1 (Eq.refl _) (by decide)
      (by decide)).2.2.2,
   ((C31_undersized_packets_are_not_rejected sampleEnv
      (sampleConnection ConnectionState.Relaying) shortErrPacket 20).2.1 (by decide)
      (by decide)).1⟩

/-- C32 (fails on the code). The claim is that the client address always lies
inside the 16-byte address field. For every idle connection and every `CONNECT`
of at least `CONNECT_REQ_SIZE` bytes, with `plain` the 19 bytes of the
decrypted payload and `n` its first byte: the address handed on is the `n`
bytes that start at byte 1 of `plain`, whatever `n` is, and the upstream is
dialled. If `n ≤ 16` these are the first `n` bytes of the address field. If
`n > 16` the address has more than 16 bytes: it holds the whole address field
followed by the first byte of the port, and for `n ≥ 18` both bytes of the
port. -/
theorem C32_address_length_is_not_checked (e : Env) (c : ProxyConnection) (packet : Bytes)
    (size : Nat) (hst : c.state = ConnectionState.Idling)
    (hack : PacketFlag.isAck (packet.getD 2 0 % 256) = false)
    (htype : PacketFlag.getType (packet.getD 2 0 % 256) = e.pf.CONNECT)
    (hsize : CONNECT_REQ_SIZE ≤ size) :
    ∃ (c1 : ProxyConnection) (plain address : Bytes) (n : Nat),
      processRelayPacket e c packet size = some c1 ∧
      plain = intoBlob 19 (e.crypto.decrypt c.proxy.box ((packet.drop 3).take 35) c.nonce) ∧
      plain.length = 19 ∧ n = plain.getD 0 0 % 256 ∧
      address = (plain.drop 1).take n ∧
      c1.clients = c.clients ++ [(n, address, ntohs (plain.drop 17))] ∧
      c1.upstreamDials = c.upstreamDials + 1 ∧
      (n ≤ 16 → address = ((plain.drop 1).take 16).take n ∧ address.length = n) ∧
      (16 < n → 16 < address.length ∧ address.take 16 = (plain.drop 1).take 16 ∧
        address.getD 16 0 = plain.getD 17 0) ∧
      (18 ≤ n → address = (plain.drop 1).take 16 ++ plain.drop 17) := by
  have hlen : (intoBlob 19 (e.crypto.decrypt c.proxy.box ((packet.drop 3).take 35)
      c.nonce)).length = 19 := intoBlob_length _ _
  obtain ⟨c2, hrun, _, _, _, hd, hcl⟩ := onConnectRequest_dial e
    { c with dispatched := c.dispatched ++ [packet.take size] } packet size hsize
  generalize intoBlob 19 (e.crypto.decrypt c.proxy.box ((packet.drop 3).take 35) c.nonce)
    = plain at hlen hcl
  have hd1 : (plain.drop 1).length = 18 := by
    rw [List.length_drop, hlen]
  refine ⟨_, plain, (plain.drop 1).take (plain.getD 0 0 % 256), plain.getD 0 0 % 256,
    processRelayPacket_connect e c packet size hst hack htype, ?_, hlen,
    Eq.refl _, Eq.refl _, ?_, ?_, ?_, ?_, ?_⟩
  · rfl
  · rw [hrun, openUpstream_clients, hcl]
  · rw [hrun, openUpstream_upstreamDials, hd]
  · intro hn
    constructor
    · rw [List.take_take, Nat.min_eq_left hn]
    · rw [List.length_take, hd1]
      omega
  · intro hn
    refine ⟨?_, ?_, ?_⟩
    · rw [List.length_take, hd1]
      omega
    · rw [List.take_take, Nat.min_eq_left (by omega)]
    · have h1 : ((plain.drop 1).take (plain.getD 0 0 % 256))[16]? = plain[17]? := by
        rw [List.getElem?_take_of_lt hn, List.getElem?_drop]
      rw [List.getD_eq_getElem?_getD, h1, List.getD_eq_getElem?_getD]
  · intro hn
    have h1 : (plain.drop 1).take (plain.getD 0 0 % 256) = plain.drop 1 :=
      List.take_of_length_le (by omega)
    rw [h1]
    have h2 : plain.drop 17 = (plain.drop 1).drop 16 := by
      rw [List.drop_drop]
    rw [h2, List.take_append_drop]

/-- An instance of C32: the idle sample connection receives a `CONNECT` whose
address length is 18; the address handed on has 18 bytes, the last two of
which are the port bytes `1F 90`. -/
theorem C32_address_length_is_not_checked_witness :
    (∃ c1, processRelayPacket sampleEnv (sampleConnection ConnectionState.Idling)
        longAddrConnectReq 38 = some c1 ∧
      c1.clients
        = [(18, [0x7F, 0, 0, 1, 0, 0, 0, 0, 0, 0, 0, 0, 0, 0, 0, 0, 0x1F, 0x90], 0x1F90)]) ∧
    ∃ (c1 : ProxyConnection) (plain address : Bytes) (n : Nat),
      processRelayPacket sampleEnv (sampleConnection ConnectionState.Idling)
        longAddrConnectReq 38 = some c1 ∧
      plain = intoBlob 19 (sampleEnv.crypto.decrypt
        (sampleConnection ConnectionState.Idling).proxy.box
        ((longAddrConnectReq.drop 3).take 35) (sampleConnection ConnectionState.Idling).nonce) ∧
      plain.length = 19 ∧ n = plain.getD 0 0 % 256 ∧
      address = (plain.drop 1).take n ∧
      c1.clients = (sampleConnection ConnectionState.Idling).clients
          ++ [(n, address, ntohs (plain.drop 17))] ∧
      c1.upstreamDials = (sampleConnection ConnectionState.Idling).upstreamDials + 1 ∧
      (n ≤ 16 → address = ((plain.drop 1).take 16).take n ∧ address.length = n) ∧
      (16 < n → 16 < address.length ∧ address.take 16 = (plain.drop 1).take 16 ∧
        address.getD 16 0 = plain.getD 17 0) ∧
      (18 ≤ n → address = (plain.drop 1).take 16 ++ plain.drop 17) :=
  ⟨⟨_, Eq.refl _, by decide⟩, C32_address_length_is_not_checked sampleEnv
    (sampleConnection ConnectionState.Idling) longAddrConnectReq 38 (Eq.refl _) (by decide)
    (by decide) (by decide)⟩

theorem id_getD_lt (id : Id) (i : Nat) : id.bytes.getD i 0 < 256 := by
  rw [List.getD_eq_getElem?_getD]
  cases h : id.bytes[i]? with
  | none => decide
  | some b => exact id.byte b (List.getElem?_mem h)

theorem id_ext {a b : Id} (h : a.bytes = b.bytes) : a = b := by
  cases a
  cases b
  cases h
  rfl

theorem id_getElem? (id : Id) (i : Nat) (hi : i < ID_BYTES) :
    id.bytes[i]? = some (id.bytes.getD i 0) := by
  rw [List.getD_eq_getElem?_getD, List.getElem?_eq_getElem (by rw [id.size]; exact hi)]
  rfl

theorem id_getElem?_none (id : Id) (i : Nat) (hi : ID_BYTES ≤ i) : id.bytes[i]? = none :=
  List.getElem?_eq_none (by rw [id.size]; exact hi)

theorem id_eq_of_getD {a b : Id} (h : ∀ i < ID_BYTES, a.bytes.getD i 0 = b.bytes.getD i 0) :
    a = b := by
  apply id_ext
  apply List.ext_getElem?
  intro i
  by_cases hi : i < ID_BYTES
  · rw [id_getElem? a i hi, id_getElem? b i hi, h i hi]
  · rw [id_getElem?_none a i (not_lt.mp hi), id_getElem?_none b i (not_lt.mp hi)]

theorem ofBytes_bytes (content : Bytes) (hlen : content.length = ID_BYTES)
    (hb : ∀ b ∈ content, b < 256) : (Id.ofBytes content).bytes = content := by
  show (intoBlob ID_BYTES content).map (· % 256) = content
  rw [intoBlob_of_length _ _ hlen]
  conv_rhs => rw [← List.map_id content]
  apply List.map_congr_left
  intro b hb1
  exact Nat.mod_eq_of_lt (hb b hb1)

/-- The loop that looks for the first index below `n` with the property `p`. -/
theorem find_range (p : Nat → Bool) :
    ∀ n, ((List.range n).find? p = none ∧ ∀ i < n, p i = false) ∨
      ∃ k, k < n ∧ (List.range n).find? p = some k ∧ p k = true ∧ ∀ j < k, p j = false := by
  intro n
  induction n with
  | zero =>
    left
    exact ⟨rfl, fun i hi => absurd hi (Nat.not_lt_zero _)⟩
  | succ n ih =>
    rw [List.range_succ, List.find?_append]
    rcases ih with ⟨h1, h2⟩ | ⟨k, hk, h1, h2, h3⟩
    · rw [h1]
      by_cases hp : p n = true
      · right
        refine ⟨n, Nat.lt_succ_self n, ?_, hp, h2⟩
        simp [hp]
      · left
        simp only [Bool.not_eq_true] at hp
        refine ⟨by simp [hp], ?_⟩
        intro i hi
        rcases Nat.lt_succ_iff_lt_or_eq.mp hi with h | h
        · exact h2 i h
        · rw [h]
          exact hp
    · right
      rw [h1]
      exact ⟨k, Nat.lt_succ_of_lt hk, rfl, h2, h3⟩

theorem firstMismatch_cases (id1 id2 : Id) :
    (firstMismatch id1 id2 = none ∧ id1 = id2) ∨
    ∃ k, k < ID_BYTES ∧ firstMismatch id1 id2 = some k ∧
      id1.bytes.getD k 0 ≠ id2.bytes.getD k 0 ∧
      ∀ j < k, id1.bytes.getD j 0 = id2.bytes.getD j 0 := by
  unfold firstMismatch
  rcases find_range (fun i => id1.bytes.getD i 0 != id2.bytes.getD i 0) ID_BYTES with
    ⟨h1, h2⟩ | ⟨k, hk, h1, h2, h3⟩
  · left
    refine ⟨h1, id_eq_of_getD fun i hi => ?_⟩
    have := h2 i hi
    simpa using this
  · right
    refine ⟨k, hk, h1, by simpa using h2, fun j hj => ?_⟩
    have := h3 j hj
    simpa using this

theorem distance_getD (t a : Id) (i : Nat) (hi : i < ID_BYTES) :
    (t.distance a).bytes.getD i 0 = t.bytes.getD i 0 ^^^ a.bytes.getD i 0 := by
  unfold Id.distance
  rw [ofBytes_bytes]
  · rw [List.getD_eq_getElem?_getD, List.getElem?_map, List.getElem?_range hi]
    rfl
  · rw [List.length_map, List.length_range]
  · intro b hb
    obtain ⟨j, _, rfl⟩ := List.mem_map.mp hb
    exact Nat.xor_lt_two_pow (n := 8) (id_getD_lt t j) (id_getD_lt a j)

theorem beValue_lt (bs : Bytes) (h : ∀ b ∈ bs, b < 256) : beValue bs < 256 ^ bs.length := by
  induction bs with
  | nil => decide
  | cons b rest ih =>
    have h1 := ih fun x hx => h x (List.mem_cons_of_mem _ hx)
    have h2 : b < 256 := h b (List.mem_cons_self _ _)
    show b * 256 ^ rest.length + beValue rest < 256 ^ (rest.length + 1)
    rw [pow_succ]
    nlinarith

/-- Two byte sequences of one length that agree before index `k` and differ
at `k` compare, as big-endian integers, as their bytes at `k`. -/
theorem beValue_lt_of_mismatch :
    ∀ (k : Nat) (xs ys : Bytes), xs.length = ys.length → (∀ b ∈ xs, b < 256) →
      (∀ b ∈ ys, b < 256) → (∀ j < k, xs.getD j 0 = ys.getD j 0) →
      xs.getD k 0 < ys.getD k 0 → beValue xs < beValue ys := by
  intro k
  induction k with
  | zero =>
    intro xs ys hlen hx hy _ hk
    cases xs with
    | nil =>
      cases ys with
      | nil => exact absurd hk (by decide)
      | cons y ys => exact absurd hlen (by simp)
    | cons x xs =>
      cases ys with
      | nil => exact absurd hlen (by simp)
      | cons y ys =>
        have hl : xs.length = ys.length := by simpa using hlen
        have h1 := beValue_lt xs fun b hb => hx b (List.mem_cons_of_mem _ hb)
        have hk1 : x < y := hk
        show x * 256 ^ xs.length + beValue xs < y * 256 ^ ys.length + beValue ys
        rw [← hl]
        nlinarith [Nat.zero_le (beValue ys)]
  | succ k ih =>
    intro xs ys hlen hx hy hpre hk
    cases xs with
    | nil =>
      cases ys with
      | nil => exact absurd hk (Nat.lt_irrefl _)
      | cons y ys => exact absurd hlen (by simp)
    | cons x xs =>
      cases ys with
      | nil => exact absurd hlen (by simp)
      | cons y ys =>
        have hl : xs.length = ys.length := by simpa using hlen
        have h0 : x = y := hpre 0 (Nat.succ_pos k)
        have h1 := ih xs ys hl (fun b hb => hx b (List.mem_cons_of_mem _ hb))
          (fun b hb => hy b (List.mem_cons_of_mem _ hb))
          (fun j hj => hpre (j + 1) (Nat.succ_lt_succ hj)) hk
        show x * 256 ^ xs.length + beValue xs < y * 256 ^ ys.length + beValue ys
        rw [← hl, h0]
        omega

/-- The result of `threeWayCompare` and the order of the two distances. -/
theorem threeWayCompare_cases (t a b : Id) :
    (t.threeWayCompare a b = 0 ∧ a = b) ∨
    (t.threeWayCompare a b = -1 ∧ a ≠ b ∧
      beValue (t.distance a).bytes < beValue (t.distance b).bytes) ∨
    (t.threeWayCompare a b = 1 ∧ a ≠ b ∧
      beValue (t.distance b).bytes < beValue (t.distance a).bytes) := by
  rcases firstMismatch_cases a b with ⟨h1, h2⟩ | ⟨k, hk, h1, h2, h3⟩
  · left
    refine ⟨?_, h2⟩
    unfold Id.threeWayCompare
    rw [h1]
    rfl
  · right
    have hne : a ≠ b := by
      intro h
      rw [h] at h2
      exact h2 rfl
    have hxa : (a.bytes.getD k 0 ^^^ t.bytes.getD k 0) % 256
        = (t.distance a).bytes.getD k 0 := by
      rw [distance_getD t a k hk, Nat.xor_comm, Nat.mod_eq_of_lt]
      exact Nat.xor_lt_two_pow (n := 8) (id_getD_lt t k) (id_getD_lt a k)
    have hxb : (b.bytes.getD k 0 ^^^ t.bytes.getD k 0) % 256
        = (t.distance b).bytes.getD k 0 := by
      rw [distance_getD t b k hk, Nat.xor_comm, Nat.mod_eq_of_lt]
      exact Nat.xor_lt_two_pow (n := 8) (id_getD_lt t k) (id_getD_lt b k)
    have hpre : ∀ j < k, (t.distance a).bytes.getD j 0 = (t.distance b).bytes.getD j 0 := by
      intro j hj
      rw [distance_getD t a j (by omega), distance_getD t b j (by omega), h3 j hj]
    have hdiff : (t.distance a).bytes.getD k 0 ≠ (t.distance b).bytes.getD k 0 := by
      rw [distance_getD t a k hk, distance_getD t b k hk]
      intro h
      exact h2 (Nat.xor_right_injective h)
    have hrun : t.threeWayCompare a b
        = (if (t.distance a).bytes.getD k 0 < (t.distance b).bytes.getD k 0 then -1
          else if (t.distance a).bytes.getD k 0 > (t.distance b).bytes.getD k 0 then 1
          else 0) := by
      unfold Id.threeWayCompare
      rw [h1]
      dsimp only
      rw [if_neg (by omega), Int.toNat_ofNat, hxa, hxb]
    rw [hrun]
    have hla : (t.distance a).bytes.length = (t.distance b).bytes.length := by
      rw [(t.distance a).size, (t.distance b).size]
    rcases Nat.lt_or_gt_of_ne hdiff with h | h
    · left
      rw [if_pos h]
      exact ⟨rfl, hne, beValue_lt_of_mismatch k _ _ hla (t.distance a).byte (t.distance b).byte
        hpre h⟩
    · right
      rw [if_neg (by omega), if_pos h]
      exact ⟨rfl, hne, beValue_lt_of_mismatch k _ _ hla.symm (t.distance b).byte
        (t.distance a).byte (fun j hj => (hpre j hj).symm) h⟩

/-- C36. For all ids `t`, `a` and `b`, `t.threeWayCompare(a, b)` is -1, 0 or 1
according as the distance `t.distance(a)`, read as a big-endian unsigned
integer of 256 bits, is less than, equal to or greater than `t.distance(b)`,
where byte `i` of a distance is the XOR of the bytes `i`; it is 0 if and only
if `a = b`, and swapping `a` and `b` negates it. -/
theorem C36_three_way_compare (t a b : Id) :
    (t.distance a).bytes.length = 32 ∧
    (∀ i < 32, (t.distance a).bytes.getD i 0 = t.bytes.getD i 0 ^^^ a.bytes.getD i 0) ∧
    (t.threeWayCompare a b = -1 ∨ t.threeWayCompare a b = 0 ∨ t.threeWayCompare a b = 1) ∧
    (t.threeWayCompare a b = -1 ↔
      beValue (t.distance a).bytes < beValue (t.distance b).bytes) ∧
    (t.threeWayCompare a b = 0 ↔
      beValue (t.distance a).bytes = beValue (t.distance b).bytes) ∧
    (t.threeWayCompare a b = 1 ↔
      beValue (t.distance a).bytes > beValue (t.distance b).bytes) ∧
    (t.threeWayCompare a b = 0 ↔ a = b) ∧
    t.threeWayCompare b a = - t.threeWayCompare a b := by
  refine ⟨(t.distance a).size, fun i hi => distance_getD t a i hi, ?_⟩
  have hswap := threeWayCompare_cases t b a
  rcases threeWayCompare_cases t a b with ⟨h0, hab⟩ | ⟨h0, hne, hlt⟩ | ⟨h0, hne, hlt⟩
  · rw [h0]
    have hv : beValue (t.distance a).bytes = beValue (t.distance b).bytes := by
      rw [hab]
    refine ⟨by omega, by omega, by omega, by omega, ⟨fun _ => hab, fun _ => rfl⟩, ?_⟩
    rcases hswap with ⟨h1, _⟩ | ⟨_, h2, _⟩ | ⟨_, h2, _⟩
    · omega
    · exact absurd hab.symm h2
    · exact absurd hab.symm h2
  · rw [h0]
    refine ⟨by omega, by omega, by omega, by omega,
      ⟨fun h => absurd h (by decide), fun h => absurd h hne⟩, ?_⟩
    rcases hswap with ⟨_, h2⟩ | ⟨_, _, h2⟩ | ⟨h1, _, _⟩
    · exact absurd h2.symm hne
    · omega
    · omega
  · rw [h0]
    refine ⟨by omega, by omega, by omega, by omega,
      ⟨fun h => absurd h (by decide), fun h => absurd h hne⟩, ?_⟩
    rcases hswap with ⟨_, h2⟩ | ⟨h1, _, _⟩ | ⟨_, _, h2⟩
    · exact absurd h2.symm hne
    · omega
    · omega

/-! ## Prefixes of ids -/

set_option maxRecDepth 100000 in
/-- The mask `0xff80 >> k` on a byte: the byte has none of the mask's bits
exactly when its `k + 1` top bits are 0. -/
theorem mask_top_bits : ∀ k < 8, ∀ d < 256,
    decide (d &&& (0xff80 >>> k) = 0) = (List.range (k + 1)).all fun j => !d.testBit (7 - j) := by
  decide

set_option maxRecDepth 100000 in
theorem byte_zero_bits : ∀ d < 256,
    decide (d = 0) = (List.range 8).all fun j => !d.testBit (7 - j) := by
  decide

set_option maxRecDepth 100000 in
theorem shift_and_small : ∀ m < 256, m >>> 3 = m / 8 ∧ m &&& 0x07 = m % 8 ∧
    m &&& 0x03 = m % 4 := by
  decide

theorem xor_testBit_false (x y i : Nat) :
    (x ^^^ y).testBit i = false ↔ x.testBit i = y.testBit i := by
  rw [Nat.testBit_xor]
  cases x.testBit i <;> cases y.testBit i <;> simp

/-- The test of `bitsEqual` on the byte that holds bit `k`: the bytes agree in
their `k + 1` top bits. -/
theorem bitsDiff_iff (x y k : Nat) (hx : x < 256) (hy : y < 256) (hk : k < 8) :
    decide ((x ^^^ y) % 256 &&& (0xff80 >>> k) = 0) = true ↔
      ∀ j ≤ k, x.testBit (7 - j) = y.testBit (7 - j) := by
  have hd : x ^^^ y < 256 := Nat.xor_lt_two_pow (n := 8) hx hy
  rw [Nat.mod_eq_of_lt hd, mask_top_bits k hk _ hd, List.all_eq_true]
  constructor
  · intro h j hj
    have := h j (List.mem_range.mpr (by omega))
    simp only [Bool.not_eq_true'] at this
    exact (xor_testBit_false x y _).mp this
  · intro h j hj
    simp only [Bool.not_eq_true']
    exact (xor_testBit_false x y _).mpr (h j (by have := List.mem_range.mp hj; omega))

/-- Two bytes are equal exactly when their eight bits are. -/
theorem byte_eq_iff (x y : Nat) (hx : x < 256) (hy : y < 256) :
    x = y ↔ ∀ j < 8, x.testBit (7 - j) = y.testBit (7 - j) := by
  constructor
  · intro h j _
    rw [h]
  · intro h
    have hd : x ^^^ y < 256 := Nat.xor_lt_two_pow (n := 8) hx hy
    have h0 : x ^^^ y = 0 := by
      have := byte_zero_bits _ hd
      rw [eq_comm, List.all_eq_true.mpr] at this
      · simpa using this
      · intro j hj
        simp only [Bool.not_eq_true']
        exact (xor_testBit_false x y _).mpr (h j (List.mem_range.mp hj))
    exact Nat.xor_eq_zero.mp h0

theorem bit_eq (id : Id) (i : Nat) :
    id.bit i = (id.bytes.getD (i / 8) 0).testBit (7 - i % 8) := rfl

/-- The result of `bitsEqual` for a bit index inside the ids: the lookup is
inside the arrays, and the result says whether the ids agree in their bits 0
to `m`. -/
theorem bitsEqual_spec (a b : Id) (m : Nat) (hm : m ≤ 255) :
    ∃ r : Bool, Id.bitsEqual a b (m : Int) = some r ∧
      (r = true ↔ ∀ i ≤ m, a.bit i = b.bit i) := by
  obtain ⟨hs, hk, _⟩ := shift_and_small m (by omega)
  have hidx : m / 8 < ID_BYTES := by
    unfold ID_BYTES
    omega
  have hrun : Id.bitsEqual a b (m : Int)
      = (if (match firstMismatch a b with
            | some i => i
            | none => INT_MAX) = m / 8
          then some (decide ((a.bytes.getD (m / 8) 0 ^^^ b.bytes.getD (m / 8) 0) % 256
            &&& (0xff80 >>> (m % 8)) = 0))
          else some (decide ((match firstMismatch a b with
            | some i => i
            | none => INT_MAX) > m / 8))) := by
    unfold Id.bitsEqual
    rw [if_neg (by omega)]
    dsimp only
    rw [Int.toNat_ofNat, hs, hk, id_getElem? a _ hidx, id_getElem? b _ hidx]
  rw [hrun]
  rcases firstMismatch_cases a b with ⟨h1, h2⟩ | ⟨k, hk1, h1, h2, h3⟩
  · rw [h1]
    dsimp only
    have hne : ¬ INT_MAX = m / 8 := by
      unfold INT_MAX
      omega
    rw [if_neg hne]
    refine ⟨_, rfl, ?_⟩
    rw [h2]
    exact ⟨fun _ i _ => rfl, fun _ => decide_eq_true (by
      unfold INT_MAX
      omega)⟩
  · rw [h1]
    dsimp only
    by_cases hki : k = m / 8
    · rw [if_pos hki]
      refine ⟨_, rfl, ?_⟩
      rw [bitsDiff_iff _ _ _ (id_getD_lt a _) (id_getD_lt b _) (Nat.mod_lt _ (by decide))]
      constructor
      · intro h i hi
        rw [bit_eq, bit_eq]
        by_cases hlt : i / 8 < m / 8
        · rw [h3 (i / 8) (by omega)]
        · have hie : i / 8 = m / 8 := by omega
          rw [hie]
          exact h (i % 8) (by omega)
      · intro h j hj
        have := h (8 * (m / 8) + j) (by omega)
        rw [bit_eq, bit_eq] at this
        have h8 : (8 * (m / 8) + j) / 8 = m / 8 := by omega
        have h9 : (8 * (m / 8) + j) % 8 = j := by omega
        rw [h8, h9] at this
        exact this
    · rw [if_neg hki]
      refine ⟨_, rfl, ?_⟩
      simp only [decide_eq_true_eq]
      constructor
      · intro hgt i hi
        rw [bit_eq, bit_eq, h3 (i / 8) (by omega)]
      · intro h
        by_contra hle
        have hlt : k < m / 8 := by omega
        apply h2
        rw [byte_eq_iff _ _ (id_getD_lt a k) (id_getD_lt b k)]
        intro j hj
        have := h (8 * k + j) (by omega)
        rw [bit_eq, bit_eq] at this
        have h8 : (8 * k + j) / 8 = k := by omega
        have h9 : (8 * k + j) % 8 = j := by omega
        rw [h8, h9] at this
        exact this

/-- C37. For all ids `a` and `b` and every `n` with 0 ≤ n ≤ 255,
`Id::bitsEqual(a, b, n)` looks up the byte index `n >> 3`, which is below 32, so
that it returns; it returns true if and only if `a` and `b` agree in their
`n + 1` most significant bits, bit 0 being the top bit of byte 0. For every
`n < 0` it returns true. -/
theorem C37_bits_equal (a b : Id) (n : Int) :
    (0 ≤ n → n ≤ 255 →
      n.toNat >>> 3 < ID_BYTES ∧ ID_BYTES = 32 ∧
      ∃ r : Bool, Id.bitsEqual a b n = some r ∧
        (r = true ↔ ∀ i : Nat, (i : Int) ≤ n → a.bit i = b.bit i)) ∧
    (n < 0 → Id.bitsEqual a b n = some true) := by
  constructor
  · intro h0 h255
    obtain ⟨m, rfl⟩ := Int.eq_ofNat_of_zero_le h0
    have hm : m ≤ 255 := by omega
    obtain ⟨r, h1, h2⟩ := bitsEqual_spec a b m hm
    refine ⟨?_, rfl, r, h1, ?_⟩
    · rw [Int.toNat_ofNat, (shift_and_small m (by omega)).1]
      unfold ID_BYTES
      omega
    · rw [h2]
      constructor
      · intro h i hi
        exact h i (by omega)
      · intro h i hi
        exact h i (by omega)
  · intro hn
    unfold Id.bitsEqual
    rw [if_pos hn]

set_option maxRecDepth 100000 in
/-- The bits of the mask `0xff80 >> k` and of its complement in a byte. -/
theorem mask_bits : ∀ k < 8, ∀ t < 8,
    (0xff80 >>> k).testBit t = decide (7 - k ≤ t) ∧
    (4294967295 ^^^ (0xff80 >>> k)).testBit t = !decide (7 - k ≤ t) := by
  decide

/-- The byte that `bitsCopy` stores at `idx`: its `k + 1` top bits are those of
the source byte, the others those of the destination byte. -/
theorem copied_byte (d s k : Nat) (hk : k < 8) :
    ∀ j < 8, (((d &&& (4294967295 ^^^ (0xff80 >>> k))) % 256 ||| (s &&& (0xff80 >>> k)))
        % 256).testBit (7 - j)
      = if j ≤ k then s.testBit (7 - j) else d.testBit (7 - j) := by
  intro j hj
  obtain ⟨h1, h2⟩ := mask_bits k hk (7 - j) (by omega)
  have h256 : (256 : Nat) = 2 ^ 8 := by decide
  rw [h256, Nat.testBit_mod_two_pow, Nat.testBit_or, Nat.testBit_mod_two_pow, Nat.testBit_and,
    Nat.testBit_and, h1, h2]
  have hlt : decide (7 - j < 8) = true := decide_eq_true (by omega)
  rw [hlt]
  by_cases hjk : j ≤ k
  · have h3 : decide (7 - k ≤ 7 - j) = true := decide_eq_true (by omega)
    rw [if_pos hjk, h3]
    simp
  · have h3 : decide (7 - k ≤ 7 - j) = false := decide_eq_false (by omega)
    rw [if_neg hjk, h3]
    simp

/-- The bytes of `dest` after `bitsCopy` has stored `v` at `idx`. -/
theorem copied_getD (src dest : Id) (idx v j : Nat) (hidx : idx < ID_BYTES) (hv : v < 256) :
    (Id.ofBytes ((src.bytes.take idx ++ dest.bytes.drop idx).set idx v)).bytes.getD j 0
      = if j = idx then v else if j < idx then src.bytes.getD j 0 else dest.bytes.getD j 0 := by
  have hlt : (src.bytes.take idx).length = idx := by
    rw [List.length_take, src.size]
    omega
  have hlen : (src.bytes.take idx ++ dest.bytes.drop idx).length = ID_BYTES := by
    rw [List.length_append, hlt, List.length_drop, dest.size]
    omega
  rw [ofBytes_bytes]
  · rw [List.getD_eq_getElem?_getD, List.getElem?_set]
    by_cases hj : j = idx
    · rw [if_pos hj.symm, if_pos hj, if_pos (by rw [hlen]; exact hidx)]
      rfl
    · rw [if_neg (fun h => hj h.symm), if_neg hj]
      by_cases hjl : j < idx
      · rw [if_pos hjl, List.getElem?_append_left (by rw [hlt]; exact hjl),
          List.getElem?_take_of_lt hjl, List.getD_eq_getElem?_getD]
      · rw [if_neg hjl, List.getElem?_append_right (by rw [hlt]; omega), hlt,
          List.getElem?_drop, List.getD_eq_getElem?_getD]
        congr 2
        omega
  · rw [List.length_set, hlen]
  · intro b hb
    rcases List.mem_or_eq_of_mem_set hb with h | h
    · rcases List.mem_append.mp h with h1 | h1
      · exact src.byte b (List.mem_of_mem_take h1)
      · exact dest.byte b (List.mem_of_mem_drop h1)
    · rw [h]
      exact hv

/-- The result of `bitsCopy` for a bit index inside the ids. -/
theorem bitsCopy_spec (src dest : Id) (m : Nat) (hm : m ≤ 255) :
    ∃ d1 : Id, Id.bitsCopy src dest (m : Int) = some d1 ∧
      (∀ i ≤ m, d1.bit i = src.bit i) ∧
      (∀ i, m < i → i < 256 → d1.bit i = dest.bit i) := by
  obtain ⟨hs, hk, _⟩ := shift_and_small m (by omega)
  have hidx : m / 8 < ID_BYTES := by
    unfold ID_BYTES
    omega
  have hB : (if m / 8 > 0 then src.bytes.take (m / 8) ++ dest.bytes.drop (m / 8)
      else dest.bytes) = src.bytes.take (m / 8) ++ dest.bytes.drop (m / 8) := by
    by_cases h : m / 8 > 0
    · rw [if_pos h]
    · rw [if_neg h]
      have h0 : m / 8 = 0 := by omega
      rw [h0]
      rfl
  have hlt : (src.bytes.take (m / 8)).length = m / 8 := by
    rw [List.length_take, src.size]
    omega
  have hread : (src.bytes.take (m / 8) ++ dest.bytes.drop (m / 8))[m / 8]?
      = some (dest.bytes.getD (m / 8) 0) := by
    rw [List.getElem?_append_right (by rw [hlt]), hlt, List.getElem?_drop, Nat.sub_self,
      Nat.add_zero, id_getElem? dest _ hidx]
  have hrun : Id.bitsCopy src dest (m : Int)
      = some (Id.ofBytes ((src.bytes.take (m / 8) ++ dest.bytes.drop (m / 8)).set (m / 8)
          (((dest.bytes.getD (m / 8) 0 &&& (4294967295 ^^^ (0xff80 >>> (m % 8)))) % 256
            ||| (src.bytes.getD (m / 8) 0 &&& (0xff80 >>> (m % 8)))) % 256))) := by
    unfold Id.bitsCopy
    rw [if_neg (by omega)]
    dsimp only
    rw [Int.toNat_ofNat, hs, hk, hB, hread, id_getElem? src _ hidx]
  have hbyte := copied_byte (dest.bytes.getD (m / 8) 0) (src.bytes.getD (m / 8) 0) (m % 8)
    (Nat.mod_lt _ (by decide))
  have hget := fun j => copied_getD src dest (m / 8)
    (((dest.bytes.getD (m / 8) 0 &&& (4294967295 ^^^ (0xff80 >>> (m % 8)))) % 256
      ||| (src.bytes.getD (m / 8) 0 &&& (0xff80 >>> (m % 8)))) % 256) j hidx
    (Nat.mod_lt _ (by decide))
  refine ⟨_, hrun, ?_, ?_⟩
  · intro i hi
    rw [bit_eq, bit_eq, hget]
    by_cases h1 : i / 8 = m / 8
    · rw [if_pos h1, hbyte (i % 8) (Nat.mod_lt _ (by decide)), if_pos (by omega), h1]
    · rw [if_neg h1, if_pos (by omega)]
  · intro i hi h256
    rw [bit_eq, bit_eq, hget]
    by_cases h1 : i / 8 = m / 8
    · rw [if_pos h1, hbyte (i % 8) (Nat.mod_lt _ (by decide)), if_neg (by omega), h1]
    · rw [if_neg h1, if_neg (by omega)]

/-- C38. For all ids `src` and `dest` and every `depth` with 0 ≤ depth ≤ 255,
`Id::bitsCopy(src, dest, depth)` returns, the `depth + 1` most significant bits
of `dest` are then those of `src`, so that `bitsEqual(src, dest, depth)` holds,
and every other bit of `dest` is what it was. For `depth < 0` the id `dest` is
unchanged. -/
theorem C38_bits_copy (src dest : Id) (depth : Int) :
    (0 ≤ depth → depth ≤ 255 →
      ∃ d1 : Id, Id.bitsCopy src dest depth = some d1 ∧
        (∀ i : Nat, (i : Int) ≤ depth → d1.bit i = src.bit i) ∧
        (∀ i : Nat, depth < (i : Int) → i < 256 → d1.bit i = dest.bit i) ∧
        Id.bitsEqual src d1 depth = some true) ∧
    (depth < 0 → Id.bitsCopy src dest depth = some dest) := by
  constructor
  · intro h0 h255
    obtain ⟨m, rfl⟩ := Int.eq_ofNat_of_zero_le h0
    have hm : m ≤ 255 := by omega
    obtain ⟨d1, h1, h2, h3⟩ := bitsCopy_spec src dest m hm
    refine ⟨d1, h1, fun i hi => h2 i (by omega), fun i hi => h3 i (by omega), ?_⟩
    obtain ⟨r, h4, h5⟩ := bitsEqual_spec src d1 m hm
    have hr : r = true := h5.mpr fun i hi => (h2 i hi).symm
    rw [h4, hr]
  · intro hn
    unfold Id.bitsCopy
    rw [if_pos hn]

/-! ## Leading zeros -/

set_option maxRecDepth 100000 in
/-- The block of `getLeadingZeros` for a non-zero byte: the value is the
number of zero bits above the top set bit of the byte. -/
theorem msbOfByte_spec : ∀ b < 256, b ≠ 0 →
    ∃ r : Nat, r < 8 ∧ (msbOfByte b = (r : Int) ∧ b.testBit (7 - r) = true ∧
      ∀ t < r, b.testBit (7 - t) = false) := by
  decide

/-- The result of `getLeadingZeros`: below it every bit is 0, and the bit at
it, if there is one, is 1. -/
theorem getLeadingZeros_spec (id : Id) :
    ∃ r : Nat, id.getLeadingZeros = (r : Int) ∧ r ≤ 256 ∧
      (∀ j < r, id.bit j = false) ∧ (r < 256 → id.bit r = true) := by
  unfold Id.getLeadingZeros
  dsimp only
  rcases find_range (fun i => id.bytes.getD i 0 != 0) ID_BYTES with ⟨h1, h2⟩ | ⟨k, hk, h1, h2, h3⟩
  · rw [h1]
    refine ⟨256, ?_, Nat.le_refl _, ?_, fun h => absurd h (Nat.lt_irrefl _)⟩
    · rfl
    · intro j hj
      have hz : id.bytes.getD (j / 8) 0 = 0 := by
        have := h2 (j / 8) (by unfold ID_BYTES; omega)
        simpa using this
      rw [bit_eq, hz, Nat.zero_testBit]
  · rw [h1]
    have hb : id.bytes.getD k 0 ≠ 0 := by simpa using h2
    obtain ⟨r, hr, hv, htop, hzero⟩ := msbOfByte_spec _ (id_getD_lt id k) hb
    have hk32 : k < 32 := hk
    refine ⟨8 * k + r, ?_, by omega, ?_, ?_⟩
    · show (if k < ID_BYTES then (0 : Int) + ((k <<< 3 : Nat) : Int)
          + msbOfByte (id.bytes.getD k 0) else (0 : Int) + ((k <<< 3 : Nat) : Int)) = _
      rw [if_pos hk, hv, Nat.shiftLeft_eq]
      push_cast
      omega
    · intro j hj
      rw [bit_eq]
      by_cases hlt : j / 8 < k
      · have hz : id.bytes.getD (j / 8) 0 = 0 := by
          have := h3 (j / 8) hlt
          simpa using this
        rw [hz, Nat.zero_testBit]
      · have hje : j / 8 = k := by omega
        rw [hje]
        exact hzero (j % 8) (by omega)
    · intro _
      rw [bit_eq]
      have h8 : (8 * k + r) / 8 = k := by omega
      have h9 : (8 * k + r) % 8 = r := by omega
      rw [h8, h9]
      exact htop

/-- C39. For every id, `Id::getLeadingZeros` returns the number of consecutive
zero bits from the most significant bit of byte 0 on: every bit before the
position returned is 0, and the bit at that position, if the position is below
256, is 1. It is 256 for the id whose bits are all 0, it is 0 when the top bit
is set, and it is `8 * i + k` when byte `i` is the first non-zero byte and has
`k` leading zero bits. -/
theorem C39_leading_zeros (id : Id) :
    (∃ r : Nat, id.getLeadingZeros = (r : Int) ∧ r ≤ 256 ∧
      (∀ j < r, id.bit j = false) ∧ (r < 256 → id.bit r = true)) ∧
    ((∀ i < 32, id.bytes.getD i 0 = 0) → id.getLeadingZeros = 256) ∧
    (id.bit 0 = true → id.getLeadingZeros = 0) ∧
    (∀ i k : Nat, i < 32 → k < 8 → (∀ j < i, id.bytes.getD j 0 = 0) →
      (∀ t < k, (id.bytes.getD i 0).testBit (7 - t) = false) →
      (id.bytes.getD i 0).testBit (7 - k) = true →
      id.getLeadingZeros = ((8 * i + k : Nat) : Int)) := by
  obtain ⟨r, hr, h256, hzero, hone⟩ := getLeadingZeros_spec id
  refine ⟨⟨r, hr, h256, hzero, hone⟩, ?_, ?_, ?_⟩
  · intro hall
    rw [hr]
    by_contra hne
    have hlt : r < 256 := by
      have : r ≠ 256 := fun h => hne (by rw [h]; rfl)
      omega
    have h1 := hone hlt
    rw [bit_eq, hall (r / 8) (by omega), Nat.zero_testBit] at h1
    exact absurd h1 (by decide)
  · intro h0
    rw [hr]
    by_contra hne
    have hpos : 0 < r := by
      have : r ≠ 0 := fun h => hne (by rw [h]; rfl)
      omega
    have h1 := hzero 0 hpos
    rw [h0] at h1
    exact absurd h1 (by decide)
  · intro i k hi hk hpre hz htop
    rw [hr]
    have hbit : id.bit (8 * i + k) = true := by
      rw [bit_eq]
      have h8 : (8 * i + k) / 8 = i := by omega
      have h9 : (8 * i + k) % 8 = k := by omega
      rw [h8, h9]
      exact htop
    have hbefore : ∀ j < 8 * i + k, id.bit j = false := by
      intro j hj
      rw [bit_eq]
      by_cases hlt : j / 8 < i
      · rw [hpre (j / 8) hlt, Nat.zero_testBit]
      · have hje : j / 8 = i := by omega
        rw [hje]
        exact hz (j % 8) (by omega)
    have heq : r = 8 * i + k := by
      rcases Nat.lt_trichotomy r (8 * i + k) with h | h | h
      · have h1 := hone (by omega)
        rw [hbefore r h] at h1
        exact absurd h1 (by decide)
      · exact h
      · have h1 := hzero (8 * i + k) h
        rw [hbit] at h1
        exact absurd h1 (by decide)
    rw [heq]

/-! ## The binary string of an id -/

set_option maxRecDepth 100000 in
/-- The test `(b & (0x80 >> k)) != 0` on a byte is the test of its bit `7 - k`. -/
theorem mask_one_bit : ∀ k < 8, ∀ b < 256,
    decide (b &&& (0x80 >>> k) ≠ 0) = b.testBit (7 - k) := by
  decide

/-- One more iteration of the loop of `toBinaryString`. -/
theorem toBinaryStringLoop_succ (id : Id) (n : Nat) :
    toBinaryStringLoop id (n + 1)
      = (toBinaryStringLoop id n).bind fun str => toBinaryStringStep id str n := by
  unfold toBinaryStringLoop
  rw [List.range_succ, List.foldlM_append]
  cases (List.range n).foldlM (toBinaryStringStep id) "" with
  | none => rfl
  | some str =>
    show (toBinaryStringStep id str n).bind some = toBinaryStringStep id str n
    cases toBinaryStringStep id str n <;> rfl

theorem binaryString_succ (bit : Nat → Bool) (n : Nat) :
    binaryString bit (n + 1)
      = (if n % 4 = 3 then ((binaryString bit n).push (if bit n then '1' else '0')).push ' '
        else (binaryString bit n).push (if bit n then '1' else '0')) := by
  unfold binaryString
  rw [List.range_succ, List.foldl_append]
  rfl

/-- The iteration `i = 96` of the loop reads `bytes[32]`, outside the array:
no run of 97 or more iterations has a defined result. -/
theorem toBinaryStringLoop_none (id : Id) :
    ∀ count, 97 ≤ count → toBinaryStringLoop id count = none := by
  intro count
  induction count with
  | zero =>
    intro h
    exact absurd h (by decide)
  | succ n ih =>
    intro h
    rw [toBinaryStringLoop_succ]
    by_cases h96 : n = 96
    · cases toBinaryStringLoop id n with
      | none => rfl
      | some str =>
        show toBinaryStringStep id str n = none
        unfold toBinaryStringStep
        rw [h96, id_getElem?_none id _ (by decide)]
    · rw [ih (by omega)]
      rfl

/-- The first 96 iterations of the loop read inside the array: output bit `i`
is bit `i mod 8` of byte `i / 3`. -/
theorem toBinaryStringLoop_some (id : Id) :
    ∀ count, count ≤ 96 → toBinaryStringLoop id count
      = some (binaryString (fun i => (id.bytes.getD (i / 3) 0).testBit (7 - i % 8)) count) := by
  intro count
  induction count with
  | zero =>
    intro _
    rfl
  | succ n ih =>
    intro h
    obtain ⟨_, h7, h3⟩ := shift_and_small n (by omega)
    rw [toBinaryStringLoop_succ, ih (by omega), binaryString_succ]
    show toBinaryStringStep id _ n = _
    unfold toBinaryStringStep
    rw [id_getElem? id (n / 3) (by unfold ID_BYTES; omega), h7, h3]
    have hbit : (id.bytes.getD (n / 3) 0 &&& (0x80 >>> (n % 8)) ≠ 0)
        ↔ (id.bytes.getD (n / 3) 0).testBit (7 - n % 8) = true := by
      rw [← mask_one_bit (n % 8) (Nat.mod_lt _ (by decide)) _ (id_getD_lt id _),
        decide_eq_true_eq]
    dsimp only
    by_cases hb : (id.bytes.getD (n / 3) 0).testBit (7 - n % 8) = true
    · rw [if_pos (hbit.mpr hb), if_pos hb]
    · rw [if_neg (fun h => hb (hbit.mp h)), if_neg hb]

/-- C40 (fails on the code). The claim is that output bit `i` of
`Id::toBinaryString` is bit `i mod 8` of byte `i / 8` and that every byte index
read is below 32. The loop reads `bytes[i / 3]`: for `i < 96` output bit `i` is
bit `i mod 8` of byte `i / 3`, and at `i = 96` the index is 32, outside the
array, so that the function has no defined result for any id. For the id
`FF00...00` the first eight output bits are `1110 0000`, not `1111 1111`. -/
theorem C40_binary_string_reads_byte_i_div_3 (id : Id) :
    id.toBinaryString = none ∧
    (∀ count, 97 ≤ count → toBinaryStringLoop id count = none) ∧
    (96 / 3 = ID_BYTES ∧ id.bytes[96 / 3]? = none) ∧
    (∀ count, count ≤ 96 → toBinaryStringLoop id count
      = some (binaryString (fun i => (id.bytes.getD (i / 3) 0).testBit (7 - i % 8)) count)) ∧
    toBinaryStringLoop topByteId 8 = some "1110 0000 " ∧
    binaryString topByteId.bit 8 = "1111 1111 " := by
  refine ⟨toBinaryStringLoop_none id _ (by decide), toBinaryStringLoop_none id,
    ⟨rfl, id_getElem?_none id _ (by decide)⟩, toBinaryStringLoop_some id, ?_, ?_⟩
  · rfl
  · rfl


/-- An instance of C36: from the id `00 01 02 ...` the id `A5 A5 A5 ...` is
farther than the id `A5 A5 5A ...`: the distances differ first in byte 2, `A7`
against `58`. -/
theorem C36_three_way_compare_witness :
    Id.threeWayCompare countingId patternId mixedId = 1 ∧
    beValue (Id.distance countingId patternId).bytes
      > beValue (Id.distance countingId mixedId).bytes ∧
    Id.threeWayCompare countingId mixedId patternId = -1 :=
  have h := C36_three_way_compare countingId patternId mixedId
  ⟨by decide, h.2.2.2.2.2.1.mp (by decide), h.2.2.2.2.2.2.2.trans (by decide)⟩

/-- An instance of C37: the ids `A5 A5 A5 ...` and `A5 A5 5A ...` agree in their
16 most significant bits, and not in their 17. -/
theorem C37_bits_equal_witness :
    Id.bitsEqual patternId mixedId 15 = some true ∧
    (∀ i : Nat, (i : Int) ≤ 15 → patternId.bit i = mixedId.bit i) ∧
    Id.bitsEqual patternId mixedId 16 = some false := by
  obtain ⟨_, _, r, h1, h2⟩ := (C37_bits_equal patternId mixedId 15).1 (by decide) (by decide)
  have hr : r = true := Option.some.inj (h1.symm.trans (by decide))
  exact ⟨by decide, h2.mp hr, by decide⟩

/-- An instance of C38: the 19 most significant bits of `A5 A5 A5 ...` copied
into `A5 A5 5A ...` change byte 2 from `5A` to `BA` and nothing else. -/
theorem C38_bits_copy_witness :
    (Id.bitsCopy patternId mixedId 18).map (fun d => d.bytes)
      = some ([0xA5, 0xA5, 0xBA] ++ List.replicate 29 0x5A) ∧
    ∃ d1 : Id, Id.bitsCopy patternId mixedId 18 = some d1 ∧
      (∀ i : Nat, (i : Int) ≤ 18 → d1.bit i = patternId.bit i) ∧
      (∀ i : Nat, (18 : Int) < (i : Int) → i < 256 → d1.bit i = mixedId.bit i) ∧
      Id.bitsEqual patternId d1 18 = some true :=
  ⟨by decide, (C38_bits_copy patternId mixedId 18).1 (by decide) (by decide)⟩

/-- An instance of C39: the id whose first non-zero byte is byte 2, `05`, has
8 * 2 + 5 = 21 leading zero bits. -/
theorem C39_leading_zeros_witness :
    Id.getLeadingZeros smallId = 21 ∧ Id.getLeadingZeros topByteId = 0 :=
  ⟨(C39_leading_zeros smallId).2.2.2 2 5 (by decide) (by decide) (by decide) (by decide)
      (by decide),
    (C39_leading_zeros topByteId).2.2.1 (by decide)⟩

/-- An instance of C40: the binary string of the id `FF00...00` has no
defined result, and neither has any run of 100 iterations of its loop. -/
theorem C40_binary_string_reads_byte_i_div_3_witness :
    Id.toBinaryString topByteId = none ∧ toBinaryStringLoop topByteId 100 = none :=
  ⟨(C40_binary_string_reads_byte_i_div_3 topByteId).1,
    (C40_binary_string_reads_byte_i_div_3 topByteId).2.1 100 (by decide)⟩

end Carrier
